import Mathlib

/-!
# terra: geodetic <-> ECEF conversion kernels

Shallow embedding of `terra/impl/SphereImpl.hpp` and `terra/impl/EllipsoidImpl.hpp`.

* The kernels are C++ templates over the floating-point type `T`.  They are embedded as
  definitions generic over `T`; the operations the C++ takes from `T` and from `<cmath>`
  (`+ - * /`, the literal `1.0`, `std::sin`, `std::cos`, `std::sqrt`, `std::atan2`) are the
  instance arguments.  Every kernel definition is computable.
* "Exact real arithmetic" is the instance `T := ℝ`: `+ - * /` are the field operations of `ℝ`
  (division is total, `x / 0 = 0`), `sqrt` is `Real.sqrt` (`0` on negative arguments) and
  `atan2 y x` is the principal argument of `x + y i`, in `(-π, π]`, with `atan2 0 0 = 0`.
  This instance has no rounding, no NaN and no infinity: a theorem stated at `ℝ` is about the
  formulas of the kernels in exact arithmetic, and its statement says so.
* What the kernels compute at `T = double` is read at the instance `T := Binary64`: IEEE 754
  binary64 with every operation rounded to the nearest value, ties to even, and NaN and the
  infinities collected in one value `nonfinite`.  The theorems at `Binary64` evaluate the
  kernels at concrete inputs; they show where the value computed in floating point leaves
  the value of exact arithmetic (the square `e * e` of a rounded square root, the quotient
  `p / cos lat` near the polar axis, the square root of a negative number).
* A coordinate (`T[3]` in the tests, anything with `operator[]` in the library) is a function
  `Fin 3 → T`; the assignment `(*coord)[k] = v` is `Function.update coord k v`.
* A call that writes through a pointer takes the pointee and returns its final value.  An
  out-of-place call returns the pair (destination after the call, source after the call).
* Batch buffers are arrays.  An access at an index outside the array (undefined behaviour in
  C++) makes the embedded call return `none`.
-/

namespace terra

/-- The `<cmath>` functions the kernels call at the floating-point type `T`. -/
class Scalar (T : Type) where
  /-- Embeds `std::sin`. -/
  sin : T → T
  /-- Embeds `std::cos`. -/
  cos : T → T
  /-- Embeds `std::sqrt`. -/
  sqrt : T → T
  /-- Embeds `std::atan2`, argument order `(y, x)`. -/
  atan2 : T → T → T

/-- Real-number reading of `std::atan2(y, x)`: the principal argument of `x + y i`. -/
noncomputable def atan2 (y x : ℝ) : ℝ := Complex.arg ⟨x, y⟩

/-- Exact real arithmetic: the `<cmath>` functions as functions on `ℝ`, without rounding.
`Real.sqrt` is `0` on negative arguments, where `std::sqrt` returns NaN; the floating-point
behaviour is `instScalarBinary64`. -/
noncomputable instance instScalarReal : Scalar ℝ where
  sin := Real.sin
  cos := Real.cos
  sqrt := Real.sqrt
  atan2 := atan2

/-- A 3-tuple accessed through `operator[]`. -/
abbrev Coord (T : Type) := Fin 3 → T

/-- Body approximated as a perfect sphere (`terra::Sphere<T>`). -/
structure Sphere (T : Type) where
  /-- The radius of the sphere. -/
  radius : T

/-- Modelled from the spec: the declaration of `terra::Ellipsoid<T>` (`terra/Ellipsoid.hpp` is
not among the sources).  Two attributes, the semi-major and the semi-minor axis, stored
without validation, under the field names `major` and `minor` that the kernels read. -/
structure Ellipsoid (T : Type) where
  /-- The semi-major axis. -/
  major : T
  /-- The semi-minor axis. -/
  minor : T

section Kernels

variable {T : Type} [Add T] [Sub T] [Mul T] [Div T] [OfScientific T] [Scalar T]

open Scalar

/-- In-place `geodToECEF(Coord*, Sphere<T>)`, SphereImpl.hpp lines 22-42. -/
def Sphere.geodToECEFInPlace (coord : Coord T) (sphere : Sphere T) : Coord T :=
  let lon := coord 0
  let lat := coord 1
  let alt := coord 2
  let n := sphere.radius + alt
  let sin_lon := sin lon
  let cos_lon := cos lon
  let sin_lat := sin lat
  let cos_lat := cos lat
  let coord := Function.update coord 0 (n*cos_lat*cos_lon)
  let coord := Function.update coord 1 (n*cos_lat*sin_lon)
  let coord := Function.update coord 2 (n*sin_lat)
  coord

/-- Out-of-place `geodToECEF(Coord*, Coord const&, Sphere<T>)`, SphereImpl.hpp lines 44-64. -/
def Sphere.geodToECEF (toECEF : Coord T) (fromGeodetic : Coord T) (sphere : Sphere T) :
    Coord T × Coord T :=
  let lon := fromGeodetic 0
  let lat := fromGeodetic 1
  let alt := sphere.radius + fromGeodetic 2
  let sin_lon := sin lon
  let cos_lon := cos lon
  let sin_lat := sin lat
  let cos_lat := cos lat
  let toECEF := Function.update toECEF 0 (alt*cos_lat*cos_lon)
  let toECEF := Function.update toECEF 1 (alt*cos_lat*sin_lon)
  let toECEF := Function.update toECEF 2 (alt*sin_lat)
  (toECEF, fromGeodetic)

/-- In-place `ecefToGeod(Coord*, Sphere<T>)`, SphereImpl.hpp lines 66-87. -/
def Sphere.ecefToGeodInPlace (coord : Coord T) (sphere : Sphere T) : Coord T :=
  let x := coord 0
  let y := coord 1
  let z := coord 2
  let r := sphere.radius
  let p := sqrt (x*x + y*y)
  let lon := Scalar.atan2 y x
  let lat := Scalar.atan2 z p
  let coslat := cos lat
  let alt := (p/coslat) - r
  let coord := Function.update coord 0 lon
  let coord := Function.update coord 1 lat
  let coord := Function.update coord 2 alt
  coord

/-- Out-of-place `ecefToGeod(Coord*, Coord const&, Sphere<T>)`, SphereImpl.hpp lines 89-111. -/
def Sphere.ecefToGeod (toGeodetic : Coord T) (fromECEF : Coord T) (sphere : Sphere T) :
    Coord T × Coord T :=
  let r := sphere.radius
  let x := fromECEF 0
  let y := fromECEF 1
  let z := fromECEF 2
  let p := sqrt (x*x + y*y)
  let lon := Scalar.atan2 y x
  let lat := Scalar.atan2 z p
  let coslat := cos lat
  let alt := (p/coslat) - r
  let toGeodetic := Function.update toGeodetic 0 lon
  let toGeodetic := Function.update toGeodetic 1 lat
  let toGeodetic := Function.update toGeodetic 2 alt
  (toGeodetic, fromECEF)

/-- In-place `geodToECEF(Coord*, Ellipsoid<T>)`, EllipsoidImpl.hpp lines 22-48. -/
def Ellipsoid.geodToECEFInPlace (coord : Coord T) (ellipsoid : Ellipsoid T) : Coord T :=
  let a := ellipsoid.major
  let a2 := a*a
  let b := ellipsoid.minor
  let b2 := b*b
  let lon := coord 0
  let lat := coord 1
  let alt := coord 2
  let sin_lon := sin lon
  let cos_lon := cos lon
  let sin_lat := sin lat
  let cos_lat := cos lat
  let Nphi := a2/(sqrt (a2*cos_lat*cos_lat + b2*sin_lat*sin_lat))
  let Nphi_alt_cos_lat := (Nphi + alt)*cos_lat
  let coord := Function.update coord 0 (Nphi_alt_cos_lat*cos_lon)
  let coord := Function.update coord 1 (Nphi_alt_cos_lat*sin_lon)
  let coord := Function.update coord 2 (((b2/a2)*Nphi + alt)*sin_lat)
  coord

/-- Out-of-place `geodToECEF(Coord*, Coord const&, Ellipsoid<T>)`, EllipsoidImpl.hpp
lines 50-77. -/
def Ellipsoid.geodToECEF (toECEF : Coord T) (fromGeodetic : Coord T)
    (ellipsoid : Ellipsoid T) : Coord T × Coord T :=
  let a := ellipsoid.major
  let a2 := a*a
  let b := ellipsoid.minor
  let b2 := b*b
  let lon := fromGeodetic 0
  let lat := fromGeodetic 1
  let alt := fromGeodetic 2
  let sin_lon := sin lon
  let cos_lon := cos lon
  let sin_lat := sin lat
  let cos_lat := cos lat
  let Nphi := a2/(sqrt (a2*cos_lat*cos_lat + b2*sin_lat*sin_lat))
  let Nphi_alt_cos_lat := (Nphi + alt)*cos_lat
  let toECEF := Function.update toECEF 0 (Nphi_alt_cos_lat*cos_lon)
  let toECEF := Function.update toECEF 1 (Nphi_alt_cos_lat*sin_lon)
  let toECEF := Function.update toECEF 2 (((b2/a2)*Nphi + alt)*sin_lat)
  (toECEF, fromGeodetic)

/-- In-place `ecefToGeod(Coord*, Ellipsoid<T>)`, EllipsoidImpl.hpp lines 79-116. -/
def Ellipsoid.ecefToGeodInPlace (coord : Coord T) (ellipsoid : Ellipsoid T) : Coord T :=
  let a := ellipsoid.major
  let a2 := a*a
  let b := ellipsoid.minor
  let b2 := b*b
  let e := sqrt ((a2 - b2)/a2)
  let e2 := e*e
  let ep := sqrt ((a2 - b2)/b2)
  let ep2 := ep*ep
  let x := coord 0
  let y := coord 1
  let z := coord 2
  let p := sqrt (x*x + y*y)
  let lon := Scalar.atan2 y x
  let theta := Scalar.atan2 (z*a) (p*b)
  let sin_theta := sin theta
  let cos_theta := cos theta
  let sin3_theta := sin_theta*sin_theta*sin_theta
  let cos3_theta := cos_theta*cos_theta*cos_theta
  let lat := Scalar.atan2 (z + ep2*b*sin3_theta) (p - e2*a*cos3_theta)
  let cos_lat := cos lat
  let sin_lat := sin lat
  let N := a/(sqrt (1.0 - e2*sin_lat*sin_lat))
  let alt := (p/cos_lat) - N
  let coord := Function.update coord 0 lon
  let coord := Function.update coord 1 lat
  let coord := Function.update coord 2 alt
  coord

/-- Out-of-place `ecefToGeod(Coord*, Coord const&, Ellipsoid<T>)`, EllipsoidImpl.hpp
lines 118-156. -/
def Ellipsoid.ecefToGeod (toGeodetic : Coord T) (fromECEF : Coord T)
    (ellipsoid : Ellipsoid T) : Coord T × Coord T :=
  let a := ellipsoid.major
  let a2 := a*a
  let b := ellipsoid.minor
  let b2 := b*b
  let e := sqrt ((a2 - b2)/a2)
  let e2 := e*e
  let ep := sqrt ((a2 - b2)/b2)
  let ep2 := ep*ep
  let x := fromECEF 0
  let y := fromECEF 1
  let z := fromECEF 2
  let p := sqrt (x*x + y*y)
  let lon := Scalar.atan2 y x
  let theta := Scalar.atan2 (z*a) (p*b)
  let sin_theta := sin theta
  let cos_theta := cos theta
  let sin3_theta := sin_theta*sin_theta*sin_theta
  let cos3_theta := cos_theta*cos_theta*cos_theta
  let lat := Scalar.atan2 (z + ep2*b*sin3_theta) (p - e2*a*cos3_theta)
  let cos_lat := cos lat
  let sin_lat := sin lat
  let N := a/(sqrt (1.0 - e2*sin_lat*sin_lat))
  let alt := (p/cos_lat) - N
  let toGeodetic := Function.update toGeodetic 0 lon
  let toGeodetic := Function.update toGeodetic 1 lat
  let toGeodetic := Function.update toGeodetic 2 alt
  (toGeodetic, fromECEF)

/-- Lines 88-95 of the ellipsoid `ecefToGeod` (the same statements open the other three
ellipsoid inverse functions): the squared eccentricities `(e2, ep2)` that the kernel computes
from the axes before it reads the coordinate. -/
def Ellipsoid.eccentricities (ellipsoid : Ellipsoid T) : T × T :=
  let a := ellipsoid.major
  let a2 := a*a
  let b := ellipsoid.minor
  let b2 := b*b
  let e := sqrt ((a2 - b2)/a2)
  let e2 := e*e
  let ep := sqrt ((a2 - b2)/b2)
  let ep2 := ep*ep
  (e2, ep2)

/-! ### Batch drivers -/

/-- A coordinate series in SoA form: a struct with the arrays `x`, `y`, `z`. -/
structure CoordSoA (T : Type) where
  /-- First components (longitude or x). -/
  x : Array T
  /-- Second components (latitude or y). -/
  y : Array T
  /-- Third components (altitude or z). -/
  z : Array T

/-- The assignment `a[i] = v` into a caller-sized buffer; `none` when `i` is outside it. -/
def store {α : Type} (a : Array α) (i : Nat) (v : α) : Option (Array α) :=
  if h : i < a.size then some (a.set ⟨i, h⟩ v) else none

/-- The assignment `c->x[i] = v`. -/
def CoordSoA.storeX (c : CoordSoA T) (i : Nat) (v : T) : Option (CoordSoA T) :=
  (store c.x i v).map fun x => ⟨x, c.y, c.z⟩

/-- The assignment `c->y[i] = v`. -/
def CoordSoA.storeY (c : CoordSoA T) (i : Nat) (v : T) : Option (CoordSoA T) :=
  (store c.y i v).map fun y => ⟨c.x, y, c.z⟩

/-- The assignment `c->z[i] = v`. -/
def CoordSoA.storeZ (c : CoordSoA T) (i : Nat) (v : T) : Option (CoordSoA T) :=
  (store c.z i v).map fun z => ⟨c.x, c.y, z⟩

/-- The assignment `(*c)[i][k] = v` into an array of 3-tuples. -/
def storeAt (c : Array (Coord T)) (i : Nat) (k : Fin 3) (v : T) : Option (Array (Coord T)) :=
  if h : i < c.size then some (c.set ⟨i, h⟩ (Function.update (c.get ⟨i, h⟩) k v)) else none

/-- The statement `for (auto i = 0u; i < numCoords; ++i) body`, entered with loop counter `i`
and state `s`.  The counter is `unsigned`; `i < numCoords` keeps `++i` from wrapping. -/
def forLoop {S : Type} (numCoords : Nat) (body : Nat → S → Option S) (i : Nat) (s : S) :
    Option S :=
  if i < numCoords then
    match body i s with
    | some s' => forLoop numCoords body (i + 1) s'
    | none => none
  else some s
termination_by numCoords - i

/-- Sphere `geodToECEFSoA`, SphereImpl.hpp lines 113-138. -/
def Sphere.geodToECEFSoA (toECEF : CoordSoA T) (fromGeodetic : CoordSoA T) (numCoords : Nat)
    (sphere : Sphere T) : Option (CoordSoA T × CoordSoA T) :=
  let r := sphere.radius
  (forLoop numCoords (fun i toECEF => do
    let lon ← fromGeodetic.x[i]?
    let lat ← fromGeodetic.y[i]?
    let alt := r + (← fromGeodetic.z[i]?)
    let sin_lon := sin lon
    let cos_lon := cos lon
    let sin_lat := sin lat
    let cos_lat := cos lat
    let toECEF ← toECEF.storeX i (alt*cos_lat*cos_lon)
    let toECEF ← toECEF.storeY i (alt*cos_lat*sin_lon)
    let toECEF ← toECEF.storeZ i (alt*sin_lat)
    pure toECEF) 0 toECEF).map fun toECEF => (toECEF, fromGeodetic)

/-- Sphere `geodToECEFAoS`, SphereImpl.hpp lines 140-165. -/
def Sphere.geodToECEFAoS (toECEF : Array (Coord T)) (fromGeodetic : Array (Coord T))
    (numCoords : Nat) (sphere : Sphere T) : Option (Array (Coord T) × Array (Coord T)) :=
  let r := sphere.radius
  (forLoop numCoords (fun i toECEF => do
    let lon := (← fromGeodetic[i]?) 0
    let lat := (← fromGeodetic[i]?) 1
    let alt := r + (← fromGeodetic[i]?) 2
    let sin_lon := sin lon
    let cos_lon := cos lon
    let sin_lat := sin lat
    let cos_lat := cos lat
    let toECEF ← storeAt toECEF i 0 (alt*cos_lat*cos_lon)
    let toECEF ← storeAt toECEF i 1 (alt*cos_lat*sin_lon)
    let toECEF ← storeAt toECEF i 2 (alt*sin_lat)
    pure toECEF) 0 toECEF).map fun toECEF => (toECEF, fromGeodetic)

/-- Sphere `ecefToGeodSoA`, SphereImpl.hpp lines 167-193. -/
def Sphere.ecefToGeodSoA (toGeodetic : CoordSoA T) (fromECEF : CoordSoA T) (numCoords : Nat)
    (sphere : Sphere T) : Option (CoordSoA T × CoordSoA T) :=
  let r := sphere.radius
  (forLoop numCoords (fun i toGeodetic => do
    let x ← fromECEF.x[i]?
    let y ← fromECEF.y[i]?
    let z ← fromECEF.z[i]?
    let p := sqrt (x*x + y*y)
    let lon := Scalar.atan2 y x
    let lat := Scalar.atan2 z p
    let coslat := cos lat
    let alt := (p/coslat) - r
    let toGeodetic ← toGeodetic.storeX i lon
    let toGeodetic ← toGeodetic.storeY i lat
    let toGeodetic ← toGeodetic.storeZ i alt
    pure toGeodetic) 0 toGeodetic).map fun toGeodetic => (toGeodetic, fromECEF)

/-- Sphere `ecefToGeodAoS`, SphereImpl.hpp lines 195-221. -/
def Sphere.ecefToGeodAoS (toGeodetic : Array (Coord T)) (fromECEF : Array (Coord T))
    (numCoords : Nat) (sphere : Sphere T) : Option (Array (Coord T) × Array (Coord T)) :=
  let r := sphere.radius
  (forLoop numCoords (fun i toGeodetic => do
    let x := (← fromECEF[i]?) 0
    let y := (← fromECEF[i]?) 1
    let z := (← fromECEF[i]?) 2
    let p := sqrt (x*x + y*y)
    let lon := Scalar.atan2 y x
    let lat := Scalar.atan2 z p
    let coslat := cos lat
    let alt := (p/coslat) - r
    let toGeodetic ← storeAt toGeodetic i 0 lon
    let toGeodetic ← storeAt toGeodetic i 1 lat
    let toGeodetic ← storeAt toGeodetic i 2 alt
    pure toGeodetic) 0 toGeodetic).map fun toGeodetic => (toGeodetic, fromECEF)

/-- Ellipsoid `geodToECEFSoA`, EllipsoidImpl.hpp lines 158-188. -/
def Ellipsoid.geodToECEFSoA (toECEF : CoordSoA T) (fromGeodetic : CoordSoA T)
    (numCoords : Nat) (ellipsoid : Ellipsoid T) : Option (CoordSoA T × CoordSoA T) :=
  let a := ellipsoid.major
  let a2 := a*a
  let b := ellipsoid.minor
  let b2 := b*b
  (forLoop numCoords (fun i toECEF => do
    let lon ← fromGeodetic.x[i]?
    let lat ← fromGeodetic.y[i]?
    let alt ← fromGeodetic.z[i]?
    let sin_lon := sin lon
    let cos_lon := cos lon
    let sin_lat := sin lat
    let cos_lat := cos lat
    let Nphi := a2/(sqrt (a2*cos_lat*cos_lat + b2*sin_lat*sin_lat))
    let Nphi_alt_cos_lat := (Nphi + alt)*cos_lat
    let toECEF ← toECEF.storeX i (Nphi_alt_cos_lat*cos_lon)
    let toECEF ← toECEF.storeY i (Nphi_alt_cos_lat*sin_lon)
    let toECEF ← toECEF.storeZ i (((b2/a2)*Nphi + alt)*sin_lat)
    pure toECEF) 0 toECEF).map fun toECEF => (toECEF, fromGeodetic)

/-- Ellipsoid `geodToECEFAoS`, EllipsoidImpl.hpp lines 190-220. -/
def Ellipsoid.geodToECEFAoS (toECEF : Array (Coord T)) (fromGeodetic : Array (Coord T))
    (numCoords : Nat) (ellipsoid : Ellipsoid T) :
    Option (Array (Coord T) × Array (Coord T)) :=
  let a := ellipsoid.major
  let a2 := a*a
  let b := ellipsoid.minor
  let b2 := b*b
  (forLoop numCoords (fun i toECEF => do
    let lon := (← fromGeodetic[i]?) 0
    let lat := (← fromGeodetic[i]?) 1
    let alt := (← fromGeodetic[i]?) 2
    let sin_lon := sin lon
    let cos_lon := cos lon
    let sin_lat := sin lat
    let cos_lat := cos lat
    let Nphi := a2/(sqrt (a2*cos_lat*cos_lat + b2*sin_lat*sin_lat))
    let Nphi_alt_cos_lat := (Nphi + alt)*cos_lat
    let toECEF ← storeAt toECEF i 0 (Nphi_alt_cos_lat*cos_lon)
    let toECEF ← storeAt toECEF i 1 (Nphi_alt_cos_lat*sin_lon)
    let toECEF ← storeAt toECEF i 2 (((b2/a2)*Nphi + alt)*sin_lat)
    pure toECEF) 0 toECEF).map fun toECEF => (toECEF, fromGeodetic)

/-- Ellipsoid `ecefToGeodSoA`, EllipsoidImpl.hpp lines 222-264. -/
def Ellipsoid.ecefToGeodSoA (toGeodetic : CoordSoA T) (fromECEF : CoordSoA T)
    (numCoords : Nat) (ellipsoid : Ellipsoid T) : Option (CoordSoA T × CoordSoA T) :=
  let a := ellipsoid.major
  let a2 := a*a
  let b := ellipsoid.minor
  let b2 := b*b
  let e := sqrt ((a2 - b2)/a2)
  let e2 := e*e
  let ep := sqrt ((a2 - b2)/b2)
  let ep2 := ep*ep
  (forLoop numCoords (fun i toGeodetic => do
    let x ← fromECEF.x[i]?
    let y ← fromECEF.y[i]?
    let z ← fromECEF.z[i]?
    let p := sqrt (x*x + y*y)
    let lon := Scalar.atan2 y x
    let theta := Scalar.atan2 (z*a) (p*b)
    let sin_theta := sin theta
    let cos_theta := cos theta
    let sin3_theta := sin_theta*sin_theta*sin_theta
    let cos3_theta := cos_theta*cos_theta*cos_theta
    let lat := Scalar.atan2 (z + ep2*b*sin3_theta) (p - e2*a*cos3_theta)
    let cos_lat := cos lat
    let sin_lat := sin lat
    let N := a/(sqrt (1.0 - e2*sin_lat*sin_lat))
    let alt := (p/cos_lat) - N
    let toGeodetic ← toGeodetic.storeX i lon
    let toGeodetic ← toGeodetic.storeY i lat
    let toGeodetic ← toGeodetic.storeZ i alt
    pure toGeodetic) 0 toGeodetic).map fun toGeodetic => (toGeodetic, fromECEF)

/-- Ellipsoid `ecefToGeodAoS`, EllipsoidImpl.hpp lines 266-307. -/
def Ellipsoid.ecefToGeodAoS (toGeodetic : Array (Coord T)) (fromECEF : Array (Coord T))
    (numCoords : Nat) (ellipsoid : Ellipsoid T) :
    Option (Array (Coord T) × Array (Coord T)) :=
  let a := ellipsoid.major
  let a2 := a*a
  let b := ellipsoid.minor
  let b2 := b*b
  let e := sqrt ((a2 - b2)/a2)
  let e2 := e*e
  let ep := sqrt ((a2 - b2)/b2)
  let ep2 := ep*ep
  (forLoop numCoords (fun i toGeodetic => do
    let x := (← fromECEF[i]?) 0
    let y := (← fromECEF[i]?) 1
    let z := (← fromECEF[i]?) 2
    let p := sqrt (x*x + y*y)
    let lon := Scalar.atan2 y x
    let theta := Scalar.atan2 (z*a) (p*b)
    let sin_theta := sin theta
    let cos_theta := cos theta
    let sin3_theta := sin_theta*sin_theta*sin_theta
    let cos3_theta := cos_theta*cos_theta*cos_theta
    let lat := Scalar.atan2 (z + ep2*b*sin3_theta) (p - e2*a*cos3_theta)
    let cos_lat := cos lat
    let sin_lat := sin lat
    let N := a/(sqrt (1.0 - e2*sin_lat*sin_lat))
    let alt := (p/cos_lat) - N
    let toGeodetic ← storeAt toGeodetic i 0 lon
    let toGeodetic ← storeAt toGeodetic i 1 lat
    let toGeodetic ← storeAt toGeodetic i 2 alt
    pure toGeodetic) 0 toGeodetic).map fun toGeodetic => (toGeodetic, fromECEF)

end Kernels

section ProofSide

variable {T : Type}

/-- Proof-side canonical SoA loop body: write the triple `k i` at index `i`. -/
def soaWrite (k : Nat → Coord T) (i : Nat) (dst : CoordSoA T) : Option (CoordSoA T) :=
  (dst.storeX i (k i 0)).bind fun d1 => (d1.storeY i (k i 1)).bind fun d2 => d2.storeZ i (k i 2)

/-- Proof-side canonical AoS loop body: write the row `k i` at index `i`, one component at a
time. -/
def aosWrite (k : Nat → Coord T) (i : Nat) (dst : Array (Coord T)) : Option (Array (Coord T)) :=
  (storeAt dst i 0 (k i 0)).bind fun b1 => (storeAt b1 i 1 (k i 1)).bind fun b2 =>
    storeAt b2 i 2 (k i 2)

/-- Proof-side reading of one iteration of an SoA batch loop: read element `i` of the three
source arrays, apply the scalar kernel, write element `i` of the three destination arrays.
Each of the six accesses is checked; the step is `none` as soon as one index is outside its
array. -/
def soaStep (kernel : Coord T → Coord T) (src : CoordSoA T) (dst : CoordSoA T) (i : Nat) :
    Option (CoordSoA T) :=
  (src.x[i]?).bind fun x => (src.y[i]?).bind fun y => (src.z[i]?).bind fun z =>
    soaWrite (fun _ => kernel ![x, y, z]) i dst

/-- Proof-side reading of one iteration of an AoS batch loop: read row `i` of the source,
apply the scalar kernel, write row `i` of the destination.  Each access is checked; the step
is `none` as soon as the index is outside one of the two arrays. -/
def aosStep (kernel : Coord T → Coord T) (src : Array (Coord T)) (dst : Array (Coord T))
    (i : Nat) : Option (Array (Coord T)) :=
  (src[i]?).bind fun p => aosWrite (fun _ => kernel p) i dst

end ProofSide

/-! ### The C++ type of each value

The kernels are templates and declare every local with `auto`, so the floating-point type in
which an intermediate value is computed is decided by the C++ rules for expressions.  Reading
the kernel definitions at the scalar type `Width` computes that type: a value of the
embedding is then the C++ type of the value the source computes at that place.  The width
recorded at a destination is the type of the assigned expression, before the conversion to
the element type that the assignment itself performs. -/

/-- The two floating-point types the kernels are instantiated at, `float` and `double`. -/
inductive Width where
  | single
  | double
  deriving DecidableEq

/-- Type of a binary arithmetic expression under the usual arithmetic conversions: `double`
as soon as one operand is `double`. -/
def Width.binop : Width → Width → Width
  | .single, .single => .single
  | _, _ => .double

/-- Addition `+` is carried out in the common type of its operands. -/
instance instAddWidth : Add Width := ⟨Width.binop⟩

/-- Subtraction `-` is carried out in the common type of its operands. -/
instance instSubWidth : Sub Width := ⟨Width.binop⟩

/-- Multiplication `*` is carried out in the common type of its operands. -/
instance instMulWidth : Mul Width := ⟨Width.binop⟩

/-- Division `/` is carried out in the common type of its operands. -/
instance instDivWidth : Div Width := ⟨Width.binop⟩

/-- An unsuffixed floating literal such as `1.0` has type `double`. -/
instance instOfScientificWidth : OfScientific Width := ⟨fun _ _ _ => Width.double⟩

/-- The `<cmath>` overloads: `std::sin`, `std::cos` and `std::sqrt` return the type of their
argument, `std::atan2` the common type of its two arguments. -/
instance instScalarWidth : Scalar Width where
  sin := id
  cos := id
  sqrt := id
  atan2 := Width.binop

/-! ### IEEE 754 binary64 arithmetic

The arithmetic the kernels run on when `T = double`.  A finite binary64 value is given by the
real number it denotes; every operation returns the exact real result rounded to the nearest
binary64 value, ties to even (the default rounding mode), as IEEE 754 prescribes for
`+ - * /` and `sqrt`.  The `<cmath>` functions `sin`, `cos` and `atan2` are taken correctly
rounded; the theorems of this development evaluate them only where that fixes the result
(`sin 0`, `cos 0`, `atan2 0 x`) or through enclosures a few units in the last place wide.
The two zeros are not distinguished (`atan2 0 x` is read for `+0`), and a result that is not
a finite number (NaN or an infinity) is `nonfinite` and is not followed further. -/

/-- Rounding of a real number to the nearest integer, ties to the even one. -/
noncomputable def roundEven (t : ℝ) : ℤ :=
  if Int.fract t < 1 / 2 then ⌊t⌋
  else if 1 / 2 < Int.fract t then ⌊t⌋ + 1
  else if Even ⌊t⌋ then ⌊t⌋ else ⌊t⌋ + 1

/-- Exponent of the unit in the last place of the binary64 values next to `x`: 53 significant
bits, and `2 ^ (-1074)` in the subnormal range. -/
noncomputable def ulpExp (x : ℝ) : ℤ := max (Int.log 2 |x| - 52) (-1074)

/-- A binary64 value: a finite number, or the outcome of a computation that met NaN or an
infinity. -/
inductive Binary64 where
  | finite (x : ℝ)
  | nonfinite

/-- Rounding to nearest, ties to even; a result of magnitude `2 ^ 1024` or more overflows. -/
noncomputable def round64 (x : ℝ) : Binary64 :=
  if |(roundEven (x / 2 ^ ulpExp x) : ℝ) * 2 ^ ulpExp x| < 2 ^ (1024 : ℤ) then
    Binary64.finite (roundEven (x / 2 ^ ulpExp x) * 2 ^ ulpExp x)
  else Binary64.nonfinite

/-- A binary operation of finite operands: the exact result, rounded. -/
noncomputable def Binary64.arith (f : ℝ → ℝ → ℝ) : Binary64 → Binary64 → Binary64
  | Binary64.finite x, Binary64.finite y => round64 (f x y)
  | _, _ => Binary64.nonfinite

/-- Division; a zero divisor gives an infinity or NaN. -/
noncomputable def Binary64.div : Binary64 → Binary64 → Binary64
  | Binary64.finite x, Binary64.finite y => if y = 0 then Binary64.nonfinite else round64 (x / y)
  | _, _ => Binary64.nonfinite

/-- Square root, as `std::sqrt`; NaN on a negative argument. -/
noncomputable def Binary64.sqrt : Binary64 → Binary64
  | Binary64.finite x => if x < 0 then Binary64.nonfinite else round64 (Real.sqrt x)
  | Binary64.nonfinite => Binary64.nonfinite

/-- A one-argument `<cmath>` function, correctly rounded. -/
noncomputable def Binary64.fn (f : ℝ → ℝ) : Binary64 → Binary64
  | Binary64.finite x => round64 (f x)
  | Binary64.nonfinite => Binary64.nonfinite

/-- Binary64 addition. -/
noncomputable instance instAddBinary64 : Add Binary64 := ⟨Binary64.arith (· + ·)⟩

/-- Binary64 subtraction. -/
noncomputable instance instSubBinary64 : Sub Binary64 := ⟨Binary64.arith (· - ·)⟩

/-- Binary64 multiplication. -/
noncomputable instance instMulBinary64 : Mul Binary64 := ⟨Binary64.arith (· * ·)⟩

/-- Binary64 division. -/
noncomputable instance instDivBinary64 : Div Binary64 := ⟨Binary64.div⟩

/-- A decimal literal denotes the binary64 value nearest to it. -/
noncomputable instance instOfScientificBinary64 : OfScientific Binary64 :=
  ⟨fun m s e => round64 (OfScientific.ofScientific m s e)⟩

/-- The `<cmath>` functions at `double`. -/
noncomputable instance instScalarBinary64 : Scalar Binary64 where
  sin := Binary64.fn Real.sin
  cos := Binary64.fn Real.cos
  sqrt := Binary64.sqrt
  atan2 := Binary64.arith atan2

/-! ## Exact real arithmetic: the `<cmath>` functions -/

section RealModel

open Real

@[simp] theorem sin_real (x : ℝ) : Scalar.sin x = Real.sin x := rfl

@[simp] theorem cos_real (x : ℝ) : Scalar.cos x = Real.cos x := rfl

@[simp] theorem sqrt_real (x : ℝ) : Scalar.sqrt x = Real.sqrt x := rfl

@[simp] theorem atan2_real (y x : ℝ) : Scalar.atan2 y x = atan2 y x := rfl

/-- The literal `1.0` read as a real number. -/
theorem one_lit : (1.0 : ℝ) = 1 := by norm_num

/-- For a positive modulus and an angle in `(-π, π]`, `atan2` returns the angle. -/
theorem atan2_mul_sin_cos {k θ : ℝ} (hk : 0 < k) (h1 : -π < θ) (h2 : θ ≤ π) :
    atan2 (k * Real.sin θ) (k * Real.cos θ) = θ := by
  unfold atan2
  have e : (⟨k * Real.cos θ, k * Real.sin θ⟩ : ℂ)
      = (k : ℂ) * (Complex.cos θ + Complex.sin θ * Complex.I) := by
    apply Complex.ext <;> simp [← Complex.ofReal_cos, ← Complex.ofReal_sin]
  rw [e]
  exact Complex.arg_mul_cos_add_sin_mul_I hk ⟨h1, h2⟩

/-- Scaling both arguments by a positive factor does not change `atan2`. -/
theorem atan2_scale {k : ℝ} (hk : 0 < k) (y x : ℝ) : atan2 (k * y) (k * x) = atan2 y x := by
  unfold atan2
  have e : (⟨k * x, k * y⟩ : ℂ) = (k : ℂ) * ⟨x, y⟩ := by
    apply Complex.ext <;> simp
  rw [e, Complex.arg_real_mul _ hk]

theorem atan2_zero_zero : atan2 0 0 = 0 := by
  unfold atan2
  have : (⟨0, 0⟩ : ℂ) = 0 := rfl
  rw [this, Complex.arg_zero]

theorem atan2_zero_neg {x : ℝ} (hx : x < 0) : atan2 0 x = π := by
  unfold atan2
  exact Complex.arg_eq_pi_iff.2 ⟨hx, rfl⟩

theorem atan2_zero_nonneg {x : ℝ} (hx : 0 ≤ x) : atan2 0 x = 0 := by
  unfold atan2
  exact Complex.arg_eq_zero_iff.2 ⟨hx, rfl⟩

theorem atan2_pos_zero {y : ℝ} (hy : 0 < y) : atan2 y 0 = π / 2 := by
  unfold atan2
  exact Complex.arg_eq_pi_div_two_iff.2 ⟨rfl, hy⟩

theorem atan2_neg_zero {y : ℝ} (hy : y < 0) : atan2 y 0 = -(π / 2) := by
  unfold atan2
  exact Complex.arg_eq_neg_pi_div_two_iff.2 ⟨rfl, hy⟩

/-- The modulus times the cosine of `atan2 y x` is `x`. -/
theorem abs_mul_cos_atan2 (y x : ℝ) : √(x * x + y * y) * Real.cos (atan2 y x) = x := by
  have h := Complex.abs_mul_cos_arg ⟨x, y⟩
  rwa [Complex.abs_apply, Complex.normSq_mk] at h

/-- The modulus times the sine of `atan2 y x` is `y`. -/
theorem abs_mul_sin_atan2 (y x : ℝ) : √(x * x + y * y) * Real.sin (atan2 y x) = y := by
  have h := Complex.abs_mul_sin_arg ⟨x, y⟩
  rwa [Complex.abs_apply, Complex.normSq_mk] at h

theorem sin_atan2 (y x : ℝ) : Real.sin (atan2 y x) = y / √(x * x + y * y) := by
  unfold atan2
  rw [Complex.sin_arg, Complex.abs_apply, Complex.normSq_mk]

theorem cos_atan2 {y x : ℝ} (h : 0 < x * x + y * y) :
    Real.cos (atan2 y x) = x / √(x * x + y * y) := by
  unfold atan2
  have hw : (⟨x, y⟩ : ℂ) ≠ 0 := by
    intro h0
    have hx : x = 0 := congrArg Complex.re h0
    have hy : y = 0 := congrArg Complex.im h0
    subst hx hy
    simp at h
  rw [Complex.cos_arg hw, Complex.abs_apply, Complex.normSq_mk]

theorem tan_atan2 (y x : ℝ) : Real.tan (atan2 y x) = y / x := by
  unfold atan2
  exact Complex.tan_arg ⟨x, y⟩

theorem atan2_lt_pi_div_two {y x : ℝ} (hx : 0 < x) : atan2 y x < π / 2 := by
  unfold atan2
  exact Complex.arg_lt_pi_div_two_iff.2 (Or.inl hx)

theorem neg_pi_div_two_lt_atan2 {y x : ℝ} (hx : 0 < x) : -(π / 2) < atan2 y x := by
  unfold atan2
  exact Complex.neg_pi_div_two_lt_arg_iff.2 (Or.inl hx)

/-- Sine and cosine of `atan2 y x` when `0 < x` and `y = t * x`. -/
theorem sin_cos_atan2_of_slope {y x t : ℝ} (hx : 0 < x) (hy : y = t * x) :
    Real.sin (atan2 y x) = t * Real.cos (atan2 y x) ∧ 0 < Real.cos (atan2 y x) := by
  have hc := abs_mul_cos_atan2 y x
  have hs := abs_mul_sin_atan2 y x
  have hm0 : 0 ≤ √(x * x + y * y) := Real.sqrt_nonneg _
  generalize √(x * x + y * y) = m at hc hs hm0
  generalize atan2 y x = θ at hc hs
  have hm : m ≠ 0 := by
    rintro rfl
    rw [zero_mul] at hc
    exact hx.ne hc
  have hmc : 0 < m * Real.cos θ := by rw [hc]; exact hx
  constructor
  · have : m * Real.sin θ = m * (t * Real.cos θ) := by rw [hs, hy, ← hc]; ring
    exact mul_left_cancel₀ hm this
  · by_contra hneg
    push_neg at hneg
    have := mul_nonpos_of_nonneg_of_nonpos hm0 hneg
    linarith

theorem tan_one_le_two : Real.tan 1 ≤ 2 := by
  have hc : (1 : ℝ) / 2 ≤ Real.cos 1 := by
    have := Real.one_sub_sq_div_two_le_cos (x := 1)
    linarith
  have hs : Real.sin 1 ≤ 1 := Real.sin_le_one 1
  rw [Real.tan_eq_sin_div_cos, div_le_iff₀ (by linarith)]
  linarith

/-- An angle `atan2 y x` with `0 < x` and `2 * x < y` exceeds one radian. -/
theorem one_lt_atan2 {y x : ℝ} (hx : 0 < x) (hy : 2 * x < y) : 1 < atan2 y x := by
  by_contra hcon
  push_neg at hcon
  have h1 : Real.tan (atan2 y x) ≤ Real.tan 1 := by
    rcases hcon.eq_or_lt with h | h
    · rw [h]
    · have h3 := Real.pi_gt_three
      exact (Real.tan_lt_tan_of_lt_of_lt_pi_div_two (neg_pi_div_two_lt_atan2 hx)
        (by linarith) h).le
  rw [tan_atan2] at h1
  have h2 : (2 : ℝ) < y / x := by rw [lt_div_iff₀ hx]; linarith
  linarith [tan_one_le_two]

/-- The horizontal distance of a point at distance `k` from the axis. -/
theorem sqrt_sq_add_sq_mul (k θ : ℝ) (hk : 0 ≤ k) :
    Real.sqrt (k * Real.cos θ * (k * Real.cos θ) + k * Real.sin θ * (k * Real.sin θ)) = k := by
  have : k * Real.cos θ * (k * Real.cos θ) + k * Real.sin θ * (k * Real.sin θ) = k ^ 2 := by
    have := Real.cos_sq_add_sin_sq θ
    nlinarith [this]
  rw [this, Real.sqrt_sq hk]

end RealModel

/-! ## Exact real arithmetic: the ellipsoid kernels -/

section RealEllipsoid

open Real

/-- Closed form of the in-place ellipsoid forward kernel over the reals. -/
theorem ellipsoid_geodToECEFInPlace_eq {a b lon lat h D : ℝ}
    (hD : √(a * a * Real.cos lat * Real.cos lat + b * b * Real.sin lat * Real.sin lat) = D) :
    Ellipsoid.geodToECEFInPlace ![lon, lat, h] ⟨a, b⟩
      = ![(a * a / D + h) * Real.cos lat * Real.cos lon,
          (a * a / D + h) * Real.cos lat * Real.sin lon,
          (b * b / (a * a) * (a * a / D) + h) * Real.sin lat] := by
  subst hD
  funext k
  fin_cases k <;> rfl

/-- Closed form of the in-place ellipsoid inverse kernel over the reals, with the
intermediate values named. -/
theorem ellipsoid_ecefToGeodInPlace_eq {a b x y z p e2 ep2 θ lat : ℝ}
    (hp : √(x * x + y * y) = p)
    (he2 : √((a * a - b * b) / (a * a)) * √((a * a - b * b) / (a * a)) = e2)
    (hep2 : √((a * a - b * b) / (b * b)) * √((a * a - b * b) / (b * b)) = ep2)
    (hθ : atan2 (z * a) (p * b) = θ)
    (hlat : atan2 (z + ep2 * b * (Real.sin θ * Real.sin θ * Real.sin θ))
      (p - e2 * a * (Real.cos θ * Real.cos θ * Real.cos θ)) = lat) :
    Ellipsoid.ecefToGeodInPlace ![x, y, z] ⟨a, b⟩
      = ![atan2 y x, lat, p / Real.cos lat - a / √(1 - e2 * Real.sin lat * Real.sin lat)] := by
  subst hp he2 hep2 hθ hlat
  funext k
  fin_cases k
  · rfl
  · rfl
  · show _ - a / √(1.0 - _) = _
    rw [one_lit]
    rfl

/-- Algebra of the single-pass latitude formula on the surface of the ellipsoid. -/
theorem bowring_surface_core {a b s c D sθ cθ : ℝ} (ha : 0 < a) (hb : 0 < b) (hD : 0 < D)
    (hDD : D * D = a * a * c * c + b * b * s * s) (hsc : s * s + c * c = 1)
    (hsθ : sθ = b * s / D) (hcθ : cθ = a * c / D) :
    (b * b / (a * a) * (a * a / D) + 0) * s + (a * a - b * b) / (b * b) * b * (sθ * sθ * sθ)
        = a * a * (b * b) / (D * D * D) * s
    ∧ (a * a / D + 0) * c - (a * a - b * b) / (a * a) * a * (cθ * cθ * cθ)
        = a * a * (b * b) / (D * D * D) * c := by
  have hDD' : D * D = a * a - (a * a - b * b) * (s * s) := by
    rw [hDD]; linear_combination (a * a) * hsc
  have hDDc : D * D = b * b + (a * a - b * b) * (c * c) := by
    rw [hDD]; linear_combination (b * b) * hsc
  subst hsθ hcθ
  constructor
  · have h1 : (b * b / (a * a) * (a * a / D) + 0) * s
        + (a * a - b * b) / (b * b) * b * (b * s / D * (b * s / D) * (b * s / D))
        = (b * b * s * (D * D) + (a * a - b * b) * (b * b) * (s * s * s)) / (D * D * D) := by
      field_simp; ring
    have h2 : b * b * s * (D * D) + (a * a - b * b) * (b * b) * (s * s * s) = a * a * (b * b) * s := by
      rw [hDD']; ring
    rw [h1, h2]; ring
  · have h1 : (a * a / D + 0) * c - (a * a - b * b) / (a * a) * a * (a * c / D * (a * c / D) * (a * c / D))
        = (a * a * c * (D * D) - (a * a - b * b) * (a * a) * (c * c * c)) / (D * D * D) := by
      field_simp; ring
    have h2 : a * a * c * (D * D) - (a * a - b * b) * (a * a) * (c * c * c) = a * a * (b * b) * c := by
      rw [hDDc]; ring
    rw [h1, h2]; ring

/-- The prime-vertical radius recomputed by the inverse kernel from the latitude. -/
theorem bowring_radius {a b s c D : ℝ} (ha : 0 < a) (hD : 0 < D)
    (hDD : D * D = a * a * c * c + b * b * s * s) (hsc : s * s + c * c = 1) :
    a / √(1 - (a * a - b * b) / (a * a) * s * s) = a * a / D := by
  have h : 1 - (a * a - b * b) / (a * a) * s * s = (D / a) * (D / a) := by
    field_simp
    rw [hDD]
    linear_combination (-(a * a)) * hsc
  rw [h, Real.sqrt_mul_self (div_nonneg hD.le ha.le)]
  field_simp


/-- Positivity of the radicand of the prime-vertical radius away from the poles. -/
theorem radicand_pos {a b s c : ℝ} (ha : 0 < a) (hc : 0 < c) :
    0 < a * a * c * c + b * b * s * s := by
  have h1 : 0 < a * a * c * c := by positivity
  have h2 : 0 ≤ b * b * s * s := by
    have : b * b * s * s = (b * s) * (b * s) := by ring
    rw [this]; exact mul_self_nonneg _
  linarith

/-- The in-place ellipsoid inverse kernel at a point given by its distance `k > 0` from the
polar axis, its longitude in `(-π, π]` and its height `z`, once the squared eccentricities and
the latitude the kernel computes are known. -/
theorem ellipsoid_ecefToGeodInPlace_polar (a b k lon z lat e2 ep2 : ℝ) (hk : 0 < k)
    (hlon1 : -π < lon) (hlon2 : lon ≤ π)
    (he2 : √((a * a - b * b) / (a * a)) * √((a * a - b * b) / (a * a)) = e2)
    (hep2 : √((a * a - b * b) / (b * b)) * √((a * a - b * b) / (b * b)) = ep2)
    (hlat : atan2
        (z + ep2 * b * (Real.sin (atan2 (z * a) (k * b)) * Real.sin (atan2 (z * a) (k * b))
          * Real.sin (atan2 (z * a) (k * b))))
        (k - e2 * a * (Real.cos (atan2 (z * a) (k * b)) * Real.cos (atan2 (z * a) (k * b))
          * Real.cos (atan2 (z * a) (k * b)))) = lat) :
    Ellipsoid.ecefToGeodInPlace ![k * Real.cos lon, k * Real.sin lon, z] ⟨a, b⟩
      = ![lon, lat, k / Real.cos lat - a / √(1 - e2 * Real.sin lat * Real.sin lat)] := by
  rw [ellipsoid_ecefToGeodInPlace_eq (sqrt_sq_add_sq_mul k lon hk.le) he2 hep2 rfl hlat,
    atan2_mul_sin_cos hk hlon1 hlon2]

/-- Facts shared by the ellipsoid round-trip proofs: the radicand `D` of the prime-vertical
radius is positive away from the poles. -/
theorem ellipsoid_radicand {a b lat : ℝ} (ha : 0 < a) (hlat1 : -(π / 2) < lat)
    (hlat2 : lat < π / 2) :
    ∃ D, √(a * a * Real.cos lat * Real.cos lat + b * b * Real.sin lat * Real.sin lat) = D
      ∧ 0 < D
      ∧ D * D = a * a * Real.cos lat * Real.cos lat + b * b * Real.sin lat * Real.sin lat := by
  have hc : 0 < Real.cos lat := Real.cos_pos_of_mem_Ioo ⟨hlat1, hlat2⟩
  have hrad := radicand_pos (b := b) (s := Real.sin lat) ha hc
  exact ⟨_, rfl, Real.sqrt_pos.2 hrad, Real.mul_self_sqrt hrad.le⟩

theorem sin_mul_self_add_cos_mul_self (t : ℝ) :
    Real.sin t * Real.sin t + Real.cos t * Real.cos t = 1 := by
  have := Real.sin_sq_add_cos_sq t
  nlinarith [this]

/-- The squared first eccentricity as the inverse kernel computes it, for `a ≥ b > 0`. -/
theorem e2_eq {a b : ℝ} (hab : b ≤ a) (hb : 0 < b) :
    √((a * a - b * b) / (a * a)) * √((a * a - b * b) / (a * a)) = (a * a - b * b) / (a * a) := by
  have ha : 0 < a := lt_of_lt_of_le hb hab
  apply Real.mul_self_sqrt
  apply div_nonneg _ (by positivity)
  nlinarith

/-- The squared second eccentricity as the inverse kernel computes it, for `a ≥ b > 0`. -/
theorem ep2_eq {a b : ℝ} (hab : b ≤ a) (hb : 0 < b) :
    √((a * a - b * b) / (b * b)) * √((a * a - b * b) / (b * b)) = (a * a - b * b) / (b * b) := by
  apply Real.mul_self_sqrt
  apply div_nonneg _ (by positivity)
  nlinarith

/-- Longitude survives the ellipsoid round trip at every altitude `h ≥ 0`. -/
theorem ellipsoid_roundtrip_lon (a b lon lat h : ℝ) (hab : b ≤ a) (hb : 0 < b) (hh : 0 ≤ h)
    (hlon1 : -π < lon) (hlon2 : lon ≤ π) (hlat1 : -(π / 2) < lat) (hlat2 : lat < π / 2) :
    Ellipsoid.ecefToGeodInPlace (Ellipsoid.geodToECEFInPlace ![lon, lat, h] ⟨a, b⟩) ⟨a, b⟩ 0
      = lon := by
  have ha : 0 < a := lt_of_lt_of_le hb hab
  have hc : 0 < Real.cos lat := Real.cos_pos_of_mem_Ioo ⟨hlat1, hlat2⟩
  obtain ⟨D, hD, hDpos, -⟩ := ellipsoid_radicand (b := b) ha hlat1 hlat2
  have hk : 0 < (a * a / D + h) * Real.cos lat := by positivity
  rw [ellipsoid_geodToECEFInPlace_eq hD,
    ellipsoid_ecefToGeodInPlace_polar a b _ lon _ _ _ _ hk hlon1 hlon2 rfl rfl rfl]
  rfl

/-- On the surface (`h = 0`) the single-pass inverse is exact. -/
theorem ellipsoid_roundtrip_surface (a b lon lat : ℝ) (hab : b ≤ a) (hb : 0 < b)
    (hlon1 : -π < lon) (hlon2 : lon ≤ π) (hlat1 : -(π / 2) < lat) (hlat2 : lat < π / 2) :
    Ellipsoid.ecefToGeodInPlace (Ellipsoid.geodToECEFInPlace ![lon, lat, 0] ⟨a, b⟩) ⟨a, b⟩
      = ![lon, lat, 0] := by
  have ha : 0 < a := lt_of_lt_of_le hb hab
  have hc : 0 < Real.cos lat := Real.cos_pos_of_mem_Ioo ⟨hlat1, hlat2⟩
  have hsc := sin_mul_self_add_cos_mul_self lat
  obtain ⟨D, hD, hDpos, hDD⟩ := ellipsoid_radicand (b := b) ha hlat1 hlat2
  have hk : 0 < (a * a / D + 0) * Real.cos lat := by positivity
  have hD' : √(a * Real.cos lat * (a * Real.cos lat) + b * Real.sin lat * (b * Real.sin lat))
      = D := by
    rw [← hD]; congr 1; ring
  have hrad' : 0 < a * Real.cos lat * (a * Real.cos lat)
      + b * Real.sin lat * (b * Real.sin lat) := by
    have : a * Real.cos lat * (a * Real.cos lat) + b * Real.sin lat * (b * Real.sin lat)
        = a * a * Real.cos lat * Real.cos lat + b * b * Real.sin lat * Real.sin lat := by ring
    rw [this]; exact radicand_pos ha hc
  have hθ : atan2 ((b * b / (a * a) * (a * a / D) + 0) * Real.sin lat * a)
      ((a * a / D + 0) * Real.cos lat * b) = atan2 (b * Real.sin lat) (a * Real.cos lat) := by
    have e1 : (b * b / (a * a) * (a * a / D) + 0) * Real.sin lat * a
        = a * b / D * (b * Real.sin lat) := by field_simp; ring
    have e2 : (a * a / D + 0) * Real.cos lat * b = a * b / D * (a * Real.cos lat) := by
      field_simp; ring
    rw [e1, e2, atan2_scale (by positivity)]
  have hθs : Real.sin (atan2 ((b * b / (a * a) * (a * a / D) + 0) * Real.sin lat * a)
      ((a * a / D + 0) * Real.cos lat * b)) = b * Real.sin lat / D := by
    rw [hθ, sin_atan2, hD']
  have hθc : Real.cos (atan2 ((b * b / (a * a) * (a * a / D) + 0) * Real.sin lat * a)
      ((a * a / D + 0) * Real.cos lat * b)) = a * Real.cos lat / D := by
    rw [hθ, cos_atan2 hrad', hD']
  obtain ⟨hZ, hP⟩ := bowring_surface_core ha hb hDpos hDD hsc hθs hθc
  have hL : atan2 (a * a * (b * b) / (D * D * D) * Real.sin lat)
      (a * a * (b * b) / (D * D * D) * Real.cos lat) = lat :=
    atan2_mul_sin_cos (by positivity) (by linarith [Real.pi_pos]) (by linarith [Real.pi_pos])
  have halt : (a * a / D + 0) * Real.cos lat / Real.cos lat - a * a / D = 0 := by
    field_simp; ring
  rw [ellipsoid_geodToECEFInPlace_eq hD,
    ellipsoid_ecefToGeodInPlace_polar a b _ lon _ lat _ _ hk hlon1 hlon2 (e2_eq hab hb)
      (ep2_eq hab hb) (by rw [hZ, hP]; exact hL),
    bowring_radius ha hDpos hDD hsc, halt]

/-- With equal axes the ellipsoid round trip is exact at every altitude `h ≥ 0`. -/
theorem ellipsoid_roundtrip_equal_axes (a lon lat h : ℝ) (ha : 0 < a) (hh : 0 ≤ h)
    (hlon1 : -π < lon) (hlon2 : lon ≤ π) (hlat1 : -(π / 2) < lat) (hlat2 : lat < π / 2) :
    Ellipsoid.ecefToGeodInPlace (Ellipsoid.geodToECEFInPlace ![lon, lat, h] ⟨a, a⟩) ⟨a, a⟩
      = ![lon, lat, h] := by
  have hc : 0 < Real.cos lat := Real.cos_pos_of_mem_Ioo ⟨hlat1, hlat2⟩
  have hsc := sin_mul_self_add_cos_mul_self lat
  obtain ⟨D, hD, hDpos, hDD⟩ := ellipsoid_radicand (b := a) ha hlat1 hlat2
  have hDa : D = a := by
    have h1 : D * D = a * a := by rw [hDD]; linear_combination (a * a) * hsc
    nlinarith
  subst hDa
  have hn : 0 < D + h := by linarith
  have hk : 0 < (D * D / D + h) * Real.cos lat := by positivity
  have e0 : √((D * D - D * D) / (D * D)) * √((D * D - D * D) / (D * D)) = 0 := by
    rw [sub_self, zero_div, Real.sqrt_zero, mul_zero]
  have e1 : D * D / (D * D) * (D * D / D) = D := by field_simp
  have e2 : D * D / D = D := by field_simp
  have hL : atan2 ((D + h) * Real.sin lat) ((D + h) * Real.cos lat) = lat :=
    atan2_mul_sin_cos hn (by linarith [Real.pi_pos]) (by linarith [Real.pi_pos])
  have halt : (D + h) * Real.cos lat / Real.cos lat - D / √(1 - 0 * Real.sin lat * Real.sin lat)
      = h := by
    rw [zero_mul, zero_mul, sub_zero, Real.sqrt_one]
    field_simp
  rw [ellipsoid_geodToECEFInPlace_eq hD,
    ellipsoid_ecefToGeodInPlace_polar D D _ lon _ lat 0 0 hk hlon1 hlon2 e0 e0
      (by rw [zero_mul, zero_mul, zero_mul, add_zero, sub_zero, e1, e2]; exact hL),
    e2, halt]

end RealEllipsoid

/-! ## Error of the single-pass latitude above the surface -/

section BowringError

open Real

/-- The forward image of a point of latitude `(s, c)` and altitude `h`: the radicand `D` lies
between the axes, `p` is positive, and the two combinations of `z` and `p` with the normal
direction. -/
theorem bowring_forward_facts {a b s c h D p z : ℝ} (hab : b ≤ a) (hb : 0 < b) (hh : 0 ≤ h)
    (hc : 0 < c) (hsc : s * s + c * c = 1) (hD : 0 < D)
    (hDD : D * D = a * a * c * c + b * b * s * s) (hp : p = (a * a / D + h) * c)
    (hz : z = (b * b / (a * a) * (a * a / D) + h) * s) :
    b ≤ D ∧ D ≤ a ∧ 0 < p ∧ z * c - p * s = -((a * a - b * b) * s * c / D)
      ∧ z * s + p * c = D + h ∧ z = (b * b / D + h) * s := by
  have ha : 0 < a := lt_of_lt_of_le hb hab
  have hz2 : z = (b * b / D + h) * s := by
    rw [hz]
    field_simp
  have hbD : b ≤ D := by
    have h1 : b * b ≤ D * D := by
      rw [hDD]
      have : a * a * c * c + b * b * s * s
          = b * b * (s * s + c * c) + (a * a - b * b) * (c * c) := by ring
      rw [this, hsc]
      have : 0 ≤ (a * a - b * b) * (c * c) :=
        mul_nonneg (by nlinarith) (mul_self_nonneg c)
      linarith
    exact abs_le_of_sq_le_sq' (by nlinarith) hD.le |>.2
  have hDa : D ≤ a := by
    have h1 : D * D ≤ a * a := by
      rw [hDD]
      have : a * a * c * c + b * b * s * s
          = a * a * (s * s + c * c) - (a * a - b * b) * (s * s) := by ring
      rw [this, hsc]
      have : 0 ≤ (a * a - b * b) * (s * s) :=
        mul_nonneg (by nlinarith) (mul_self_nonneg s)
      linarith
    exact abs_le_of_sq_le_sq' (by nlinarith) ha.le |>.2
  have hppos : 0 < p := by
    rw [hp]
    have : 0 < a * a / D := div_pos (mul_pos ha ha) hD
    exact mul_pos (by linarith) hc
  refine ⟨hbD, hDa, hppos, ?_, ?_, hz2⟩
  · rw [hz2, hp]
    field_simp
    ring
  · rw [hz2, hp]
    have e : (b * b / D + h) * s * s + (a * a / D + h) * c * c
        = (a * a * c * c + b * b * s * s) / D + h * (s * s + c * c) := by
      field_simp
      ring
    rw [e, ← hDD, hsc, mul_one, mul_div_assoc, div_self hD.ne', mul_one]

/-- The parametric angle `θ` of the inverse kernel against the reduced latitude `β` of the
point: with `(S, C) = (sin θ, cos θ)` and `(sβ, cβ) = (sin β, cos β)`, the sine `σ` of the
difference is `s c h (a² - b²) / (R D)` and its cosine `κ` is `a b (D + h) / (R D)`. -/
theorem bowring_theta_facts {a b s c h D p z R S C sβ cβ σ κ : ℝ} (hab : b ≤ a) (hb : 0 < b)
    (hh : 0 ≤ h) (hc : 0 < c) (hsc : s * s + c * c = 1) (hD : 0 < D)
    (hDD : D * D = a * a * c * c + b * b * s * s) (hp : p = (a * a / D + h) * c)
    (hz : z = (b * b / (a * a) * (a * a / D) + h) * s) (hR : 0 < R)
    (hRR : R * R = p * b * (p * b) + z * a * (z * a)) (hS : S = z * a / R)
    (hC : C = p * b / R) (hsβ : sβ = b * s / D) (hcβ : cβ = a * c / D)
    (hσ : σ = S * cβ - C * sβ) (hκ : κ = S * sβ + C * cβ) :
    S * S + C * C = 1 ∧ 0 < C ∧ sβ * sβ + cβ * cβ = 1
      ∧ σ = s * c * h * (a * a - b * b) / (R * D) ∧ κ = a * b * (D + h) / (R * D)
      ∧ κ * κ + σ * σ = 1 ∧ 0 < κ ∧ κ ≤ 1 ∧ b * (b + h) ≤ R ∧ 0 ≤ S * s := by
  have ha : 0 < a := lt_of_lt_of_le hb hab
  obtain ⟨hbD, hDa, hppos, -, hzs, hz2⟩ := bowring_forward_facts hab hb hh hc hsc hD hDD hp hz
  have hSC : S * S + C * C = 1 := by
    rw [hS, hC]
    field_simp
    rw [hRR]
    ring
  have hCpos : 0 < C := by rw [hC]; exact div_pos (mul_pos hppos hb) hR
  have hβ : sβ * sβ + cβ * cβ = 1 := by
    rw [hsβ, hcβ]
    field_simp
    rw [hDD]
    ring
  have hσ2 : σ = s * c * h * (a * a - b * b) / (R * D) := by
    rw [hσ, hS, hC, hsβ, hcβ, hz2, hp]
    field_simp
    ring
  have hκ2 : κ = a * b * (D + h) / (R * D) := by
    have e : κ = a * b * (z * s + p * c) / (R * D) := by
      rw [hκ, hS, hC, hsβ, hcβ]
      field_simp
      ring
    rw [e, hzs]
  have hunit : κ * κ + σ * σ = 1 := by
    have : κ * κ + σ * σ = (S * S + C * C) * (sβ * sβ + cβ * cβ) := by
      rw [hκ, hσ]; ring
    rw [this, hSC, hβ, mul_one]
  have hκpos : 0 < κ := by
    rw [hκ2]
    exact div_pos (mul_pos (mul_pos ha hb) (by linarith)) (mul_pos hR hD)
  have hκ1 : κ ≤ 1 := by
    by_contra hcon
    push_neg at hcon
    have h1 : (1 : ℝ) * 1 < κ * κ := mul_lt_mul'' hcon hcon zero_le_one zero_le_one
    have h2 := mul_self_nonneg σ
    linarith
  have hRD : a * b * (D + h) ≤ R * D := by
    rw [hκ2, div_le_one (mul_pos hR hD)] at hκ1
    exact hκ1
  have hRb : b * (b + h) ≤ R := by
    have h1 : b * (b + h) * D ≤ a * b * (D + h) := by
      have h2 : b * (b + h) * D ≤ b * (D + h) * D :=
        mul_le_mul_of_nonneg_right (mul_le_mul_of_nonneg_left (by linarith) hb.le) hD.le
      have h3 : b * (D + h) * D ≤ b * (D + h) * a :=
        mul_le_mul_of_nonneg_left hDa (mul_nonneg hb.le (by linarith))
      have : b * (D + h) * a = a * b * (D + h) := by ring
      linarith
    have h4 : b * (b + h) * D ≤ R * D := le_trans h1 hRD
    exact le_of_mul_le_mul_right h4 hD
  have hSs : 0 ≤ S * s := by
    rw [hS, hz2]
    have : (b * b / D + h) * s * a / R * s = (b * b / D + h) * a / R * (s * s) := by
      field_simp
      ring
    rw [this]
    have h5 : 0 < b * b / D := div_pos (mul_pos hb hb) hD
    exact mul_nonneg (div_nonneg (mul_nonneg (by linarith) ha.le) hR.le) (mul_self_nonneg s)
  exact ⟨hSC, hCpos, hβ, hσ2, hκ2, hunit, hκpos, hκ1, hRb, hSs⟩

/-- The defect `F = cβ S³ + sβ C³ - sβ cβ` of the single-pass formula, for two unit vectors
`(S, C)` and `(sβ, cβ)` whose angle has sine `σ` and cosine `κ ≥ 0`: it is of second order
in `σ`. -/
theorem bowring_defect_bound {S C sβ cβ σ κ : ℝ} (hβ : sβ * sβ + cβ * cβ = 1)
    (hσ : σ = S * cβ - C * sβ) (hκ : κ = S * sβ + C * cβ) (hunit : κ * κ + σ * σ = 1)
    (hκ0 : 0 ≤ κ) (hκ1 : κ ≤ 1) :
    |cβ * (S * S * S) + sβ * (C * C * C) - sβ * cβ|
      ≤ 2 * |sβ * cβ| * (σ * σ) + |σ| * (σ * σ) := by
  have hS : S = sβ * κ + cβ * σ := by
    rw [hκ, hσ]
    linear_combination (-S) * hβ
  have hC : C = cβ * κ - sβ * σ := by
    rw [hκ, hσ]
    linear_combination (-C) * hβ
  have hF : cβ * (S * S * S) + sβ * (C * C * C) - sβ * cβ
      = sβ * cβ * (κ * (1 + 2 * (σ * σ)) - 1) + σ * (σ * σ) * (cβ * cβ - sβ * sβ) := by
    rw [hS, hC]
    linear_combination (sβ * cβ * (κ ^ 3 + 3 * κ * σ ^ 2)
      + σ ^ 3 * (cβ ^ 2 - sβ ^ 2)) * hβ + (sβ * cβ * κ) * hunit
  have hσσ : 0 ≤ σ * σ := mul_self_nonneg σ
  have hσ1 : σ * σ ≤ 1 := by nlinarith [mul_self_nonneg κ]
  have hκκ : 1 - σ * σ ≤ κ := by
    have : κ * κ ≤ κ := by nlinarith
    linarith
  have h1 : |κ * (1 + 2 * (σ * σ)) - 1| ≤ 2 * (σ * σ) := by
    rw [abs_le]
    constructor
    · nlinarith
    · nlinarith
  have h2 : |cβ * cβ - sβ * sβ| ≤ 1 := by
    rw [abs_le]
    constructor
    · nlinarith [mul_self_nonneg cβ, mul_self_nonneg sβ]
    · nlinarith [mul_self_nonneg cβ, mul_self_nonneg sβ]
  rw [hF]
  calc |sβ * cβ * (κ * (1 + 2 * (σ * σ)) - 1) + σ * (σ * σ) * (cβ * cβ - sβ * sβ)|
      ≤ |sβ * cβ * (κ * (1 + 2 * (σ * σ)) - 1)| + |σ * (σ * σ) * (cβ * cβ - sβ * sβ)| :=
        abs_add _ _
    _ = |sβ * cβ| * |κ * (1 + 2 * (σ * σ)) - 1| + |σ| * (σ * σ) * |cβ * cβ - sβ * sβ| := by
        rw [abs_mul (sβ * cβ), abs_mul (σ * (σ * σ)), abs_mul σ, abs_of_nonneg hσσ]
    _ ≤ |sβ * cβ| * (2 * (σ * σ)) + |σ| * (σ * σ) * 1 := by
        apply add_le_add
        · exact mul_le_mul_of_nonneg_left h1 (abs_nonneg _)
        · exact mul_le_mul_of_nonneg_left h2 (mul_nonneg (abs_nonneg _) hσσ)
    _ = 2 * |sβ * cβ| * (σ * σ) + |σ| * (σ * σ) := by ring

/-- The quotient `E / (a a) * a` the kernel forms is `E / a`. -/
theorem div_mul_self_mul {E a : ℝ} (ha : 0 < a) : E / (a * a) * a = E / a := by
  field_simp
  ring

/-- The second argument `P` of the latitude `atan2` of the inverse kernel is positive when
`a² - b² < a b`: `cos³θ ≤ cos θ = p b / R ≤ p / (b + h)`. -/
theorem bowring_P_pos {a b h p R C Pv : ℝ} (ha : 0 < a) (hb : 0 < b) (hh : 0 ≤ h)
    (hE0 : 0 ≤ a * a - b * b) (hE : a * a - b * b < a * b) (hppos : 0 < p) (hR : 0 < R)
    (hRb : b * (b + h) ≤ R) (hC : C = p * b / R) (hC3 : C * C * C ≤ C)
    (hP : Pv = p - (a * a - b * b) / (a * a) * a * (C * C * C)) : 0 < Pv := by
  have hbh : 0 < b + h := by linarith
  have hCle : C ≤ p / (b + h) := by
    rw [hC, div_le_div_iff₀ hR hbh]
    have : p * b * (b + h) = p * (b * (b + h)) := by ring
    rw [this]
    exact mul_le_mul_of_nonneg_left hRb hppos.le
  have h5 : (a * a - b * b) / (a * a) * a * (C * C * C)
      ≤ (a * a - b * b) / a * (p / (b + h)) := by
    rw [div_mul_self_mul ha]
    exact mul_le_mul_of_nonneg_left (le_trans hC3 hCle) (div_nonneg hE0 ha.le)
  have h7 : (a * a - b * b) / (a * (b + h)) < 1 := by
    rw [div_lt_one (mul_pos ha hbh)]
    have : a * b ≤ a * (b + h) := mul_le_mul_of_nonneg_left (by linarith) ha.le
    linarith
  have h6 : (a * a - b * b) / a * (p / (b + h)) < p := by
    have e : (a * a - b * b) / a * (p / (b + h))
        = p * ((a * a - b * b) / (a * (b + h))) := by
      rw [div_mul_div_comm, mul_comm (a * a - b * b) p, mul_div_assoc]
    rw [e]
    calc p * ((a * a - b * b) / (a * (b + h))) < p * 1 :=
          mul_lt_mul_of_pos_left h7 hppos
      _ = p := mul_one p
  rw [hP]
  linarith

/-- The two arguments `(Z, P)` of the latitude `atan2` of the inverse kernel at the forward
image of `(s, c)`, `h`: the component of `(P, Z)` across the normal direction is
`(a² - b²) D / (a b)` times the defect, the component along it is at least
`b + h - (a² - b²) / a`, and `P` is positive when `a² - b² < a b`. -/
theorem bowring_ZP_facts {a b s c h D p z R S C sβ cβ σ κ Zv Pv : ℝ} (hab : b ≤ a)
    (hb : 0 < b) (hh : 0 ≤ h) (hc : 0 < c) (hsc : s * s + c * c = 1) (hD : 0 < D)
    (hDD : D * D = a * a * c * c + b * b * s * s) (hp : p = (a * a / D + h) * c)
    (hz : z = (b * b / (a * a) * (a * a / D) + h) * s) (hR : 0 < R)
    (hRR : R * R = p * b * (p * b) + z * a * (z * a)) (hS : S = z * a / R)
    (hC : C = p * b / R) (hsβ : sβ = b * s / D) (hcβ : cβ = a * c / D)
    (hσ : σ = S * cβ - C * sβ) (hκ : κ = S * sβ + C * cβ)
    (hZ : Zv = z + (a * a - b * b) / (b * b) * b * (S * S * S))
    (hP : Pv = p - (a * a - b * b) / (a * a) * a * (C * C * C))
    (hE : a * a - b * b < a * b) :
    Zv * c - Pv * s = (a * a - b * b) * (D / (a * b))
        * (cβ * (S * S * S) + sβ * (C * C * C) - sβ * cβ)
      ∧ b + h - (a * a - b * b) / a ≤ Zv * s + Pv * c ∧ 0 < Pv := by
  have ha : 0 < a := lt_of_lt_of_le hb hab
  have hE0 : 0 ≤ a * a - b * b := by nlinarith
  obtain ⟨hbD, hDa, hppos, hzc, hzs, hz2⟩ :=
    bowring_forward_facts hab hb hh hc hsc hD hDD hp hz
  obtain ⟨hSC, hCpos, hβ, hσ2, hκ2, hunit, hκpos, hκ1, hRb, hSs⟩ :=
    bowring_theta_facts hab hb hh hc hsc hD hDD hp hz hR hRR hS hC hsβ hcβ hσ hκ
  have hC1 : C ≤ 1 := by
    by_contra hcon
    push_neg at hcon
    have h1 : (1 : ℝ) * 1 < C * C := mul_lt_mul'' hcon hcon zero_le_one zero_le_one
    have h2 := mul_self_nonneg S
    linarith
  have hc1 : c ≤ 1 := by
    by_contra hcon
    push_neg at hcon
    have h1 : (1 : ℝ) * 1 < c * c := mul_lt_mul'' hcon hcon zero_le_one zero_le_one
    have h2 := mul_self_nonneg s
    linarith
  have hCC : C * C ≤ 1 := by
    have := mul_le_mul hC1 hC1 hCpos.le zero_le_one
    linarith
  have hC3 : C * C * C ≤ C := by
    have := mul_le_mul_of_nonneg_right hCC hCpos.le
    linarith
  refine ⟨?_, ?_, bowring_P_pos ha hb hh hE0 hE hppos hR hRb hC hC3 hP⟩
  · have e1 : Zv * c - Pv * s = (z * c - p * s)
        + (a * a - b * b) * (S * S * S * c / b + C * C * C * s / a) := by
      rw [hZ, hP]
      field_simp
      ring
    rw [e1, hzc, hsβ, hcβ]
    field_simp
    ring
  · have e2 : Zv * s + Pv * c = (z * s + p * c)
        + (a * a - b * b) / b * (S * S * (S * s)) - (a * a - b * b) / a * (C * C * C * c) := by
      rw [hZ, hP]
      field_simp
      ring
    rw [e2, hzs]
    have h1 : 0 ≤ (a * a - b * b) / b * (S * S * (S * s)) :=
      mul_nonneg (div_nonneg hE0 hb.le) (mul_nonneg (mul_self_nonneg S) hSs)
    have h2 : C * C * C * c ≤ 1 := by
      have h3 : C * C * C ≤ 1 := le_trans hC3 hC1
      have := mul_le_mul h3 hc1 hc.le zero_le_one
      linarith
    have h4 : (a * a - b * b) / a * (C * C * C * c) ≤ (a * a - b * b) / a * 1 :=
      mul_le_mul_of_nonneg_left h2 (div_nonneg hE0 ha.le)
    linarith

/-- A component of a unit vector is at most one in absolute value. -/
theorem abs_le_one_of_unit {s c : ℝ} (hsc : s * s + c * c = 1) : |s| ≤ 1 := by
  rw [abs_le_one_iff_mul_self_le_one]
  have := mul_self_nonneg c
  linarith

/-- A product bounded factor by factor. -/
theorem abs_le_of_factors {u v U V : ℝ} (hu : |u| ≤ U) (hv : |v| ≤ V) : |u * v| ≤ U * V := by
  rw [abs_mul]
  exact mul_le_mul hu hv (abs_nonneg v) (le_trans (abs_nonneg u) hu)

/-- The sine `σ` of the angle between the parametric angle and the reduced latitude is at
most `c τ` with `τ = (a² - b²) H / b³`, for `0 ≤ h ≤ H`. -/
theorem bowring_sigma_bound {a b s c h H D R σ : ℝ} (hb : 0 < b) (hh : 0 ≤ h) (hH : h ≤ H)
    (hc : 0 < c) (hs : |s| ≤ 1) (hE0 : 0 ≤ a * a - b * b) (hbD : b ≤ D)
    (hRb : b * (b + h) ≤ R) (hσ : σ = s * c * h * (a * a - b * b) / (R * D)) :
    |σ| ≤ c * ((a * a - b * b) * H / (b * b * b)) := by
  have hR : b * b ≤ R := by
    have : b * b ≤ b * (b + h) := mul_le_mul_of_nonneg_left (by linarith) hb.le
    linarith
  have hbb : 0 < b * b := mul_pos hb hb
  have hRD : b * b * b ≤ R * D :=
    mul_le_mul hR hbD hb.le (le_trans hbb.le hR)
  have hbbb : 0 < b * b * b := mul_pos hbb hb
  have hnum : 0 ≤ c * h * (a * a - b * b) := mul_nonneg (mul_nonneg hc.le hh) hE0
  have e : σ = s * (c * h * (a * a - b * b) / (R * D)) := by
    rw [hσ]
    ring
  have hq : c * h * (a * a - b * b) / (R * D) ≤ c * H * (a * a - b * b) / (b * b * b) := by
    apply div_le_div₀ (mul_nonneg (mul_nonneg hc.le (le_trans hh hH)) hE0) _ hbbb hRD
    exact mul_le_mul_of_nonneg_right (mul_le_mul_of_nonneg_left hH hc.le) hE0
  have hq0 : 0 ≤ c * h * (a * a - b * b) / (R * D) :=
    div_nonneg hnum (le_trans hbbb.le hRD)
  rw [e, abs_mul, abs_of_nonneg hq0]
  calc |s| * (c * h * (a * a - b * b) / (R * D))
      ≤ 1 * (c * H * (a * a - b * b) / (b * b * b)) := mul_le_mul hs hq hq0 zero_le_one
    _ = c * ((a * a - b * b) * H / (b * b * b)) := by ring

/-- The product of the sine and the cosine of the reduced latitude is at most `(a / b) c`. -/
theorem bowring_beta_bound {a b s c D sβ cβ : ℝ} (hab : b ≤ a) (hb : 0 < b) (hc : 0 < c)
    (hs : |s| ≤ 1) (hbD : b ≤ D) (hsβ : sβ = b * s / D) (hcβ : cβ = a * c / D) :
    |sβ * cβ| ≤ a / b * c := by
  have ha : 0 < a := lt_of_lt_of_le hb hab
  have hD : 0 < D := lt_of_lt_of_le hb hbD
  have e : sβ * cβ = s * (a * c * (b / (D * D))) := by
    rw [hsβ, hcβ]
    field_simp
    ring
  have h1 : b / (D * D) ≤ 1 / b := by
    rw [div_le_div_iff₀ (mul_pos hD hD) hb]
    have := mul_le_mul hbD hbD hb.le hD.le
    linarith
  have h0 : 0 ≤ a * c * (b / (D * D)) :=
    mul_nonneg (mul_nonneg ha.le hc.le) (div_nonneg hb.le (mul_pos hD hD).le)
  rw [e, abs_mul, abs_of_nonneg h0]
  calc |s| * (a * c * (b / (D * D))) ≤ 1 * (a * c * (1 / b)) :=
        mul_le_mul hs (mul_le_mul_of_nonneg_left h1 (mul_nonneg ha.le hc.le)) h0 zero_le_one
    _ = a / b * c := by ring

/-- The defect of the single-pass formula is of third order in `c`: with `|σ| ≤ c τ` and
`|sβ cβ| ≤ (a / b) c` it is at most `c³ τ² (2 a / b + τ)`. -/
theorem bowring_defect_cube {F c τ q sc σ : ℝ} (hc : 0 ≤ c) (hq : 0 ≤ q)
    (hF : |F| ≤ 2 * sc * (σ * σ) + |σ| * (σ * σ)) (hσ : |σ| ≤ c * τ) (hsc : sc ≤ q * c)
    (hsc0 : 0 ≤ sc) :
    |F| ≤ τ * τ * (2 * q + τ) * (c * c * c) := by
  have hσ0 : 0 ≤ |σ| := abs_nonneg σ
  have hcτ : 0 ≤ c * τ := le_trans hσ0 hσ
  have hσσ : σ * σ ≤ c * τ * (c * τ) := by
    rw [← abs_mul_abs_self σ]
    exact mul_le_mul hσ hσ hσ0 hcτ
  have hσσ0 : 0 ≤ σ * σ := mul_self_nonneg σ
  have h1 : 2 * sc * (σ * σ) ≤ 2 * (q * c) * (c * τ * (c * τ)) :=
    mul_le_mul (by linarith) hσσ hσσ0 (by have := mul_nonneg hq hc; linarith)
  have h2 : |σ| * (σ * σ) ≤ c * τ * (c * τ * (c * τ)) :=
    mul_le_mul hσ hσσ hσσ0 hcτ
  calc |F| ≤ 2 * sc * (σ * σ) + |σ| * (σ * σ) := hF
    _ ≤ 2 * (q * c) * (c * τ * (c * τ)) + c * τ * (c * τ * (c * τ)) := add_le_add h1 h2
    _ = τ * τ * (2 * q + τ) * (c * c * c) := by ring

/-- The latitude `atan2` of the inverse kernel at the forward image of a point of latitude
`(s, c)` and altitude `0 ≤ h ≤ H`: the component of `(P, Z)` across the normal direction is
at most `(a² - b²) / b · τ² (2 a / b + τ) · c³` with `τ = (a² - b²) H / b³`, the component
along it is at least `b - (a² - b²) / a`, and `P` is positive. -/
theorem bowring_cross_bound {a b s c h H D p z R S C Zv Pv : ℝ} (hab : b ≤ a)
    (hb : 0 < b) (hh : 0 ≤ h) (hH : h ≤ H) (hc : 0 < c) (hsc : s * s + c * c = 1) (hD : 0 < D)
    (hDD : D * D = a * a * c * c + b * b * s * s) (hp : p = (a * a / D + h) * c)
    (hz : z = (b * b / (a * a) * (a * a / D) + h) * s) (hR : 0 < R)
    (hRR : R * R = p * b * (p * b) + z * a * (z * a)) (hS : S = z * a / R)
    (hC : C = p * b / R)
    (hZ : Zv = z + (a * a - b * b) / (b * b) * b * (S * S * S))
    (hP : Pv = p - (a * a - b * b) / (a * a) * a * (C * C * C))
    (hE : a * a - b * b < a * b) :
    |Zv * c - Pv * s| ≤ (a * a - b * b) / b
        * (((a * a - b * b) * H / (b * b * b)) * ((a * a - b * b) * H / (b * b * b))
          * (2 * (a / b) + (a * a - b * b) * H / (b * b * b))) * (c * c * c)
      ∧ b - (a * a - b * b) / a ≤ Zv * s + Pv * c ∧ 0 < Pv ∧ 0 < p := by
  have ha : 0 < a := lt_of_lt_of_le hb hab
  have hE0 : 0 ≤ a * a - b * b := by nlinarith
  obtain ⟨sβ, hsβ⟩ : ∃ sβ, sβ = b * s / D := ⟨_, rfl⟩
  obtain ⟨cβ, hcβ⟩ : ∃ cβ, cβ = a * c / D := ⟨_, rfl⟩
  obtain ⟨σ, hσ⟩ : ∃ σ, σ = S * cβ - C * sβ := ⟨_, rfl⟩
  obtain ⟨κ, hκ⟩ : ∃ κ, κ = S * sβ + C * cβ := ⟨_, rfl⟩
  obtain ⟨hbD, hDa, hppos, -, -, -⟩ :=
    bowring_forward_facts hab hb hh hc hsc hD hDD hp hz
  obtain ⟨-, -, hβ, hσ2, -, hunit, hκpos, hκ1, hRb, -⟩ :=
    bowring_theta_facts hab hb hh hc hsc hD hDD hp hz hR hRR hS hC hsβ hcβ hσ hκ
  obtain ⟨hcross, halong, hPpos⟩ :=
    bowring_ZP_facts hab hb hh hc hsc hD hDD hp hz hR hRR hS hC hsβ hcβ hσ hκ hZ hP hE
  have hs : |s| ≤ 1 := abs_le_one_of_unit hsc
  have hF := bowring_defect_bound hβ hσ hκ hunit hκpos.le hκ1
  have hσb := bowring_sigma_bound hb hh hH hc hs hE0 hbD hRb hσ2
  have hβb := bowring_beta_bound hab hb hc hs hbD hsβ hcβ
  have hF3 := bowring_defect_cube hc.le (div_nonneg ha.le hb.le) hF hσb hβb (abs_nonneg _)
  have hbh : b - (a * a - b * b) / a ≤ b + h - (a * a - b * b) / a := by linarith
  refine ⟨?_, le_trans hbh halong, hPpos, hppos⟩
  have hDab : 0 ≤ (a * a - b * b) * (D / (a * b)) :=
    mul_nonneg hE0 (div_nonneg hD.le (mul_pos ha hb).le)
  have hDab1 : (a * a - b * b) * (D / (a * b)) ≤ (a * a - b * b) / b := by
    have : D / (a * b) ≤ 1 / b := by
      rw [div_le_div_iff₀ (mul_pos ha hb) hb]
      have := mul_le_mul_of_nonneg_right hDa hb.le
      linarith
    calc (a * a - b * b) * (D / (a * b)) ≤ (a * a - b * b) * (1 / b) :=
          mul_le_mul_of_nonneg_left this hE0
      _ = (a * a - b * b) / b := by ring
  rw [hcross, abs_mul, abs_of_nonneg hDab]
  calc (a * a - b * b) * (D / (a * b)) * |cβ * (S * S * S) + sβ * (C * C * C) - sβ * cβ|
      ≤ (a * a - b * b) / b
        * (((a * a - b * b) * H / (b * b * b)) * ((a * a - b * b) * H / (b * b * b))
          * (2 * (a / b) + (a * a - b * b) * H / (b * b * b)) * (c * c * c)) :=
        mul_le_mul hDab1 hF3 (abs_nonneg _) (div_nonneg hE0 hb.le)
    _ = _ := by ring

/-- An angle in `(-π, π)` with non-negative cosine is at most `π/2` times its sine in
absolute value. -/
theorem abs_le_mul_abs_sin {δ : ℝ} (h1 : -π < δ) (h2 : δ < π) (hcos : 0 ≤ Real.cos δ) :
    |δ| ≤ π / 2 * |Real.sin δ| := by
  have hpi := Real.pi_pos
  have key : ∀ t : ℝ, 0 ≤ t → t < π → 0 ≤ Real.cos t → t ≤ π / 2 * Real.sin t := by
    intro t ht0 ht1 htc
    have ht2 : t ≤ π / 2 := by
      by_contra hcon
      push_neg at hcon
      have := Real.cos_neg_of_pi_div_two_lt_of_lt hcon (by linarith)
      linarith
    have h := Real.mul_le_sin ht0 ht2
    have e : t = π / 2 * (2 / π * t) := by
      field_simp
      ring
    calc t = π / 2 * (2 / π * t) := e
      _ ≤ π / 2 * Real.sin t := mul_le_mul_of_nonneg_left h (by positivity)
  rcases le_total 0 δ with h0 | h0
  · have hs : 0 ≤ Real.sin δ := Real.sin_nonneg_of_nonneg_of_le_pi h0 h2.le
    rw [abs_of_nonneg h0, abs_of_nonneg hs]
    exact key δ h0 h2 hcos
  · have h := key (-δ) (by linarith) (by linarith) (by rw [Real.cos_neg]; exact hcos)
    have hs : Real.sin δ ≤ 0 := Real.sin_nonpos_of_nonnpos_of_neg_pi_le h0 h1.le
    rw [abs_of_nonpos h0, abs_of_nonpos hs]
    rw [Real.sin_neg] at h
    exact h

/-- Two unit vectors `(s, c)` and `(s', c')` whose angle has non-negative cosine and a sine
of at most `K c³` in absolute value, `K ≤ 1/4`: the second components differ by at most
`2 K c³`, `c'` is at least `c / 2`, and the squares of the first components differ by at
most `4 K`. -/
theorem unit_shift_facts {s c s' c' K : ℝ} (hsc : s * s + c * c = 1)
    (hsc' : s' * s' + c' * c' = 1) (hc : 0 < c) (hcd : 0 ≤ c' * c + s' * s)
    (hsd : |s' * c - c' * s| ≤ K * (c * c * c)) (hK : K ≤ 1 / 4) :
    c / 2 ≤ c' ∧ |c - c'| ≤ 2 * K * (c * c * c) ∧ |s' * s' - s * s| ≤ 4 * K := by
  obtain ⟨sd, hsddef⟩ : ∃ sd, sd = s' * c - c' * s := ⟨_, rfl⟩
  obtain ⟨cd, hcddef⟩ : ∃ cd, cd = c' * c + s' * s := ⟨_, rfl⟩
  rw [← hsddef] at hsd
  rw [← hcddef] at hcd
  have hunit : sd * sd + cd * cd = 1 := by
    rw [hsddef, hcddef]
    linear_combination (s * s + c * c) * hsc' + hsc
  have hc1 : c ≤ 1 := by
    have := abs_le_one_of_unit (s := c) (c := s) (by linarith)
    exact (abs_le.1 this).2
  have hs1 : |s| ≤ 1 := abs_le_one_of_unit hsc
  have hs1' : |s'| ≤ 1 := abs_le_one_of_unit hsc'
  have hccc : c * c * c ≤ 1 := by
    have h1 : c * c ≤ 1 := by
      have := mul_le_mul hc1 hc1 hc.le zero_le_one
      linarith
    have := mul_le_mul h1 hc1 hc.le zero_le_one
    linarith
  have hccc0 : 0 < c * c * c := mul_pos (mul_pos hc hc) hc
  have hK0 : 0 ≤ K := by
    have h1 : 0 ≤ K * (c * c * c) := le_trans (abs_nonneg sd) hsd
    by_contra hcon
    push_neg at hcon
    have := mul_neg_of_neg_of_pos hcon hccc0
    linarith
  have hsd1 : |sd| ≤ K := by
    calc |sd| ≤ K * (c * c * c) := hsd
      _ ≤ K * 1 := mul_le_mul_of_nonneg_left hccc hK0
      _ = K := mul_one K
  have hsdq : |sd| ≤ 1 / 4 := le_trans hsd1 hK
  have hcd1 : cd ≤ 1 := by
    have := abs_le_one_of_unit (s := cd) (c := sd) (by linarith)
    exact (abs_le.1 this).2
  have hone : 1 - cd ≤ |sd| * |sd| := by
    rw [abs_mul_abs_self]
    have : cd * cd ≤ cd := by
      have := mul_le_mul_of_nonneg_left hcd1 hcd
      linarith
    linarith
  have hone0 : 0 ≤ 1 - cd := by linarith
  have hsq : |sd| * |sd| ≤ |sd| := by
    have := mul_le_mul_of_nonneg_left hsdq (abs_nonneg sd)
    have h0 := abs_nonneg sd
    linarith
  have ec : c - c' = c * (1 - cd) + s * sd := by
    rw [hsddef, hcddef]
    linear_combination c' * hsc
  have es : s' - s = -(s * (1 - cd)) + c * sd := by
    rw [hsddef, hcddef]
    linear_combination (-s') * hsc
  have hcc : |c - c'| ≤ 2 * |sd| := by
    rw [ec]
    calc |c * (1 - cd) + s * sd| ≤ |c * (1 - cd)| + |s * sd| := abs_add _ _
      _ = c * (1 - cd) + |s| * |sd| := by
          rw [abs_of_nonneg (mul_nonneg hc.le hone0), abs_mul]
      _ ≤ 1 * |sd| + 1 * |sd| := by
          apply add_le_add
          · exact mul_le_mul hc1 (le_trans hone hsq) hone0 zero_le_one
          · exact mul_le_mul_of_nonneg_right hs1 (abs_nonneg sd)
      _ = 2 * |sd| := by ring
  have hss : |s' - s| ≤ 2 * |sd| := by
    rw [es]
    calc |-(s * (1 - cd)) + c * sd| ≤ |-(s * (1 - cd))| + |c * sd| := abs_add _ _
      _ = |s| * (1 - cd) + c * |sd| := by
          rw [abs_neg, abs_mul, abs_mul, abs_of_nonneg hone0, abs_of_pos hc]
      _ ≤ 1 * |sd| + 1 * |sd| := by
          apply add_le_add
          · exact mul_le_mul hs1 (le_trans hone hsq) hone0 zero_le_one
          · exact mul_le_mul_of_nonneg_right hc1 (abs_nonneg sd)
      _ = 2 * |sd| := by ring
  have hcc2 : |c - c'| ≤ 2 * K * (c * c * c) := by
    calc |c - c'| ≤ 2 * |sd| := hcc
      _ ≤ 2 * (K * (c * c * c)) := by linarith
      _ = 2 * K * (c * c * c) := by ring
  refine ⟨?_, hcc2, ?_⟩
  · have h1 : c - c' ≤ 2 * K * (c * c * c) := le_trans (le_abs_self _) hcc2
    have h2 : 2 * K * (c * c * c) ≤ c / 2 := by
      have h3 : c * c * c ≤ c := by
        have h4 : c * c ≤ 1 := by
          have := mul_le_mul hc1 hc1 hc.le zero_le_one
          linarith
        have := mul_le_mul_of_nonneg_right h4 hc.le
        linarith
      have h5 : 2 * K * (c * c * c) ≤ 2 * (1 / 4) * c :=
        mul_le_mul (by linarith) h3 hccc0.le (by norm_num)
      linarith
    linarith
  · have e : s' * s' - s * s = (s' - s) * (s' + s) := by ring
    have h2 : |s' + s| ≤ 2 := by
      calc |s' + s| ≤ |s'| + |s| := abs_add _ _
        _ ≤ 2 := by linarith
    rw [e, abs_mul]
    calc |s' - s| * |s' + s| ≤ 2 * |sd| * 2 :=
          mul_le_mul hss h2 (abs_nonneg _) (by have := abs_nonneg sd; linarith)
      _ ≤ 4 * K := by linarith

/-- The quotient `p / c'` against `p / c` when `c'` is within `2 K c³` of `c` and at least
`c / 2`. -/
theorem inv_cos_shift {p c c' K : ℝ} (hp : 0 ≤ p) (hc : 0 < c) (hc' : c / 2 ≤ c')
    (hd : |c - c'| ≤ 2 * K * (c * c * c)) : |p / c' - p / c| ≤ 4 * K * (p * c) := by
  have hc'pos : 0 < c' := by linarith
  have e : p / c' - p / c = p * ((c - c') / (c * c')) := by
    field_simp
    ring
  have hden : c * (c / 2) ≤ c * c' := mul_le_mul_of_nonneg_left hc' hc.le
  have hden0 : 0 < c * (c / 2) := by positivity
  have hK : 0 ≤ 2 * K * (c * c * c) := le_trans (abs_nonneg _) hd
  have h1 : |c - c'| / (c * c') ≤ 2 * K * (c * c * c) / (c * (c / 2)) :=
    div_le_div₀ hK hd hden0 hden
  have e2 : 2 * K * (c * c * c) / (c * (c / 2)) = 4 * K * c := by
    field_simp
    ring
  rw [e, abs_mul, abs_of_nonneg hp, abs_div, abs_of_pos (mul_pos hc hc'pos)]
  calc p * (|c - c'| / (c * c')) ≤ p * (4 * K * c) := by
        rw [← e2]
        exact mul_le_mul_of_nonneg_left h1 hp
    _ = 4 * K * (p * c) := by ring

/-- The quotient `a / sqrt w'` against `a / sqrt w` when both radicands are at least `m²`. -/
theorem inv_sqrt_shift {a m w w' d : ℝ} (ha : 0 ≤ a) (hm : 0 < m) (hw : m * m ≤ w)
    (hw' : m * m ≤ w') (hd : |w - w'| ≤ d) :
    |a / √w' - a / √w| ≤ a * d / (2 * (m * m * m)) := by
  have hmm : 0 < m * m := mul_pos hm hm
  have hwpos : 0 < w := lt_of_lt_of_le hmm hw
  have hwpos' : 0 < w' := lt_of_lt_of_le hmm hw'
  have hr : m ≤ √w := Real.le_sqrt_of_sq_le (by rw [sq]; exact hw)
  have hr' : m ≤ √w' := Real.le_sqrt_of_sq_le (by rw [sq]; exact hw')
  have hrpos : 0 < √w := lt_of_lt_of_le hm hr
  have hrpos' : 0 < √w' := lt_of_lt_of_le hm hr'
  have hsum : 2 * m ≤ √w + √w' := by linarith
  have hdiff : (√w - √w') * (√w + √w') = w - w' := by
    have h1 := Real.mul_self_sqrt hwpos.le
    have h2 := Real.mul_self_sqrt hwpos'.le
    linear_combination h1 - h2
  have hden : 2 * (m * m * m) ≤ √w' * √w * (√w + √w') := by
    have h1 : m * m ≤ √w' * √w := mul_le_mul hr' hr hm.le hrpos'.le
    have h2 := mul_le_mul h1 hsum (by linarith) (mul_pos hrpos' hrpos).le
    linarith
  have hden0 : 0 < 2 * (m * m * m) := by positivity
  have e : a / √w' - a / √w = a * ((w - w') / (√w' * √w * (√w + √w'))) := by
    rw [← hdiff]
    field_simp
    ring
  have hd0 : 0 ≤ d := le_trans (abs_nonneg _) hd
  rw [e, abs_mul, abs_of_nonneg ha, abs_div,
    abs_of_pos (lt_of_lt_of_le hden0 hden), mul_div_assoc]
  exact mul_le_mul_of_nonneg_left (div_le_div₀ hd0 hd hden0 hden) ha

/-- The direction `(s', c') = (Z, P) / |(Z, P)|` against the unit vector `(s, c)`, when the
component of `(P, Z)` across `(s, c)` is at most `M c³` and the component along it is at
least `m > 0`, with `M ≤ K m`: both are unit vectors, the sine of their angle is at most
`K c³` and its cosine is non-negative. -/
theorem bowring_direction {s c Zv Pv r s' c' M m K : ℝ} (hsc : s * s + c * c = 1)
    (hc : 0 < c) (hcross : |Zv * c - Pv * s| ≤ M * (c * c * c)) (halong : m ≤ Zv * s + Pv * c)
    (hm : 0 < m) (hMK : M ≤ K * m) (hr : √(Pv * Pv + Zv * Zv) = r) (hs' : s' = Zv / r)
    (hc' : c' = Pv / r) :
    s' * s' + c' * c' = 1 ∧ 0 ≤ c' * c + s' * s ∧ |s' * c - c' * s| ≤ K * (c * c * c) := by
  have hccc : 0 < c * c * c := mul_pos (mul_pos hc hc) hc
  have hsq : (Zv * s + Pv * c) ^ 2 ≤ Pv * Pv + Zv * Zv := by
    have h1 : Pv * Pv + Zv * Zv = (Zv * s + Pv * c) ^ 2 + (Zv * c - Pv * s) ^ 2 := by
      linear_combination (-(Pv * Pv + Zv * Zv)) * hsc
    have h2 := sq_nonneg (Zv * c - Pv * s)
    linarith
  have hle : Zv * s + Pv * c ≤ r := by
    rw [← hr]
    exact Real.le_sqrt_of_sq_le hsq
  have hmr : m ≤ r := le_trans halong hle
  have hrpos : 0 < r := lt_of_lt_of_le hm hmr
  have hrr : r * r = Pv * Pv + Zv * Zv := by
    rw [← hr]
    exact Real.mul_self_sqrt (add_nonneg (mul_self_nonneg _) (mul_self_nonneg _))
  have hM0 : 0 ≤ M := by
    have h1 : 0 ≤ M * (c * c * c) := le_trans (abs_nonneg _) hcross
    by_contra hcon
    push_neg at hcon
    have := mul_neg_of_neg_of_pos hcon hccc
    linarith
  have hK0 : 0 ≤ K := by
    by_contra hcon
    push_neg at hcon
    have := mul_neg_of_neg_of_pos hcon hm
    linarith
  refine ⟨?_, ?_, ?_⟩
  · rw [hs', hc']
    field_simp
    rw [hrr]
    ring
  · have e : c' * c + s' * s = (Zv * s + Pv * c) / r := by
      rw [hs', hc']
      field_simp
      ring
    rw [e]
    exact div_nonneg (le_trans hm.le halong) hrpos.le
  · have e : s' * c - c' * s = (Zv * c - Pv * s) / r := by
      rw [hs', hc']
      field_simp
    rw [e, abs_div, abs_of_pos hrpos, div_le_iff₀ hrpos]
    calc |Zv * c - Pv * s| ≤ M * (c * c * c) := hcross
      _ ≤ K * m * (c * c * c) := mul_le_mul_of_nonneg_right hMK hccc.le
      _ ≤ K * r * (c * c * c) :=
          mul_le_mul_of_nonneg_right (mul_le_mul_of_nonneg_left hmr hK0) hccc.le
      _ = K * (c * c * c) * r := by ring

/-- The altitude recomputed by the inverse kernel from a direction `(s', c')` close to the
true one `(s, c)`: it is within `K (4 (a² / b + H) + 2 a² (a² - b²) / b³)` of `h`. -/
theorem bowring_altitude_shift {a b s c h H D p s' c' K : ℝ} (hab : b ≤ a) (hb : 0 < b)
    (hh : 0 ≤ h) (hH : h ≤ H) (hc : 0 < c) (hsc : s * s + c * c = 1) (hD : 0 < D)
    (hDD : D * D = a * a * c * c + b * b * s * s) (hbD : b ≤ D)
    (hp : p = (a * a / D + h) * c) (hsc' : s' * s' + c' * c' = 1)
    (hcd : 0 ≤ c' * c + s' * s) (hsd : |s' * c - c' * s| ≤ K * (c * c * c))
    (hK : K ≤ 1 / 4) :
    |p / c' - a / √(1 - (a * a - b * b) / (a * a) * s' * s') - h|
      ≤ K * (4 * (a * a / b + H) + 2 * (a * a) * (a * a - b * b) / (b * b * b)) := by
  have ha : 0 < a := lt_of_lt_of_le hb hab
  have hE0 : 0 ≤ a * a - b * b := by nlinarith
  have he2 : 0 ≤ (a * a - b * b) / (a * a) := div_nonneg hE0 (mul_pos ha ha).le
  obtain ⟨hc2, hcc, hss⟩ := unit_shift_facts hsc hsc' hc hcd hsd hK
  have hK0 : 0 ≤ K := by
    have := le_trans (abs_nonneg _) hss
    linarith
  have hN : 0 < a * a / D := div_pos (mul_pos ha ha) hD
  have hppos : 0 ≤ p := by
    rw [hp]
    exact mul_nonneg (by linarith) hc.le
  have h1 := inv_cos_shift hppos hc hc2 hcc
  have hc1 : c * c ≤ 1 := by
    have := mul_self_nonneg s
    linarith
  have hpc : p * c ≤ a * a / b + H := by
    have hNb : a * a / D ≤ a * a / b :=
      div_le_div_of_nonneg_left (mul_pos ha ha).le hb hbD
    have e : p * c = (a * a / D + h) * (c * c) := by rw [hp]; ring
    rw [e]
    calc (a * a / D + h) * (c * c) ≤ (a * a / b + H) * 1 :=
          mul_le_mul (by linarith) hc1 (mul_self_nonneg c) (by
            have : 0 < a * a / b := div_pos (mul_pos ha ha) hb
            linarith)
      _ = a * a / b + H := mul_one _
  have hunitle : ∀ t u : ℝ, t * t + u * u = 1 →
      b / a * (b / a) ≤ 1 - (a * a - b * b) / (a * a) * t * t := by
    intro t u htu
    have ht1 : t * t ≤ 1 := by
      have := mul_self_nonneg u
      linarith
    have e : 1 - (a * a - b * b) / (a * a) * t * t
        = b / a * (b / a) + (a * a - b * b) / (a * a) * (1 - t * t) := by
      field_simp
      ring
    rw [e]
    have := mul_nonneg he2 (sub_nonneg.2 ht1)
    linarith
  have hw := hunitle s c hsc
  have hw' := hunitle s' c' hsc'
  have hd : |(1 - (a * a - b * b) / (a * a) * s * s)
      - (1 - (a * a - b * b) / (a * a) * s' * s')| ≤ (a * a - b * b) / (a * a) * (4 * K) := by
    have e : (1 - (a * a - b * b) / (a * a) * s * s)
        - (1 - (a * a - b * b) / (a * a) * s' * s')
        = (a * a - b * b) / (a * a) * (s' * s' - s * s) := by ring
    rw [e, abs_mul, abs_of_nonneg he2]
    exact mul_le_mul_of_nonneg_left hss he2
  have h2 := inv_sqrt_shift ha.le (div_pos hb ha) hw hw' hd
  have e2 : a * ((a * a - b * b) / (a * a) * (4 * K)) / (2 * (b / a * (b / a) * (b / a)))
      = K * (2 * (a * a) * (a * a - b * b) / (b * b * b)) := by
    field_simp
    ring
  rw [e2] at h2
  have hrad := bowring_radius (b := b) ha hD hDD hsc
  have hpc0 : p / c = a * a / D + h := by
    rw [hp]
    field_simp
    ring
  have e3 : p / c' - a / √(1 - (a * a - b * b) / (a * a) * s' * s') - h
      = (p / c' - p / c) - (a / √(1 - (a * a - b * b) / (a * a) * s' * s')
        - a / √(1 - (a * a - b * b) / (a * a) * s * s)) := by
    rw [hrad, hpc0]
    ring
  rw [e3]
  calc |(p / c' - p / c) - (a / √(1 - (a * a - b * b) / (a * a) * s' * s')
        - a / √(1 - (a * a - b * b) / (a * a) * s * s))|
      ≤ |p / c' - p / c| + |a / √(1 - (a * a - b * b) / (a * a) * s' * s')
        - a / √(1 - (a * a - b * b) / (a * a) * s * s)| := abs_sub _ _
    _ ≤ 4 * K * (p * c) + K * (2 * (a * a) * (a * a - b * b) / (b * b * b)) :=
        add_le_add h1 h2
    _ ≤ 4 * K * (a * a / b + H) + K * (2 * (a * a) * (a * a - b * b) / (b * b * b)) := by
        have := mul_le_mul_of_nonneg_left hpc (by linarith : 0 ≤ 4 * K)
        linarith
    _ = K * (4 * (a * a / b + H) + 2 * (a * a) * (a * a - b * b) / (b * b * b)) := by ring

/-- The latitude and the altitude that the inverse kernel computes at the forward image of a
point of latitude `lat` in `(-π/2, π/2)` and altitude `0 ≤ h ≤ H`, for an ellipsoid with
`a² - b² < a b`: with `τ = (a² - b²) H / b³` and any `K ≤ 1/4` such that
`(a² - b²) / b · τ² (2 a / b + τ) ≤ K (b - (a² - b²) / a)`, the latitude is within `π/2 · K`
of `lat` and the altitude within `K (4 (a² / b + H) + 2 a² (a² - b²) / b³)` of `h`. -/
theorem bowring_roundtrip_scalars {a b lat h H K D p z θ lat' : ℝ} (hab : b ≤ a) (hb : 0 < b)
    (hh : 0 ≤ h) (hH : h ≤ H) (hE : a * a - b * b < a * b) (hlat1 : -(π / 2) < lat)
    (hlat2 : lat < π / 2)
    (hMK : (a * a - b * b) / b
        * (((a * a - b * b) * H / (b * b * b)) * ((a * a - b * b) * H / (b * b * b))
          * (2 * (a / b) + (a * a - b * b) * H / (b * b * b)))
      ≤ K * (b - (a * a - b * b) / a))
    (hK : K ≤ 1 / 4)
    (hD : √(a * a * Real.cos lat * Real.cos lat + b * b * Real.sin lat * Real.sin lat) = D)
    (hp : p = (a * a / D + h) * Real.cos lat)
    (hz : z = (b * b / (a * a) * (a * a / D) + h) * Real.sin lat)
    (hθ : atan2 (z * a) (p * b) = θ)
    (hlat' : atan2
        (z + (a * a - b * b) / (b * b) * b * (Real.sin θ * Real.sin θ * Real.sin θ))
        (p - (a * a - b * b) / (a * a) * a * (Real.cos θ * Real.cos θ * Real.cos θ))
      = lat') :
    |lat' - lat| ≤ π / 2 * K
      ∧ |p / Real.cos lat' - a / √(1 - (a * a - b * b) / (a * a) * Real.sin lat'
          * Real.sin lat') - h|
        ≤ K * (4 * (a * a / b + H) + 2 * (a * a) * (a * a - b * b) / (b * b * b)) := by
  have ha : 0 < a := lt_of_lt_of_le hb hab
  have hc : 0 < Real.cos lat := Real.cos_pos_of_mem_Ioo ⟨hlat1, hlat2⟩
  have hsc := sin_mul_self_add_cos_mul_self lat
  obtain ⟨D', hD', hDpos, hDD⟩ := ellipsoid_radicand (b := b) ha hlat1 hlat2
  have hDeq : D' = D := by rw [← hD', hD]
  subst hDeq
  obtain ⟨s, hs⟩ : ∃ s, Real.sin lat = s := ⟨_, rfl⟩
  obtain ⟨c, hcdef⟩ : ∃ c, Real.cos lat = c := ⟨_, rfl⟩
  rw [hs] at hsc hDD hz
  rw [hcdef] at hsc hDD hp hc
  have hbD : b ≤ D' := (bowring_forward_facts hab hb hh hc hsc hDpos hDD hp hz).1
  have hppos : 0 < p := (bowring_forward_facts hab hb hh hc hsc hDpos hDD hp hz).2.2.1
  have hRpos : 0 < p * b * (p * b) + z * a * (z * a) := by
    have h1 : 0 < p * b * (p * b) := mul_pos (mul_pos hppos hb) (mul_pos hppos hb)
    have h2 := mul_self_nonneg (z * a)
    linarith
  obtain ⟨R, hR⟩ : ∃ R, √(p * b * (p * b) + z * a * (z * a)) = R := ⟨_, rfl⟩
  have hRR : R * R = p * b * (p * b) + z * a * (z * a) := by
    rw [← hR]
    exact Real.mul_self_sqrt hRpos.le
  have hR0 : 0 < R := by
    rw [← hR]
    exact Real.sqrt_pos.2 hRpos
  have hS : Real.sin θ = z * a / R := by rw [← hθ, sin_atan2, hR]
  have hC : Real.cos θ = p * b / R := by rw [← hθ, cos_atan2 hRpos, hR]
  obtain ⟨Zv, hZ⟩ : ∃ Zv, Zv = z + (a * a - b * b) / (b * b) * b
      * (Real.sin θ * Real.sin θ * Real.sin θ) := ⟨_, rfl⟩
  obtain ⟨Pv, hP⟩ : ∃ Pv, Pv = p - (a * a - b * b) / (a * a) * a
      * (Real.cos θ * Real.cos θ * Real.cos θ) := ⟨_, rfl⟩
  rw [← hZ, ← hP] at hlat'
  obtain ⟨hcross, halong, hPpos, -⟩ :=
    bowring_cross_bound hab hb hh hH hc hsc hDpos hDD hp hz hR0 hRR hS hC hZ hP hE
  have hm : 0 < b - (a * a - b * b) / a := by
    have : (a * a - b * b) / a < b := by
      rw [div_lt_iff₀ ha]
      linarith
    linarith
  have hrpos : 0 < Pv * Pv + Zv * Zv := by
    have h1 := mul_pos hPpos hPpos
    have h2 := mul_self_nonneg Zv
    linarith
  obtain ⟨r, hr⟩ : ∃ r, √(Pv * Pv + Zv * Zv) = r := ⟨_, rfl⟩
  have hs' : Real.sin lat' = Zv / r := by rw [← hlat', sin_atan2, hr]
  have hc' : Real.cos lat' = Pv / r := by rw [← hlat', cos_atan2 hrpos, hr]
  obtain ⟨hunit', hcd, hsd⟩ := bowring_direction hsc hc hcross halong hm hMK hr hs' hc'
  have hl1 : -(π / 2) < lat' := by rw [← hlat']; exact neg_pi_div_two_lt_atan2 hPpos
  have hl2 : lat' < π / 2 := by rw [← hlat']; exact atan2_lt_pi_div_two hPpos
  constructor
  · have hsin : Real.sin (lat' - lat) = Real.sin lat' * c - Real.cos lat' * s := by
      rw [Real.sin_sub, hs, hcdef]
    have hcos : Real.cos (lat' - lat) = Real.cos lat' * c + Real.sin lat' * s := by
      rw [Real.cos_sub, hs, hcdef]
    have h1 := abs_le_mul_abs_sin (δ := lat' - lat) (by linarith) (by linarith)
      (by rw [hcos]; exact hcd)
    rw [hsin] at h1
    have hc1 : c * c * c ≤ 1 := by
      have h2 : c * c ≤ 1 := by
        have := mul_self_nonneg s
        linarith
      have h3 : c ≤ 1 := by
        have := abs_le_one_of_unit (s := c) (c := s) (by linarith)
        exact (abs_le.1 this).2
      have := mul_le_mul h2 h3 hc.le zero_le_one
      linarith
    have hK0 : 0 ≤ K := by
      have h2 : 0 ≤ K * (c * c * c) := le_trans (abs_nonneg _) hsd
      by_contra hcon
      push_neg at hcon
      have := mul_neg_of_neg_of_pos hcon (mul_pos (mul_pos hc hc) hc)
      linarith
    calc |lat' - lat| ≤ π / 2 * |Real.sin lat' * c - Real.cos lat' * s| := h1
      _ ≤ π / 2 * (K * (c * c * c)) :=
          mul_le_mul_of_nonneg_left hsd (by positivity)
      _ ≤ π / 2 * (K * 1) :=
          mul_le_mul_of_nonneg_left (mul_le_mul_of_nonneg_left hc1 hK0) (by positivity)
      _ = π / 2 * K := by rw [mul_one]
  · exact bowring_altitude_shift hab hb hh hH hc hsc hDpos hDD hbD hp hunit' hcd hsd hK

/-- The ellipsoid round trip above the surface in exact real arithmetic: for `a ≥ b > 0`
with `a² - b² < a b`, longitude in `(-π, π]`, latitude in `(-π/2, π/2)` and `0 ≤ h ≤ H`,
the latitude returned is within `π/2 · K` of the input and the altitude within
`K (4 (a² / b + H) + 2 a² (a² - b²) / b³)`, for every `K ≤ 1/4` with
`(a² - b²) / b · τ² (2 a / b + τ) ≤ K (b - (a² - b²) / a)`, `τ = (a² - b²) H / b³`. -/
theorem ellipsoid_roundtrip_bound (a b lon lat h H K : ℝ) (hab : b ≤ a) (hb : 0 < b)
    (hh : 0 ≤ h) (hH : h ≤ H) (hE : a * a - b * b < a * b)
    (hlon1 : -π < lon) (hlon2 : lon ≤ π) (hlat1 : -(π / 2) < lat) (hlat2 : lat < π / 2)
    (hMK : (a * a - b * b) / b
        * (((a * a - b * b) * H / (b * b * b)) * ((a * a - b * b) * H / (b * b * b))
          * (2 * (a / b) + (a * a - b * b) * H / (b * b * b)))
      ≤ K * (b - (a * a - b * b) / a))
    (hK : K ≤ 1 / 4) :
    |Ellipsoid.ecefToGeodInPlace (Ellipsoid.geodToECEFInPlace ![lon, lat, h] ⟨a, b⟩) ⟨a, b⟩ 1
        - lat| ≤ π / 2 * K
      ∧ |Ellipsoid.ecefToGeodInPlace (Ellipsoid.geodToECEFInPlace ![lon, lat, h] ⟨a, b⟩)
          ⟨a, b⟩ 2 - h|
        ≤ K * (4 * (a * a / b + H) + 2 * (a * a) * (a * a - b * b) / (b * b * b)) := by
  have ha : 0 < a := lt_of_lt_of_le hb hab
  have hc : 0 < Real.cos lat := Real.cos_pos_of_mem_Ioo ⟨hlat1, hlat2⟩
  obtain ⟨D, hD, hDpos, -⟩ := ellipsoid_radicand (b := b) ha hlat1 hlat2
  have hk : 0 < (a * a / D + h) * Real.cos lat := by positivity
  obtain ⟨lat', hlat'⟩ : ∃ lat', atan2
      ((b * b / (a * a) * (a * a / D) + h) * Real.sin lat + (a * a - b * b) / (b * b) * b
        * (Real.sin (atan2 ((b * b / (a * a) * (a * a / D) + h) * Real.sin lat * a)
            ((a * a / D + h) * Real.cos lat * b))
          * Real.sin (atan2 ((b * b / (a * a) * (a * a / D) + h) * Real.sin lat * a)
            ((a * a / D + h) * Real.cos lat * b))
          * Real.sin (atan2 ((b * b / (a * a) * (a * a / D) + h) * Real.sin lat * a)
            ((a * a / D + h) * Real.cos lat * b))))
      ((a * a / D + h) * Real.cos lat - (a * a - b * b) / (a * a) * a
        * (Real.cos (atan2 ((b * b / (a * a) * (a * a / D) + h) * Real.sin lat * a)
            ((a * a / D + h) * Real.cos lat * b))
          * Real.cos (atan2 ((b * b / (a * a) * (a * a / D) + h) * Real.sin lat * a)
            ((a * a / D + h) * Real.cos lat * b))
          * Real.cos (atan2 ((b * b / (a * a) * (a * a / D) + h) * Real.sin lat * a)
            ((a * a / D + h) * Real.cos lat * b)))) = lat' := ⟨_, rfl⟩
  have key := bowring_roundtrip_scalars hab hb hh hH hE hlat1 hlat2 hMK hK hD rfl rfl rfl hlat'
  rw [ellipsoid_geodToECEFInPlace_eq hD,
    ellipsoid_ecefToGeodInPlace_polar a b _ lon _ lat' _ _ hk hlon1 hlon2 (e2_eq hab hb)
      (ep2_eq hab hb) hlat']
  exact key

end BowringError

/-! ## Loops and buffers -/

section Batch

variable {T : Type}

/-- Two loops whose bodies agree below `numCoords` agree. -/
theorem forLoop_congr {S : Type} (n : Nat) (body body' : Nat → S → Option S)
    (h : ∀ i s, i < n → body i s = body' i s) :
    ∀ (m i : Nat) (s : S), n - i = m → forLoop n body i s = forLoop n body' i s := by
  intro m
  induction m with
  | zero =>
    intro i s hm
    have hin : ¬ i < n := by omega
    rw [forLoop, forLoop]
    simp [hin]
  | succ m ih =>
    intro i s hm
    have hlt : i < n := by omega
    rw [forLoop, forLoop]
    simp only [hlt, if_true, h i s hlt]
    cases body' i s with
    | none => rfl
    | some s' => exact ih (i + 1) s' (by omega)

/-- A loop whose body preserves an invariant while the counter is below `numCoords` runs to
completion and ends with the invariant at `numCoords`. -/
theorem forLoop_invariant {S : Type} (n : Nat) (body : Nat → S → Option S)
    (Inv : Nat → S → Prop)
    (hstep : ∀ i s, i < n → Inv i s → ∃ s', body i s = some s' ∧ Inv (i + 1) s') :
    ∀ (m i : Nat) (s : S), n - i = m → i ≤ n → Inv i s →
      ∃ s', forLoop n body i s = some s' ∧ Inv n s' := by
  intro m
  induction m with
  | zero =>
    intro i s hm hi hinv
    have hin : i = n := by omega
    subst hin
    refine ⟨s, ?_, hinv⟩
    rw [forLoop]
    simp
  | succ m ih =>
    intro i s hm hi hinv
    have hlt : i < n := by omega
    obtain ⟨s', hb, hinv'⟩ := hstep i s hlt hinv
    obtain ⟨s'', hrun, hfin⟩ := ih (i + 1) s' (by omega) (by omega) hinv'
    refine ⟨s'', ?_, hfin⟩
    rw [forLoop]
    simp [hlt, hb, hrun]

/-- A store inside the buffer succeeds, keeps the size and changes only entry `i`. -/
theorem store_spec {α : Type} (a : Array α) (i : Nat) (v : α) (h : i < a.size) :
    ∃ a', store a i v = some a' ∧ a'.size = a.size
      ∧ ∀ j, a'[j]? = if j = i then some v else a[j]? := by
  refine ⟨a.set ⟨i, h⟩ v, by simp [store, h], by simp, ?_⟩
  intro j
  rw [Array.get?_set]
  by_cases hji : j = i
  · subst hji; simp
  · have : ¬ i = j := fun e => hji e.symm
    simp [hji, this]

/-- A component store inside the buffer succeeds, keeps the size and changes only row `i`. -/
theorem storeAt_spec (buf : Array (Coord T)) (i : Nat) (k : Fin 3) (v : T) (row : Coord T)
    (hrow : buf[i]? = some row) :
    ∃ buf', storeAt buf i k v = some buf' ∧ buf'.size = buf.size
      ∧ ∀ j, buf'[j]? = if j = i then some (Function.update row k v) else buf[j]? := by
  obtain ⟨h, hget⟩ := Array.getElem?_eq_some_iff.1 hrow
  refine ⟨buf.set ⟨i, h⟩ (Function.update (buf.get ⟨i, h⟩) k v), by simp [storeAt, h], by simp,
    ?_⟩
  intro j
  rw [Array.get?_set]
  by_cases hji : j = i
  · subst hji
    have : buf.get ⟨j, h⟩ = row := hget
    simp [this, hget]
  · have : ¬ i = j := fun e => hji e.symm
    simp [hji, this]

/-- Three component stores into row `i` overwrite the whole row. -/
theorem storeAt_row (buf : Array (Coord T)) (i : Nat) (v : Coord T) (hi : i < buf.size) :
    ∃ buf', ((storeAt buf i 0 (v 0)).bind fun b1 => (storeAt b1 i 1 (v 1)).bind fun b2 =>
        storeAt b2 i 2 (v 2)) = some buf'
      ∧ buf'.size = buf.size ∧ ∀ j, buf'[j]? = if j = i then some v else buf[j]? := by
  obtain ⟨b1, h1, s1, g1⟩ := storeAt_spec buf i 0 (v 0) buf[i] (Array.getElem?_eq_getElem hi)
  obtain ⟨b2, h2, s2, g2⟩ := storeAt_spec b1 i 1 (v 1) _ (by rw [g1 i, if_pos rfl])
  obtain ⟨b3, h3, s3, g3⟩ := storeAt_spec b2 i 2 (v 2) _ (by rw [g2 i, if_pos rfl])
  refine ⟨b3, by simp [h1, h2, h3], by omega, ?_⟩
  intro j
  rw [g3 j]
  by_cases hji : j = i
  · rw [if_pos hji, if_pos hji]
    congr 1
    funext k
    fin_cases k <;> simp [Function.update]
  · rw [if_neg hji, if_neg hji, g2 j, if_neg hji, g1 j, if_neg hji]

/-- Three field stores at index `i` of an SoA buffer. -/
theorem storeXYZ (dst : CoordSoA T) (i : Nat) (u v w : T) (hx : i < dst.x.size)
    (hy : i < dst.y.size) (hz : i < dst.z.size) :
    ∃ dst', ((dst.storeX i u).bind fun d1 => (d1.storeY i v).bind fun d2 => d2.storeZ i w)
        = some dst'
      ∧ dst'.x.size = dst.x.size ∧ dst'.y.size = dst.y.size ∧ dst'.z.size = dst.z.size
      ∧ (∀ j, dst'.x[j]? = if j = i then some u else dst.x[j]?)
      ∧ (∀ j, dst'.y[j]? = if j = i then some v else dst.y[j]?)
      ∧ (∀ j, dst'.z[j]? = if j = i then some w else dst.z[j]?) := by
  obtain ⟨x', h1, s1, g1⟩ := store_spec dst.x i u hx
  obtain ⟨y', h2, s2, g2⟩ := store_spec dst.y i v hy
  obtain ⟨z', h3, s3, g3⟩ := store_spec dst.z i w hz
  refine ⟨⟨x', y', z'⟩, ?_, s1, s2, s3, g1, g2, g3⟩
  simp [CoordSoA.storeX, CoordSoA.storeY, CoordSoA.storeZ, h1, h2, h3]

/-- An SoA batch loop whose body writes `k i` at index `i` completes; afterwards the first
`n` entries hold the values `k` and the rest of the destination is as before. -/
theorem soa_loop (n : Nat) (body : Nat → CoordSoA T → Option (CoordSoA T)) (k : Nat → Coord T)
    (hbody : ∀ i dst, i < n → body i dst
      = (dst.storeX i (k i 0)).bind fun d1 => (d1.storeY i (k i 1)).bind fun d2 =>
          d2.storeZ i (k i 2))
    (dst : CoordSoA T) (hx : n ≤ dst.x.size) (hy : n ≤ dst.y.size) (hz : n ≤ dst.z.size) :
    ∃ out, forLoop n body 0 dst = some out
      ∧ out.x.size = dst.x.size ∧ out.y.size = dst.y.size ∧ out.z.size = dst.z.size
      ∧ (∀ j, out.x[j]? = if j < n then some (k j 0) else dst.x[j]?)
      ∧ (∀ j, out.y[j]? = if j < n then some (k j 1) else dst.y[j]?)
      ∧ (∀ j, out.z[j]? = if j < n then some (k j 2) else dst.z[j]?) := by
  have key := forLoop_invariant n body
    (fun i d => d.x.size = dst.x.size ∧ d.y.size = dst.y.size ∧ d.z.size = dst.z.size
      ∧ (∀ j, d.x[j]? = if j < i then some (k j 0) else dst.x[j]?)
      ∧ (∀ j, d.y[j]? = if j < i then some (k j 1) else dst.y[j]?)
      ∧ (∀ j, d.z[j]? = if j < i then some (k j 2) else dst.z[j]?))
    (by
      rintro i d hi ⟨sx, sy, sz, gx, gy, gz⟩
      obtain ⟨d', hd, sx', sy', sz', gx', gy', gz'⟩ :=
        storeXYZ d i (k i 0) (k i 1) (k i 2) (by omega) (by omega) (by omega)
      refine ⟨d', by rw [hbody i d hi, hd], by omega, by omega, by omega, ?_, ?_, ?_⟩
      · intro j
        rw [gx' j, gx j]
        by_cases h1 : j = i
        · subst h1; simp
        · by_cases h2 : j < i
          · have : j < i + 1 := by omega
            simp [h1, h2, this]
          · have : ¬ j < i + 1 := by omega
            simp [h1, h2, this]
      · intro j
        rw [gy' j, gy j]
        by_cases h1 : j = i
        · subst h1; simp
        · by_cases h2 : j < i
          · have : j < i + 1 := by omega
            simp [h1, h2, this]
          · have : ¬ j < i + 1 := by omega
            simp [h1, h2, this]
      · intro j
        rw [gz' j, gz j]
        by_cases h1 : j = i
        · subst h1; simp
        · by_cases h2 : j < i
          · have : j < i + 1 := by omega
            simp [h1, h2, this]
          · have : ¬ j < i + 1 := by omega
            simp [h1, h2, this])
    n 0 dst (by omega) (by omega) ⟨rfl, rfl, rfl, by simp, by simp, by simp⟩
  exact key

/-- An AoS batch loop whose body writes the row `k i` at index `i` completes; afterwards the
first `n` rows are the rows `k` and the rest of the destination is as before. -/
theorem aos_loop (n : Nat) (body : Nat → Array (Coord T) → Option (Array (Coord T)))
    (k : Nat → Coord T)
    (hbody : ∀ i dst, i < n → body i dst
      = (storeAt dst i 0 (k i 0)).bind fun b1 => (storeAt b1 i 1 (k i 1)).bind fun b2 =>
          storeAt b2 i 2 (k i 2))
    (dst : Array (Coord T)) (hn : n ≤ dst.size) :
    ∃ out, forLoop n body 0 dst = some out ∧ out.size = dst.size
      ∧ ∀ j, out[j]? = if j < n then some (k j) else dst[j]? := by
  have key := forLoop_invariant n body
    (fun i d => d.size = dst.size ∧ ∀ j, d[j]? = if j < i then some (k j) else dst[j]?)
    (by
      rintro i d hi ⟨sd, gd⟩
      obtain ⟨d', hd, sd', gd'⟩ := storeAt_row d i (k i) (by omega)
      refine ⟨d', by rw [hbody i d hi, hd], by omega, ?_⟩
      intro j
      rw [gd' j, gd j]
      by_cases h1 : j = i
      · subst h1; simp
      · by_cases h2 : j < i
        · have : j < i + 1 := by omega
          simp [h1, h2, this]
        · have : ¬ j < i + 1 := by omega
          simp [h1, h2, this])
    n 0 dst (by omega) (by omega) ⟨rfl, by simp⟩
  exact key

end Batch

/-! ## Batch drivers against the scalar kernels -/

section Sphere_geodToECEF

variable {T : Type} [Add T] [Mul T] [Scalar T]

/-- What an out-of-place sphere `geodToECEF` leaves in the destination does not depend on what
the destination held before. -/
theorem sphere_geodToECEF_fst (d d' p : Coord T) (sphere : Sphere T) :
    (Sphere.geodToECEF d p sphere).1 = (Sphere.geodToECEF d' p sphere).1 := by
  funext k
  fin_cases k <;> rfl

/-- Completion and output of the sphere `geodToECEFSoA` loop: entry `j < n` of each destination
array holds the matching component of the scalar kernel on source element `j`, the rest of
the destination and the source are untouched. -/
theorem sphere_geodToECEFSoA_spec (dst src : CoordSoA T) (n : Nat) (sphere : Sphere T)
    (pts : Nat → Coord T)
    (hsrc : ∀ i, i < n → src.x[i]? = some (pts i 0) ∧ src.y[i]? = some (pts i 1)
      ∧ src.z[i]? = some (pts i 2))
    (hx : n ≤ dst.x.size) (hy : n ≤ dst.y.size) (hz : n ≤ dst.z.size) :
    ∃ out, Sphere.geodToECEFSoA dst src n sphere = some (out, src)
      ∧ out.x.size = dst.x.size ∧ out.y.size = dst.y.size ∧ out.z.size = dst.z.size
      ∧ (∀ j, out.x[j]? = if j < n then some ((Sphere.geodToECEF (pts j) (pts j) sphere).1 0)
          else dst.x[j]?)
      ∧ (∀ j, out.y[j]? = if j < n then some ((Sphere.geodToECEF (pts j) (pts j) sphere).1 1)
          else dst.y[j]?)
      ∧ (∀ j, out.z[j]? = if j < n then some ((Sphere.geodToECEF (pts j) (pts j) sphere).1 2)
          else dst.z[j]?) := by
  obtain ⟨out, hrun, h⟩ := soa_loop n
    (soaWrite fun j => (Sphere.geodToECEF (pts j) (pts j) sphere).1) _ (fun _ _ _ => rfl) dst hx hy hz
  refine ⟨out, ?_, h⟩
  unfold Sphere.geodToECEFSoA
  dsimp only
  rw [forLoop_congr n _ (soaWrite fun j => (Sphere.geodToECEF (pts j) (pts j) sphere).1) ?_ n 0 dst
    (by omega), hrun]
  · rfl
  · intro i s hi
    obtain ⟨h0, h1, h2⟩ := hsrc i hi
    simp only [h0, h1, h2, soaWrite, Option.bind_eq_bind, Option.some_bind, bind_pure]
    rfl

/-- Completion and output of the sphere `geodToECEFAoS` loop: row `j < n` of the destination is
the scalar kernel on source row `j`, the rest of the destination and the source are
untouched. -/
theorem sphere_geodToECEFAoS_spec (dst src : Array (Coord T)) (n : Nat) (sphere : Sphere T)
    (pts : Nat → Coord T) (hsrc : ∀ i, i < n → src[i]? = some (pts i)) (hn : n ≤ dst.size) :
    ∃ out, Sphere.geodToECEFAoS dst src n sphere = some (out, src) ∧ out.size = dst.size
      ∧ ∀ j, out[j]? = if j < n then some (Sphere.geodToECEF (pts j) (pts j) sphere).1
          else dst[j]? := by
  obtain ⟨out, hrun, h⟩ := aos_loop n
    (aosWrite fun j => (Sphere.geodToECEF (pts j) (pts j) sphere).1) _ (fun _ _ _ => rfl) dst hn
  refine ⟨out, ?_, h⟩
  unfold Sphere.geodToECEFAoS
  dsimp only
  rw [forLoop_congr n _ (aosWrite fun j => (Sphere.geodToECEF (pts j) (pts j) sphere).1) ?_ n 0 dst
    (by omega), hrun]
  · rfl
  · intro i s hi
    simp only [hsrc i hi, aosWrite, Option.bind_eq_bind, Option.some_bind, bind_pure]
    rfl

end Sphere_geodToECEF

section Sphere_ecefToGeod

variable {T : Type} [Add T] [Sub T] [Mul T] [Div T] [Scalar T]

/-- What an out-of-place sphere `ecefToGeod` leaves in the destination does not depend on what
the destination held before. -/
theorem sphere_ecefToGeod_fst (d d' p : Coord T) (sphere : Sphere T) :
    (Sphere.ecefToGeod d p sphere).1 = (Sphere.ecefToGeod d' p sphere).1 := by
  funext k
  fin_cases k <;> rfl

/-- Completion and output of the sphere `ecefToGeodSoA` loop: entry `j < n` of each destination
array holds the matching component of the scalar kernel on source element `j`, the rest of
the destination and the source are untouched. -/
theorem sphere_ecefToGeodSoA_spec (dst src : CoordSoA T) (n : Nat) (sphere : Sphere T)
    (pts : Nat → Coord T)
    (hsrc : ∀ i, i < n → src.x[i]? = some (pts i 0) ∧ src.y[i]? = some (pts i 1)
      ∧ src.z[i]? = some (pts i 2))
    (hx : n ≤ dst.x.size) (hy : n ≤ dst.y.size) (hz : n ≤ dst.z.size) :
    ∃ out, Sphere.ecefToGeodSoA dst src n sphere = some (out, src)
      ∧ out.x.size = dst.x.size ∧ out.y.size = dst.y.size ∧ out.z.size = dst.z.size
      ∧ (∀ j, out.x[j]? = if j < n then some ((Sphere.ecefToGeod (pts j) (pts j) sphere).1 0)
          else dst.x[j]?)
      ∧ (∀ j, out.y[j]? = if j < n then some ((Sphere.ecefToGeod (pts j) (pts j) sphere).1 1)
          else dst.y[j]?)
      ∧ (∀ j, out.z[j]? = if j < n then some ((Sphere.ecefToGeod (pts j) (pts j) sphere).1 2)
          else dst.z[j]?) := by
  obtain ⟨out, hrun, h⟩ := soa_loop n
    (soaWrite fun j => (Sphere.ecefToGeod (pts j) (pts j) sphere).1) _ (fun _ _ _ => rfl) dst hx hy hz
  refine ⟨out, ?_, h⟩
  unfold Sphere.ecefToGeodSoA
  dsimp only
  rw [forLoop_congr n _ (soaWrite fun j => (Sphere.ecefToGeod (pts j) (pts j) sphere).1) ?_ n 0 dst
    (by omega), hrun]
  · rfl
  · intro i s hi
    obtain ⟨h0, h1, h2⟩ := hsrc i hi
    simp only [h0, h1, h2, soaWrite, Option.bind_eq_bind, Option.some_bind, bind_pure]
    rfl

/-- Completion and output of the sphere `ecefToGeodAoS` loop: row `j < n` of the destination is
the scalar kernel on source row `j`, the rest of the destination and the source are
untouched. -/
theorem sphere_ecefToGeodAoS_spec (dst src : Array (Coord T)) (n : Nat) (sphere : Sphere T)
    (pts : Nat → Coord T) (hsrc : ∀ i, i < n → src[i]? = some (pts i)) (hn : n ≤ dst.size) :
    ∃ out, Sphere.ecefToGeodAoS dst src n sphere = some (out, src) ∧ out.size = dst.size
      ∧ ∀ j, out[j]? = if j < n then some (Sphere.ecefToGeod (pts j) (pts j) sphere).1
          else dst[j]? := by
  obtain ⟨out, hrun, h⟩ := aos_loop n
    (aosWrite fun j => (Sphere.ecefToGeod (pts j) (pts j) sphere).1) _ (fun _ _ _ => rfl) dst hn
  refine ⟨out, ?_, h⟩
  unfold Sphere.ecefToGeodAoS
  dsimp only
  rw [forLoop_congr n _ (aosWrite fun j => (Sphere.ecefToGeod (pts j) (pts j) sphere).1) ?_ n 0 dst
    (by omega), hrun]
  · rfl
  · intro i s hi
    simp only [hsrc i hi, aosWrite, Option.bind_eq_bind, Option.some_bind, bind_pure]
    rfl

end Sphere_ecefToGeod

section Ellipsoid_geodToECEF

variable {T : Type} [Add T] [Mul T] [Div T] [Scalar T]

/-- What an out-of-place ellipsoid `geodToECEF` leaves in the destination does not depend on what
the destination held before. -/
theorem ellipsoid_geodToECEF_fst (d d' p : Coord T) (ellipsoid : Ellipsoid T) :
    (Ellipsoid.geodToECEF d p ellipsoid).1 = (Ellipsoid.geodToECEF d' p ellipsoid).1 := by
  funext k
  fin_cases k <;> rfl

/-- Completion and output of the ellipsoid `geodToECEFSoA` loop: entry `j < n` of each destination
array holds the matching component of the scalar kernel on source element `j`, the rest of
the destination and the source are untouched. -/
theorem ellipsoid_geodToECEFSoA_spec (dst src : CoordSoA T) (n : Nat) (ellipsoid : Ellipsoid T)
    (pts : Nat → Coord T)
    (hsrc : ∀ i, i < n → src.x[i]? = some (pts i 0) ∧ src.y[i]? = some (pts i 1)
      ∧ src.z[i]? = some (pts i 2))
    (hx : n ≤ dst.x.size) (hy : n ≤ dst.y.size) (hz : n ≤ dst.z.size) :
    ∃ out, Ellipsoid.geodToECEFSoA dst src n ellipsoid = some (out, src)
      ∧ out.x.size = dst.x.size ∧ out.y.size = dst.y.size ∧ out.z.size = dst.z.size
      ∧ (∀ j, out.x[j]? = if j < n then some ((Ellipsoid.geodToECEF (pts j) (pts j) ellipsoid).1 0)
          else dst.x[j]?)
      ∧ (∀ j, out.y[j]? = if j < n then some ((Ellipsoid.geodToECEF (pts j) (pts j) ellipsoid).1 1)
          else dst.y[j]?)
      ∧ (∀ j, out.z[j]? = if j < n then some ((Ellipsoid.geodToECEF (pts j) (pts j) ellipsoid).1 2)
          else dst.z[j]?) := by
  obtain ⟨out, hrun, h⟩ := soa_loop n
    (soaWrite fun j => (Ellipsoid.geodToECEF (pts j) (pts j) ellipsoid).1) _ (fun _ _ _ => rfl) dst hx hy hz
  refine ⟨out, ?_, h⟩
  unfold Ellipsoid.geodToECEFSoA
  dsimp only
  rw [forLoop_congr n _ (soaWrite fun j => (Ellipsoid.geodToECEF (pts j) (pts j) ellipsoid).1) ?_ n 0 dst
    (by omega), hrun]
  · rfl
  · intro i s hi
    obtain ⟨h0, h1, h2⟩ := hsrc i hi
    simp only [h0, h1, h2, soaWrite, Option.bind_eq_bind, Option.some_bind, bind_pure]
    rfl

/-- Completion and output of the ellipsoid `geodToECEFAoS` loop: row `j < n` of the destination is
the scalar kernel on source row `j`, the rest of the destination and the source are
untouched. -/
theorem ellipsoid_geodToECEFAoS_spec (dst src : Array (Coord T)) (n : Nat) (ellipsoid : Ellipsoid T)
    (pts : Nat → Coord T) (hsrc : ∀ i, i < n → src[i]? = some (pts i)) (hn : n ≤ dst.size) :
    ∃ out, Ellipsoid.geodToECEFAoS dst src n ellipsoid = some (out, src) ∧ out.size = dst.size
      ∧ ∀ j, out[j]? = if j < n then some (Ellipsoid.geodToECEF (pts j) (pts j) ellipsoid).1
          else dst[j]? := by
  obtain ⟨out, hrun, h⟩ := aos_loop n
    (aosWrite fun j => (Ellipsoid.geodToECEF (pts j) (pts j) ellipsoid).1) _ (fun _ _ _ => rfl) dst hn
  refine ⟨out, ?_, h⟩
  unfold Ellipsoid.geodToECEFAoS
  dsimp only
  rw [forLoop_congr n _ (aosWrite fun j => (Ellipsoid.geodToECEF (pts j) (pts j) ellipsoid).1) ?_ n 0 dst
    (by omega), hrun]
  · rfl
  · intro i s hi
    simp only [hsrc i hi, aosWrite, Option.bind_eq_bind, Option.some_bind, bind_pure]
    rfl

end Ellipsoid_geodToECEF

section Ellipsoid_ecefToGeod

variable {T : Type} [Add T] [Sub T] [Mul T] [Div T] [OfScientific T] [Scalar T]

/-- What an out-of-place ellipsoid `ecefToGeod` leaves in the destination does not depend on what
the destination held before. -/
theorem ellipsoid_ecefToGeod_fst (d d' p : Coord T) (ellipsoid : Ellipsoid T) :
    (Ellipsoid.ecefToGeod d p ellipsoid).1 = (Ellipsoid.ecefToGeod d' p ellipsoid).1 := by
  funext k
  fin_cases k <;> rfl

/-- Completion and output of the ellipsoid `ecefToGeodSoA` loop: entry `j < n` of each destination
array holds the matching component of the scalar kernel on source element `j`, the rest of
the destination and the source are untouched. -/
theorem ellipsoid_ecefToGeodSoA_spec (dst src : CoordSoA T) (n : Nat) (ellipsoid : Ellipsoid T)
    (pts : Nat → Coord T)
    (hsrc : ∀ i, i < n → src.x[i]? = some (pts i 0) ∧ src.y[i]? = some (pts i 1)
      ∧ src.z[i]? = some (pts i 2))
    (hx : n ≤ dst.x.size) (hy : n ≤ dst.y.size) (hz : n ≤ dst.z.size) :
    ∃ out, Ellipsoid.ecefToGeodSoA dst src n ellipsoid = some (out, src)
      ∧ out.x.size = dst.x.size ∧ out.y.size = dst.y.size ∧ out.z.size = dst.z.size
      ∧ (∀ j, out.x[j]? = if j < n then some ((Ellipsoid.ecefToGeod (pts j) (pts j) ellipsoid).1 0)
          else dst.x[j]?)
      ∧ (∀ j, out.y[j]? = if j < n then some ((Ellipsoid.ecefToGeod (pts j) (pts j) ellipsoid).1 1)
          else dst.y[j]?)
      ∧ (∀ j, out.z[j]? = if j < n then some ((Ellipsoid.ecefToGeod (pts j) (pts j) ellipsoid).1 2)
          else dst.z[j]?) := by
  obtain ⟨out, hrun, h⟩ := soa_loop n
    (soaWrite fun j => (Ellipsoid.ecefToGeod (pts j) (pts j) ellipsoid).1) _ (fun _ _ _ => rfl) dst hx hy hz
  refine ⟨out, ?_, h⟩
  unfold Ellipsoid.ecefToGeodSoA
  dsimp only
  rw [forLoop_congr n _ (soaWrite fun j => (Ellipsoid.ecefToGeod (pts j) (pts j) ellipsoid).1) ?_ n 0 dst
    (by omega), hrun]
  · rfl
  · intro i s hi
    obtain ⟨h0, h1, h2⟩ := hsrc i hi
    simp only [h0, h1, h2, soaWrite, Option.bind_eq_bind, Option.some_bind, bind_pure]
    rfl

/-- Completion and output of the ellipsoid `ecefToGeodAoS` loop: row `j < n` of the destination is
the scalar kernel on source row `j`, the rest of the destination and the source are
untouched. -/
theorem ellipsoid_ecefToGeodAoS_spec (dst src : Array (Coord T)) (n : Nat) (ellipsoid : Ellipsoid T)
    (pts : Nat → Coord T) (hsrc : ∀ i, i < n → src[i]? = some (pts i)) (hn : n ≤ dst.size) :
    ∃ out, Ellipsoid.ecefToGeodAoS dst src n ellipsoid = some (out, src) ∧ out.size = dst.size
      ∧ ∀ j, out[j]? = if j < n then some (Ellipsoid.ecefToGeod (pts j) (pts j) ellipsoid).1
          else dst[j]? := by
  obtain ⟨out, hrun, h⟩ := aos_loop n
    (aosWrite fun j => (Ellipsoid.ecefToGeod (pts j) (pts j) ellipsoid).1) _ (fun _ _ _ => rfl) dst hn
  refine ⟨out, ?_, h⟩
  unfold Ellipsoid.ecefToGeodAoS
  dsimp only
  rw [forLoop_congr n _ (aosWrite fun j => (Ellipsoid.ecefToGeod (pts j) (pts j) ellipsoid).1) ?_ n 0 dst
    (by omega), hrun]
  · rfl
  · intro i s hi
    simp only [hsrc i hi, aosWrite, Option.bind_eq_bind, Option.some_bind, bind_pure]
    rfl

end Ellipsoid_ecefToGeod

/-! ## Binary64 arithmetic: rounding lemmas -/

section Rounding

/-- A real within `1/2` of an integer rounds to it. -/
theorem roundEven_eq {t : ℝ} {n : ℤ} (h : |t - n| < 1 / 2) : roundEven t = n := by
  rw [abs_lt] at h
  unfold roundEven
  rcases le_or_lt (n : ℝ) t with hnt | hnt
  · have hf : ⌊t⌋ = n := Int.floor_eq_iff.2 ⟨hnt, by linarith⟩
    have hfr : Int.fract t = t - n := by rw [Int.fract, hf]
    rw [if_pos (by rw [hfr]; linarith), hf]
  · have hf : ⌊t⌋ = n - 1 :=
      Int.floor_eq_iff.2 ⟨by push_cast; linarith, by push_cast; linarith⟩
    have hfr : Int.fract t = t - (n - 1) := by rw [Int.fract, hf]; push_cast; ring
    rw [if_neg (by rw [hfr]; linarith), if_pos (by rw [hfr]; linarith), hf]
    ring

/-- Rounding to an integer moves a real by at most `1/2`. -/
theorem abs_roundEven_sub_le (t : ℝ) : |(roundEven t : ℝ) - t| ≤ 1 / 2 := by
  have h0 := Int.fract_nonneg t
  have h1 := Int.fract_lt_one t
  have ht : t = ⌊t⌋ + Int.fract t := (Int.floor_add_fract t).symm
  unfold roundEven
  rw [abs_le]
  split_ifs with ha hb hc
  · constructor <;> linarith
  · push_cast; constructor <;> linarith
  · have : Int.fract t = 1 / 2 := le_antisymm (not_lt.1 hb) (not_lt.1 ha)
    constructor <;> linarith
  · have : Int.fract t = 1 / 2 := le_antisymm (not_lt.1 hb) (not_lt.1 ha)
    push_cast; constructor <;> linarith

/-- The exponent of the last place in the binade `[2 ^ k, 2 ^ (k + 1))` of the normal range. -/
theorem ulpExp_eq {x : ℝ} {k : ℤ} (h1 : (2 : ℝ) ^ k ≤ |x|) (h2 : |x| < 2 ^ (k + 1))
    (hk : -1022 ≤ k) : ulpExp x = k - 52 := by
  have hpos : 0 < |x| := lt_of_lt_of_le (zpow_pos (by norm_num) k) h1
  have hlog : Int.log 2 |x| = k := by
    have ha : k ≤ Int.log 2 |x| :=
      (Int.zpow_le_iff_le_log (by norm_num) hpos).1 (by exact_mod_cast h1)
    have hb : Int.log 2 |x| < k + 1 :=
      (Int.lt_zpow_iff_log_lt (by norm_num) hpos).1 (by exact_mod_cast h2)
    omega
  unfold ulpExp
  rw [hlog]
  omega

/-- Rounding in the binade `[2 ^ k, 2 ^ (k + 1))`: the value is the multiple of
`2 ^ (k - 52)` nearest to `x`. -/
theorem round64_eq {x v : ℝ} (k n : ℤ) (h1 : (2 : ℝ) ^ k ≤ |x|) (h2 : |x| < 2 ^ (k + 1))
    (hk1 : -1022 ≤ k) (hk2 : k ≤ 1021) (hn : |x / 2 ^ (k - 52) - n| < 1 / 2)
    (hv : v = n * 2 ^ (k - 52)) : round64 x = Binary64.finite v := by
  have hu := ulpExp_eq h1 h2 hk1
  have hr : roundEven (x / 2 ^ (k - 52)) = n := roundEven_eq hn
  have hq : (0 : ℝ) < 2 ^ (k - 52) := zpow_pos (by norm_num) _
  have hfin : |v| < 2 ^ (1024 : ℤ) := by
    have hx : |x / 2 ^ (k - 52)| < 2 ^ (53 : ℤ) := by
      rw [abs_div, abs_of_pos hq, div_lt_iff₀ hq, ← zpow_add₀ (by norm_num)]
      have : (53 : ℤ) + (k - 52) = k + 1 := by ring
      rw [this]; exact h2
    have hnabs : |(n : ℝ)| < 2 ^ (54 : ℤ) := by
      have h3 : |(n : ℝ)| ≤ |x / 2 ^ (k - 52) - n| + |x / 2 ^ (k - 52)| := by
        have := abs_sub_le (n : ℝ) (x / 2 ^ (k - 52)) 0
        simp only [sub_zero] at this
        rw [abs_sub_comm] at this
        exact this
      have h4 : (2 : ℝ) ^ (53 : ℤ) + 1 / 2 < 2 ^ (54 : ℤ) := by norm_num
      linarith
    rw [hv, abs_mul, abs_of_pos hq]
    calc |(n : ℝ)| * 2 ^ (k - 52) < 2 ^ (54 : ℤ) * 2 ^ (k - 52) :=
          mul_lt_mul_of_pos_right hnabs hq
      _ = 2 ^ (k + 2) := by rw [← zpow_add₀ (by norm_num)]; congr 1; ring
      _ ≤ 2 ^ (1024 : ℤ) := zpow_le_zpow_right₀ (by norm_num) (by omega)
  unfold round64
  rw [hu, hr, ← hv, if_pos hfin]

/-- Rounding of a positive real strictly inside a binade, given by its two neighbouring
midpoints. -/
theorem round64_pos {x v : ℝ} (q n : ℤ) (hn1 : 2 ^ 52 < n) (hn2 : n < 2 ^ 53)
    (hlo : ((n : ℝ) - 1 / 2) * 2 ^ q < x) (hhi : x < ((n : ℝ) + 1 / 2) * 2 ^ q)
    (hq1 : -1074 ≤ q) (hq2 : q ≤ 969) (hv : v = n * 2 ^ q) :
    round64 x = Binary64.finite v := by
  have hq : (0 : ℝ) < 2 ^ q := zpow_pos (by norm_num) _
  have hn1r : ((2 : ℝ) ^ (52 : ℤ)) + 1 ≤ n := by
    have : (2 : ℤ) ^ 52 + 1 ≤ n := hn1
    have h : ((2 ^ 52 + 1 : ℤ) : ℝ) ≤ n := by exact_mod_cast this
    push_cast at h
    norm_num at h ⊢
    exact h
  have hn2r : (n : ℝ) + 1 ≤ 2 ^ (53 : ℤ) := by
    have : n + 1 ≤ (2 : ℤ) ^ 53 := hn2
    have h : ((n + 1 : ℤ) : ℝ) ≤ ((2 ^ 53 : ℤ) : ℝ) := by exact_mod_cast this
    push_cast at h
    norm_num at h ⊢
    exact h
  have hxpos : 0 < x := lt_trans (mul_pos (by norm_num at hn1r ⊢; linarith) hq) hlo
  have e1 : (2 : ℝ) ^ (q + 52) = 2 ^ (52 : ℤ) * 2 ^ q := by
    rw [← zpow_add₀ (by norm_num)]; congr 1; ring
  have e2 : (2 : ℝ) ^ (q + 52 + 1) = 2 ^ (53 : ℤ) * 2 ^ q := by
    rw [← zpow_add₀ (by norm_num)]; congr 1; ring
  have e3 : q + 52 - 52 = q := by ring
  apply round64_eq (q + 52) n
  · rw [abs_of_pos hxpos, e1]
    have : (2 : ℝ) ^ (52 : ℤ) * 2 ^ q ≤ ((n : ℝ) - 1 / 2) * 2 ^ q :=
      mul_le_mul_of_nonneg_right (by linarith) hq.le
    linarith
  · rw [abs_of_pos hxpos, e2]
    have : ((n : ℝ) + 1 / 2) * 2 ^ q ≤ 2 ^ (53 : ℤ) * 2 ^ q :=
      mul_le_mul_of_nonneg_right (by linarith) hq.le
    linarith
  · omega
  · omega
  · rw [e3, abs_lt]
    constructor
    · rw [lt_sub_iff_add_lt, lt_div_iff₀ hq]
      have : (-(1 / 2) + (n : ℝ)) * 2 ^ q = ((n : ℝ) - 1 / 2) * 2 ^ q := by ring
      rw [this]; exact hlo
    · rw [sub_lt_iff_lt_add, div_lt_iff₀ hq]
      have : (1 / 2 + (n : ℝ)) * 2 ^ q = ((n : ℝ) + 1 / 2) * 2 ^ q := by ring
      rw [this]; exact hhi
  · rw [e3]; exact hv

/-- Zero is a binary64 value. -/
theorem round64_zero : round64 0 = Binary64.finite 0 := by
  have hu : ulpExp 0 = -52 := by
    unfold ulpExp
    rw [abs_zero, Int.log_zero_right]
    omega
  have hr : roundEven ((0 : ℝ) / 2 ^ (-52 : ℤ)) = 0 := by
    apply roundEven_eq
    norm_num
  unfold round64
  rw [hu, hr]
  norm_num

/-- A number `n * 2 ^ q` with `|n| < 2 ^ 53` and `q` in the exponent range is a binary64
value: rounding leaves it unchanged. -/
theorem round64_dyadic (n q : ℤ) (hn : |n| < 2 ^ 53) (hq1 : -1074 ≤ q) (hq2 : q ≤ 970) :
    round64 ((n : ℝ) * 2 ^ q) = Binary64.finite ((n : ℝ) * 2 ^ q) := by
  rcases eq_or_ne n 0 with h0 | h0
  · subst h0
    simp only [Int.cast_zero, zero_mul]
    exact round64_zero
  · have hq : (0 : ℝ) < 2 ^ q := zpow_pos (by norm_num) _
    have hnr : |(n : ℝ)| < 2 ^ (53 : ℤ) := by
      have h : ((|n| : ℤ) : ℝ) < ((2 ^ 53 : ℤ) : ℝ) := by exact_mod_cast hn
      rw [Int.cast_abs] at h
      push_cast at h
      norm_num at h ⊢
      exact h
    have hxabs : |(n : ℝ) * 2 ^ q| = |(n : ℝ)| * 2 ^ q := by rw [abs_mul, abs_of_pos hq]
    have hxpos : 0 < |(n : ℝ) * 2 ^ q| := by
      rw [hxabs]
      exact mul_pos (abs_pos.2 (by exact_mod_cast h0)) hq
    have hxlt : |(n : ℝ) * 2 ^ q| < 2 ^ (53 + q) := by
      rw [hxabs, zpow_add₀ (by norm_num)]
      exact mul_lt_mul_of_pos_right hnr hq
    have hlog : Int.log 2 |(n : ℝ) * 2 ^ q| < 53 + q :=
      (Int.lt_zpow_iff_log_lt (by norm_num) hxpos).1 (by exact_mod_cast hxlt)
    have hu1 : ulpExp ((n : ℝ) * 2 ^ q) ≤ q := by
      unfold ulpExp
      omega
    obtain ⟨u, hudef⟩ : ∃ u, ulpExp ((n : ℝ) * 2 ^ q) = u := ⟨_, rfl⟩
    rw [hudef] at hu1
    obtain ⟨d, hd⟩ : ∃ d : ℕ, q = u + d := ⟨(q - u).toNat, by omega⟩
    have hu : (0 : ℝ) < 2 ^ u := zpow_pos (by norm_num) _
    have hsplit : (2 : ℝ) ^ q = 2 ^ u * 2 ^ d := by
      rw [hd, zpow_add₀ (by norm_num), zpow_natCast]
    have hdiv : (n : ℝ) * 2 ^ q / 2 ^ u = ((n * 2 ^ d : ℤ) : ℝ) := by
      rw [hsplit]
      push_cast
      field_simp
      ring
    have hr : roundEven ((n : ℝ) * 2 ^ q / 2 ^ u) = n * 2 ^ d := by
      apply roundEven_eq
      rw [hdiv, sub_self, abs_zero]
      norm_num
    have hval : ((n * 2 ^ d : ℤ) : ℝ) * 2 ^ u = (n : ℝ) * 2 ^ q := by
      rw [hsplit]
      push_cast
      ring
    have hfin : |(n : ℝ) * 2 ^ q| < 2 ^ (1024 : ℤ) :=
      lt_of_lt_of_le hxlt (zpow_le_zpow_right₀ (by norm_num) (by omega))
    unfold round64
    rw [hudef, hr, hval, if_pos hfin]

/-- Convenience form of `round64_dyadic` for a real given another way. -/
theorem round64_exact {x : ℝ} (n q : ℤ) (hx : x = n * 2 ^ q) (hn : |n| < 2 ^ 53)
    (hq1 : -1074 ≤ q) (hq2 : q ≤ 970) : round64 x = Binary64.finite x := by
  rw [hx]
  exact round64_dyadic n q hn hq1 hq2

/-- Convenience form of `round64_dyadic` with the value named. -/
theorem round64_val {x v : ℝ} (n q : ℤ) (hx : x = n * 2 ^ q) (hv : v = n * 2 ^ q)
    (hn : |n| < 2 ^ 53) (hq1 : -1074 ≤ q) (hq2 : q ≤ 970) : round64 x = Binary64.finite v := by
  rw [hx, hv]
  exact round64_dyadic n q hn hq1 hq2

/-- In the normal range rounding succeeds and moves a real by at most `2 ^ (-53)` of its
magnitude. -/
theorem round64_rel {x : ℝ} (h1 : (2 : ℝ) ^ (-1022 : ℤ) ≤ |x|) (h2 : |x| < 2 ^ (1022 : ℤ)) :
    ∃ y, round64 x = Binary64.finite y ∧ |y - x| ≤ |x| * 2 ^ (-53 : ℤ) := by
  have hpos : 0 < |x| := lt_of_lt_of_le (zpow_pos (by norm_num) _) h1
  have hk1 : -1022 ≤ Int.log 2 |x| :=
    (Int.zpow_le_iff_le_log (by norm_num) hpos).1 (by exact_mod_cast h1)
  have hk2 : Int.log 2 |x| < 1022 :=
    (Int.lt_zpow_iff_log_lt (by norm_num) hpos).1 (by exact_mod_cast h2)
  have hb1 : (2 : ℝ) ^ Int.log 2 |x| ≤ |x| := by
    have := Int.zpow_log_le_self (b := 2) (by norm_num) hpos
    exact_mod_cast this
  have hb2 : |x| < (2 : ℝ) ^ (Int.log 2 |x| + 1) := by
    have := Int.lt_zpow_succ_log_self (b := 2) (by norm_num) |x|
    exact_mod_cast this
  set k := Int.log 2 |x| with hk
  have hq : (0 : ℝ) < 2 ^ (k - 52) := zpow_pos (by norm_num) _
  have hu := ulpExp_eq hb1 hb2 hk1
  have herr := abs_roundEven_sub_le (x / 2 ^ (k - 52))
  have hyx : |(roundEven (x / 2 ^ (k - 52)) : ℝ) * 2 ^ (k - 52) - x| ≤ |x| * 2 ^ (-53 : ℤ) := by
    have e1 : (roundEven (x / 2 ^ (k - 52)) : ℝ) * 2 ^ (k - 52) - x
        = ((roundEven (x / 2 ^ (k - 52)) : ℝ) - x / 2 ^ (k - 52)) * 2 ^ (k - 52) := by
      field_simp
    rw [e1, abs_mul, abs_of_pos hq]
    calc |(roundEven (x / 2 ^ (k - 52)) : ℝ) - x / 2 ^ (k - 52)| * 2 ^ (k - 52)
        ≤ 1 / 2 * 2 ^ (k - 52) := mul_le_mul_of_nonneg_right herr hq.le
      _ = 2 ^ k * 2 ^ (-53 : ℤ) := by
          have : (2 : ℝ) ^ (k - 52) = 2 ^ k * 2 ^ (-52 : ℤ) := by
            rw [← zpow_add₀ (by norm_num)]; congr 1
          rw [this]
          norm_num
          ring
      _ ≤ |x| * 2 ^ (-53 : ℤ) := mul_le_mul_of_nonneg_right hb1 (by positivity)
  refine ⟨(roundEven (x / 2 ^ (k - 52)) : ℝ) * 2 ^ (k - 52), ?_, hyx⟩
  have hfin : |(roundEven (x / 2 ^ (k - 52)) : ℝ) * 2 ^ (k - 52)| < 2 ^ (1024 : ℤ) := by
    have h3 : |(roundEven (x / 2 ^ (k - 52)) : ℝ) * 2 ^ (k - 52)|
        ≤ |(roundEven (x / 2 ^ (k - 52)) : ℝ) * 2 ^ (k - 52) - x| + |x| := by
      have := abs_add ((roundEven (x / 2 ^ (k - 52)) : ℝ) * 2 ^ (k - 52) - x) x
      simpa using this
    have h4 : |x| * 2 ^ (-53 : ℤ) ≤ |x| := by
      have : (2 : ℝ) ^ (-53 : ℤ) ≤ 1 := by norm_num
      calc |x| * 2 ^ (-53 : ℤ) ≤ |x| * 1 := mul_le_mul_of_nonneg_left this hpos.le
        _ = |x| := mul_one _
    have h5 : (2 : ℝ) ^ (1022 : ℤ) + 2 ^ (1022 : ℤ) ≤ 2 ^ (1024 : ℤ) := by
      have e : (2 : ℝ) ^ (1024 : ℤ) = 2 ^ (1022 : ℤ) * 4 := by
        rw [show (1024 : ℤ) = 1022 + 2 by norm_num, zpow_add₀ (by norm_num)]
        norm_num
      rw [e]
      have : (0 : ℝ) < 2 ^ (1022 : ℤ) := zpow_pos (by norm_num) _
      linarith
    linarith
  unfold round64
  rw [hu, if_pos hfin]

/-- Square root of a positive real strictly inside a binade, by the squares of the two
neighbouring midpoints. -/
theorem round64_sqrt_pos {x v : ℝ} (q n : ℤ) (hn1 : 2 ^ 52 < n) (hn2 : n < 2 ^ 53)
    (hlo : (((n : ℝ) - 1 / 2) * 2 ^ q) ^ 2 < x) (hhi : x < (((n : ℝ) + 1 / 2) * 2 ^ q) ^ 2)
    (hq1 : -1074 ≤ q) (hq2 : q ≤ 969) (hv : v = n * 2 ^ q) :
    round64 (Real.sqrt x) = Binary64.finite v := by
  have hq : (0 : ℝ) < 2 ^ q := zpow_pos (by norm_num) _
  have hnpos : (1 : ℝ) ≤ n := by
    have h : (1 : ℤ) ≤ n := by
      have : (1 : ℤ) ≤ 2 ^ 52 := by norm_num
      omega
    exact_mod_cast h
  apply round64_pos q n hn1 hn2 _ _ hq1 hq2 hv
  · exact (Real.lt_sqrt (mul_nonneg (by linarith) hq.le)).2 hlo
  · exact (Real.sqrt_lt' (mul_pos (by linarith) hq)).2 hhi

/-! ### The operations on finite values -/

theorem finite_add {x y v : ℝ} (h : round64 (x + y) = Binary64.finite v) :
    Binary64.finite x + Binary64.finite y = Binary64.finite v := h

theorem finite_sub {x y v : ℝ} (h : round64 (x - y) = Binary64.finite v) :
    Binary64.finite x - Binary64.finite y = Binary64.finite v := h

theorem finite_mul {x y v : ℝ} (h : round64 (x * y) = Binary64.finite v) :
    Binary64.finite x * Binary64.finite y = Binary64.finite v := h

theorem finite_div {x y v : ℝ} (hy : y ≠ 0) (h : round64 (x / y) = Binary64.finite v) :
    Binary64.finite x / Binary64.finite y = Binary64.finite v := by
  show (if y = 0 then Binary64.nonfinite else round64 (x / y)) = _
  rw [if_neg hy, h]

theorem finite_sqrt {x v : ℝ} (hx : 0 ≤ x) (h : round64 (Real.sqrt x) = Binary64.finite v) :
    Scalar.sqrt (Binary64.finite x) = Binary64.finite v := by
  show (if x < 0 then Binary64.nonfinite else round64 (Real.sqrt x)) = _
  rw [if_neg (not_lt.2 hx), h]

theorem finite_sin {x v : ℝ} (h : round64 (Real.sin x) = Binary64.finite v) :
    Scalar.sin (Binary64.finite x) = Binary64.finite v := h

theorem finite_cos {x v : ℝ} (h : round64 (Real.cos x) = Binary64.finite v) :
    Scalar.cos (Binary64.finite x) = Binary64.finite v := h

theorem finite_atan2 {y x v : ℝ} (h : round64 (atan2 y x) = Binary64.finite v) :
    Scalar.atan2 (Binary64.finite y) (Binary64.finite x) = Binary64.finite v := h

/-- One is a binary64 value. -/
theorem round64_one : round64 1 = Binary64.finite 1 :=
  round64_exact 1 0 (by norm_num) (by norm_num) (by norm_num) (by norm_num)

/-- The literal `1.0` at `double`. -/
theorem one_lit_binary64 : (1.0 : Binary64) = Binary64.finite 1 := by
  show round64 (1.0 : ℝ) = _
  rw [one_lit]
  exact round64_one

/-- The nearest binary64 value to `π` (`M_PI`). -/
theorem round64_pi : round64 Real.pi = Binary64.finite (7074237752028440 * 2 ^ (-51 : ℤ)) := by
  have h1 := Real.pi_gt_d20
  have h2 := Real.pi_lt_d20
  apply round64_pos (-51) 7074237752028440 (by norm_num) (by norm_num) _ _ (by norm_num)
    (by norm_num) (by norm_num)
  · have : (((7074237752028440 : ℤ) : ℝ) - 1 / 2) * 2 ^ (-51 : ℤ)
        < 3.14159265358979323846 := by norm_num
    linarith
  · have : (3.14159265358979323847 : ℝ)
        < (((7074237752028440 : ℤ) : ℝ) + 1 / 2) * 2 ^ (-51 : ℤ) := by norm_num
    linarith

end Rounding

/-! ## The kernels statement by statement -/

section Steps

variable {T : Type} [Scalar T]

/-- The latitude written by the out-of-place ellipsoid `ecefToGeod`, with every intermediate
value of the source named, at every scalar type. -/
theorem ellipsoid_ecefToGeod_lat_steps [Add T] [Sub T] [Mul T] [Div T] [OfScientific T]
    {a b x y z a2 b2 e e2 ep ep2 p θ sθ cθ s3 c3 lat : T} (d : Coord T)
    (h1 : a * a = a2) (h2 : b * b = b2) (h3 : Scalar.sqrt ((a2 - b2) / a2) = e)
    (h4 : e * e = e2) (h5 : Scalar.sqrt ((a2 - b2) / b2) = ep) (h6 : ep * ep = ep2)
    (h7 : Scalar.sqrt (x * x + y * y) = p) (h8 : Scalar.atan2 (z * a) (p * b) = θ)
    (h9 : Scalar.sin θ = sθ) (h10 : Scalar.cos θ = cθ) (h11 : sθ * sθ * sθ = s3)
    (h12 : cθ * cθ * cθ = c3)
    (h13 : Scalar.atan2 (z + ep2 * b * s3) (p - e2 * a * c3) = lat) :
    (Ellipsoid.ecefToGeod d ![x, y, z] ⟨a, b⟩).1 1 = lat := by
  subst h1 h2 h3 h4 h5 h6 h7 h8 h9 h10 h11 h12 h13
  rfl

/-- The triple written by the out-of-place ellipsoid `ecefToGeod`, with every intermediate
value of the source named, at every scalar type. -/
theorem ellipsoid_ecefToGeod_steps [Add T] [Sub T] [Mul T] [Div T] [OfScientific T]
    {a b x y z a2 b2 e e2 ep ep2 p lon θ sθ cθ s3 c3 lat cl sl N alt : T} (d : Coord T)
    (h1 : a * a = a2) (h2 : b * b = b2) (h3 : Scalar.sqrt ((a2 - b2) / a2) = e)
    (h4 : e * e = e2) (h5 : Scalar.sqrt ((a2 - b2) / b2) = ep) (h6 : ep * ep = ep2)
    (h7 : Scalar.sqrt (x * x + y * y) = p) (hlon : Scalar.atan2 y x = lon)
    (h8 : Scalar.atan2 (z * a) (p * b) = θ)
    (h9 : Scalar.sin θ = sθ) (h10 : Scalar.cos θ = cθ) (h11 : sθ * sθ * sθ = s3)
    (h12 : cθ * cθ * cθ = c3)
    (h13 : Scalar.atan2 (z + ep2 * b * s3) (p - e2 * a * c3) = lat)
    (h14 : Scalar.cos lat = cl) (h15 : Scalar.sin lat = sl)
    (h16 : a / Scalar.sqrt (1.0 - e2 * sl * sl) = N) (h17 : p / cl - N = alt) :
    (Ellipsoid.ecefToGeod d ![x, y, z] ⟨a, b⟩).1 = ![lon, lat, alt] := by
  subst h1 h2 h3 h4 h5 h6 h7 hlon h8 h9 h10 h11 h12 h13 h14 h15 h16 h17
  funext k
  fin_cases k <;> rfl

/-- The triple written by the out-of-place ellipsoid `geodToECEF`, with every intermediate
value of the source named, at every scalar type. -/
theorem ellipsoid_geodToECEF_steps [Add T] [Mul T] [Div T]
    {a b lon lat alt a2 b2 sl cl sφ cφ t1 t2 rad N nc x y r zz z : T} (d : Coord T)
    (h1 : a * a = a2) (h2 : b * b = b2) (h3 : Scalar.sin lon = sl) (h4 : Scalar.cos lon = cl)
    (h5 : Scalar.sin lat = sφ) (h6 : Scalar.cos lat = cφ)
    (h7 : a2 * cφ * cφ = t1) (h8 : b2 * sφ * sφ = t2) (h9 : Scalar.sqrt (t1 + t2) = rad)
    (h10 : a2 / rad = N) (h11 : (N + alt) * cφ = nc) (hx : nc * cl = x) (hy : nc * sl = y)
    (hr : b2 / a2 = r) (hzz : r * N + alt = zz) (hz : zz * sφ = z) :
    (Ellipsoid.geodToECEF d ![lon, lat, alt] ⟨a, b⟩).1 = ![x, y, z] := by
  subst h1 h2 h3 h4 h5 h6 h7 h8 h9 h10 h11 hx hy hr hzz hz
  funext k
  fin_cases k <;> rfl

/-- The first component written by the out-of-place ellipsoid `geodToECEF`, with every
intermediate value of the source named, at every scalar type. -/
theorem ellipsoid_geodToECEF_x_steps [Add T] [Mul T] [Div T]
    {a b lon lat alt a2 b2 cl sφ cφ t1 t2 rad N nc : T} (d : Coord T)
    (h1 : a * a = a2) (h2 : b * b = b2) (h4 : Scalar.cos lon = cl)
    (h5 : Scalar.sin lat = sφ) (h6 : Scalar.cos lat = cφ)
    (h7 : a2 * cφ * cφ = t1) (h8 : b2 * sφ * sφ = t2) (h9 : Scalar.sqrt (t1 + t2) = rad)
    (h10 : a2 / rad = N) (h11 : (N + alt) * cφ = nc) :
    (Ellipsoid.geodToECEF d ![lon, lat, alt] ⟨a, b⟩).1 0 = nc * cl := by
  subst h1 h2 h4 h5 h6 h7 h8 h9 h10 h11
  rfl

/-- The first component written by the out-of-place sphere `geodToECEF`, at every scalar
type. -/
theorem sphere_geodToECEF_x_steps [Add T] [Mul T]
    {r lon lat alt cl cφ n : T} (d : Coord T) (h1 : Scalar.cos lon = cl)
    (h2 : Scalar.cos lat = cφ) (h3 : r + alt = n) :
    (Sphere.geodToECEF d ![lon, lat, alt] ⟨r⟩).1 0 = n * cφ * cl := by
  subst h1 h2 h3
  rfl

/-- The altitude written by the out-of-place sphere `ecefToGeod`, with every intermediate
value of the source named, at every scalar type. -/
theorem sphere_ecefToGeod_alt_steps [Add T] [Sub T] [Mul T] [Div T]
    {r x y z p lat cφ q : T} (d : Coord T) (h1 : Scalar.sqrt (x * x + y * y) = p)
    (h2 : Scalar.atan2 z p = lat) (h3 : Scalar.cos lat = cφ) (h4 : p / cφ = q) :
    (Sphere.ecefToGeod d ![x, y, z] ⟨r⟩).1 2 = q - r := by
  subst h1 h2 h3 h4
  rfl

end Steps

/-! ## Binary64: the ellipsoid inverse at the boundary `p = (a² - b²) / a` -/

section BoundaryCase

/-- In binary64 the ellipsoid `ecefToGeod` with axes `a = 4`, `b = 1` at the point
`(3.75, 0, 0)` of the boundary `p = (a² - b²) / a` writes the latitude `M_PI`: the computed
`e * e` is `0.9375 + 2 ^ (-53)`, one unit in the last place above `(a² - b²) / a² = 0.9375`,
so the second argument of the latitude `atan2` is `-2 ^ (-51)` instead of `0`. -/
theorem binary64_boundary_latitude (d : Coord Binary64) :
    (Ellipsoid.ecefToGeod d ![Binary64.finite 3.75, Binary64.finite 0, Binary64.finite 0]
        ⟨Binary64.finite 4, Binary64.finite 1⟩).1 1
      = Binary64.finite (7074237752028440 * 2 ^ (-51 : ℤ)) := by
  have h1 : Binary64.finite 4 * Binary64.finite 4 = Binary64.finite 16 :=
    finite_mul (round64_val (1) (4) (by norm_num) (by norm_num) (by norm_num) (by norm_num) (by norm_num))
  have h2 : Binary64.finite 1 * Binary64.finite 1 = Binary64.finite 1 :=
    finite_mul (round64_val (1) (0) (by norm_num) (by norm_num) (by norm_num) (by norm_num) (by norm_num))
  have h3a : Binary64.finite 16 - Binary64.finite 1 = Binary64.finite 15 :=
    finite_sub (round64_val (15) (0) (by norm_num) (by norm_num) (by norm_num) (by norm_num) (by norm_num))
  have h3b : Binary64.finite 15 / Binary64.finite 16 = Binary64.finite 0.9375 :=
    finite_div (by norm_num) (round64_val (15) (-4) (by norm_num) (by norm_num) (by norm_num) (by norm_num) (by norm_num))
  have h3c : Scalar.sqrt (Binary64.finite 0.9375) = Binary64.finite (8721183177395930 * 2 ^ (-53 : ℤ)) :=
    finite_sqrt (by norm_num) (round64_sqrt_pos (-53) 8721183177395930 (by norm_num) (by norm_num)
      (by norm_num) (by norm_num) (by norm_num) (by norm_num) (by norm_num))
  have h4 : Binary64.finite (8721183177395930 * 2 ^ (-53 : ℤ)) * Binary64.finite (8721183177395930 * 2 ^ (-53 : ℤ)) = Binary64.finite (8444249301319681 * 2 ^ (-53 : ℤ)) :=
    finite_mul (round64_pos (-53) 8444249301319681 (by norm_num) (by norm_num) (by norm_num) (by norm_num)
      (by norm_num) (by norm_num) (by norm_num))
  have h5b : Binary64.finite 15 / Binary64.finite 1 = Binary64.finite 15 :=
    finite_div (by norm_num) (round64_val (15) (0) (by norm_num) (by norm_num) (by norm_num) (by norm_num) (by norm_num))
  have h5c : Scalar.sqrt (Binary64.finite 15) = Binary64.finite (8721183177395930 * 2 ^ (-51 : ℤ)) :=
    finite_sqrt (by norm_num) (round64_sqrt_pos (-51) 8721183177395930 (by norm_num) (by norm_num)
      (by norm_num) (by norm_num) (by norm_num) (by norm_num) (by norm_num))
  have h6 : Binary64.finite (8721183177395930 * 2 ^ (-51 : ℤ)) * Binary64.finite (8721183177395930 * 2 ^ (-51 : ℤ)) = Binary64.finite (8444249301319681 * 2 ^ (-49 : ℤ)) :=
    finite_mul (round64_pos (-49) 8444249301319681 (by norm_num) (by norm_num) (by norm_num) (by norm_num)
      (by norm_num) (by norm_num) (by norm_num))
  have h7a : Binary64.finite 3.75 * Binary64.finite 3.75 = Binary64.finite 14.0625 :=
    finite_mul (round64_val (225) (-4) (by norm_num) (by norm_num) (by norm_num) (by norm_num) (by norm_num))
  have h7b : Binary64.finite 0 * Binary64.finite 0 = Binary64.finite 0 :=
    finite_mul (round64_val (0) (0) (by norm_num) (by norm_num) (by norm_num) (by norm_num) (by norm_num))
  have h7c : Binary64.finite 14.0625 + Binary64.finite 0 = Binary64.finite 14.0625 :=
    finite_add (round64_val (225) (-4) (by norm_num) (by norm_num) (by norm_num) (by norm_num) (by norm_num))
  have h7d : Scalar.sqrt (Binary64.finite 14.0625) = Binary64.finite 3.75 := by
    apply finite_sqrt (by norm_num)
    have hs : Real.sqrt (14.0625 : ℝ) = 3.75 := by
      rw [Real.sqrt_eq_iff_mul_self_eq (by norm_num) (by norm_num)]
      norm_num
    rw [hs]
    exact round64_val (15) (-2) (by norm_num) (by norm_num) (by norm_num) (by norm_num) (by norm_num)
  have h8a : Binary64.finite 0 * Binary64.finite 4 = Binary64.finite 0 :=
    finite_mul (round64_val (0) (0) (by norm_num) (by norm_num) (by norm_num) (by norm_num) (by norm_num))
  have h8b : Binary64.finite 3.75 * Binary64.finite 1 = Binary64.finite 3.75 :=
    finite_mul (round64_val (15) (-2) (by norm_num) (by norm_num) (by norm_num) (by norm_num) (by norm_num))
  have h8 : Scalar.atan2 (Binary64.finite 0) (Binary64.finite 3.75) = Binary64.finite 0 := by
    apply finite_atan2
    rw [atan2_zero_nonneg (by norm_num)]
    exact round64_zero
  have h9 : Scalar.sin (Binary64.finite 0) = Binary64.finite 0 := by
    apply finite_sin
    rw [Real.sin_zero]
    exact round64_zero
  have h10 : Scalar.cos (Binary64.finite 0) = Binary64.finite 1 := by
    apply finite_cos
    rw [Real.cos_zero]
    exact round64_one
  have h11 : Binary64.finite 0 * Binary64.finite 0 * Binary64.finite 0 = Binary64.finite 0 := by
    rw [h7b, h7b]
  have h12 : Binary64.finite 1 * Binary64.finite 1 * Binary64.finite 1 = Binary64.finite 1 := by
    rw [h2, h2]
  have hZ1 : Binary64.finite (8444249301319681 * 2 ^ (-49 : ℤ)) * Binary64.finite 1 = Binary64.finite (8444249301319681 * 2 ^ (-49 : ℤ)) :=
    finite_mul (round64_val 8444249301319681 (-49) (by norm_num) (by norm_num) (by norm_num)
      (by norm_num) (by norm_num))
  have hZ2 : Binary64.finite (8444249301319681 * 2 ^ (-49 : ℤ)) * Binary64.finite 0 = Binary64.finite 0 :=
    finite_mul (round64_val 0 0 (by norm_num) (by norm_num) (by norm_num) (by norm_num)
      (by norm_num))
  have hZ3 : Binary64.finite 0 + Binary64.finite 0 = Binary64.finite 0 :=
    finite_add (round64_val 0 0 (by norm_num) (by norm_num) (by norm_num) (by norm_num)
      (by norm_num))
  have hP1 : Binary64.finite (8444249301319681 * 2 ^ (-53 : ℤ)) * Binary64.finite 4
      = Binary64.finite (8444249301319681 * 2 ^ (-51 : ℤ)) :=
    finite_mul (round64_val 8444249301319681 (-51) (by norm_num) (by norm_num) (by norm_num)
      (by norm_num) (by norm_num))
  have hP2 : Binary64.finite (8444249301319681 * 2 ^ (-51 : ℤ)) * Binary64.finite 1
      = Binary64.finite (8444249301319681 * 2 ^ (-51 : ℤ)) :=
    finite_mul (round64_val 8444249301319681 (-51) (by norm_num) (by norm_num) (by norm_num)
      (by norm_num) (by norm_num))
  have hP3 : Binary64.finite 3.75 - Binary64.finite (8444249301319681 * 2 ^ (-51 : ℤ))
      = Binary64.finite (-(2 ^ (-51 : ℤ))) :=
    finite_sub (round64_val (-1) (-51) (by norm_num) (by norm_num) (by norm_num)
      (by norm_num) (by norm_num))
  have h13 : Scalar.atan2 (Binary64.finite 0) (Binary64.finite (-(2 ^ (-51 : ℤ))))
      = Binary64.finite (7074237752028440 * 2 ^ (-51 : ℤ)) := by
    apply finite_atan2
    rw [atan2_zero_neg (by norm_num)]
    exact round64_pi
  apply ellipsoid_ecefToGeod_lat_steps d h1 h2 (by rw [h3a, h3b, h3c]) h4
    (by rw [h3a, h5b, h5c]) h6 (by rw [h7a, h7b, h7c, h7d]) (by rw [h8a, h8b, h8]) h9 h10 h11 h12
  rw [hZ1, hZ2, hZ3, hP1, hP2, hP3, h13]

end BoundaryCase

/-! ## Binary64: rounding in the forward kernels and in the eccentricities -/

section Binary64Cases

/-- The literal `1846604.2538884224` at `double`. -/
theorem lit_1846604 : (1846604.2538884224 : Binary64) = Binary64.finite (7931104879105255 * 2 ^ (-32 : ℤ)) := by
  show round64 (1846604.2538884224 : ℝ) = _
  exact round64_pos (-32) 7931104879105255 (by norm_num) (by norm_num) (by norm_num)
    (by norm_num) (by norm_num) (by norm_num) (by norm_num)

/-- The literal `6356752.314245` at `double`. -/
theorem lit_6356752 : (6356752.314245 : Binary64) = Binary64.finite (6825510824613647 * 2 ^ (-30 : ℤ)) := by
  show round64 (6356752.314245 : ℝ) = _
  exact round64_pos (-30) 6825510824613647 (by norm_num) (by norm_num) (by norm_num)
    (by norm_num) (by norm_num) (by norm_num) (by norm_num)

/-- In binary64 the ellipsoid `geodToECEF` with both axes `r = 1846604.2538884224` maps
`(0, 0, 0)` to an `x` one unit in the last place above `r`: `r * r` and its square root are
rounded, and `a2 / sqrt a2` comes out as `r + 2 ^ (-32)`. -/
theorem binary64_equal_axes_x (d : Coord Binary64) :
    (Ellipsoid.geodToECEF d ![Binary64.finite 0, Binary64.finite 0, Binary64.finite 0]
        ⟨Binary64.finite (7931104879105255 * 2 ^ (-32 : ℤ)), Binary64.finite (7931104879105255 * 2 ^ (-32 : ℤ))⟩).1 0
      = Binary64.finite (991388109888157 * 2 ^ (-29 : ℤ)) := by
  have e1 : Binary64.finite (7931104879105255 * 2 ^ (-32 : ℤ)) * Binary64.finite (7931104879105255 * 2 ^ (-32 : ℤ)) =
      Binary64.finite (6983572009940618 * 2 ^ (-11 : ℤ)) :=
    finite_mul (round64_pos (-11) 6983572009940618 (by norm_num) (by norm_num) (by norm_num)
      (by norm_num) (by norm_num) (by norm_num) (by norm_num))
  have h1 : (Binary64.finite (7931104879105255 * 2 ^ (-32 : ℤ)) * Binary64.finite (7931104879105255 * 2 ^ (-32 : ℤ))) =
      Binary64.finite (6983572009940618 * 2 ^ (-11 : ℤ)) := by
    simp only [e1]
  have h2 : (Binary64.finite (7931104879105255 * 2 ^ (-32 : ℤ)) * Binary64.finite (7931104879105255 * 2 ^ (-32 : ℤ))) =
      Binary64.finite (6983572009940618 * 2 ^ (-11 : ℤ)) := by
    simp only [e1]
  have e2 : Scalar.cos (Binary64.finite 0) =
      Binary64.finite 1 :=
    finite_cos (by rw [Real.cos_zero]; exact round64_one)
  have h4 : Scalar.cos (Binary64.finite 0) =
      Binary64.finite 1 := by
    simp only [e2]
  have e3 : Scalar.sin (Binary64.finite 0) =
      Binary64.finite 0 :=
    finite_sin (by rw [Real.sin_zero]; exact round64_zero)
  have h5 : Scalar.sin (Binary64.finite 0) =
      Binary64.finite 0 := by
    simp only [e3]
  have h6 : Scalar.cos (Binary64.finite 0) =
      Binary64.finite 1 := by
    simp only [e2]
  have e4 : Binary64.finite (6983572009940618 * 2 ^ (-11 : ℤ)) * Binary64.finite 1 =
      Binary64.finite (3491786004970309 * 2 ^ (-10 : ℤ)) :=
    finite_mul (round64_val (3491786004970309) (-10) (by norm_num) (by norm_num) (by norm_num)
      (by norm_num) (by norm_num))
  have e5 : Binary64.finite (3491786004970309 * 2 ^ (-10 : ℤ)) * Binary64.finite 1 =
      Binary64.finite (3491786004970309 * 2 ^ (-10 : ℤ)) :=
    finite_mul (round64_val (3491786004970309) (-10) (by norm_num) (by norm_num) (by norm_num)
      (by norm_num) (by norm_num))
  have h7 : ((Binary64.finite (6983572009940618 * 2 ^ (-11 : ℤ)) * Binary64.finite 1) * Binary64.finite 1) =
      Binary64.finite (3491786004970309 * 2 ^ (-10 : ℤ)) := by
    simp only [e4, e5]
  have e6 : Binary64.finite (6983572009940618 * 2 ^ (-11 : ℤ)) * Binary64.finite 0 =
      Binary64.finite 0 :=
    finite_mul (round64_val (0) (0) (by norm_num) (by norm_num) (by norm_num)
      (by norm_num) (by norm_num))
  have e7 : Binary64.finite 0 * Binary64.finite 0 =
      Binary64.finite 0 :=
    finite_mul (round64_val (0) (0) (by norm_num) (by norm_num) (by norm_num)
      (by norm_num) (by norm_num))
  have h8 : ((Binary64.finite (6983572009940618 * 2 ^ (-11 : ℤ)) * Binary64.finite 0) * Binary64.finite 0) =
      Binary64.finite 0 := by
    simp only [e6, e7]
  have e8 : Binary64.finite (3491786004970309 * 2 ^ (-10 : ℤ)) + Binary64.finite 0 =
      Binary64.finite (3491786004970309 * 2 ^ (-10 : ℤ)) :=
    finite_add (round64_val (3491786004970309) (-10) (by norm_num) (by norm_num) (by norm_num)
      (by norm_num) (by norm_num))
  have e9 : Scalar.sqrt (Binary64.finite (3491786004970309 * 2 ^ (-10 : ℤ))) =
      Binary64.finite (7931104879105255 * 2 ^ (-32 : ℤ)) :=
    finite_sqrt (by norm_num) (round64_sqrt_pos (-32) 7931104879105255 (by norm_num) (by norm_num)
      (by norm_num) (by norm_num) (by norm_num) (by norm_num) (by norm_num))
  have h9 : Scalar.sqrt ((Binary64.finite (3491786004970309 * 2 ^ (-10 : ℤ)) + Binary64.finite 0)) =
      Binary64.finite (7931104879105255 * 2 ^ (-32 : ℤ)) := by
    simp only [e8, e9]
  have e10 : Binary64.finite (6983572009940618 * 2 ^ (-11 : ℤ)) / Binary64.finite (7931104879105255 * 2 ^ (-32 : ℤ)) =
      Binary64.finite (7931104879105256 * 2 ^ (-32 : ℤ)) :=
    finite_div (by norm_num) (round64_pos (-32) 7931104879105256 (by norm_num) (by norm_num) (by norm_num)
      (by norm_num) (by norm_num) (by norm_num) (by norm_num))
  have h10 : (Binary64.finite (6983572009940618 * 2 ^ (-11 : ℤ)) / Binary64.finite (7931104879105255 * 2 ^ (-32 : ℤ))) =
      Binary64.finite (7931104879105256 * 2 ^ (-32 : ℤ)) := by
    simp only [e10]
  have e11 : Binary64.finite (7931104879105256 * 2 ^ (-32 : ℤ)) + Binary64.finite 0 =
      Binary64.finite (991388109888157 * 2 ^ (-29 : ℤ)) :=
    finite_add (round64_val (991388109888157) (-29) (by norm_num) (by norm_num) (by norm_num)
      (by norm_num) (by norm_num))
  have e12 : Binary64.finite (991388109888157 * 2 ^ (-29 : ℤ)) * Binary64.finite 1 =
      Binary64.finite (991388109888157 * 2 ^ (-29 : ℤ)) :=
    finite_mul (round64_val (991388109888157) (-29) (by norm_num) (by norm_num) (by norm_num)
      (by norm_num) (by norm_num))
  have h11 : ((Binary64.finite (7931104879105256 * 2 ^ (-32 : ℤ)) + Binary64.finite 0) * Binary64.finite 1) =
      Binary64.finite (991388109888157 * 2 ^ (-29 : ℤ)) := by
    simp only [e11, e12]
  have hx : (Binary64.finite (991388109888157 * 2 ^ (-29 : ℤ)) * Binary64.finite 1) =
      Binary64.finite (991388109888157 * 2 ^ (-29 : ℤ)) := by
    simp only [e12]
  rw [ellipsoid_geodToECEF_x_steps d h1 h2 h4 h5 h6 h7 h8 h9 h10 h11, hx]

/-- In binary64 the ellipsoid `geodToECEF` with major axis `a = 1846604.2538884224` and
minor axis `1` maps `(0, 0, 0)` to an `x` one unit in the last place above `a`. -/
theorem binary64_equatorial_x (d : Coord Binary64) :
    (Ellipsoid.geodToECEF d ![Binary64.finite 0, Binary64.finite 0, Binary64.finite 0]
        ⟨Binary64.finite (7931104879105255 * 2 ^ (-32 : ℤ)), Binary64.finite 1⟩).1 0
      = Binary64.finite (991388109888157 * 2 ^ (-29 : ℤ)) := by
  have e1 : Binary64.finite (7931104879105255 * 2 ^ (-32 : ℤ)) * Binary64.finite (7931104879105255 * 2 ^ (-32 : ℤ)) =
      Binary64.finite (6983572009940618 * 2 ^ (-11 : ℤ)) :=
    finite_mul (round64_pos (-11) 6983572009940618 (by norm_num) (by norm_num) (by norm_num)
      (by norm_num) (by norm_num) (by norm_num) (by norm_num))
  have h1 : (Binary64.finite (7931104879105255 * 2 ^ (-32 : ℤ)) * Binary64.finite (7931104879105255 * 2 ^ (-32 : ℤ))) =
      Binary64.finite (6983572009940618 * 2 ^ (-11 : ℤ)) := by
    simp only [e1]
  have e2 : Binary64.finite 1 * Binary64.finite 1 =
      Binary64.finite 1 :=
    finite_mul (round64_val (1) (0) (by norm_num) (by norm_num) (by norm_num)
      (by norm_num) (by norm_num))
  have h2 : (Binary64.finite 1 * Binary64.finite 1) =
      Binary64.finite 1 := by
    simp only [e2]
  have e3 : Scalar.cos (Binary64.finite 0) =
      Binary64.finite 1 :=
    finite_cos (by rw [Real.cos_zero]; exact round64_one)
  have h4 : Scalar.cos (Binary64.finite 0) =
      Binary64.finite 1 := by
    simp only [e3]
  have e4 : Scalar.sin (Binary64.finite 0) =
      Binary64.finite 0 :=
    finite_sin (by rw [Real.sin_zero]; exact round64_zero)
  have h5 : Scalar.sin (Binary64.finite 0) =
      Binary64.finite 0 := by
    simp only [e4]
  have h6 : Scalar.cos (Binary64.finite 0) =
      Binary64.finite 1 := by
    simp only [e3]
  have e5 : Binary64.finite (6983572009940618 * 2 ^ (-11 : ℤ)) * Binary64.finite 1 =
      Binary64.finite (3491786004970309 * 2 ^ (-10 : ℤ)) :=
    finite_mul (round64_val (3491786004970309) (-10) (by norm_num) (by norm_num) (by norm_num)
      (by norm_num) (by norm_num))
  have e6 : Binary64.finite (3491786004970309 * 2 ^ (-10 : ℤ)) * Binary64.finite 1 =
      Binary64.finite (3491786004970309 * 2 ^ (-10 : ℤ)) :=
    finite_mul (round64_val (3491786004970309) (-10) (by norm_num) (by norm_num) (by norm_num)
      (by norm_num) (by norm_num))
  have h7 : ((Binary64.finite (6983572009940618 * 2 ^ (-11 : ℤ)) * Binary64.finite 1) * Binary64.finite 1) =
      Binary64.finite (3491786004970309 * 2 ^ (-10 : ℤ)) := by
    simp only [e5, e6]
  have e7 : Binary64.finite 1 * Binary64.finite 0 =
      Binary64.finite 0 :=
    finite_mul (round64_val (0) (0) (by norm_num) (by norm_num) (by norm_num)
      (by norm_num) (by norm_num))
  have e8 : Binary64.finite 0 * Binary64.finite 0 =
      Binary64.finite 0 :=
    finite_mul (round64_val (0) (0) (by norm_num) (by norm_num) (by norm_num)
      (by norm_num) (by norm_num))
  have h8 : ((Binary64.finite 1 * Binary64.finite 0) * Binary64.finite 0) =
      Binary64.finite 0 := by
    simp only [e7, e8]
  have e9 : Binary64.finite (3491786004970309 * 2 ^ (-10 : ℤ)) + Binary64.finite 0 =
      Binary64.finite (3491786004970309 * 2 ^ (-10 : ℤ)) :=
    finite_add (round64_val (3491786004970309) (-10) (by norm_num) (by norm_num) (by norm_num)
      (by norm_num) (by norm_num))
  have e10 : Scalar.sqrt (Binary64.finite (3491786004970309 * 2 ^ (-10 : ℤ))) =
      Binary64.finite (7931104879105255 * 2 ^ (-32 : ℤ)) :=
    finite_sqrt (by norm_num) (round64_sqrt_pos (-32) 7931104879105255 (by norm_num) (by norm_num)
      (by norm_num) (by norm_num) (by norm_num) (by norm_num) (by norm_num))
  have h9 : Scalar.sqrt ((Binary64.finite (3491786004970309 * 2 ^ (-10 : ℤ)) + Binary64.finite 0)) =
      Binary64.finite (7931104879105255 * 2 ^ (-32 : ℤ)) := by
    simp only [e9, e10]
  have e11 : Binary64.finite (6983572009940618 * 2 ^ (-11 : ℤ)) / Binary64.finite (7931104879105255 * 2 ^ (-32 : ℤ)) =
      Binary64.finite (7931104879105256 * 2 ^ (-32 : ℤ)) :=
    finite_div (by norm_num) (round64_pos (-32) 7931104879105256 (by norm_num) (by norm_num) (by norm_num)
      (by norm_num) (by norm_num) (by norm_num) (by norm_num))
  have h10 : (Binary64.finite (6983572009940618 * 2 ^ (-11 : ℤ)) / Binary64.finite (7931104879105255 * 2 ^ (-32 : ℤ))) =
      Binary64.finite (7931104879105256 * 2 ^ (-32 : ℤ)) := by
    simp only [e11]
  have e12 : Binary64.finite (7931104879105256 * 2 ^ (-32 : ℤ)) + Binary64.finite 0 =
      Binary64.finite (991388109888157 * 2 ^ (-29 : ℤ)) :=
    finite_add (round64_val (991388109888157) (-29) (by norm_num) (by norm_num) (by norm_num)
      (by norm_num) (by norm_num))
  have e13 : Binary64.finite (991388109888157 * 2 ^ (-29 : ℤ)) * Binary64.finite 1 =
      Binary64.finite (991388109888157 * 2 ^ (-29 : ℤ)) :=
    finite_mul (round64_val (991388109888157) (-29) (by norm_num) (by norm_num) (by norm_num)
      (by norm_num) (by norm_num))
  have h11 : ((Binary64.finite (7931104879105256 * 2 ^ (-32 : ℤ)) + Binary64.finite 0) * Binary64.finite 1) =
      Binary64.finite (991388109888157 * 2 ^ (-29 : ℤ)) := by
    simp only [e12, e13]
  have hx : (Binary64.finite (991388109888157 * 2 ^ (-29 : ℤ)) * Binary64.finite 1) =
      Binary64.finite (991388109888157 * 2 ^ (-29 : ℤ)) := by
    simp only [e13]
  rw [ellipsoid_geodToECEF_x_steps d h1 h2 h4 h5 h6 h7 h8 h9 h10 h11, hx]

/-- In binary64 the sphere `geodToECEF` with radius `r = 1846604.2538884224` maps `(0, 0, 0)`
to `x = r` exactly. -/
theorem binary64_sphere_x (d : Coord Binary64) :
    (Sphere.geodToECEF d ![Binary64.finite 0, Binary64.finite 0, Binary64.finite 0]
        ⟨Binary64.finite (7931104879105255 * 2 ^ (-32 : ℤ))⟩).1 0
      = Binary64.finite (7931104879105255 * 2 ^ (-32 : ℤ)) := by
  have e1 : Binary64.finite (7931104879105255 * 2 ^ (-32 : ℤ)) + Binary64.finite 0 =
      Binary64.finite (7931104879105255 * 2 ^ (-32 : ℤ)) :=
    finite_add (round64_val (7931104879105255) (-32) (by norm_num) (by norm_num) (by norm_num)
      (by norm_num) (by norm_num))
  have h3 : (Binary64.finite (7931104879105255 * 2 ^ (-32 : ℤ)) + Binary64.finite 0) =
      Binary64.finite (7931104879105255 * 2 ^ (-32 : ℤ)) := by
    simp only [e1]
  have e2 : Scalar.cos (Binary64.finite 0) =
      Binary64.finite 1 :=
    finite_cos (by rw [Real.cos_zero]; exact round64_one)
  have h2 : Scalar.cos (Binary64.finite 0) =
      Binary64.finite 1 := by
    simp only [e2]
  have e3 : Binary64.finite (7931104879105255 * 2 ^ (-32 : ℤ)) * Binary64.finite 1 =
      Binary64.finite (7931104879105255 * 2 ^ (-32 : ℤ)) :=
    finite_mul (round64_val (7931104879105255) (-32) (by norm_num) (by norm_num) (by norm_num)
      (by norm_num) (by norm_num))
  have hx : ((Binary64.finite (7931104879105255 * 2 ^ (-32 : ℤ)) * Binary64.finite 1) * Binary64.finite 1) =
      Binary64.finite (7931104879105255 * 2 ^ (-32 : ℤ)) := by
    simp only [e3]
  rw [sphere_geodToECEF_x_steps d h2 h2 h3, hx]

/-- In binary64, at the axes of the test table, the ellipsoid `geodToECEF` maps `(0, 0, 0)`
to `(6378137, 0, 0)` exactly: `6378137 * 6378137` is below `2 ^ 53` and its square root is
exact. -/
theorem binary64_test_row_forward (d : Coord Binary64) :
    (Ellipsoid.geodToECEF d ![Binary64.finite 0, Binary64.finite 0, Binary64.finite 0]
        ⟨Binary64.finite 6378137, Binary64.finite (6825510824613647 * 2 ^ (-30 : ℤ))⟩).1
      = ![Binary64.finite 6378137, Binary64.finite 0, Binary64.finite 0] := by
  have e1 : Binary64.finite 6378137 * Binary64.finite 6378137 =
      Binary64.finite 40680631590769 :=
    finite_mul (round64_val (40680631590769) (0) (by norm_num) (by norm_num) (by norm_num)
      (by norm_num) (by norm_num))
  have h1 : (Binary64.finite 6378137 * Binary64.finite 6378137) =
      Binary64.finite 40680631590769 := by
    simp only [e1]
  have e2 : Binary64.finite (6825510824613647 * 2 ^ (-30 : ℤ)) * Binary64.finite (6825510824613647 * 2 ^ (-30 : ℤ)) =
      Binary64.finite (5172262398036372 * 2 ^ (-7 : ℤ)) :=
    finite_mul (round64_pos (-7) 5172262398036372 (by norm_num) (by norm_num) (by norm_num)
      (by norm_num) (by norm_num) (by norm_num) (by norm_num))
  have h2 : (Binary64.finite (6825510824613647 * 2 ^ (-30 : ℤ)) * Binary64.finite (6825510824613647 * 2 ^ (-30 : ℤ))) =
      Binary64.finite (5172262398036372 * 2 ^ (-7 : ℤ)) := by
    simp only [e2]
  have e3 : Scalar.sin (Binary64.finite 0) =
      Binary64.finite 0 :=
    finite_sin (by rw [Real.sin_zero]; exact round64_zero)
  have h3 : Scalar.sin (Binary64.finite 0) =
      Binary64.finite 0 := by
    simp only [e3]
  have e4 : Scalar.cos (Binary64.finite 0) =
      Binary64.finite 1 :=
    finite_cos (by rw [Real.cos_zero]; exact round64_one)
  have h4 : Scalar.cos (Binary64.finite 0) =
      Binary64.finite 1 := by
    simp only [e4]
  have h5 : Scalar.sin (Binary64.finite 0) =
      Binary64.finite 0 := by
    simp only [e3]
  have h6 : Scalar.cos (Binary64.finite 0) =
      Binary64.finite 1 := by
    simp only [e4]
  have e5 : Binary64.finite 40680631590769 * Binary64.finite 1 =
      Binary64.finite 40680631590769 :=
    finite_mul (round64_val (40680631590769) (0) (by norm_num) (by norm_num) (by norm_num)
      (by norm_num) (by norm_num))
  have h7 : ((Binary64.finite 40680631590769 * Binary64.finite 1) * Binary64.finite 1) =
      Binary64.finite 40680631590769 := by
    simp only [e5]
  have e6 : Binary64.finite (5172262398036372 * 2 ^ (-7 : ℤ)) * Binary64.finite 0 =
      Binary64.finite 0 :=
    finite_mul (round64_val (0) (0) (by norm_num) (by norm_num) (by norm_num)
      (by norm_num) (by norm_num))
  have e7 : Binary64.finite 0 * Binary64.finite 0 =
      Binary64.finite 0 :=
    finite_mul (round64_val (0) (0) (by norm_num) (by norm_num) (by norm_num)
      (by norm_num) (by norm_num))
  have h8 : ((Binary64.finite (5172262398036372 * 2 ^ (-7 : ℤ)) * Binary64.finite 0) * Binary64.finite 0) =
      Binary64.finite 0 := by
    simp only [e6, e7]
  have e8 : Binary64.finite 40680631590769 + Binary64.finite 0 =
      Binary64.finite 40680631590769 :=
    finite_add (round64_val (40680631590769) (0) (by norm_num) (by norm_num) (by norm_num)
      (by norm_num) (by norm_num))
  have e9 : Scalar.sqrt (Binary64.finite 40680631590769) =
      Binary64.finite 6378137 :=
    by
      apply finite_sqrt (by norm_num)
      have hs : Real.sqrt (40680631590769 : ℝ) = 6378137 := by
        rw [Real.sqrt_eq_iff_mul_self_eq (by norm_num) (by norm_num)]
        norm_num
      rw [hs]
      exact (round64_val (6378137) (0) (by norm_num) (by norm_num) (by norm_num)
      (by norm_num) (by norm_num))
  have h9 : Scalar.sqrt ((Binary64.finite 40680631590769 + Binary64.finite 0)) =
      Binary64.finite 6378137 := by
    simp only [e8, e9]
  have e10 : Binary64.finite 40680631590769 / Binary64.finite 6378137 =
      Binary64.finite 6378137 :=
    finite_div (by norm_num) (round64_val (6378137) (0) (by norm_num) (by norm_num) (by norm_num)
      (by norm_num) (by norm_num))
  have h10 : (Binary64.finite 40680631590769 / Binary64.finite 6378137) =
      Binary64.finite 6378137 := by
    simp only [e10]
  have e11 : Binary64.finite 6378137 + Binary64.finite 0 =
      Binary64.finite 6378137 :=
    finite_add (round64_val (6378137) (0) (by norm_num) (by norm_num) (by norm_num)
      (by norm_num) (by norm_num))
  have e12 : Binary64.finite 6378137 * Binary64.finite 1 =
      Binary64.finite 6378137 :=
    finite_mul (round64_val (6378137) (0) (by norm_num) (by norm_num) (by norm_num)
      (by norm_num) (by norm_num))
  have h11 : ((Binary64.finite 6378137 + Binary64.finite 0) * Binary64.finite 1) =
      Binary64.finite 6378137 := by
    simp only [e11, e12]
  have hx : (Binary64.finite 6378137 * Binary64.finite 1) =
      Binary64.finite 6378137 := by
    simp only [e12]
  have e13 : Binary64.finite 6378137 * Binary64.finite 0 =
      Binary64.finite 0 :=
    finite_mul (round64_val (0) (0) (by norm_num) (by norm_num) (by norm_num)
      (by norm_num) (by norm_num))
  have hy : (Binary64.finite 6378137 * Binary64.finite 0) =
      Binary64.finite 0 := by
    simp only [e13]
  have e14 : Binary64.finite (5172262398036372 * 2 ^ (-7 : ℤ)) / Binary64.finite 40680631590769 =
      Binary64.finite (8946901640282331 * 2 ^ (-53 : ℤ)) :=
    finite_div (by norm_num) (round64_pos (-53) 8946901640282331 (by norm_num) (by norm_num) (by norm_num)
      (by norm_num) (by norm_num) (by norm_num) (by norm_num))
  have hr : (Binary64.finite (5172262398036372 * 2 ^ (-7 : ℤ)) / Binary64.finite 40680631590769) =
      Binary64.finite (8946901640282331 * 2 ^ (-53 : ℤ)) := by
    simp only [e14]
  have e15 : Binary64.finite (8946901640282331 * 2 ^ (-53 : ℤ)) * Binary64.finite 6378137 =
      Binary64.finite (6802626179128340 * 2 ^ (-30 : ℤ)) :=
    finite_mul (round64_pos (-30) 6802626179128340 (by norm_num) (by norm_num) (by norm_num)
      (by norm_num) (by norm_num) (by norm_num) (by norm_num))
  have e16 : Binary64.finite (6802626179128340 * 2 ^ (-30 : ℤ)) + Binary64.finite 0 =
      Binary64.finite (1700656544782085 * 2 ^ (-28 : ℤ)) :=
    finite_add (round64_val (1700656544782085) (-28) (by norm_num) (by norm_num) (by norm_num)
      (by norm_num) (by norm_num))
  have hzz : ((Binary64.finite (8946901640282331 * 2 ^ (-53 : ℤ)) * Binary64.finite 6378137) + Binary64.finite 0) =
      Binary64.finite (1700656544782085 * 2 ^ (-28 : ℤ)) := by
    simp only [e15, e16]
  have e17 : Binary64.finite (1700656544782085 * 2 ^ (-28 : ℤ)) * Binary64.finite 0 =
      Binary64.finite 0 :=
    finite_mul (round64_val (0) (0) (by norm_num) (by norm_num) (by norm_num)
      (by norm_num) (by norm_num))
  have hz : (Binary64.finite (1700656544782085 * 2 ^ (-28 : ℤ)) * Binary64.finite 0) =
      Binary64.finite 0 := by
    simp only [e17]
  exact ellipsoid_geodToECEF_steps d h1 h2 h3 h4 h5 h6 h7 h8 h9 h10 h11 hx hy hr hzz hz

/-- In binary64, at the axes of the test table, the ellipsoid `ecefToGeod` maps
`(6378137, 0, 0)` to `(0, 0, 0)` exactly. -/
theorem binary64_test_row_inverse (d : Coord Binary64) :
    (Ellipsoid.ecefToGeod d ![Binary64.finite 6378137, Binary64.finite 0, Binary64.finite 0]
        ⟨Binary64.finite 6378137, Binary64.finite (6825510824613647 * 2 ^ (-30 : ℤ))⟩).1
      = ![Binary64.finite 0, Binary64.finite 0, Binary64.finite 0] := by
  have e1 : Binary64.finite 6378137 * Binary64.finite 6378137 =
      Binary64.finite 40680631590769 :=
    finite_mul (round64_val (40680631590769) (0) (by norm_num) (by norm_num) (by norm_num)
      (by norm_num) (by norm_num))
  have h1 : (Binary64.finite 6378137 * Binary64.finite 6378137) =
      Binary64.finite 40680631590769 := by
    simp only [e1]
  have e2 : Binary64.finite (6825510824613647 * 2 ^ (-30 : ℤ)) * Binary64.finite (6825510824613647 * 2 ^ (-30 : ℤ)) =
      Binary64.finite (5172262398036372 * 2 ^ (-7 : ℤ)) :=
    finite_mul (round64_pos (-7) 5172262398036372 (by norm_num) (by norm_num) (by norm_num)
      (by norm_num) (by norm_num) (by norm_num) (by norm_num))
  have h2 : (Binary64.finite (6825510824613647 * 2 ^ (-30 : ℤ)) * Binary64.finite (6825510824613647 * 2 ^ (-30 : ℤ))) =
      Binary64.finite (5172262398036372 * 2 ^ (-7 : ℤ)) := by
    simp only [e2]
  have e3 : Binary64.finite 40680631590769 - Binary64.finite (5172262398036372 * 2 ^ (-7 : ℤ)) =
      Binary64.finite (8714611395515 * 2 ^ (-5 : ℤ)) :=
    finite_sub (round64_val (8714611395515) (-5) (by norm_num) (by norm_num) (by norm_num)
      (by norm_num) (by norm_num))
  have e4 : Binary64.finite (8714611395515 * 2 ^ (-5 : ℤ)) / Binary64.finite 40680631590769 =
      Binary64.finite (7718094650708569 * 2 ^ (-60 : ℤ)) :=
    finite_div (by norm_num) (round64_pos (-60) 7718094650708569 (by norm_num) (by norm_num) (by norm_num)
      (by norm_num) (by norm_num) (by norm_num) (by norm_num))
  have e5 : Scalar.sqrt (Binary64.finite (7718094650708569 * 2 ^ (-60 : ℤ))) =
      Binary64.finite (5895694038274148 * 2 ^ (-56 : ℤ)) :=
    finite_sqrt (by norm_num) (round64_sqrt_pos (-56) 5895694038274148 (by norm_num) (by norm_num)
      (by norm_num) (by norm_num) (by norm_num) (by norm_num) (by norm_num))
  have h3 : Scalar.sqrt (((Binary64.finite 40680631590769 - Binary64.finite (5172262398036372 * 2 ^ (-7 : ℤ))) / Binary64.finite 40680631590769)) =
      Binary64.finite (5895694038274148 * 2 ^ (-56 : ℤ)) := by
    simp only [e3, e4, e5]
  have e6 : Binary64.finite (5895694038274148 * 2 ^ (-56 : ℤ)) * Binary64.finite (5895694038274148 * 2 ^ (-56 : ℤ)) =
      Binary64.finite (7718094650708569 * 2 ^ (-60 : ℤ)) :=
    finite_mul (round64_pos (-60) 7718094650708569 (by norm_num) (by norm_num) (by norm_num)
      (by norm_num) (by norm_num) (by norm_num) (by norm_num))
  have h4 : (Binary64.finite (5895694038274148 * 2 ^ (-56 : ℤ)) * Binary64.finite (5895694038274148 * 2 ^ (-56 : ℤ))) =
      Binary64.finite (7718094650708569 * 2 ^ (-60 : ℤ)) := by
    simp only [e6]
  have e7 : Binary64.finite (8714611395515 * 2 ^ (-5 : ℤ)) / Binary64.finite (5172262398036372 * 2 ^ (-7 : ℤ)) =
      Binary64.finite (7770110724464041 * 2 ^ (-60 : ℤ)) :=
    finite_div (by norm_num) (round64_pos (-60) 7770110724464041 (by norm_num) (by norm_num) (by norm_num)
      (by norm_num) (by norm_num) (by norm_num) (by norm_num))
  have e8 : Scalar.sqrt (Binary64.finite (7770110724464041 * 2 ^ (-60 : ℤ))) =
      Binary64.finite (5915527682576065 * 2 ^ (-56 : ℤ)) :=
    finite_sqrt (by norm_num) (round64_sqrt_pos (-56) 5915527682576065 (by norm_num) (by norm_num)
      (by norm_num) (by norm_num) (by norm_num) (by norm_num) (by norm_num))
  have h5 : Scalar.sqrt (((Binary64.finite 40680631590769 - Binary64.finite (5172262398036372 * 2 ^ (-7 : ℤ))) / Binary64.finite (5172262398036372 * 2 ^ (-7 : ℤ)))) =
      Binary64.finite (5915527682576065 * 2 ^ (-56 : ℤ)) := by
    simp only [e3, e7, e8]
  have e9 : Binary64.finite (5915527682576065 * 2 ^ (-56 : ℤ)) * Binary64.finite (5915527682576065 * 2 ^ (-56 : ℤ)) =
      Binary64.finite (7770110724464041 * 2 ^ (-60 : ℤ)) :=
    finite_mul (round64_pos (-60) 7770110724464041 (by norm_num) (by norm_num) (by norm_num)
      (by norm_num) (by norm_num) (by norm_num) (by norm_num))
  have h6 : (Binary64.finite (5915527682576065 * 2 ^ (-56 : ℤ)) * Binary64.finite (5915527682576065 * 2 ^ (-56 : ℤ))) =
      Binary64.finite (7770110724464041 * 2 ^ (-60 : ℤ)) := by
    simp only [e9]
  have e10 : Binary64.finite 0 * Binary64.finite 0 =
      Binary64.finite 0 :=
    finite_mul (round64_val (0) (0) (by norm_num) (by norm_num) (by norm_num)
      (by norm_num) (by norm_num))
  have e11 : Binary64.finite 40680631590769 + Binary64.finite 0 =
      Binary64.finite 40680631590769 :=
    finite_add (round64_val (40680631590769) (0) (by norm_num) (by norm_num) (by norm_num)
      (by norm_num) (by norm_num))
  have e12 : Scalar.sqrt (Binary64.finite 40680631590769) =
      Binary64.finite 6378137 :=
    by
      apply finite_sqrt (by norm_num)
      have hs : Real.sqrt (40680631590769 : ℝ) = 6378137 := by
        rw [Real.sqrt_eq_iff_mul_self_eq (by norm_num) (by norm_num)]
        norm_num
      rw [hs]
      exact (round64_val (6378137) (0) (by norm_num) (by norm_num) (by norm_num)
      (by norm_num) (by norm_num))
  have h7 : Scalar.sqrt (((Binary64.finite 6378137 * Binary64.finite 6378137) + (Binary64.finite 0 * Binary64.finite 0))) =
      Binary64.finite 6378137 := by
    simp only [e1, e10, e11, e12]
  have e13 : Scalar.atan2 (Binary64.finite 0) (Binary64.finite 6378137) =
      Binary64.finite 0 :=
    finite_atan2 (by rw [atan2_zero_nonneg (by norm_num)]; exact round64_zero)
  have hlon : Scalar.atan2 (Binary64.finite 0) (Binary64.finite 6378137) =
      Binary64.finite 0 := by
    simp only [e13]
  have e14 : Binary64.finite 0 * Binary64.finite 6378137 =
      Binary64.finite 0 :=
    finite_mul (round64_val (0) (0) (by norm_num) (by norm_num) (by norm_num)
      (by norm_num) (by norm_num))
  have e15 : Binary64.finite 6378137 * Binary64.finite (6825510824613647 * 2 ^ (-30 : ℤ)) =
      Binary64.finite (5189662353321172 * 2 ^ (-7 : ℤ)) :=
    finite_mul (round64_pos (-7) 5189662353321172 (by norm_num) (by norm_num) (by norm_num)
      (by norm_num) (by norm_num) (by norm_num) (by norm_num))
  have e16 : Scalar.atan2 (Binary64.finite 0) (Binary64.finite (5189662353321172 * 2 ^ (-7 : ℤ))) =
      Binary64.finite 0 :=
    finite_atan2 (by rw [atan2_zero_nonneg (by norm_num)]; exact round64_zero)
  have h8 : Scalar.atan2 ((Binary64.finite 0 * Binary64.finite 6378137)) ((Binary64.finite 6378137 * Binary64.finite (6825510824613647 * 2 ^ (-30 : ℤ)))) =
      Binary64.finite 0 := by
    simp only [e14, e15, e16]
  have e17 : Scalar.sin (Binary64.finite 0) =
      Binary64.finite 0 :=
    finite_sin (by rw [Real.sin_zero]; exact round64_zero)
  have h9 : Scalar.sin (Binary64.finite 0) =
      Binary64.finite 0 := by
    simp only [e17]
  have e18 : Scalar.cos (Binary64.finite 0) =
      Binary64.finite 1 :=
    finite_cos (by rw [Real.cos_zero]; exact round64_one)
  have h10 : Scalar.cos (Binary64.finite 0) =
      Binary64.finite 1 := by
    simp only [e18]
  have h11 : ((Binary64.finite 0 * Binary64.finite 0) * Binary64.finite 0) =
      Binary64.finite 0 := by
    simp only [e10]
  have e19 : Binary64.finite 1 * Binary64.finite 1 =
      Binary64.finite 1 :=
    finite_mul (round64_val (1) (0) (by norm_num) (by norm_num) (by norm_num)
      (by norm_num) (by norm_num))
  have h12 : ((Binary64.finite 1 * Binary64.finite 1) * Binary64.finite 1) =
      Binary64.finite 1 := by
    simp only [e19]
  have e20 : Binary64.finite (7770110724464041 * 2 ^ (-60 : ℤ)) * Binary64.finite (6825510824613647 * 2 ^ (-30 : ℤ)) =
      Binary64.finite (5888065019807420 * 2 ^ (-37 : ℤ)) :=
    finite_mul (round64_pos (-37) 5888065019807420 (by norm_num) (by norm_num) (by norm_num)
      (by norm_num) (by norm_num) (by norm_num) (by norm_num))
  have e21 : Binary64.finite (5888065019807420 * 2 ^ (-37 : ℤ)) * Binary64.finite 0 =
      Binary64.finite 0 :=
    finite_mul (round64_val (0) (0) (by norm_num) (by norm_num) (by norm_num)
      (by norm_num) (by norm_num))
  have e22 : Binary64.finite 0 + Binary64.finite 0 =
      Binary64.finite 0 :=
    finite_add (round64_val (0) (0) (by norm_num) (by norm_num) (by norm_num)
      (by norm_num) (by norm_num))
  have e23 : Binary64.finite (7718094650708569 * 2 ^ (-60 : ℤ)) * Binary64.finite 6378137 =
      Binary64.finite (5868323452614117 * 2 ^ (-37 : ℤ)) :=
    finite_mul (round64_pos (-37) 5868323452614117 (by norm_num) (by norm_num) (by norm_num)
      (by norm_num) (by norm_num) (by norm_num) (by norm_num))
  have e24 : Binary64.finite (5868323452614117 * 2 ^ (-37 : ℤ)) * Binary64.finite 1 =
      Binary64.finite (5868323452614117 * 2 ^ (-37 : ℤ)) :=
    finite_mul (round64_val (5868323452614117) (-37) (by norm_num) (by norm_num) (by norm_num)
      (by norm_num) (by norm_num))
  have e25 : Binary64.finite 6378137 - Binary64.finite (5868323452614117 * 2 ^ (-37 : ℤ)) =
      Binary64.finite (6802626179128340 * 2 ^ (-30 : ℤ)) :=
    finite_sub (round64_pos (-30) 6802626179128340 (by norm_num) (by norm_num) (by norm_num)
      (by norm_num) (by norm_num) (by norm_num) (by norm_num))
  have e26 : Scalar.atan2 (Binary64.finite 0) (Binary64.finite (6802626179128340 * 2 ^ (-30 : ℤ))) =
      Binary64.finite 0 :=
    finite_atan2 (by rw [atan2_zero_nonneg (by norm_num)]; exact round64_zero)
  have h13 : Scalar.atan2 ((Binary64.finite 0 + ((Binary64.finite (7770110724464041 * 2 ^ (-60 : ℤ)) * Binary64.finite (6825510824613647 * 2 ^ (-30 : ℤ))) * Binary64.finite 0))) ((Binary64.finite 6378137 - ((Binary64.finite (7718094650708569 * 2 ^ (-60 : ℤ)) * Binary64.finite 6378137) * Binary64.finite 1))) =
      Binary64.finite 0 := by
    simp only [e20, e21, e22, e23, e24, e25, e26]
  have h14 : Scalar.cos (Binary64.finite 0) =
      Binary64.finite 1 := by
    simp only [e18]
  have h15 : Scalar.sin (Binary64.finite 0) =
      Binary64.finite 0 := by
    simp only [e17]
  have e27 : Binary64.finite (7718094650708569 * 2 ^ (-60 : ℤ)) * Binary64.finite 0 =
      Binary64.finite 0 :=
    finite_mul (round64_val (0) (0) (by norm_num) (by norm_num) (by norm_num)
      (by norm_num) (by norm_num))
  have e28 : Binary64.finite 1 - Binary64.finite 0 =
      Binary64.finite 1 :=
    finite_sub (round64_val (1) (0) (by norm_num) (by norm_num) (by norm_num)
      (by norm_num) (by norm_num))
  have e29 : Scalar.sqrt (Binary64.finite 1) =
      Binary64.finite 1 :=
    by
      apply finite_sqrt (by norm_num)
      have hs : Real.sqrt (1 : ℝ) = 1 := by
        rw [Real.sqrt_eq_iff_mul_self_eq (by norm_num) (by norm_num)]
        norm_num
      rw [hs]
      exact (round64_val (1) (0) (by norm_num) (by norm_num) (by norm_num)
      (by norm_num) (by norm_num))
  have e30 : Binary64.finite 6378137 / Binary64.finite 1 =
      Binary64.finite 6378137 :=
    finite_div (by norm_num) (round64_val (6378137) (0) (by norm_num) (by norm_num) (by norm_num)
      (by norm_num) (by norm_num))
  have h16 : (Binary64.finite 6378137 / Scalar.sqrt (((1.0 : Binary64) - ((Binary64.finite (7718094650708569 * 2 ^ (-60 : ℤ)) * Binary64.finite 0) * Binary64.finite 0)))) =
      Binary64.finite 6378137 := by
    simp only [one_lit_binary64, e27, e10, e28, e29, e30]
  have e31 : Binary64.finite 6378137 - Binary64.finite 6378137 =
      Binary64.finite 0 :=
    finite_sub (round64_val (0) (0) (by norm_num) (by norm_num) (by norm_num)
      (by norm_num) (by norm_num))
  have h17 : ((Binary64.finite 6378137 / Binary64.finite 1) - Binary64.finite 6378137) =
      Binary64.finite 0 := by
    simp only [e30, e31]
  exact ellipsoid_ecefToGeod_steps d h1 h2 h3 h4 h5 h6 h7 hlon h8 h9 h10 h11 h12 h13 h14 h15 h16 h17

/-- In binary64, with axes `a = 2`, `b = 1`, the squared eccentricities the kernel computes
(`e * e` and `ep * ep`, squares of rounded square roots) are one unit in the last place below
the quotients `(a*a - b*b) / (a*a) = 0.75` and `(a*a - b*b) / (b*b) = 3`. -/
theorem binary64_eccentricities_2_1 :
    Ellipsoid.eccentricities (⟨Binary64.finite 2, Binary64.finite 1⟩ : Ellipsoid Binary64)
        = (Binary64.finite (6755399441055743 * 2 ^ (-53 : ℤ)), Binary64.finite (6755399441055743 * 2 ^ (-51 : ℤ)))
      ∧ (Binary64.finite 2 * Binary64.finite 2 - Binary64.finite 1 * Binary64.finite 1)
          / (Binary64.finite 2 * Binary64.finite 2) = Binary64.finite 0.75
      ∧ (Binary64.finite 2 * Binary64.finite 2 - Binary64.finite 1 * Binary64.finite 1)
          / (Binary64.finite 1 * Binary64.finite 1) = Binary64.finite 3 := by
  have c1 : Binary64.finite 2 * Binary64.finite 2 =
      Binary64.finite 4 :=
    finite_mul (round64_val (1) (2) (by norm_num) (by norm_num) (by norm_num)
      (by norm_num) (by norm_num))
  have c2 : Binary64.finite 1 * Binary64.finite 1 =
      Binary64.finite 1 :=
    finite_mul (round64_val (1) (0) (by norm_num) (by norm_num) (by norm_num)
      (by norm_num) (by norm_num))
  have c3 : Binary64.finite 4 - Binary64.finite 1 =
      Binary64.finite 3 :=
    finite_sub (round64_val (3) (0) (by norm_num) (by norm_num) (by norm_num)
      (by norm_num) (by norm_num))
  have c4 : Binary64.finite 3 / Binary64.finite 4 =
      Binary64.finite 0.75 :=
    finite_div (by norm_num) (round64_val (3) (-2) (by norm_num) (by norm_num) (by norm_num)
      (by norm_num) (by norm_num))
  have c5 : Scalar.sqrt (Binary64.finite 0.75) =
      Binary64.finite (7800463371553962 * 2 ^ (-53 : ℤ)) :=
    finite_sqrt (by norm_num) (round64_sqrt_pos (-53) 7800463371553962 (by norm_num) (by norm_num)
      (by norm_num) (by norm_num) (by norm_num) (by norm_num) (by norm_num))
  have c6 : Binary64.finite (7800463371553962 * 2 ^ (-53 : ℤ)) * Binary64.finite (7800463371553962 * 2 ^ (-53 : ℤ)) =
      Binary64.finite (6755399441055743 * 2 ^ (-53 : ℤ)) :=
    finite_mul (round64_pos (-53) 6755399441055743 (by norm_num) (by norm_num) (by norm_num)
      (by norm_num) (by norm_num) (by norm_num) (by norm_num))
  have cE2 : (Scalar.sqrt ((((Binary64.finite 2 * Binary64.finite 2) - (Binary64.finite 1 * Binary64.finite 1)) / (Binary64.finite 2 * Binary64.finite 2))) * Scalar.sqrt ((((Binary64.finite 2 * Binary64.finite 2) - (Binary64.finite 1 * Binary64.finite 1)) / (Binary64.finite 2 * Binary64.finite 2)))) =
      Binary64.finite (6755399441055743 * 2 ^ (-53 : ℤ)) := by
    simp only [c1, c2, c3, c4, c5, c6]
  have c7 : Binary64.finite 3 / Binary64.finite 1 =
      Binary64.finite 3 :=
    finite_div (by norm_num) (round64_val (3) (0) (by norm_num) (by norm_num) (by norm_num)
      (by norm_num) (by norm_num))
  have c8 : Scalar.sqrt (Binary64.finite 3) =
      Binary64.finite (7800463371553962 * 2 ^ (-52 : ℤ)) :=
    finite_sqrt (by norm_num) (round64_sqrt_pos (-52) 7800463371553962 (by norm_num) (by norm_num)
      (by norm_num) (by norm_num) (by norm_num) (by norm_num) (by norm_num))
  have c9 : Binary64.finite (7800463371553962 * 2 ^ (-52 : ℤ)) * Binary64.finite (7800463371553962 * 2 ^ (-52 : ℤ)) =
      Binary64.finite (6755399441055743 * 2 ^ (-51 : ℤ)) :=
    finite_mul (round64_pos (-51) 6755399441055743 (by norm_num) (by norm_num) (by norm_num)
      (by norm_num) (by norm_num) (by norm_num) (by norm_num))
  have cEP2 : (Scalar.sqrt ((((Binary64.finite 2 * Binary64.finite 2) - (Binary64.finite 1 * Binary64.finite 1)) / (Binary64.finite 1 * Binary64.finite 1))) * Scalar.sqrt ((((Binary64.finite 2 * Binary64.finite 2) - (Binary64.finite 1 * Binary64.finite 1)) / (Binary64.finite 1 * Binary64.finite 1)))) =
      Binary64.finite (6755399441055743 * 2 ^ (-51 : ℤ)) := by
    simp only [c1, c2, c3, c7, c8, c9]
  have cQ : (((Binary64.finite 2 * Binary64.finite 2) - (Binary64.finite 1 * Binary64.finite 1)) / (Binary64.finite 2 * Binary64.finite 2)) =
      Binary64.finite 0.75 := by
    simp only [c1, c2, c3, c4]
  have cQP : (((Binary64.finite 2 * Binary64.finite 2) - (Binary64.finite 1 * Binary64.finite 1)) / (Binary64.finite 1 * Binary64.finite 1)) =
      Binary64.finite 3 := by
    simp only [c1, c2, c3, c7]
  refine ⟨?_, cQ, cQP⟩
  exact Prod.ext cE2 cEP2

/-- In binary64, with axes `a = 1 < b = 2`, both square roots are taken of a negative number:
the squared eccentricities the kernel computes are NaN. -/
theorem binary64_eccentricities_1_2 :
    Ellipsoid.eccentricities (⟨Binary64.finite 1, Binary64.finite 2⟩ : Ellipsoid Binary64)
      = (Binary64.nonfinite, Binary64.nonfinite) := by
  have c1 : Binary64.finite 1 * Binary64.finite 1 = Binary64.finite 1 :=
    finite_mul (round64_val 1 0 (by norm_num) (by norm_num) (by norm_num) (by norm_num)
      (by norm_num))
  have c2 : Binary64.finite 2 * Binary64.finite 2 = Binary64.finite 4 :=
    finite_mul (round64_val 1 2 (by norm_num) (by norm_num) (by norm_num) (by norm_num)
      (by norm_num))
  have c3 : Binary64.finite 1 - Binary64.finite 4 = Binary64.finite (-3) :=
    finite_sub (round64_val (-3) 0 (by norm_num) (by norm_num) (by norm_num) (by norm_num)
      (by norm_num))
  have c4 : Binary64.finite (-3) / Binary64.finite 1 = Binary64.finite (-3) :=
    finite_div (by norm_num) (round64_val (-3) 0 (by norm_num) (by norm_num) (by norm_num)
      (by norm_num) (by norm_num))
  have c5 : Binary64.finite (-3) / Binary64.finite 4 = Binary64.finite (-0.75) :=
    finite_div (by norm_num) (round64_val (-3) (-2) (by norm_num) (by norm_num) (by norm_num)
      (by norm_num) (by norm_num))
  have c6 : Scalar.sqrt (Binary64.finite (-3)) = Binary64.nonfinite := by
    show (if (-3 : ℝ) < 0 then Binary64.nonfinite else round64 (Real.sqrt (-3))) = _
    rw [if_pos (by norm_num)]
  have c7 : Scalar.sqrt (Binary64.finite (-0.75)) = Binary64.nonfinite := by
    show (if (-0.75 : ℝ) < 0 then Binary64.nonfinite else round64 (Real.sqrt (-0.75))) = _
    rw [if_pos (by norm_num)]
  have c8 : Binary64.nonfinite * Binary64.nonfinite = Binary64.nonfinite := rfl
  have hE2 : Scalar.sqrt ((Binary64.finite 1 * Binary64.finite 1
      - Binary64.finite 2 * Binary64.finite 2) / (Binary64.finite 1 * Binary64.finite 1))
      * Scalar.sqrt ((Binary64.finite 1 * Binary64.finite 1
      - Binary64.finite 2 * Binary64.finite 2) / (Binary64.finite 1 * Binary64.finite 1))
      = Binary64.nonfinite := by
    simp only [c1, c2, c3, c4, c6, c8]
  have hEP2 : Scalar.sqrt ((Binary64.finite 1 * Binary64.finite 1
      - Binary64.finite 2 * Binary64.finite 2) / (Binary64.finite 2 * Binary64.finite 2))
      * Scalar.sqrt ((Binary64.finite 1 * Binary64.finite 1
      - Binary64.finite 2 * Binary64.finite 2) / (Binary64.finite 2 * Binary64.finite 2))
      = Binary64.nonfinite := by
    simp only [c1, c2, c3, c5, c7, c8]
  exact Prod.ext hE2 hEP2

end Binary64Cases

/-! ## Binary64: the sphere inverse near the polar axis -/

section NearAxis

open Real

/-- Rounding of a positive real between two bounds of the normal range. -/
theorem round64_bounds (x lo hi : ℝ) (hlo : lo ≤ x) (hhi : x ≤ hi)
    (hl : (2 : ℝ) ^ (-1022 : ℤ) ≤ lo) (hh : hi < 2 ^ (1022 : ℤ)) :
    ∃ y, round64 x = Binary64.finite y ∧ lo * (1 - 2 ^ (-53 : ℤ)) ≤ y
      ∧ y ≤ hi * (1 + 2 ^ (-53 : ℤ)) := by
  have hlpos : (0 : ℝ) < lo := lt_of_lt_of_le (zpow_pos (by norm_num) _) hl
  have hx : 0 < x := lt_of_lt_of_le hlpos hlo
  obtain ⟨y, hy, herr⟩ := round64_rel (x := x) (by rw [abs_of_pos hx]; linarith)
    (by rw [abs_of_pos hx]; linarith)
  rw [abs_of_pos hx, abs_le] at herr
  have hu : (0 : ℝ) < 2 ^ (-53 : ℤ) := zpow_pos (by norm_num) _
  have hu1 : (2 : ℝ) ^ (-53 : ℤ) < 1 := by norm_num
  refine ⟨y, hy, ?_, ?_⟩
  · have : lo * (1 - 2 ^ (-53 : ℤ)) ≤ x * (1 - 2 ^ (-53 : ℤ)) :=
      mul_le_mul_of_nonneg_right hlo (by linarith)
    linarith [herr.1]
  · have : x * (1 + 2 ^ (-53 : ℤ)) ≤ hi * (1 + 2 ^ (-53 : ℤ)) :=
      mul_le_mul_of_nonneg_right hhi (by linarith)
    linarith [herr.2]

/-- The latitude `atan2 z p` of a point of the upper half space off the axis, between
`π/2 - p/z` and `π/2 - p/√(p² + z²)`. -/
theorem atan2_near_pole {z p : ℝ} (hz : 0 < z) (hp : 0 < p) :
    π / 2 - p / z < atan2 z p ∧ atan2 z p < π / 2 - p / √(p * p + z * z) := by
  have hL1 := atan2_lt_pi_div_two (y := z) hp
  have hpos : 0 < p * p + z * z := by positivity
  have hc := cos_atan2 (y := z) (x := p) hpos
  have hs := sin_atan2 z p
  have hsq : 0 < √(p * p + z * z) := Real.sqrt_pos.2 hpos
  obtain ⟨L, hL⟩ : ∃ L, atan2 z p = L := ⟨_, rfl⟩
  rw [hL] at hL1 hc hs ⊢
  have hsin : 0 < Real.sin L := by rw [hs]; exact div_pos hz hsq
  have hLpos : 0 < L := by
    by_contra h
    push_neg at h
    have := Real.sin_nonpos_of_nonnpos_of_neg_pi_le h
      (by
        have := neg_pi_div_two_lt_atan2 (y := z) hp
        rw [hL] at this
        linarith [Real.pi_pos])
    linarith
  have hu0 : 0 < π / 2 - L := by linarith
  have hu1 : π / 2 - L < π / 2 := by linarith
  have hsu : Real.sin (π / 2 - L) = p / √(p * p + z * z) := by
    rw [Real.sin_pi_div_two_sub, hc]
  have hcu : Real.cos (π / 2 - L) = z / √(p * p + z * z) := by
    rw [Real.cos_pi_div_two_sub, hs]
  have htan : Real.tan (π / 2 - L) = p / z := by
    rw [Real.tan_eq_sin_div_cos, hsu, hcu]
    field_simp
  constructor
  · have := Real.lt_tan hu0 hu1
    rw [htan] at this
    linarith
  · have := Real.sin_lt hu0
    rw [hsu] at this
    linarith

/-- The literal `0.001` at `double`. -/
theorem lit_0001 : (0.001 : Binary64) = Binary64.finite (4611686018427388 * 2 ^ (-62 : ℤ)) := by
  show round64 (0.001 : ℝ) = _
  exact round64_pos (-62) 4611686018427388 (by norm_num) (by norm_num) (by norm_num)
    (by norm_num) (by norm_num) (by norm_num) (by norm_num)

/-- The binary64 latitude of the point `(0.001, 0, 6378137)`: the value nearest to
`atan2 6378137 0.001`, which is `1.567855e-10` below `π/2`. -/
theorem binary64_near_axis_lat :
    Scalar.atan2 (Binary64.finite 6378137) (Binary64.finite (4611686018427388 * 2 ^ (-62 : ℤ)))
      = Binary64.finite (7074237751322341 * 2 ^ (-52 : ℤ)) := by
  apply finite_atan2
  obtain ⟨h1, h2⟩ := atan2_near_pole (z := 6378137) (p := (4611686018427388 * 2 ^ (-62 : ℤ))) (by norm_num) (by norm_num)
  have hpi1 := Real.pi_gt_d20
  have hpi2 := Real.pi_lt_d20
  have hroot : √(((4611686018427388 * 2 ^ (-62 : ℤ)) : ℝ) * (4611686018427388 * 2 ^ (-62 : ℤ)) + 6378137 * 6378137)
      ≤ 6378137 + 1 / 1000000 := by
    rw [Real.sqrt_le_left (by norm_num)]
    norm_num
  have hq : ((4611686018427388 * 2 ^ (-62 : ℤ)) : ℝ) / (6378137 + 1 / 1000000)
      ≤ (4611686018427388 * 2 ^ (-62 : ℤ)) / √(((4611686018427388 * 2 ^ (-62 : ℤ)) : ℝ) * (4611686018427388 * 2 ^ (-62 : ℤ)) + 6378137 * 6378137) :=
    div_le_div_of_nonneg_left (by norm_num) (Real.sqrt_pos.2 (by norm_num)) hroot
  apply round64_pos (-52) 7074237751322341 (by norm_num) (by norm_num) _ _ (by norm_num)
    (by norm_num) (by norm_num)
  · have : (((7074237751322341 : ℤ) : ℝ) - 1 / 2) * 2 ^ (-52 : ℤ)
        < 3.14159265358979323846 / 2 - (4611686018427388 * 2 ^ (-62 : ℤ)) / 6378137 := by norm_num
    linarith
  · have : (3.14159265358979323847 : ℝ) / 2 - (4611686018427388 * 2 ^ (-62 : ℤ)) / (6378137 + 1 / 1000000)
        < (((7074237751322341 : ℤ) : ℝ) + 1 / 2) * 2 ^ (-52 : ℤ) := by norm_num
    linarith

/-- The cosine of the binary64 latitude of `(0.001, 0, 6378137)`. -/
theorem cos_near_axis_lat :
    (1.567855347e-10 : ℝ) < Real.cos (7074237751322341 * 2 ^ (-52 : ℤ)) ∧ Real.cos (7074237751322341 * 2 ^ (-52 : ℤ)) < 1.5678553475e-10 := by
  have hpi1 := Real.pi_gt_d20
  have hpi2 := Real.pi_lt_d20
  have hv1 : (1.5678553472e-10 : ℝ) < π / 2 - (7074237751322341 * 2 ^ (-52 : ℤ)) := by
    have : (1.5678553472e-10 : ℝ) < 3.14159265358979323846 / 2 - (7074237751322341 * 2 ^ (-52 : ℤ)) := by norm_num
    linarith
  have hv2 : π / 2 - (7074237751322341 * 2 ^ (-52 : ℤ)) < (1.5678553473e-10 : ℝ) := by
    have : (3.14159265358979323847 : ℝ) / 2 - (7074237751322341 * 2 ^ (-52 : ℤ)) < 1.5678553473e-10 := by norm_num
    linarith
  have hcos : Real.cos (7074237751322341 * 2 ^ (-52 : ℤ)) = Real.sin (π / 2 - (7074237751322341 * 2 ^ (-52 : ℤ))) := by
    rw [Real.sin_pi_div_two_sub]
  obtain ⟨v, hv⟩ : ∃ v, π / 2 - (7074237751322341 * 2 ^ (-52 : ℤ)) = v := ⟨_, rfl⟩
  rw [hcos, hv]
  rw [hv] at hv1 hv2
  have hv0 : 0 < v := by linarith
  have hlow := Real.sin_gt_sub_cube hv0 (by linarith)
  have hup := Real.sin_lt hv0
  have hcube : v ^ 3 / 4 < 1e-20 := by
    have h3 : v ^ 3 < (1.5678553473e-10 : ℝ) ^ 3 := by
      exact pow_lt_pow_left₀ hv2 hv0.le (by norm_num)
    have : (1.5678553473e-10 : ℝ) ^ 3 / 4 < 1e-20 := by norm_num
    linarith
  constructor
  · linarith
  · linarith

/-- The sine of the binary64 latitude of `(0.001, 0, 6378137)`. -/
theorem sin_near_axis_lat :
    (1 - 1e-19 : ℝ) ≤ Real.sin (7074237751322341 * 2 ^ (-52 : ℤ)) ∧ Real.sin (7074237751322341 * 2 ^ (-52 : ℤ)) ≤ 1 := by
  have hpi1 := Real.pi_gt_d20
  have hpi2 := Real.pi_lt_d20
  have hv1 : (1.5678553472e-10 : ℝ) < π / 2 - (7074237751322341 * 2 ^ (-52 : ℤ)) := by
    have : (1.5678553472e-10 : ℝ) < 3.14159265358979323846 / 2 - (7074237751322341 * 2 ^ (-52 : ℤ)) := by norm_num
    linarith
  have hv2 : π / 2 - (7074237751322341 * 2 ^ (-52 : ℤ)) < (1.5678553473e-10 : ℝ) := by
    have : (3.14159265358979323847 : ℝ) / 2 - (7074237751322341 * 2 ^ (-52 : ℤ)) < 1.5678553473e-10 := by norm_num
    linarith
  have hsin : Real.sin (7074237751322341 * 2 ^ (-52 : ℤ)) = Real.cos (π / 2 - (7074237751322341 * 2 ^ (-52 : ℤ))) := by
    rw [Real.cos_pi_div_two_sub]
  obtain ⟨v, hv⟩ : ∃ v, π / 2 - (7074237751322341 * 2 ^ (-52 : ℤ)) = v := ⟨_, rfl⟩
  rw [hsin, hv]
  rw [hv] at hv1 hv2
  have hv0 : 0 < v := by linarith
  refine ⟨?_, Real.cos_le_one v⟩
  have h1 := Real.one_sub_sq_div_two_le_cos (x := v)
  have h2 : v ^ 2 < (1.5678553473e-10 : ℝ) ^ 2 := pow_lt_pow_left₀ hv2 hv0.le (by norm_num)
  have h3 : (1.5678553473e-10 : ℝ) ^ 2 / 2 < 1e-19 := by norm_num
  linarith

/-- The sphere round trip `geodToECEF` after `ecefToGeod`, third component, with every
intermediate value of the source named, at every scalar type. -/
theorem sphere_inverse_forward_z_steps {T : Type} [Scalar T] [Add T] [Sub T] [Mul T] [Div T]
    {r x y z p lat cφ q alt n sφ : T} (d1 d2 : Coord T)
    (h1 : Scalar.sqrt (x * x + y * y) = p) (h2 : Scalar.atan2 z p = lat)
    (h3 : Scalar.cos lat = cφ) (h4 : p / cφ = q) (h5 : q - r = alt) (h6 : r + alt = n)
    (h7 : Scalar.sin lat = sφ) :
    (Sphere.geodToECEF d2 (Sphere.ecefToGeod d1 ![x, y, z] ⟨r⟩).1 ⟨r⟩).1 2 = n * sφ := by
  subst h1 h2 h3 h4 h5 h6 h7
  rfl

/-- In binary64 the sphere `ecefToGeod` of radius `6378137` at the point
`(0.001, 0, 6378137)`, one millimetre off the polar axis and at distance
`6378137.00000000000008` from the centre, computes the quotient `p / cos lat` between
`6378139.41` and `6378139.44`: the rounding of the latitude to the nearest binary64 value
changes `cos lat` in its sixth digit. -/
theorem binary64_near_axis_quotient :
    ∃ c q, Scalar.sqrt (Binary64.finite (4611686018427388 * 2 ^ (-62 : ℤ)) * Binary64.finite (4611686018427388 * 2 ^ (-62 : ℤ))
          + Binary64.finite 0 * Binary64.finite 0) = Binary64.finite (4611686018427388 * 2 ^ (-62 : ℤ))
      ∧ Scalar.cos (Binary64.finite (7074237751322341 * 2 ^ (-52 : ℤ))) = Binary64.finite c
      ∧ Binary64.finite (4611686018427388 * 2 ^ (-62 : ℤ)) / Binary64.finite c = Binary64.finite q
      ∧ 6378139.41 ≤ q ∧ q ≤ 6378139.44 := by
  have e1 : Binary64.finite (4611686018427388 * 2 ^ (-62 : ℤ)) * Binary64.finite (4611686018427388 * 2 ^ (-62 : ℤ)) =
      Binary64.finite (4722366482869645 * 2 ^ (-72 : ℤ)) :=
    finite_mul (round64_pos (-72) 4722366482869645 (by norm_num) (by norm_num) (by norm_num)
      (by norm_num) (by norm_num) (by norm_num) (by norm_num))
  have e2 : Binary64.finite 0 * Binary64.finite 0 =
      Binary64.finite 0 :=
    finite_mul (round64_val (0) (0) (by norm_num) (by norm_num) (by norm_num)
      (by norm_num) (by norm_num))
  have e3 : Binary64.finite (4722366482869645 * 2 ^ (-72 : ℤ)) + Binary64.finite 0 =
      Binary64.finite (4722366482869645 * 2 ^ (-72 : ℤ)) :=
    finite_add (round64_val (4722366482869645) (-72) (by norm_num) (by norm_num) (by norm_num)
      (by norm_num) (by norm_num))
  have e4 : Scalar.sqrt (Binary64.finite (4722366482869645 * 2 ^ (-72 : ℤ))) =
      Binary64.finite (4611686018427388 * 2 ^ (-62 : ℤ)) :=
    finite_sqrt (by norm_num) (round64_sqrt_pos (-62) 4611686018427388 (by norm_num) (by norm_num)
      (by norm_num) (by norm_num) (by norm_num) (by norm_num) (by norm_num))
  have hp : Scalar.sqrt (((Binary64.finite (4611686018427388 * 2 ^ (-62 : ℤ)) * Binary64.finite (4611686018427388 * 2 ^ (-62 : ℤ))) + (Binary64.finite 0 * Binary64.finite 0))) =
      Binary64.finite (4611686018427388 * 2 ^ (-62 : ℤ)) := by
    simp only [e1, e2, e3, e4]
  have e5 : Binary64.finite 6378137 * Binary64.finite 6378137 =
      Binary64.finite 40680631590769 :=
    finite_mul (round64_val (40680631590769) (0) (by norm_num) (by norm_num) (by norm_num)
      (by norm_num) (by norm_num))
  have e6 : Binary64.finite (4722366482869645 * 2 ^ (-72 : ℤ)) + Binary64.finite 40680631590769 =
      Binary64.finite (5207120843618432 * 2 ^ (-7 : ℤ)) :=
    finite_add (round64_pos (-7) 5207120843618432 (by norm_num) (by norm_num) (by norm_num)
      (by norm_num) (by norm_num) (by norm_num) (by norm_num))
  have e7 : Scalar.sqrt (Binary64.finite (5207120843618432 * 2 ^ (-7 : ℤ))) =
      Binary64.finite 6378137 :=
    by
      apply finite_sqrt (by norm_num)
      have hs : Real.sqrt ((5207120843618432 * 2 ^ (-7 : ℤ)) : ℝ) = 6378137 := by
        rw [Real.sqrt_eq_iff_mul_self_eq (by norm_num) (by norm_num)]
        norm_num
      rw [hs]
      exact (round64_val (6378137) (0) (by norm_num) (by norm_num) (by norm_num)
      (by norm_num) (by norm_num))
  have e8 : Binary64.finite 6378137 - Binary64.finite 6378137 =
      Binary64.finite 0 :=
    finite_sub (round64_val (0) (0) (by norm_num) (by norm_num) (by norm_num)
      (by norm_num) (by norm_num))
  have hform : (Scalar.sqrt ((((Binary64.finite (4611686018427388 * 2 ^ (-62 : ℤ)) * Binary64.finite (4611686018427388 * 2 ^ (-62 : ℤ))) + (Binary64.finite 0 * Binary64.finite 0)) + (Binary64.finite 6378137 * Binary64.finite 6378137))) - Binary64.finite 6378137) =
      Binary64.finite 0 := by
    simp only [e1, e2, e3, e5, e6, e7, e8]
  have e9 : Scalar.atan2 (Binary64.finite 0) (Binary64.finite (4611686018427388 * 2 ^ (-62 : ℤ))) =
      Binary64.finite 0 :=
    finite_atan2 (by rw [atan2_zero_nonneg (by norm_num)]; exact round64_zero)
  have hlon : Scalar.atan2 (Binary64.finite 0) (Binary64.finite (4611686018427388 * 2 ^ (-62 : ℤ))) =
      Binary64.finite 0 := by
    simp only [e9]
  have e10 : Scalar.cos (Binary64.finite 0) =
      Binary64.finite 1 :=
    finite_cos (by rw [Real.cos_zero]; exact round64_one)
  have hcl : Scalar.cos (Binary64.finite 0) =
      Binary64.finite 1 := by
    simp only [e10]
  obtain ⟨hc1, hc2⟩ := cos_near_axis_lat
  obtain ⟨c, hc, hcl, hch⟩ := round64_bounds (Real.cos (7074237751322341 * 2 ^ (-52 : ℤ)))
    (1.567855347e-10) (1.5678553475e-10) hc1.le hc2.le (by norm_num) (by norm_num)
  have hcl2 : (1.5678553469e-10 : ℝ) ≤ c := by
    have : (1.5678553469e-10 : ℝ) ≤ 1.567855347e-10 * (1 - 2 ^ (-53 : ℤ)) := by norm_num
    linarith
  have hch2 : c ≤ (1.5678553476e-10 : ℝ) := by
    have : (1.5678553475e-10 : ℝ) * (1 + 2 ^ (-53 : ℤ)) ≤ 1.5678553476e-10 := by norm_num
    linarith
  have hcpos : 0 < c := by linarith
  have hq1 : (6378139.415 : ℝ) ≤ (4611686018427388 * 2 ^ (-62 : ℤ)) / c := by
    rw [le_div_iff₀ hcpos]
    have : (6378139.415 : ℝ) * c ≤ 6378139.415 * 1.5678553476e-10 :=
      mul_le_mul_of_nonneg_left hch2 (by norm_num)
    have : (6378139.415 : ℝ) * 1.5678553476e-10 ≤ (4611686018427388 * 2 ^ (-62 : ℤ)) := by norm_num
    linarith
  have hq2 : ((4611686018427388 * 2 ^ (-62 : ℤ)) : ℝ) / c ≤ 6378139.435 := by
    rw [div_le_iff₀ hcpos]
    have : (6378139.435 : ℝ) * 1.5678553469e-10 ≤ 6378139.435 * c :=
      mul_le_mul_of_nonneg_left hcl2 (by norm_num)
    have : ((4611686018427388 * 2 ^ (-62 : ℤ)) : ℝ) ≤ 6378139.435 * 1.5678553469e-10 := by norm_num
    linarith
  obtain ⟨q, hq, hql, hqh⟩ := round64_bounds ((4611686018427388 * 2 ^ (-62 : ℤ)) / c)
    (6378139.415) (6378139.435) hq1 hq2 (by norm_num) (by norm_num)
  refine ⟨c, q, hp, hc, finite_div hcpos.ne' hq, ?_, ?_⟩
  · have : (6378139.41 : ℝ) ≤ 6378139.415 * (1 - 2 ^ (-53 : ℤ)) := by norm_num
    linarith
  · have : (6378139.435 : ℝ) * (1 + 2 ^ (-53 : ℤ)) ≤ 6378139.44 := by norm_num
    linarith

/-- In binary64 the altitude the sphere `ecefToGeod` of radius `6378137` writes at
`(0.001, 0, 6378137)` lies between `2.4` and `2.5`. -/
theorem binary64_near_axis_altitude (d : Coord Binary64) :
    ∃ v, (Sphere.ecefToGeod d ![(0.001 : Binary64), Binary64.finite 0, Binary64.finite 6378137]
        ⟨Binary64.finite 6378137⟩).1 2 = Binary64.finite v ∧ 2.4 < v ∧ v < 2.5 := by
  obtain ⟨c, q, hp, hc, hq, hq1, hq2⟩ := binary64_near_axis_quotient
  obtain ⟨v, hv, hv1, hv2⟩ := round64_bounds (q - 6378137)
    (2.41) (2.44)
    (by linarith) (by linarith) (by norm_num) (by norm_num)
  rw [lit_0001, sphere_ecefToGeod_alt_steps d hp binary64_near_axis_lat hc hq]
  refine ⟨v, hv, ?_, ?_⟩
  · have : (2.4 : ℝ) < 2.41 * (1 - 2 ^ (-53 : ℤ)) := by norm_num
    linarith
  · have : (2.44 : ℝ) * (1 + 2 ^ (-53 : ℤ)) < 2.5 := by norm_num
    linarith

/-- In binary64 the sphere `geodToECEF` applied to the sphere `ecefToGeod` of
`(0.001, 0, 6378137)`, radius `6378137`, returns a third component above `6378139`. -/
theorem binary64_near_axis_roundtrip (d1 d2 : Coord Binary64) :
    ∃ w, (Sphere.geodToECEF d2
        (Sphere.ecefToGeod d1 ![(0.001 : Binary64), Binary64.finite 0, Binary64.finite 6378137]
          ⟨Binary64.finite 6378137⟩).1 ⟨Binary64.finite 6378137⟩).1 2 = Binary64.finite w
      ∧ 6378139 < w := by
  obtain ⟨c, q, hp, hc, hq, hq1, hq2⟩ := binary64_near_axis_quotient
  obtain ⟨v, hv, hv1, hv2⟩ := round64_bounds (q - 6378137)
    (2.41) (2.44)
    (by linarith) (by linarith) (by norm_num) (by norm_num)
  have hv3 : (2.4 : ℝ) ≤ v := by
    have : (2.4 : ℝ) < 2.41 * (1 - 2 ^ (-53 : ℤ)) := by norm_num
    linarith
  have hv4 : v ≤ (2.5 : ℝ) := by
    have : (2.44 : ℝ) * (1 + 2 ^ (-53 : ℤ)) < 2.5 := by norm_num
    linarith
  obtain ⟨n, hn, hn1, hn2⟩ := round64_bounds (6378137 + v)
    (6378139.4) (6378139.5) (by linarith) (by linarith) (by norm_num) (by norm_num)
  have hn3 : (6378139.3 : ℝ) ≤ n := by
    have : (6378139.3 : ℝ) ≤ 6378139.4 * (1 - 2 ^ (-53 : ℤ)) := by norm_num
    linarith
  have hn4 : n ≤ (6378139.6 : ℝ) := by
    have : (6378139.5 : ℝ) * (1 + 2 ^ (-53 : ℤ)) ≤ 6378139.6 := by norm_num
    linarith
  obtain ⟨hs1, hs2⟩ := sin_near_axis_lat
  obtain ⟨s, hs, hsl, hsh⟩ := round64_bounds (Real.sin (7074237751322341 * 2 ^ (-52 : ℤ)))
    (1 - 1e-19) (1) hs1 hs2 (by norm_num) (by norm_num)
  have hs3 : (1 - 1e-15 : ℝ) ≤ s := by
    have : (1 - 1e-15 : ℝ) ≤ (1 - 1e-19) * (1 - 2 ^ (-53 : ℤ)) := by norm_num
    linarith
  have hs4 : s ≤ (1 + 1e-15 : ℝ) := by
    have : (1 : ℝ) * (1 + 2 ^ (-53 : ℤ)) ≤ 1 + 1e-15 := by norm_num
    exact le_trans hsh this
  have hns1 : (6378139.2 : ℝ) ≤ n * s := by
    have h : (6378139.3 : ℝ) * (1 - 1e-15) ≤ n * s :=
      mul_le_mul hn3 hs3 (by norm_num) (by linarith)
    have : (6378139.2 : ℝ) ≤ 6378139.3 * (1 - 1e-15) := by norm_num
    linarith
  have hns2 : n * s ≤ (6378139.7 : ℝ) := by
    have h : n * s ≤ (6378139.6 : ℝ) * (1 + 1e-15) :=
      mul_le_mul hn4 hs4 (by linarith) (by norm_num)
    have : (6378139.6 : ℝ) * (1 + 1e-15) ≤ 6378139.7 := by norm_num
    linarith
  obtain ⟨w, hw, hw1, hw2⟩ := round64_bounds (n * s)
    (6378139.2) (6378139.7) hns1 hns2 (by norm_num) (by norm_num)
  rw [lit_0001, sphere_inverse_forward_z_steps d1 d2 hp binary64_near_axis_lat hc hq
    (finite_sub hv) (finite_add hn) (finite_sin hs)]
  refine ⟨w, finite_mul hw, ?_⟩
  have : (6378139 : ℝ) < 6378139.2 * (1 - 2 ^ (-53 : ℤ)) := by norm_num
  linarith

/-- The formula `sqrt (x*x + y*y + z*z) - r` evaluated in binary64 at `(0.001, 0, 6378137)`,
`r = 6378137`, is `0`. -/
theorem binary64_near_axis_distance :
    Scalar.sqrt ((0.001 : Binary64) * (0.001 : Binary64) + Binary64.finite 0 * Binary64.finite 0
        + Binary64.finite 6378137 * Binary64.finite 6378137) - Binary64.finite 6378137
      = Binary64.finite 0 := by
  have e1 : Binary64.finite (4611686018427388 * 2 ^ (-62 : ℤ)) * Binary64.finite (4611686018427388 * 2 ^ (-62 : ℤ)) =
      Binary64.finite (4722366482869645 * 2 ^ (-72 : ℤ)) :=
    finite_mul (round64_pos (-72) 4722366482869645 (by norm_num) (by norm_num) (by norm_num)
      (by norm_num) (by norm_num) (by norm_num) (by norm_num))
  have e2 : Binary64.finite 0 * Binary64.finite 0 =
      Binary64.finite 0 :=
    finite_mul (round64_val (0) (0) (by norm_num) (by norm_num) (by norm_num)
      (by norm_num) (by norm_num))
  have e3 : Binary64.finite (4722366482869645 * 2 ^ (-72 : ℤ)) + Binary64.finite 0 =
      Binary64.finite (4722366482869645 * 2 ^ (-72 : ℤ)) :=
    finite_add (round64_val (4722366482869645) (-72) (by norm_num) (by norm_num) (by norm_num)
      (by norm_num) (by norm_num))
  have e4 : Scalar.sqrt (Binary64.finite (4722366482869645 * 2 ^ (-72 : ℤ))) =
      Binary64.finite (4611686018427388 * 2 ^ (-62 : ℤ)) :=
    finite_sqrt (by norm_num) (round64_sqrt_pos (-62) 4611686018427388 (by norm_num) (by norm_num)
      (by norm_num) (by norm_num) (by norm_num) (by norm_num) (by norm_num))
  have hp : Scalar.sqrt (((Binary64.finite (4611686018427388 * 2 ^ (-62 : ℤ)) * Binary64.finite (4611686018427388 * 2 ^ (-62 : ℤ))) + (Binary64.finite 0 * Binary64.finite 0))) =
      Binary64.finite (4611686018427388 * 2 ^ (-62 : ℤ)) := by
    simp only [e1, e2, e3, e4]
  have e5 : Binary64.finite 6378137 * Binary64.finite 6378137 =
      Binary64.finite 40680631590769 :=
    finite_mul (round64_val (40680631590769) (0) (by norm_num) (by norm_num) (by norm_num)
      (by norm_num) (by norm_num))
  have e6 : Binary64.finite (4722366482869645 * 2 ^ (-72 : ℤ)) + Binary64.finite 40680631590769 =
      Binary64.finite (5207120843618432 * 2 ^ (-7 : ℤ)) :=
    finite_add (round64_pos (-7) 5207120843618432 (by norm_num) (by norm_num) (by norm_num)
      (by norm_num) (by norm_num) (by norm_num) (by norm_num))
  have e7 : Scalar.sqrt (Binary64.finite (5207120843618432 * 2 ^ (-7 : ℤ))) =
      Binary64.finite 6378137 :=
    by
      apply finite_sqrt (by norm_num)
      have hs : Real.sqrt ((5207120843618432 * 2 ^ (-7 : ℤ)) : ℝ) = 6378137 := by
        rw [Real.sqrt_eq_iff_mul_self_eq (by norm_num) (by norm_num)]
        norm_num
      rw [hs]
      exact (round64_val (6378137) (0) (by norm_num) (by norm_num) (by norm_num)
      (by norm_num) (by norm_num))
  have e8 : Binary64.finite 6378137 - Binary64.finite 6378137 =
      Binary64.finite 0 :=
    finite_sub (round64_val (0) (0) (by norm_num) (by norm_num) (by norm_num)
      (by norm_num) (by norm_num))
  have hform : (Scalar.sqrt ((((Binary64.finite (4611686018427388 * 2 ^ (-62 : ℤ)) * Binary64.finite (4611686018427388 * 2 ^ (-62 : ℤ))) + (Binary64.finite 0 * Binary64.finite 0)) + (Binary64.finite 6378137 * Binary64.finite 6378137))) - Binary64.finite 6378137) =
      Binary64.finite 0 := by
    simp only [e1, e2, e3, e5, e6, e7, e8]
  have e9 : Scalar.atan2 (Binary64.finite 0) (Binary64.finite (4611686018427388 * 2 ^ (-62 : ℤ))) =
      Binary64.finite 0 :=
    finite_atan2 (by rw [atan2_zero_nonneg (by norm_num)]; exact round64_zero)
  have hlon : Scalar.atan2 (Binary64.finite 0) (Binary64.finite (4611686018427388 * 2 ^ (-62 : ℤ))) =
      Binary64.finite 0 := by
    simp only [e9]
  have e10 : Scalar.cos (Binary64.finite 0) =
      Binary64.finite 1 :=
    finite_cos (by rw [Real.cos_zero]; exact round64_one)
  have hcl : Scalar.cos (Binary64.finite 0) =
      Binary64.finite 1 := by
    simp only [e10]
  rw [lit_0001]
  exact hform

end NearAxis

/-! ## Binary64: the sphere round trip at the machine numbers nearest `-π` and `π/2` -/

section MachineEndpoints

open Real

/-- The in-place sphere round trip `ecefToGeod` after `geodToECEF`, with every intermediate
value of the source named, at every scalar type. -/
theorem sphere_roundtrip_steps {T : Type} [Scalar T] [Add T] [Sub T] [Mul T] [Div T]
    {r lon lat alt n sl cl sφ cφ m x y z xx yy p lon' lat' cφ' q alt' : T}
    (h1 : r + alt = n) (h2 : Scalar.sin lon = sl) (h3 : Scalar.cos lon = cl)
    (h4 : Scalar.sin lat = sφ) (h5 : Scalar.cos lat = cφ) (h6 : n * cφ = m)
    (h7 : m * cl = x) (h8 : m * sl = y) (h9 : n * sφ = z) (h10 : x * x = xx)
    (h11 : y * y = yy) (h12 : Scalar.sqrt (xx + yy) = p) (h13 : Scalar.atan2 y x = lon')
    (h14 : Scalar.atan2 z p = lat') (h15 : Scalar.cos lat' = cφ') (h16 : p / cφ' = q)
    (h17 : q - r = alt') :
    Sphere.ecefToGeodInPlace (Sphere.geodToECEFInPlace ![lon, lat, alt] ⟨r⟩) ⟨r⟩
      = ![lon', lat', alt'] := by
  subst h1 h2 h3 h4 h5 h6 h7 h8 h9 h10 h11 h12 h13 h14 h15 h16 h17
  funext k
  fin_cases k <;> rfl

/-- Rounding of a negative real between two bounds of the normal range. -/
theorem round64_bounds_neg (x lo hi : ℝ) (hlo : lo ≤ -x) (hhi : -x ≤ hi)
    (hl : (2 : ℝ) ^ (-1022 : ℤ) ≤ lo) (hh : hi < 2 ^ (1022 : ℤ)) :
    ∃ y, round64 x = Binary64.finite (-y) ∧ lo * (1 - 2 ^ (-53 : ℤ)) ≤ y
      ∧ y ≤ hi * (1 + 2 ^ (-53 : ℤ)) := by
  have hlpos : (0 : ℝ) < lo := lt_of_lt_of_le (zpow_pos (by norm_num) _) hl
  have hx : x < 0 := by linarith
  obtain ⟨y, hy, herr⟩ := round64_rel (x := x) (by rw [abs_of_neg hx]; linarith)
    (by rw [abs_of_neg hx]; linarith)
  rw [abs_of_neg hx, abs_le] at herr
  have hu : (0 : ℝ) < 2 ^ (-53 : ℤ) := zpow_pos (by norm_num) _
  have hu1 : (2 : ℝ) ^ (-53 : ℤ) < 1 := by norm_num
  refine ⟨-y, by rw [neg_neg]; exact hy, ?_, ?_⟩
  · have : lo * (1 - 2 ^ (-53 : ℤ)) ≤ -x * (1 - 2 ^ (-53 : ℤ)) :=
      mul_le_mul_of_nonneg_right hlo (by linarith)
    linarith [herr.2]
  · have : -x * (1 + 2 ^ (-53 : ℤ)) ≤ hi * (1 + 2 ^ (-53 : ℤ)) :=
      mul_le_mul_of_nonneg_right hhi (by linarith)
    linarith [herr.1]

/-- The principal argument in the open third quadrant: `atan2 y x` for `x < 0`, `y < 0` lies
between `-π + |y| / √(x² + y²)` and `-π + |y| / |x|`. -/
theorem atan2_third_quadrant {y x : ℝ} (hx : x < 0) (hy : y < 0) :
    -π + -y / √(x * x + y * y) ≤ atan2 y x ∧ atan2 y x ≤ -π + -y / -x := by
  have hpos : 0 < x * x + y * y := by
    have := mul_pos_of_neg_of_neg hx hx
    have := mul_self_nonneg y
    linarith
  have hsq : 0 < √(x * x + y * y) := Real.sqrt_pos.2 hpos
  have hc := cos_atan2 (y := y) (x := x) hpos
  have hs := sin_atan2 y x
  have harg : atan2 y x = Real.arcsin (-y / √(x * x + y * y)) - π := by
    unfold atan2
    rw [Complex.arg_of_re_neg_of_im_neg (by simpa using hx) (by simpa using hy),
      Complex.abs_apply, Complex.normSq_mk]
    rfl
  obtain ⟨u, hu⟩ : ∃ u, -y / √(x * x + y * y) = u := ⟨_, rfl⟩
  rw [hu] at harg ⊢
  have hu0 : 0 < u := by rw [← hu]; exact div_pos (by linarith) hsq
  have hu1 : u < 1 := by
    rw [← hu, div_lt_one hsq]
    apply Real.lt_sqrt_of_sq_lt
    have := mul_pos_of_neg_of_neg hx hx
    nlinarith
  obtain ⟨θ, hθ⟩ : ∃ θ, Real.arcsin u = θ := ⟨_, rfl⟩
  have hθ0 : 0 < θ := by rw [← hθ]; exact Real.arcsin_pos.2 hu0
  have hθ1 : θ < π / 2 := by rw [← hθ]; exact Real.arcsin_lt_pi_div_two.2 hu1
  have hsin : Real.sin θ = u := by
    rw [← hθ]
    exact Real.sin_arcsin (by linarith) hu1.le
  rw [harg, hθ]
  constructor
  · have := Real.sin_le hθ0.le
    rw [hsin] at this
    linarith
  · have hle := Real.le_tan hθ0.le hθ1
    have hL : atan2 y x = θ - π := by rw [harg, hθ]
    have hcos : Real.cos θ = -x / √(x * x + y * y) := by
      have : Real.cos (atan2 y x) = -Real.cos θ := by
        rw [hL, Real.cos_sub_pi]
      rw [hc] at this
      have e : -x / √(x * x + y * y) = -(x / √(x * x + y * y)) := by ring
      rw [e, this, neg_neg]
    have htan : Real.tan θ = -y / -x := by
      rw [Real.tan_eq_sin_div_cos, hsin, hcos, ← hu]
      rw [div_div_div_cancel_right₀ hsq.ne']
    rw [htan] at hle
    linarith

/-- The binary64 number nearest `π`, `M_PI = 7074237752028440 * 2 ^ (-51)`, lies between
`1.22462e-16` and `1.22473e-16` below `π`. -/
theorem pi_sub_machine_pi :
    (1.22462e-16 : ℝ) < π - 7074237752028440 * 2 ^ (-51 : ℤ)
      ∧ π - 7074237752028440 * 2 ^ (-51 : ℤ) < (1.22473e-16 : ℝ) := by
  have hpi1 := Real.pi_gt_d20
  have hpi2 := Real.pi_lt_d20
  obtain ⟨m, hm⟩ : ∃ m : ℝ, 7074237752028440 * 2 ^ (-51 : ℤ) = m := ⟨_, rfl⟩
  have h1 : m < 3.14159265358979323846 - 1.22462e-16 := by
    rw [← hm]
    norm_num
  have h2 : 3.14159265358979323847 - 1.22473e-16 < m := by
    rw [← hm]
    norm_num
  rw [hm]
  constructor
  · linarith
  · linarith

/-- The sine of `M_PI = 7074237752028440 * 2 ^ (-51)`, the binary64 number nearest `π`. -/
theorem sin_machine_pi :
    (1.2246e-16 : ℝ) < Real.sin (7074237752028440 * 2 ^ (-51 : ℤ))
      ∧ Real.sin (7074237752028440 * 2 ^ (-51 : ℤ)) < 1.2248e-16 := by
  obtain ⟨hv1, hv2⟩ := pi_sub_machine_pi
  have hsin : Real.sin (7074237752028440 * 2 ^ (-51 : ℤ))
      = Real.sin (π - 7074237752028440 * 2 ^ (-51 : ℤ)) := by
    rw [Real.sin_pi_sub]
  obtain ⟨v, hv⟩ : ∃ v, π - 7074237752028440 * 2 ^ (-51 : ℤ) = v := ⟨_, rfl⟩
  rw [hsin, hv]
  rw [hv] at hv1 hv2
  have hv0 : 0 < v := by linarith
  have hlow := Real.sin_gt_sub_cube hv0 (by linarith)
  have hup := Real.sin_lt hv0
  have hcube : v ^ 3 / 4 < 1e-40 := by
    have h3 : v ^ 3 < (1.22473e-16 : ℝ) ^ 3 := pow_lt_pow_left₀ hv2 hv0.le (by norm_num)
    have : (1.22473e-16 : ℝ) ^ 3 / 4 < 1e-40 := by norm_num
    linarith
  constructor
  · linarith
  · linarith

/-- The cosine of `M_PI` rounds to `-1`. -/
theorem round64_cos_machine_pi :
    round64 (Real.cos (7074237752028440 * 2 ^ (-51 : ℤ))) = Binary64.finite (-1) := by
  obtain ⟨hv1, hv2⟩ := pi_sub_machine_pi
  have hcos : Real.cos (7074237752028440 * 2 ^ (-51 : ℤ))
      = -Real.cos (π - 7074237752028440 * 2 ^ (-51 : ℤ)) := by
    rw [Real.cos_pi_sub, neg_neg]
  obtain ⟨v, hv⟩ : ∃ v, π - 7074237752028440 * 2 ^ (-51 : ℤ) = v := ⟨_, rfl⟩
  rw [hcos, hv]
  rw [hv] at hv1 hv2
  have hv0 : 0 < v := by linarith
  have hlow := Real.one_sub_sq_div_two_le_cos (x := v)
  have hle := Real.cos_le_one v
  have hne : Real.cos v ≠ 1 := by
    intro h
    have := (Real.cos_eq_one_iff_of_lt_of_lt (by linarith [Real.pi_pos])
      (by linarith [Real.pi_gt_three])).1 h
    linarith
  have hlt : Real.cos v < 1 := lt_of_le_of_ne hle hne
  have hsq : v ^ 2 / 2 < 1e-31 := by
    have h3 : v ^ 2 < (1.22473e-16 : ℝ) ^ 2 := pow_lt_pow_left₀ hv2 hv0.le (by norm_num)
    have : (1.22473e-16 : ℝ) ^ 2 / 2 < 1e-31 := by norm_num
    linarith
  obtain ⟨c, hc⟩ : ∃ c, Real.cos v = c := ⟨_, rfl⟩
  rw [hc] at hlow hlt ⊢
  have hcpos : 0 < c := by linarith
  have hc1 : 1 - 1e-31 < c := by linarith
  apply round64_eq (-1) (-9007199254740992)
  · rw [abs_neg, abs_of_pos hcpos]
    have : (2 : ℝ) ^ (-1 : ℤ) = 1 / 2 := by norm_num
    rw [this]
    linarith
  · rw [abs_neg, abs_of_pos hcpos]
    have : (2 : ℝ) ^ ((-1 : ℤ) + 1) = 1 := by norm_num
    rw [this]
    exact hlt
  · norm_num
  · norm_num
  · have e : -c / 2 ^ ((-1 : ℤ) - 52) - ((-9007199254740992 : ℤ) : ℝ)
        = 9007199254740992 * (1 - c) := by
      have : (2 : ℝ) ^ ((-1 : ℤ) - 52) = 1 / 9007199254740992 := by norm_num
      rw [this]
      push_cast
      ring
    rw [e, abs_of_nonneg (by linarith)]
    linarith
  · norm_num

/-- Rounding of a positive real enclosed between two multiples of a positive `c`: the
rounded value is enclosed between the multiples with the relative rounding error added. -/
theorem round64_scaled (x c α β α' β' : ℝ) (hc : 0 < c) (h1 : α * c ≤ x) (h2 : x ≤ β * c)
    (hl : (2 : ℝ) ^ (-1022 : ℤ) ≤ α * c) (hh : β * c < 2 ^ (1022 : ℤ))
    (hα : α' ≤ α * (1 - 2 ^ (-53 : ℤ))) (hβ : β * (1 + 2 ^ (-53 : ℤ)) ≤ β') :
    ∃ y, round64 x = Binary64.finite y ∧ α' * c ≤ y ∧ y ≤ β' * c := by
  obtain ⟨y, hy, hy1, hy2⟩ := round64_bounds x (α * c) (β * c) h1 h2 hl hh
  refine ⟨y, hy, ?_, ?_⟩
  · have := mul_le_mul_of_nonneg_right hα hc.le
    have e : α * (1 - 2 ^ (-53 : ℤ)) * c = α * c * (1 - 2 ^ (-53 : ℤ)) := by ring
    linarith
  · have := mul_le_mul_of_nonneg_right hβ hc.le
    have e : β * (1 + 2 ^ (-53 : ℤ)) * c = β * c * (1 + 2 ^ (-53 : ℤ)) := by ring
    linarith

/-- The binary64 number nearest `π/2`, `M_PI_2 = 7074237752028440 * 2 ^ (-52)`, lies between
`6.1231e-17` and `6.12361e-17` below `π/2`. -/
theorem half_pi_sub_machine_half_pi :
    (6.1231e-17 : ℝ) < π / 2 - 7074237752028440 * 2 ^ (-52 : ℤ)
      ∧ π / 2 - 7074237752028440 * 2 ^ (-52 : ℤ) < (6.12361e-17 : ℝ) := by
  have hpi1 := Real.pi_gt_d20
  have hpi2 := Real.pi_lt_d20
  obtain ⟨m, hm⟩ : ∃ m : ℝ, 7074237752028440 * 2 ^ (-52 : ℤ) = m := ⟨_, rfl⟩
  have h1 : m < 3.14159265358979323846 / 2 - 6.1231e-17 := by
    rw [← hm]
    norm_num
  have h2 : 3.14159265358979323847 / 2 - 6.12361e-17 < m := by
    rw [← hm]
    norm_num
  rw [hm]
  constructor
  · linarith
  · linarith

/-- The cosine of `M_PI_2` is a positive number, about `6.1232e-17`. -/
theorem cos_machine_half_pi :
    (6.123e-17 : ℝ) < Real.cos (7074237752028440 * 2 ^ (-52 : ℤ))
      ∧ Real.cos (7074237752028440 * 2 ^ (-52 : ℤ)) < 6.1237e-17 := by
  obtain ⟨hv1, hv2⟩ := half_pi_sub_machine_half_pi
  have hcos : Real.cos (7074237752028440 * 2 ^ (-52 : ℤ))
      = Real.sin (π / 2 - 7074237752028440 * 2 ^ (-52 : ℤ)) := by
    rw [Real.sin_pi_div_two_sub]
  obtain ⟨v, hv⟩ : ∃ v, π / 2 - 7074237752028440 * 2 ^ (-52 : ℤ) = v := ⟨_, rfl⟩
  rw [hcos, hv]
  rw [hv] at hv1 hv2
  have hv0 : 0 < v := by linarith
  have hlow := Real.sin_gt_sub_cube hv0 (by linarith)
  have hup := Real.sin_lt hv0
  have hcube : v ^ 3 / 4 < 1e-40 := by
    have h3 : v ^ 3 < (6.12361e-17 : ℝ) ^ 3 := pow_lt_pow_left₀ hv2 hv0.le (by norm_num)
    have : (6.12361e-17 : ℝ) ^ 3 / 4 < 1e-40 := by norm_num
    linarith
  constructor
  · linarith
  · linarith

/-- The sine of `M_PI_2` rounds to `1`. -/
theorem round64_sin_machine_half_pi :
    round64 (Real.sin (7074237752028440 * 2 ^ (-52 : ℤ))) = Binary64.finite 1 := by
  obtain ⟨hv1, hv2⟩ := half_pi_sub_machine_half_pi
  have hsin : Real.sin (7074237752028440 * 2 ^ (-52 : ℤ))
      = Real.cos (π / 2 - 7074237752028440 * 2 ^ (-52 : ℤ)) := by
    rw [Real.cos_pi_div_two_sub]
  obtain ⟨v, hv⟩ : ∃ v, π / 2 - 7074237752028440 * 2 ^ (-52 : ℤ) = v := ⟨_, rfl⟩
  rw [hsin, hv]
  rw [hv] at hv1 hv2
  have hv0 : 0 < v := by linarith
  have hlow := Real.one_sub_sq_div_two_le_cos (x := v)
  have hle := Real.cos_le_one v
  have hne : Real.cos v ≠ 1 := by
    intro h
    have := (Real.cos_eq_one_iff_of_lt_of_lt (by linarith [Real.pi_pos])
      (by linarith [Real.pi_gt_three])).1 h
    linarith
  have hlt : Real.cos v < 1 := lt_of_le_of_ne hle hne
  have hsq : v ^ 2 / 2 < 1e-31 := by
    have h3 : v ^ 2 < (6.12361e-17 : ℝ) ^ 2 := pow_lt_pow_left₀ hv2 hv0.le (by norm_num)
    have : (6.12361e-17 : ℝ) ^ 2 / 2 < 1e-31 := by norm_num
    linarith
  obtain ⟨c, hc⟩ : ∃ c, Real.cos v = c := ⟨_, rfl⟩
  rw [hc] at hlow hlt ⊢
  have hcpos : 0 < c := by linarith
  have hc1 : 1 - 1e-31 < c := by linarith
  apply round64_eq (-1) 9007199254740992
  · rw [abs_of_pos hcpos]
    have : (2 : ℝ) ^ (-1 : ℤ) = 1 / 2 := by norm_num
    rw [this]
    linarith
  · rw [abs_of_pos hcpos]
    have : (2 : ℝ) ^ ((-1 : ℤ) + 1) = 1 := by norm_num
    rw [this]
    exact hlt
  · norm_num
  · norm_num
  · have e : c / 2 ^ ((-1 : ℤ) - 52) - ((9007199254740992 : ℤ) : ℝ)
        = -(9007199254740992 * (1 - c)) := by
      have : (2 : ℝ) ^ ((-1 : ℤ) - 52) = 1 / 9007199254740992 := by norm_num
      rw [this]
      push_cast
      ring
    rw [e, abs_neg, abs_of_nonneg (by linarith)]
    linarith
  · norm_num

/-- In binary64 `atan2 (-t) (-u)` is `-M_PI` whenever the quotient `t / u` of the two
positive numbers lies between `1.2244e-16` and `1.225e-16`: the exact value is within
`1e-19` of `-M_PI`, whose neighbours are `4.4e-16` away. -/
theorem binary64_atan2_near_minus_pi {t u : ℝ} (hu : 0 < u) (h1 : 1.2244e-16 * u ≤ t)
    (h2 : t ≤ 1.225e-16 * u) :
    Scalar.atan2 (Binary64.finite (-t)) (Binary64.finite (-u))
      = Binary64.finite (-(7074237752028440 * 2 ^ (-51 : ℤ))) := by
  obtain ⟨hp1, hp2⟩ := pi_sub_machine_pi
  have ht0 : 0 < t := by
    have : (0 : ℝ) < 1.2244e-16 * u := mul_pos (by norm_num) hu
    linarith
  apply finite_atan2
  obtain ⟨ha1, ha2⟩ := atan2_third_quadrant (y := -t) (x := -u) (by linarith) (by linarith)
  rw [neg_neg, neg_neg] at ha2
  rw [neg_neg] at ha1
  have hq1 : 1.2244e-16 ≤ t / u := by
    rw [le_div_iff₀ hu]
    exact h1
  have hq2 : t / u ≤ 1.225e-16 := by
    rw [div_le_iff₀ hu]
    exact h2
  have htt : t * t ≤ 1e-30 * (u * u) := by
    have h3 : t * t ≤ 1.225e-16 * u * (1.225e-16 * u) := mul_le_mul h2 h2 ht0.le (by linarith)
    have h4 : (1.225e-16 : ℝ) * u * (1.225e-16 * u) = 1.225e-16 * 1.225e-16 * (u * u) := by
      ring
    have h5 : (1.225e-16 : ℝ) * 1.225e-16 * (u * u) ≤ 1e-30 * (u * u) :=
      mul_le_mul_of_nonneg_right (by norm_num) (mul_pos hu hu).le
    linarith
  have huu : 0 < u * u := mul_pos hu hu
  have hroot : √(-u * -u + -t * -t) ≤ u * (1 + 1e-30) := by
    rw [Real.sqrt_le_left (by positivity)]
    have e : -u * -u + -t * -t = u * u + t * t := by ring
    have e2 : (u * (1 + 1e-30)) ^ 2 = u * u * ((1 + 1e-30) ^ 2) := by ring
    rw [e, e2]
    have h6 : u * u * (1 + 1e-30) ≤ u * u * ((1 + 1e-30) ^ 2) :=
      mul_le_mul_of_nonneg_left (by norm_num) huu.le
    linarith
  have hrpos : 0 < √(-u * -u + -t * -t) := by
    apply Real.sqrt_pos.2
    have e : -u * -u + -t * -t = u * u + t * t := by ring
    rw [e]
    have := mul_pos ht0 ht0
    linarith
  have hq : t / (u * (1 + 1e-30)) ≤ t / √(-u * -u + -t * -t) :=
    div_le_div_of_nonneg_left ht0.le hrpos hroot
  have hq3 : t / u - 1e-40 ≤ t / (u * (1 + 1e-30)) := by
    have e : t / (u * (1 + 1e-30)) = t / u / (1 + 1e-30) := by
      rw [div_div]
    rw [e, le_div_iff₀ (by norm_num)]
    have : (t / u - 1e-40) * (1 + 1e-30) = t / u + (t / u * 1e-30 - 1e-40 - 1e-70) := by ring
    rw [this]
    have : t / u * 1e-30 ≤ 1.225e-16 * 1e-30 := mul_le_mul_of_nonneg_right hq2 (by norm_num)
    have : (1.225e-16 : ℝ) * 1e-30 - 1e-40 - 1e-70 ≤ 0 := by norm_num
    linarith
  obtain ⟨m, hm⟩ : ∃ m : ℝ, 7074237752028440 * 2 ^ (-51 : ℤ) = m := ⟨_, rfl⟩
  have hm1 : (3 : ℝ) < m := by
    rw [← hm]
    norm_num
  have hm2 : m < 4 := by
    rw [← hm]
    norm_num
  have hval : (-7074237752028440 : ℝ) = -(2251799813685248 * m) := by
    rw [← hm]
    norm_num
  rw [hm] at hp1 hp2 ⊢
  obtain ⟨A, hA⟩ : ∃ A, atan2 (-t) (-u) = A := ⟨_, rfl⟩
  rw [hA] at ha1 ha2 ⊢
  have hd1 : -1e-19 ≤ A + m := by linarith
  have hd2 : A + m ≤ 1e-19 := by linarith
  have hAneg : A < 0 := by linarith
  have h2p : (2 : ℝ) ^ ((1 : ℤ) - 52) = 1 / 2251799813685248 := by norm_num
  apply round64_eq 1 (-7074237752028440)
  · rw [abs_of_neg hAneg]
    have : (2 : ℝ) ^ (1 : ℤ) = 2 := by norm_num
    rw [this]
    linarith
  · rw [abs_of_neg hAneg]
    have : (2 : ℝ) ^ ((1 : ℤ) + 1) = 4 := by norm_num
    rw [this]
    linarith
  · norm_num
  · norm_num
  · have e : A / 2 ^ ((1 : ℤ) - 52) - ((-7074237752028440 : ℤ) : ℝ)
        = 2251799813685248 * (A + m) := by
      rw [h2p]
      push_cast
      rw [hval]
      ring
    rw [e, abs_lt]
    constructor <;> linarith
  · rw [h2p]
    push_cast
    rw [hval]
    ring

/-- In binary64 `atan2 2 p` is `M_PI_2` whenever `p / 2` lies between `6.12e-17` and
`6.125e-17`: the exact value is within `1e-19` of `M_PI_2`, whose neighbours are `2.2e-16`
away. -/
theorem binary64_atan2_machine_half_pi {p : ℝ} (h1 : 2 * 6.12e-17 ≤ p)
    (h2 : p ≤ 2 * 6.125e-17) :
    Scalar.atan2 (Binary64.finite 2) (Binary64.finite p)
      = Binary64.finite (7074237752028440 * 2 ^ (-52 : ℤ)) := by
  obtain ⟨hv1, hv2⟩ := half_pi_sub_machine_half_pi
  have hp0 : 0 < p := by linarith
  apply finite_atan2
  obtain ⟨ha1, ha2⟩ := atan2_near_pole (z := 2) (p := p) (by norm_num) hp0
  have hroot : √(p * p + 2 * 2) ≤ 2 * (1 + 1e-30) := by
    rw [Real.sqrt_le_left (by norm_num)]
    have : p * p ≤ 2 * 6.125e-17 * (2 * 6.125e-17) := mul_le_mul h2 h2 hp0.le (by norm_num)
    have : (2 * 6.125e-17 * (2 * 6.125e-17) : ℝ) + 2 * 2 ≤ (2 * (1 + 1e-30)) ^ 2 := by
      norm_num
    linarith
  have hrpos : 0 < √(p * p + 2 * 2) := Real.sqrt_pos.2 (by positivity)
  have hq : p / (2 * (1 + 1e-30)) ≤ p / √(p * p + 2 * 2) :=
    div_le_div_of_nonneg_left hp0.le hrpos hroot
  have hq3 : p / 2 - 1e-40 ≤ p / (2 * (1 + 1e-30)) := by
    rw [le_div_iff₀ (by norm_num)]
    have : (p / 2 - 1e-40) * (2 * (1 + 1e-30)) = p + (p * 1e-30 - 2e-40 - 2e-70) := by ring
    rw [this]
    have : p * 1e-30 ≤ 2 * 6.125e-17 * 1e-30 := mul_le_mul_of_nonneg_right h2 (by norm_num)
    have : (2 * 6.125e-17 : ℝ) * 1e-30 - 2e-40 - 2e-70 ≤ 0 := by norm_num
    linarith
  obtain ⟨m, hm⟩ : ∃ m : ℝ, 7074237752028440 * 2 ^ (-52 : ℤ) = m := ⟨_, rfl⟩
  have hval : ((7074237752028440 : ℤ) : ℝ) * 2 ^ (-52 : ℤ) = m := by
    rw [← hm]
    push_cast
    ring
  have hhalf : (2 : ℝ) ^ (-52 : ℤ) = 1 / 4503599627370496 := by norm_num
  rw [hm] at hv1 hv2
  obtain ⟨A, hA⟩ : ∃ A, atan2 2 p = A := ⟨_, rfl⟩
  rw [hA] at ha1 ha2 ⊢
  have hd1 : -1e-19 < A - m := by linarith
  have hd2 : A - m < 1e-19 := by linarith
  apply round64_pos (-52) 7074237752028440 (by norm_num) (by norm_num) _ _ (by norm_num)
    (by norm_num) (by norm_num)
  · have e : (((7074237752028440 : ℤ) : ℝ) - 1 / 2) * 2 ^ (-52 : ℤ)
        = m - 1 / 2 * 2 ^ (-52 : ℤ) := by
      rw [← hval]
      ring
    rw [e, hhalf]
    have : (1e-19 : ℝ) < 1 / 2 * (1 / 4503599627370496) := by norm_num
    linarith
  · have e : (((7074237752028440 : ℤ) : ℝ) + 1 / 2) * 2 ^ (-52 : ℤ)
        = m + 1 / 2 * 2 ^ (-52 : ℤ) := by
      rw [← hval]
      ring
    rw [e, hhalf]
    have : (1e-19 : ℝ) < 1 / 2 * (1 / 4503599627370496) := by norm_num
    linarith

/-- In binary64 `1 + w = 1` for a positive `w` below `1e-31`. -/
theorem binary64_one_add_tiny {w : ℝ} (hw0 : 0 < w) (hw1 : w < 1e-31) :
    Binary64.finite 1 + Binary64.finite w = Binary64.finite 1 := by
  apply finite_add
  apply round64_eq 0 4503599627370496
  · rw [abs_of_pos (by linarith)]
    norm_num
    linarith
  · rw [abs_of_pos (by linarith)]
    norm_num
    linarith
  · norm_num
  · norm_num
  · have e : (1 + w) / 2 ^ ((0 : ℤ) - 52) - ((4503599627370496 : ℤ) : ℝ)
        = 4503599627370496 * w := by
      have : (2 : ℝ) ^ ((0 : ℤ) - 52) = 1 / 4503599627370496 := by norm_num
      rw [this]
      push_cast
      ring
    rw [e, abs_of_pos (by linarith)]
    linarith
  · norm_num

/-- In binary64 the sphere round trip at the machine longitude nearest `-π` is exact: for
radius `1` and the geodetic triple `(-M_PI, 0, 0)`, `M_PI = 7074237752028440 * 2 ^ (-51)`,
`geodToECEF` followed by `ecefToGeod` returns `(-M_PI, 0, 0)`.  The forward image is
`(-1, y, 0)` with `y` the rounded `sin (-M_PI)`, about `-1.2246e-16`, and `atan2 y (-1)` is
within `1e-19` of `-M_PI`. -/
theorem binary64_sphere_roundtrip_minus_pi :
    Sphere.ecefToGeodInPlace
        (Sphere.geodToECEFInPlace
          ![Binary64.finite (-(7074237752028440 * 2 ^ (-51 : ℤ))), Binary64.finite 0,
            Binary64.finite 0] ⟨Binary64.finite 1⟩) ⟨Binary64.finite 1⟩
      = ![Binary64.finite (-(7074237752028440 * 2 ^ (-51 : ℤ))), Binary64.finite 0,
          Binary64.finite 0] := by
  obtain ⟨hs1, hs2⟩ := sin_machine_pi
  -- sin lon
  obtain ⟨s, hs, hsl, hsh⟩ := round64_bounds_neg
    (Real.sin (-(7074237752028440 * 2 ^ (-51 : ℤ)))) 1.2246e-16 1.2248e-16
    (by rw [Real.sin_neg, neg_neg]; exact hs1.le) (by rw [Real.sin_neg, neg_neg]; exact hs2.le)
    (by norm_num) (by norm_num)
  have hsl' : (1.2245e-16 : ℝ) ≤ s := by
    have : (1.2245e-16 : ℝ) ≤ 1.2246e-16 * (1 - 2 ^ (-53 : ℤ)) := by norm_num
    linarith
  have hsh' : s ≤ (1.2249e-16 : ℝ) := by
    have : (1.2248e-16 : ℝ) * (1 + 2 ^ (-53 : ℤ)) ≤ 1.2249e-16 := by norm_num
    linarith
  have k2 : Scalar.sin (Binary64.finite (-(7074237752028440 * 2 ^ (-51 : ℤ))))
      = Binary64.finite (-s) := finite_sin hs
  -- cos lon
  have k3 : Scalar.cos (Binary64.finite (-(7074237752028440 * 2 ^ (-51 : ℤ))))
      = Binary64.finite (-1) :=
    finite_cos (by rw [Real.cos_neg]; exact round64_cos_machine_pi)
  have k4 : Scalar.sin (Binary64.finite 0) = Binary64.finite 0 :=
    finite_sin (by rw [Real.sin_zero]; exact round64_zero)
  have k5 : Scalar.cos (Binary64.finite 0) = Binary64.finite 1 :=
    finite_cos (by rw [Real.cos_zero]; exact round64_one)
  have k1 : Binary64.finite 1 + Binary64.finite 0 = Binary64.finite 1 :=
    finite_add (round64_val 1 0 (by norm_num) (by norm_num) (by norm_num) (by norm_num)
      (by norm_num))
  have k6 : Binary64.finite 1 * Binary64.finite 1 = Binary64.finite 1 :=
    finite_mul (round64_val 1 0 (by norm_num) (by norm_num) (by norm_num) (by norm_num)
      (by norm_num))
  have k7 : Binary64.finite 1 * Binary64.finite (-1) = Binary64.finite (-1) :=
    finite_mul (round64_val (-1) 0 (by norm_num) (by norm_num) (by norm_num) (by norm_num)
      (by norm_num))
  -- y = 1 * sin lon
  obtain ⟨t, ht, htl, hth⟩ := round64_bounds_neg (1 * -s) 1.2245e-16 1.2249e-16
    (by linarith) (by linarith) (by norm_num) (by norm_num)
  have htl' : (1.2244e-16 : ℝ) ≤ t := by
    have : (1.2244e-16 : ℝ) ≤ 1.2245e-16 * (1 - 2 ^ (-53 : ℤ)) := by norm_num
    linarith
  have hth' : t ≤ (1.225e-16 : ℝ) := by
    have : (1.2249e-16 : ℝ) * (1 + 2 ^ (-53 : ℤ)) ≤ 1.225e-16 := by norm_num
    linarith
  have ht0 : 0 < t := by linarith
  have k8 : Binary64.finite 1 * Binary64.finite (-s) = Binary64.finite (-t) := finite_mul ht
  have k9 : Binary64.finite 1 * Binary64.finite 0 = Binary64.finite 0 :=
    finite_mul (round64_val 0 0 (by norm_num) (by norm_num) (by norm_num) (by norm_num)
      (by norm_num))
  have k10 : Binary64.finite (-1) * Binary64.finite (-1) = Binary64.finite 1 :=
    finite_mul (round64_val 1 0 (by norm_num) (by norm_num) (by norm_num) (by norm_num)
      (by norm_num))
  -- y * y
  have htt1 : (1.2244e-16 : ℝ) * 1.2244e-16 ≤ -t * -t := by
    have := mul_le_mul htl' htl' (by norm_num) ht0.le
    linarith
  have htt2 : -t * -t ≤ (1.225e-16 : ℝ) * 1.225e-16 := by
    have := mul_le_mul hth' hth' ht0.le (by norm_num)
    linarith
  obtain ⟨w, hw, hwl, hwh⟩ := round64_bounds (-t * -t) (1.2244e-16 * 1.2244e-16)
    (1.225e-16 * 1.225e-16) htt1 htt2 (by norm_num) (by norm_num)
  have hw0 : 0 < w := by
    have : (0 : ℝ) < 1.2244e-16 * 1.2244e-16 * (1 - 2 ^ (-53 : ℤ)) := by norm_num
    linarith
  have hw1 : w < 1e-31 := by
    have : (1.225e-16 : ℝ) * 1.225e-16 * (1 + 2 ^ (-53 : ℤ)) < 1e-31 := by norm_num
    linarith
  have k11 : Binary64.finite (-t) * Binary64.finite (-t) = Binary64.finite w := finite_mul hw
  -- x * x + y * y and its square root
  have k12a : Binary64.finite 1 + Binary64.finite w = Binary64.finite 1 :=
    binary64_one_add_tiny hw0 hw1
  have k12 : Scalar.sqrt (Binary64.finite 1) = Binary64.finite 1 :=
    finite_sqrt (by norm_num) (by rw [Real.sqrt_one]; exact round64_one)
  -- the longitude
  have k13 : Scalar.atan2 (Binary64.finite (-t)) (Binary64.finite (-1))
      = Binary64.finite (-(7074237752028440 * 2 ^ (-51 : ℤ))) :=
    binary64_atan2_near_minus_pi (by norm_num) (by linarith) (by linarith)
  have k14 : Scalar.atan2 (Binary64.finite 0) (Binary64.finite 1) = Binary64.finite 0 :=
    finite_atan2 (by rw [atan2_zero_nonneg (by norm_num)]; exact round64_zero)
  have k16 : Binary64.finite 1 / Binary64.finite 1 = Binary64.finite 1 :=
    finite_div (by norm_num) (round64_val 1 0 (by norm_num) (by norm_num) (by norm_num)
      (by norm_num) (by norm_num))
  have k17 : Binary64.finite 1 - Binary64.finite 1 = Binary64.finite 0 :=
    finite_sub (round64_val 0 0 (by norm_num) (by norm_num) (by norm_num) (by norm_num)
      (by norm_num))
  exact sphere_roundtrip_steps k1 k2 k3 k4 k5 k6 k7 k8 k9 k10 k11
    (by rw [k12a]; exact k12) k13 k14 k5 k16 k17

/-- Rounding of a negative real whose opposite is enclosed between two multiples of a
positive `c`. -/
theorem round64_scaled_neg (x c α β α' β' : ℝ) (hc : 0 < c) (h1 : α * c ≤ -x)
    (h2 : -x ≤ β * c) (hl : (2 : ℝ) ^ (-1022 : ℤ) ≤ α * c) (hh : β * c < 2 ^ (1022 : ℤ))
    (hα : α' ≤ α * (1 - 2 ^ (-53 : ℤ))) (hβ : β * (1 + 2 ^ (-53 : ℤ)) ≤ β') :
    ∃ y, round64 x = Binary64.finite (-y) ∧ α' * c ≤ y ∧ y ≤ β' * c := by
  obtain ⟨y, hy, hy1, hy2⟩ := round64_bounds_neg x (α * c) (β * c) h1 h2 hl hh
  refine ⟨y, hy, ?_, ?_⟩
  · have := mul_le_mul_of_nonneg_right hα hc.le
    have e : α * (1 - 2 ^ (-53 : ℤ)) * c = α * c * (1 - 2 ^ (-53 : ℤ)) := by ring
    linarith
  · have := mul_le_mul_of_nonneg_right hβ hc.le
    have e : β * (1 + 2 ^ (-53 : ℤ)) * c = β * c * (1 + 2 ^ (-53 : ℤ)) := by ring
    linarith

/-- The binary64 forward image of the sphere kernel next to the pole, horizontal part: with
`n = 2`, `cos lat = c` about `6.123e-17`, `cos lon = -1` and `sin lon = -s`, `s` about
`1.2247e-16`, the products `m = n c`, `x = m cos lon = -x₁` and `y = m sin lon = -y₁` are
finite, `x₁` is within `2.4e-16` of `2 c` in relative terms, and `y₁ / x₁` lies between
`1.2244e-16` and `1.225e-16`. -/
theorem binary64_pole_forward {c s : ℝ} (hc1 : 6.1229e-17 ≤ c) (hc2 : c ≤ 6.1238e-17)
    (hs1 : 1.2245e-16 ≤ s) (hs2 : s ≤ 1.2249e-16) :
    ∃ m x₁ y₁, Binary64.finite 2 * Binary64.finite c = Binary64.finite m
      ∧ Binary64.finite m * Binary64.finite (-1) = Binary64.finite (-x₁)
      ∧ Binary64.finite m * Binary64.finite (-s) = Binary64.finite (-y₁)
      ∧ 2 * (1 - 2.4e-16) * c ≤ x₁ ∧ x₁ ≤ 2 * (1 + 2.4e-16) * c
      ∧ 1.2244e-16 * x₁ ≤ y₁ ∧ y₁ ≤ 1.225e-16 * x₁ ∧ 1e-32 ≤ y₁ ∧ y₁ ≤ 2e-32 := by
  have hc : 0 < c := by linarith
  have hsm : (2 : ℝ) ^ (-1022 : ℤ) ≤ 1e-300 := by norm_num
  have hbig : (1 : ℝ) < 2 ^ (1022 : ℤ) := by norm_num
  obtain ⟨m, hm, hm1, hm2⟩ := round64_scaled (2 * c) c 2 2 (2 * (1 - 1.2e-16))
    (2 * (1 + 1.2e-16)) hc le_rfl le_rfl (le_trans hsm (by linarith))
    (lt_of_le_of_lt (by linarith) hbig) (by norm_num) (by norm_num)
  have hm0 : 0 < m := by
    have : 0 < 2 * (1 - 1.2e-16) * c := mul_pos (by norm_num) hc
    linarith
  obtain ⟨x₁, hx, hx1, hx2⟩ := round64_scaled_neg (m * -1) c (2 * (1 - 1.2e-16))
    (2 * (1 + 1.2e-16)) (2 * (1 - 2.4e-16)) (2 * (1 + 2.4e-16)) hc (by linarith)
    (by linarith)
    (by
      have h3 := mul_le_mul_of_nonneg_left hc1 (by norm_num : (0 : ℝ) ≤ 2 * (1 - 1.2e-16))
      have h4 : (1e-300 : ℝ) ≤ 2 * (1 - 1.2e-16) * 6.1229e-17 := by norm_num
      exact le_trans hsm (le_trans h4 h3))
    (by
      have h3 := mul_le_mul_of_nonneg_left hc2 (by norm_num : (0 : ℝ) ≤ 2 * (1 + 1.2e-16))
      have h4 : (2 * (1 + 1.2e-16) * 6.1238e-17 : ℝ) ≤ 1 := by norm_num
      exact lt_of_le_of_lt (le_trans h3 h4) hbig)
    (by norm_num) (by norm_num)
  have hms1 : 2 * (1 - 1.2e-16) * 1.2245e-16 * c ≤ -(m * -s) := by
    have h := mul_le_mul hm1 hs1 (by norm_num) hm0.le
    have e : 2 * (1 - 1.2e-16) * c * 1.2245e-16 = 2 * (1 - 1.2e-16) * 1.2245e-16 * c := by
      ring
    linarith
  have hms2 : -(m * -s) ≤ 2 * (1 + 1.2e-16) * 1.2249e-16 * c := by
    have h := mul_le_mul hm2 hs2 (by linarith) (by
      have : 0 < 2 * (1 + 1.2e-16) * c := mul_pos (by norm_num) hc
      linarith)
    have e : 2 * (1 + 1.2e-16) * c * 1.2249e-16 = 2 * (1 + 1.2e-16) * 1.2249e-16 * c := by
      ring
    linarith
  obtain ⟨y₁, hy, hy1, hy2⟩ := round64_scaled_neg (m * -s) c
    (2 * (1 - 1.2e-16) * 1.2245e-16) (2 * (1 + 1.2e-16) * 1.2249e-16)
    (2 * (1 + 2.4e-16) * 1.2244e-16) (2 * (1 - 2.4e-16) * 1.225e-16) hc hms1 hms2
    (by
      have h3 := mul_le_mul_of_nonneg_left hc1
        (by norm_num : (0 : ℝ) ≤ 2 * (1 - 1.2e-16) * 1.2245e-16)
      have h4 : (1e-300 : ℝ) ≤ 2 * (1 - 1.2e-16) * 1.2245e-16 * 6.1229e-17 := by norm_num
      exact le_trans hsm (le_trans h4 h3))
    (by
      have h3 := mul_le_mul_of_nonneg_left hc2
        (by norm_num : (0 : ℝ) ≤ 2 * (1 + 1.2e-16) * 1.2249e-16)
      have h4 : (2 * (1 + 1.2e-16) * 1.2249e-16 * 6.1238e-17 : ℝ) ≤ 1 := by norm_num
      exact lt_of_le_of_lt (le_trans h3 h4) hbig)
    (by norm_num) (by norm_num)
  refine ⟨m, x₁, y₁, finite_mul hm, finite_mul hx, finite_mul hy, hx1, hx2, ?_, ?_, ?_, ?_⟩
  · have := mul_le_mul_of_nonneg_left hx2 (by norm_num : (0 : ℝ) ≤ 1.2244e-16)
    have e : 1.2244e-16 * (2 * (1 + 2.4e-16) * c) = 2 * (1 + 2.4e-16) * 1.2244e-16 * c := by
      ring
    linarith
  · have := mul_le_mul_of_nonneg_left hx1 (by norm_num : (0 : ℝ) ≤ 1.225e-16)
    have e : 1.225e-16 * (2 * (1 - 2.4e-16) * c) = 2 * (1 - 2.4e-16) * 1.225e-16 * c := by
      ring
    linarith
  · have := mul_le_mul_of_nonneg_left hc1
      (by norm_num : (0 : ℝ) ≤ 2 * (1 + 2.4e-16) * 1.2244e-16)
    have : (1e-32 : ℝ) ≤ 2 * (1 + 2.4e-16) * 1.2244e-16 * 6.1229e-17 := by norm_num
    linarith
  · have := mul_le_mul_of_nonneg_left hc2
      (by norm_num : (0 : ℝ) ≤ 2 * (1 - 2.4e-16) * 1.225e-16)
    have : (2 * (1 - 2.4e-16) * 1.225e-16 * 6.1238e-17 : ℝ) ≤ 2e-32 := by norm_num
    linarith

/-- The binary64 distance from the axis of the sphere inverse kernel next to the pole: for
`x = -x₁` within `2.4e-16` of `-2 c` in relative terms and `y = -y₁` below `2e-32`, the
products `x x`, `y y`, their sum and its square root `p` are finite, and `p` is within
`8.6e-16` of `2 c` in relative terms. -/
theorem binary64_pole_radius {c x₁ y₁ : ℝ} (hc1 : 6.1229e-17 ≤ c) (hc2 : c ≤ 6.1238e-17)
    (hx1 : 2 * (1 - 2.4e-16) * c ≤ x₁) (hx2 : x₁ ≤ 2 * (1 + 2.4e-16) * c)
    (hy1 : 1e-32 ≤ y₁) (hy2 : y₁ ≤ 2e-32) :
    ∃ xx yy ss p, Binary64.finite (-x₁) * Binary64.finite (-x₁) = Binary64.finite xx
      ∧ Binary64.finite (-y₁) * Binary64.finite (-y₁) = Binary64.finite yy
      ∧ Binary64.finite xx + Binary64.finite yy = Binary64.finite ss
      ∧ Scalar.sqrt (Binary64.finite ss) = Binary64.finite p
      ∧ 2 * (1 - 8.6e-16) * c ≤ p ∧ p ≤ 2 * (1 + 5e-16) * c := by
  have hc : 0 < c := by linarith
  have hcc : 0 < c * c := mul_pos hc hc
  have hcc1 : 6.1229e-17 * 6.1229e-17 ≤ c * c := mul_le_mul hc1 hc1 (by norm_num) hc.le
  have hcc2 : c * c ≤ 6.1238e-17 * 6.1238e-17 := mul_le_mul hc2 hc2 hc.le (by norm_num)
  have hsm : (2 : ℝ) ^ (-1022 : ℤ) ≤ 1e-300 := by norm_num
  have hbig : (1 : ℝ) < 2 ^ (1022 : ℤ) := by norm_num
  have hx0 : 0 < x₁ := by
    have : 0 < 2 * (1 - 2.4e-16) * c := mul_pos (by norm_num) hc
    linarith
  have hy0 : 0 < y₁ := by linarith
  -- x * x
  have hxx1 : 2 * (1 - 2.4e-16) * (2 * (1 - 2.4e-16)) * (c * c) ≤ -x₁ * -x₁ := by
    have h := mul_le_mul hx1 hx1 (mul_pos (by norm_num) hc).le hx0.le
    have e : 2 * (1 - 2.4e-16) * c * (2 * (1 - 2.4e-16) * c)
        = 2 * (1 - 2.4e-16) * (2 * (1 - 2.4e-16)) * (c * c) := by ring
    linarith
  have hxx2 : -x₁ * -x₁ ≤ 2 * (1 + 2.4e-16) * (2 * (1 + 2.4e-16)) * (c * c) := by
    have h := mul_le_mul hx2 hx2 hx0.le (mul_pos (by norm_num) hc).le
    have e : 2 * (1 + 2.4e-16) * c * (2 * (1 + 2.4e-16) * c)
        = 2 * (1 + 2.4e-16) * (2 * (1 + 2.4e-16)) * (c * c) := by ring
    linarith
  obtain ⟨xx, hxx, hX1, hX2⟩ := round64_scaled (-x₁ * -x₁) (c * c)
    (2 * (1 - 2.4e-16) * (2 * (1 - 2.4e-16))) (2 * (1 + 2.4e-16) * (2 * (1 + 2.4e-16)))
    (4 * (1 - 6.2e-16)) (4 * (1 + 6.2e-16)) hcc hxx1 hxx2
    (by
      have h3 := mul_le_mul_of_nonneg_left hcc1
        (by norm_num : (0 : ℝ) ≤ 2 * (1 - 2.4e-16) * (2 * (1 - 2.4e-16)))
      have h4 : (1e-300 : ℝ)
          ≤ 2 * (1 - 2.4e-16) * (2 * (1 - 2.4e-16)) * (6.1229e-17 * 6.1229e-17) := by
        norm_num
      exact le_trans hsm (le_trans h4 h3))
    (by
      have h3 := mul_le_mul_of_nonneg_left hcc2
        (by norm_num : (0 : ℝ) ≤ 2 * (1 + 2.4e-16) * (2 * (1 + 2.4e-16)))
      have h4 : (2 * (1 + 2.4e-16) * (2 * (1 + 2.4e-16)) * (6.1238e-17 * 6.1238e-17) : ℝ)
          ≤ 1 := by norm_num
      exact lt_of_le_of_lt (le_trans h3 h4) hbig)
    (by norm_num) (by norm_num)
  -- y * y
  have hyy1 : (1e-32 : ℝ) * 1e-32 ≤ -y₁ * -y₁ := by
    have h := mul_le_mul hy1 hy1 (by norm_num) hy0.le
    linarith
  have hyy2 : -y₁ * -y₁ ≤ (2e-32 : ℝ) * 2e-32 := by
    have h := mul_le_mul hy2 hy2 hy0.le (by norm_num)
    linarith
  obtain ⟨yy, hyy, hY1, hY2⟩ := round64_bounds (-y₁ * -y₁) (1e-32 * 1e-32) (2e-32 * 2e-32)
    hyy1 hyy2 (by norm_num) (by norm_num)
  have hY0 : 0 < yy := by
    have : (0 : ℝ) < 1e-32 * 1e-32 * (1 - 2 ^ (-53 : ℤ)) := by norm_num
    linarith
  have hY3 : yy ≤ 4 * 1e-28 * (c * c) := by
    have h3 : (2e-32 : ℝ) * 2e-32 * (1 + 2 ^ (-53 : ℤ))
        ≤ 4 * 1e-28 * (6.1229e-17 * 6.1229e-17) := by norm_num
    have h4 := mul_le_mul_of_nonneg_left hcc1 (by norm_num : (0 : ℝ) ≤ 4 * 1e-28)
    linarith
  -- the sum
  have hs1 : 4 * (1 - 6.2e-16) * (c * c) ≤ xx + yy := by linarith
  have hs2 : xx + yy ≤ (4 * (1 + 6.2e-16) + 4 * 1e-28) * (c * c) := by
    have e : (4 * (1 + 6.2e-16) + 4 * 1e-28) * (c * c)
        = 4 * (1 + 6.2e-16) * (c * c) + 4 * 1e-28 * (c * c) := by ring
    linarith
  obtain ⟨ss, hss, hS1, hS2⟩ := round64_scaled (xx + yy) (c * c) (4 * (1 - 6.2e-16))
    (4 * (1 + 6.2e-16) + 4 * 1e-28) (4 * (1 - 7.4e-16)) (4 * (1 + 7.5e-16)) hcc hs1 hs2
    (by
      have h3 := mul_le_mul_of_nonneg_left hcc1
        (by norm_num : (0 : ℝ) ≤ 4 * (1 - 6.2e-16))
      have h4 : (1e-300 : ℝ) ≤ 4 * (1 - 6.2e-16) * (6.1229e-17 * 6.1229e-17) := by norm_num
      exact le_trans hsm (le_trans h4 h3))
    (by
      have h3 := mul_le_mul_of_nonneg_left hcc2
        (by norm_num : (0 : ℝ) ≤ 4 * (1 + 6.2e-16) + 4 * 1e-28)
      have h4 : ((4 * (1 + 6.2e-16) + 4 * 1e-28) * (6.1238e-17 * 6.1238e-17) : ℝ) ≤ 1 := by
        norm_num
      exact lt_of_le_of_lt (le_trans h3 h4) hbig)
    (by norm_num) (by norm_num)
  have hss0 : 0 < ss := by
    have : 0 < 4 * (1 - 7.4e-16) * (c * c) := mul_pos (by norm_num) hcc
    linarith
  -- the square root
  have hr1 : 2 * (1 - 7.4e-16) * c ≤ √ss := by
    apply Real.le_sqrt_of_sq_le
    have e : (2 * (1 - 7.4e-16) * c) ^ 2
        = 2 * (1 - 7.4e-16) * (2 * (1 - 7.4e-16)) * (c * c) := by ring
    rw [e]
    have h3 := mul_le_mul_of_nonneg_right
      (by norm_num : (2 * (1 - 7.4e-16) * (2 * (1 - 7.4e-16)) : ℝ) ≤ 4 * (1 - 7.4e-16)) hcc.le
    linarith
  have hr2 : √ss ≤ 2 * (1 + 3.75e-16) * c := by
    rw [Real.sqrt_le_left (mul_pos (by norm_num) hc).le]
    have e : (2 * (1 + 3.75e-16) * c) ^ 2
        = 2 * (1 + 3.75e-16) * (2 * (1 + 3.75e-16)) * (c * c) := by ring
    rw [e]
    have h3 := mul_le_mul_of_nonneg_right
      (by norm_num : (4 * (1 + 7.5e-16) : ℝ) ≤ 2 * (1 + 3.75e-16) * (2 * (1 + 3.75e-16)))
      hcc.le
    linarith
  obtain ⟨p, hp, hP1, hP2⟩ := round64_scaled (√ss) c (2 * (1 - 7.4e-16))
    (2 * (1 + 3.75e-16)) (2 * (1 - 8.6e-16)) (2 * (1 + 5e-16)) hc hr1 hr2
    (by
      have h3 := mul_le_mul_of_nonneg_left hc1 (by norm_num : (0 : ℝ) ≤ 2 * (1 - 7.4e-16))
      have h4 : (1e-300 : ℝ) ≤ 2 * (1 - 7.4e-16) * 6.1229e-17 := by norm_num
      exact le_trans hsm (le_trans h4 h3))
    (by
      have h3 := mul_le_mul_of_nonneg_left hc2 (by norm_num : (0 : ℝ) ≤ 2 * (1 + 3.75e-16))
      have h4 : (2 * (1 + 3.75e-16) * 6.1238e-17 : ℝ) ≤ 1 := by norm_num
      exact lt_of_le_of_lt (le_trans h3 h4) hbig)
    (by norm_num) (by norm_num)
  exact ⟨xx, yy, ss, p, finite_mul hxx, finite_mul hyy, finite_add hss,
    finite_sqrt hss0.le hp, hP1, hP2⟩

/-- The binary64 altitude of the sphere inverse kernel next to the pole: for `p` within
`8.6e-16` of `2 c` in relative terms, the quotient `p / c` and the difference `p / c - 1`
are finite, and the difference is within `1e-14` of `1`. -/
theorem binary64_pole_altitude {c p : ℝ} (hc : 0 < c) (hp1 : 2 * (1 - 8.6e-16) * c ≤ p)
    (hp2 : p ≤ 2 * (1 + 5e-16) * c) :
    ∃ q v, Binary64.finite p / Binary64.finite c = Binary64.finite q
      ∧ Binary64.finite q - Binary64.finite 1 = Binary64.finite v ∧ |v - 1| ≤ 1e-14 := by
  have hq1 : 2 * (1 - 8.6e-16) ≤ p / c := by
    rw [le_div_iff₀ hc]
    exact hp1
  have hq2 : p / c ≤ 2 * (1 + 5e-16) := by
    rw [div_le_iff₀ hc]
    exact hp2
  obtain ⟨q, hq, hQ1, hQ2⟩ := round64_bounds (p / c) (2 * (1 - 8.6e-16)) (2 * (1 + 5e-16))
    hq1 hq2 (by norm_num) (by norm_num)
  have hQ1' : 2 * (1 - 1e-15) ≤ q := by
    have : (2 * (1 - 1e-15) : ℝ) ≤ 2 * (1 - 8.6e-16) * (1 - 2 ^ (-53 : ℤ)) := by norm_num
    linarith
  have hQ2' : q ≤ 2 * (1 + 1e-15) := by
    have : (2 * (1 + 5e-16) : ℝ) * (1 + 2 ^ (-53 : ℤ)) ≤ 2 * (1 + 1e-15) := by norm_num
    linarith
  obtain ⟨v, hv, hV1, hV2⟩ := round64_bounds (q - 1) (1 - 2e-15) (1 + 2e-15)
    (by linarith) (by linarith) (by norm_num) (by norm_num)
  refine ⟨q, v, finite_div hc.ne' hq, finite_sub hv, ?_⟩
  rw [abs_le]
  constructor
  · have : (1 - 1e-14 : ℝ) ≤ (1 - 2e-15) * (1 - 2 ^ (-53 : ℤ)) := by norm_num
    linarith
  · have : ((1 + 2e-15) * (1 + 2 ^ (-53 : ℤ)) : ℝ) ≤ 1 + 1e-14 := by norm_num
    linarith

/-- In binary64 the sphere round trip at the machine numbers nearest both ends of the angle
ranges is within tolerance: for radius `1` and the geodetic triple `(-M_PI, M_PI_2, 1)`,
`M_PI = 7074237752028440 * 2 ^ (-51)` and `M_PI_2 = 7074237752028440 * 2 ^ (-52)`,
`geodToECEF` followed by `ecefToGeod` returns the longitude `-M_PI` and the latitude
`M_PI_2` exactly and an altitude within `1e-14` of `1`.  The forward image is off the polar
axis, at distance about `1.2e-16` from it, because `cos M_PI_2` is about `6.1e-17`, not
`0`. -/
theorem binary64_sphere_roundtrip_pole :
    ∃ v, Sphere.ecefToGeodInPlace
        (Sphere.geodToECEFInPlace
          ![Binary64.finite (-(7074237752028440 * 2 ^ (-51 : ℤ))),
            Binary64.finite (7074237752028440 * 2 ^ (-52 : ℤ)), Binary64.finite 1]
          ⟨Binary64.finite 1⟩) ⟨Binary64.finite 1⟩
      = ![Binary64.finite (-(7074237752028440 * 2 ^ (-51 : ℤ))),
          Binary64.finite (7074237752028440 * 2 ^ (-52 : ℤ)), Binary64.finite v]
      ∧ |v - 1| ≤ 1e-14 := by
  obtain ⟨hs1, hs2⟩ := sin_machine_pi
  obtain ⟨hk1, hk2⟩ := cos_machine_half_pi
  obtain ⟨s, hs, hsl, hsh⟩ := round64_bounds_neg
    (Real.sin (-(7074237752028440 * 2 ^ (-51 : ℤ)))) 1.2246e-16 1.2248e-16
    (by rw [Real.sin_neg, neg_neg]; exact hs1.le) (by rw [Real.sin_neg, neg_neg]; exact hs2.le)
    (by norm_num) (by norm_num)
  have hsl' : (1.2245e-16 : ℝ) ≤ s := by
    have : (1.2245e-16 : ℝ) ≤ 1.2246e-16 * (1 - 2 ^ (-53 : ℤ)) := by norm_num
    linarith
  have hsh' : s ≤ (1.2249e-16 : ℝ) := by
    have : (1.2248e-16 : ℝ) * (1 + 2 ^ (-53 : ℤ)) ≤ 1.2249e-16 := by norm_num
    linarith
  obtain ⟨c, hc, hcl, hch⟩ := round64_bounds
    (Real.cos (7074237752028440 * 2 ^ (-52 : ℤ))) 6.123e-17 6.1237e-17 hk1.le hk2.le
    (by norm_num) (by norm_num)
  have hc1 : (6.1229e-17 : ℝ) ≤ c := by
    have : (6.1229e-17 : ℝ) ≤ 6.123e-17 * (1 - 2 ^ (-53 : ℤ)) := by norm_num
    linarith
  have hc2 : c ≤ (6.1238e-17 : ℝ) := by
    have : (6.1237e-17 : ℝ) * (1 + 2 ^ (-53 : ℤ)) ≤ 6.1238e-17 := by norm_num
    linarith
  have hc0 : 0 < c := by linarith
  obtain ⟨m, x₁, y₁, k6, k7, k8, hx1, hx2, hyx1, hyx2, hy1, hy2⟩ :=
    binary64_pole_forward hc1 hc2 hsl' hsh'
  have hx0 : 0 < x₁ := by
    have : 0 < 2 * (1 - 2.4e-16) * c := mul_pos (by norm_num) hc0
    linarith
  obtain ⟨xx, yy, ss, p, k10, k11, k12a, k12b, hp1, hp2⟩ :=
    binary64_pole_radius hc1 hc2 hx1 hx2 hy1 hy2
  obtain ⟨q, v, k16, k17, hv⟩ := binary64_pole_altitude hc0 hp1 hp2
  have k1 : Binary64.finite 1 + Binary64.finite 1 = Binary64.finite 2 :=
    finite_add (round64_val 2 0 (by norm_num) (by norm_num) (by norm_num) (by norm_num)
      (by norm_num))
  have k2 : Scalar.sin (Binary64.finite (-(7074237752028440 * 2 ^ (-51 : ℤ))))
      = Binary64.finite (-s) := finite_sin hs
  have k3 : Scalar.cos (Binary64.finite (-(7074237752028440 * 2 ^ (-51 : ℤ))))
      = Binary64.finite (-1) :=
    finite_cos (by rw [Real.cos_neg]; exact round64_cos_machine_pi)
  have k4 : Scalar.sin (Binary64.finite (7074237752028440 * 2 ^ (-52 : ℤ)))
      = Binary64.finite 1 := finite_sin round64_sin_machine_half_pi
  have k5 : Scalar.cos (Binary64.finite (7074237752028440 * 2 ^ (-52 : ℤ)))
      = Binary64.finite c := finite_cos hc
  have k9 : Binary64.finite 2 * Binary64.finite 1 = Binary64.finite 2 :=
    finite_mul (round64_val 2 0 (by norm_num) (by norm_num) (by norm_num) (by norm_num)
      (by norm_num))
  have k13 : Scalar.atan2 (Binary64.finite (-y₁)) (Binary64.finite (-x₁))
      = Binary64.finite (-(7074237752028440 * 2 ^ (-51 : ℤ))) :=
    binary64_atan2_near_minus_pi hx0 hyx1 hyx2
  have hpl : 2 * 6.12e-17 ≤ p := by
    have h3 := mul_le_mul_of_nonneg_left hc1 (by norm_num : (0 : ℝ) ≤ 2 * (1 - 8.6e-16))
    have h4 : (2 * 6.12e-17 : ℝ) ≤ 2 * (1 - 8.6e-16) * 6.1229e-17 := by norm_num
    linarith
  have hph : p ≤ 2 * 6.125e-17 := by
    have h3 := mul_le_mul_of_nonneg_left hc2 (by norm_num : (0 : ℝ) ≤ 2 * (1 + 5e-16))
    have h4 : (2 * (1 + 5e-16) * 6.1238e-17 : ℝ) ≤ 2 * 6.125e-17 := by norm_num
    linarith
  have k14 : Scalar.atan2 (Binary64.finite 2) (Binary64.finite p)
      = Binary64.finite (7074237752028440 * 2 ^ (-52 : ℤ)) :=
    binary64_atan2_machine_half_pi hpl hph
  exact ⟨v, sphere_roundtrip_steps k1 k2 k3 k4 k5 k6 k7 k8 k9 k10 k11
    (by rw [k12a]; exact k12b) k13 k14 k5 k16 k17, hv⟩

end MachineEndpoints

/-! ## Round trips (C1, C2, C3) -/

section RoundTrips

open Real

/-- A rational number in the closed longitude range `[-π, π]` lies in `(-π, π]`, and a
rational number in the closed latitude range `[-π/2, π/2]` lies in the open range: `π` is
irrational.  Every binary floating-point number is rational. -/
theorem rat_mem_open_ranges (lon lat : ℚ) (hlon : -π ≤ (lon : ℝ) ∧ (lon : ℝ) ≤ π)
    (hlat : -(π / 2) ≤ (lat : ℝ) ∧ (lat : ℝ) ≤ π / 2) :
    (-π < (lon : ℝ) ∧ (lon : ℝ) ≤ π) ∧ (-(π / 2) < (lat : ℝ) ∧ (lat : ℝ) < π / 2) := by
  have h1 : -π ≠ (lon : ℝ) := irrational_pi.neg.ne_rat lon
  have h2 : -(π / 2) ≠ (lat : ℝ) := by
    intro h
    apply irrational_pi.ne_rat (-2 * lat)
    push_cast
    linarith
  have h3 : (lat : ℝ) ≠ π / 2 := by
    intro h
    apply irrational_pi.ne_rat (2 * lat)
    push_cast
    linarith
  exact ⟨⟨lt_of_le_of_ne hlon.1 h1, hlon.2⟩, lt_of_le_of_ne hlat.1 h2, lt_of_le_of_ne hlat.2 h3⟩

/-- The sphere round trip at the real numbers `-π` and `π/2` themselves, which no machine
number equals.  At `(lon, lat, h) = (-π, 0, 0)`, `r = 1`, the forward image is `(-1, 0, 0)`
and the inverse returns longitude `atan2 0 (-1) = π`; at `(1, π/2, 0)` the forward image is
`(0, 0, 1)` and the inverse returns longitude `atan2 0 0 = 0`. -/
theorem sphere_roundtrip_irrational_endpoints :
    (0.00001 : ℝ)
        < |Sphere.ecefToGeodInPlace (Sphere.geodToECEFInPlace ![-π, 0, 0] ⟨1⟩) ⟨1⟩ 0 - (-π)|
    ∧ (0.00001 : ℝ)
        < |Sphere.ecefToGeodInPlace (Sphere.geodToECEFInPlace ![1, π / 2, 0] ⟨1⟩) ⟨1⟩ 0 - 1| := by
  constructor
  · have h : Sphere.ecefToGeodInPlace (Sphere.geodToECEFInPlace ![-π, 0, 0] ⟨1⟩) ⟨1⟩ 0 = π := by
      simp [Sphere.ecefToGeodInPlace, Sphere.geodToECEFInPlace]
      exact atan2_zero_neg (by norm_num)
    rw [h]
    have := Real.pi_gt_three
    rw [abs_of_pos (by linarith)]
    linarith
  · have h : Sphere.ecefToGeodInPlace (Sphere.geodToECEFInPlace ![1, π / 2, 0] ⟨1⟩) ⟨1⟩ 0 = 0 := by
      simp [Sphere.ecefToGeodInPlace, Sphere.geodToECEFInPlace, atan2_zero_zero]
    rw [h]
    norm_num

/-- The sphere forward-then-inverse round trip in exact real arithmetic: for every radius
`r > 0`, every longitude in `(-π, π]`, every latitude in the open range `(-π/2, π/2)` and
every altitude `h ≥ 0`, the in-place sphere `geodToECEF` followed by the in-place sphere
`ecefToGeod` returns `(lon, lat, h)`. -/
theorem sphere_roundtrip_open_ranges (r lon lat h : ℝ) (hr : 0 < r) (hh : 0 ≤ h)
    (hlon : -π < lon ∧ lon ≤ π) (hlat : -(π / 2) < lat ∧ lat < π / 2) :
    Sphere.ecefToGeodInPlace (Sphere.geodToECEFInPlace ![lon, lat, h] ⟨r⟩) ⟨r⟩
      = ![lon, lat, h] := by
  have hn : 0 < r + h := by linarith
  have hc : 0 < Real.cos lat := Real.cos_pos_of_mem_Ioo hlat
  have hk : 0 < (r + h) * Real.cos lat := mul_pos hn hc
  have hp : Real.sqrt ((r + h) * Real.cos lat * Real.cos lon * ((r + h) * Real.cos lat * Real.cos lon)
      + (r + h) * Real.cos lat * Real.sin lon * ((r + h) * Real.cos lat * Real.sin lon))
      = (r + h) * Real.cos lat := sqrt_sq_add_sq_mul _ lon hk.le
  have hl : atan2 ((r + h) * Real.sin lat) ((r + h) * Real.cos lat) = lat :=
    atan2_mul_sin_cos hn (by linarith [Real.pi_pos, hlat.1]) (by linarith [Real.pi_pos, hlat.2])
  funext k
  fin_cases k
  · simp [Sphere.ecefToGeodInPlace, Sphere.geodToECEFInPlace,
      atan2_mul_sin_cos hk hlon.1 hlon.2]
  · simp [Sphere.ecefToGeodInPlace, Sphere.geodToECEFInPlace, hp, hl]
  · simp [Sphere.ecefToGeodInPlace, Sphere.geodToECEFInPlace, hp, hl]
    field_simp

/-- C1.  Sphere forward-then-inverse round trip, evaluated in exact real arithmetic: for
every radius `r > 0`, every longitude in the closed interval `[-π, π]`, every latitude in the
closed interval `[-π/2, π/2]` and every altitude `h ≥ 0`, the in-place sphere `geodToECEF`
followed by the in-place sphere `ecefToGeod` returns `(lon, lat, h)`, each component within
the double-precision test tolerance `1e-5`.  The longitude and the latitude are inputs of the
program, binary floating-point numbers, and every such number is rational: the statement
quantifies over all rational angles of the closed intervals.  (The endpoints `±π`, `±π/2`
themselves are irrational, so no input attains them; see
`sphere_roundtrip_irrational_endpoints`.)  The last two parts evaluate the round trip in
binary64 at the machine numbers nearest the endpoints, radius `1`: at `(-M_PI, 0, 0)` it
returns the input exactly, and at `(-M_PI, M_PI_2, 1)` it returns the longitude and the
latitude exactly and the altitude within `1e-14`. -/
theorem sphere_roundtrip (r h : ℝ) (lon lat : ℚ) (hr : 0 < r) (hh : 0 ≤ h)
    (hlon : -π ≤ (lon : ℝ) ∧ (lon : ℝ) ≤ π) (hlat : -(π / 2) ≤ (lat : ℝ) ∧ (lat : ℝ) ≤ π / 2) :
    (Sphere.ecefToGeodInPlace (Sphere.geodToECEFInPlace ![(lon : ℝ), (lat : ℝ), h] ⟨r⟩) ⟨r⟩
        = ![(lon : ℝ), (lat : ℝ), h]
      ∧ ∀ k, |Sphere.ecefToGeodInPlace
          (Sphere.geodToECEFInPlace ![(lon : ℝ), (lat : ℝ), h] ⟨r⟩) ⟨r⟩ k
          - ![(lon : ℝ), (lat : ℝ), h] k| ≤ 0.00001)
    ∧ Sphere.ecefToGeodInPlace
        (Sphere.geodToECEFInPlace
          ![Binary64.finite (-(7074237752028440 * 2 ^ (-51 : ℤ))), Binary64.finite 0,
            Binary64.finite 0] ⟨Binary64.finite 1⟩) ⟨Binary64.finite 1⟩
      = ![Binary64.finite (-(7074237752028440 * 2 ^ (-51 : ℤ))), Binary64.finite 0,
          Binary64.finite 0]
    ∧ ∃ v, Sphere.ecefToGeodInPlace
        (Sphere.geodToECEFInPlace
          ![Binary64.finite (-(7074237752028440 * 2 ^ (-51 : ℤ))),
            Binary64.finite (7074237752028440 * 2 ^ (-52 : ℤ)), Binary64.finite 1]
          ⟨Binary64.finite 1⟩) ⟨Binary64.finite 1⟩
      = ![Binary64.finite (-(7074237752028440 * 2 ^ (-51 : ℤ))),
          Binary64.finite (7074237752028440 * 2 ^ (-52 : ℤ)), Binary64.finite v]
      ∧ |v - 1| ≤ 1e-14 := by
  obtain ⟨hlon', hlat'⟩ := rat_mem_open_ranges lon lat hlon hlat
  have key := sphere_roundtrip_open_ranges r lon lat h hr hh hlon' hlat'
  refine ⟨⟨key, fun k => ?_⟩, binary64_sphere_roundtrip_minus_pi,
    binary64_sphere_roundtrip_pole⟩
  rw [key, sub_self, abs_zero]
  norm_num

/-- C1, witness at `r = 6378137`, `(lon, lat, h) = (-3, 3/2, 5)`, close to the ends of both
closed intervals. -/
theorem sphere_roundtrip_witness :
    Sphere.ecefToGeodInPlace
        (Sphere.geodToECEFInPlace ![((-3 : ℚ) : ℝ), ((3 / 2 : ℚ) : ℝ), 5] ⟨6378137⟩) ⟨6378137⟩
      = (![((-3 : ℚ) : ℝ), ((3 / 2 : ℚ) : ℝ), 5] : Coord ℝ)
    ∧ ∀ k, |Sphere.ecefToGeodInPlace
        (Sphere.geodToECEFInPlace ![((-3 : ℚ) : ℝ), ((3 / 2 : ℚ) : ℝ), 5] ⟨6378137⟩)
        ⟨6378137⟩ k - (![((-3 : ℚ) : ℝ), ((3 / 2 : ℚ) : ℝ), 5] : Coord ℝ) k| ≤ 0.00001 :=
  (sphere_roundtrip 6378137 5 (-3) (3 / 2) (by norm_num) (by norm_num)
    ⟨by push_cast; linarith [Real.pi_gt_three], by push_cast; linarith [Real.pi_gt_three]⟩
    ⟨by push_cast; linarith [Real.pi_gt_three], by push_cast; linarith [Real.pi_gt_three]⟩).1

/-- Bounds on the cubes of a sine and cosine in ratio three to one. -/
theorem cube_bounds {s c : ℝ} (hsc : s = 3 * c) (hc : 0 < c) (h1 : s ^ 2 + c ^ 2 = 1) :
    729 / 1000 ≤ s * s * s ∧ 0 ≤ c * c * c ∧ c * c * c ≤ 1 / 27 := by
  subst hsc
  have hc2 : c * c = 1 / 10 := by nlinarith
  have hcle : c ≤ 1 / 3 := by nlinarith
  have hcge : 3 / 10 ≤ c := by nlinarith
  refine ⟨?_, by positivity, ?_⟩
  · have : 3 * c * (3 * c) * (3 * c) = 27 / 10 * c := by
      calc 3 * c * (3 * c) * (3 * c) = 27 * (c * c) * c := by ring
        _ = 27 / 10 * c := by rw [hc2]; ring
    rw [this]; linarith
  · have : c * c * c = 1 / 10 * c := by rw [hc2]
    rw [this]; linarith

/-- The latitude returned by the ellipsoid round trip at `a = 1`, `b = 1/7`,
`(lon, lat, h) = (0, π/4, 1)` exceeds one radian.  The forward image is
`(6√2/5, 0, 18√2/35)`; there `θ = atan2 3 1`, and the single-pass latitude is
`atan2 Z P` with `2 P < Z`. -/
theorem ellipsoid_roundtrip_lat_above_one :
    1 < Ellipsoid.ecefToGeodInPlace
      (Ellipsoid.geodToECEFInPlace ![0, π / 4, 1] ⟨1, 1 / 7⟩) ⟨1, 1 / 7⟩ 1 := by
  have h2 : √2 * √2 = 2 := Real.mul_self_sqrt (by norm_num)
  have h2pos : 0 < √2 := Real.sqrt_pos.2 (by norm_num)
  have h2ge : 1 ≤ √2 := by nlinarith
  have h2le : √2 ≤ 3 / 2 := by nlinarith
  have hD : √(1 * 1 * Real.cos (π / 4) * Real.cos (π / 4)
      + 1 / 7 * (1 / 7) * Real.sin (π / 4) * Real.sin (π / 4)) = 5 / 7 := by
    rw [Real.cos_pi_div_four, Real.sin_pi_div_four]
    have : 1 * 1 * (√2 / 2) * (√2 / 2) + 1 / 7 * (1 / 7) * (√2 / 2) * (√2 / 2) = (5 / 7) ^ 2 := by
      nlinarith [h2]
    rw [this, Real.sqrt_sq (by norm_num)]
  have e1 : (1 * 1 / (5 / 7) + 1) * (√2 / 2) * 1 = 6 / 5 * √2 := by ring
  have e2 : (1 * 1 / (5 / 7) + 1) * (√2 / 2) * 0 = 0 := by ring
  have e3 : (1 / 7 * (1 / 7) / (1 * 1) * (1 * 1 / (5 / 7)) + 1) * (√2 / 2) = 18 / 35 * √2 := by
    ring
  have hf : Ellipsoid.geodToECEFInPlace ![0, π / 4, 1] ⟨1, 1 / 7⟩
      = ![6 / 5 * √2, 0, 18 / 35 * √2] := by
    rw [ellipsoid_geodToECEFInPlace_eq hD, Real.cos_pi_div_four, Real.sin_pi_div_four,
      Real.cos_zero, Real.sin_zero, e1, e2, e3]
  have hp : √(6 / 5 * √2 * (6 / 5 * √2) + 0 * 0) = 6 / 5 * √2 := by
    rw [mul_zero, add_zero, Real.sqrt_mul_self (by positivity)]
  have he2 : √((1 * 1 - 1 / 7 * (1 / 7)) / (1 * 1)) * √((1 * 1 - 1 / 7 * (1 / 7)) / (1 * 1))
      = (48 / 49 : ℝ) := by
    rw [Real.mul_self_sqrt (by norm_num)]; norm_num
  have hep2 : √((1 * 1 - 1 / 7 * (1 / 7)) / (1 / 7 * (1 / 7)))
      * √((1 * 1 - 1 / 7 * (1 / 7)) / (1 / 7 * (1 / 7))) = (48 : ℝ) := by
    rw [Real.mul_self_sqrt (by norm_num)]; norm_num
  rw [hf, ellipsoid_ecefToGeodInPlace_eq hp he2 hep2 rfl rfl]
  show 1 < atan2 _ _
  obtain ⟨hsc, hcpos⟩ := sin_cos_atan2_of_slope (y := 18 / 35 * √2 * 1) (x := 6 / 5 * √2 * (1 / 7))
    (t := 3) (by positivity) (by ring)
  generalize atan2 (18 / 35 * √2 * 1) (6 / 5 * √2 * (1 / 7)) = θ at hsc hcpos ⊢
  obtain ⟨hs3, hc3', hc3⟩ := cube_bounds hsc hcpos (Real.sin_sq_add_cos_sq θ)
  apply one_lt_atan2
  · linarith
  · linarith

/-- The parametric angle of the inverse kernel at a point with `z ≥ 15/32` at distance
`0 < p ≤ 2` from the axis, for `a = 1`, `b = 1/7`: its sine is at least `21/25`, and the cube
of its cosine lies in `(0, 1]`. -/
theorem bowring_theta_far_above {p z R S C : ℝ} (hz15 : 15 / 32 ≤ z) (hppos : 0 < p)
    (hp2 : p ≤ 2) (hR : 0 < R)
    (hRR : R * R = p * (1 / 7) * (p * (1 / 7)) + z * 1 * (z * 1)) (hS : S = z * 1 / R)
    (hC : C = p * (1 / 7) / R) :
    21 / 25 * (21 / 25) * (21 / 25) ≤ S * S * S ∧ 0 < C * C * C ∧ C * C * C ≤ 1 := by
  have hzpos : 0 < z := by linarith
  have hSpos : 0 < S := by
    rw [hS]
    exact div_pos (by linarith) hR
  have hCpos : 0 < C := by
    rw [hC]
    exact div_pos (by linarith) hR
  have hCR : p * (1 / 7) ≤ R := by
    have h1 : p * (1 / 7) * (p * (1 / 7)) ≤ R * R := by
      rw [hRR]
      have := mul_self_nonneg (z * 1)
      linarith
    exact abs_le_of_sq_le_sq' (by rw [sq, sq]; exact h1) hR.le |>.2
  have hC1 : C ≤ 1 := by
    rw [hC, div_le_one hR]
    exact hCR
  have hCC : C * C ≤ 1 := by
    have := mul_le_mul hC1 hC1 hCpos.le zero_le_one
    linarith
  have hzz : 15 / 32 * (15 / 32) ≤ z * z := mul_le_mul hz15 hz15 (by norm_num) hzpos.le
  have hpp : p * p ≤ 2 * 2 := mul_le_mul hp2 hp2 hppos.le (by norm_num)
  have h1 : 21 / 25 * R * (21 / 25 * R) ≤ z * z := by
    have e : 21 / 25 * R * (21 / 25 * R) = 441 / 625 * (R * R) := by ring
    rw [e, hRR]
    linarith
  have h2 : 21 / 25 * R ≤ z :=
    abs_le_of_sq_le_sq' (by rw [sq, sq]; exact h1) hzpos.le |>.2
  have hS84 : 21 / 25 ≤ S := by
    rw [hS, le_div_iff₀ hR]
    linarith
  have h3 : 21 / 25 * (21 / 25) ≤ S * S := mul_le_mul hS84 hS84 (by norm_num) hSpos.le
  refine ⟨mul_le_mul h3 hS84 (by norm_num) (mul_pos hSpos hSpos).le,
    mul_pos (mul_pos hCpos hCpos) hCpos, ?_⟩
  have := mul_le_mul hCC hC1 hCpos.le zero_le_one
  linarith

/-- The single-pass latitude high above a strongly flattened ellipsoid (`a = 1`, `b = 1/7`,
`h = 1`) at a point whose latitude has sine `s ≥ 15/32` and cosine `c ≥ 43/50`: the first
argument `Z` of the latitude `atan2` is more than twice the second argument `P > 0`. -/
theorem bowring_far_above {s c D p z R S C Zv Pv : ℝ} (hs : 15 / 32 ≤ s) (hc : 43 / 50 ≤ c)
    (hsc : s * s + c * c = 1) (hD : 0 < D)
    (hDD : D * D = 1 * 1 * c * c + 1 / 7 * (1 / 7) * s * s)
    (hp : p = (1 * 1 / D + 1) * c)
    (hz : z = (1 / 7 * (1 / 7) / (1 * 1) * (1 * 1 / D) + 1) * s) (hR : 0 < R)
    (hRR : R * R = p * (1 / 7) * (p * (1 / 7)) + z * 1 * (z * 1)) (hS : S = z * 1 / R)
    (hC : C = p * (1 / 7) / R) (hZ : Zv = z + 48 * (1 / 7) * (S * S * S))
    (hP : Pv = p - 48 / 49 * 1 * (C * C * C)) :
    0 < Pv ∧ 2 * Pv < Zv := by
  have hcpos : 0 < c := by linarith
  have hspos : 0 < s := by linarith
  have hDc : c ≤ D := by
    have h1 : c * c ≤ D * D := by
      rw [hDD]
      have := mul_self_nonneg s
      linarith
    exact abs_le_of_sq_le_sq' (by rw [sq, sq]; exact h1) hD.le |>.2
  have hD1 : D ≤ 1 := by
    have h1 : D * D ≤ 1 * 1 := by
      rw [hDD]
      have := mul_self_nonneg s
      linarith
    exact abs_le_of_sq_le_sq' (by rw [sq, sq]; exact h1) zero_le_one |>.2
  have hinv : 1 ≤ 1 * 1 / D := by
    rw [le_div_iff₀ hD]
    linarith
  have hcD : 1 * 1 / D * c ≤ 1 := by
    rw [div_mul_eq_mul_div, div_le_one hD]
    linarith
  have hp2 : p ≤ 2 := by
    rw [hp]
    linarith
  have hp1 : 43 / 25 ≤ p := by
    rw [hp]
    have := mul_le_mul_of_nonneg_right hinv hcpos.le
    linarith
  have hppos : 0 < p := by linarith
  have hzs : s ≤ z := by
    rw [hz]
    have h1 : 0 ≤ 1 / 7 * (1 / 7) / (1 * 1) * (1 * 1 / D) :=
      mul_nonneg (by norm_num) (by linarith)
    have := mul_le_mul_of_nonneg_right (by linarith : (1 : ℝ)
      ≤ 1 / 7 * (1 / 7) / (1 * 1) * (1 * 1 / D) + 1) hspos.le
    linarith
  obtain ⟨hS3, hC0, hC1⟩ :=
    bowring_theta_far_above (by linarith) hppos hp2 hR hRR hS hC
  constructor
  · rw [hP]
    linarith
  · rw [hP, hZ]
    linarith

/-- The latitude returned by the ellipsoid round trip at `a = 1`, `b = 1/7`,
`(lon, lat, h) = (0, 1/2, 1)` exceeds one radian. -/
theorem ellipsoid_roundtrip_lat_half_above_one :
    1 < Ellipsoid.ecefToGeodInPlace
      (Ellipsoid.geodToECEFInPlace (![0, 1 / 2, 1] : Coord ℝ) ⟨1, 1 / 7⟩) ⟨1, 1 / 7⟩ 1 := by
  have hs1 : 15 / 32 ≤ Real.sin (1 / 2) := by
    have := Real.sin_gt_sub_cube (x := 1 / 2) (by norm_num) (by norm_num)
    norm_num at this
    linarith
  have hs2 : Real.sin (1 / 2) ≤ 1 / 2 := Real.sin_le (by norm_num)
  have hcpos : 0 < Real.cos (1 / 2) :=
    Real.cos_pos_of_mem_Ioo ⟨by linarith [Real.pi_gt_three], by linarith [Real.pi_gt_three]⟩
  have hsc := sin_mul_self_add_cos_mul_self (1 / 2)
  have hc : 43 / 50 ≤ Real.cos (1 / 2) := by
    have h1 : Real.sin (1 / 2) * Real.sin (1 / 2) ≤ 1 / 2 * (1 / 2) :=
      mul_le_mul hs2 hs2 (by linarith) (by norm_num)
    have h2 : 43 / 50 * (43 / 50) ≤ Real.cos (1 / 2) * Real.cos (1 / 2) := by linarith
    exact abs_le_of_sq_le_sq' (by nlinarith) hcpos.le |>.2
  obtain ⟨D, hD, hDpos, hDD⟩ := @ellipsoid_radicand 1 (1 / 7) (1 / 2)
    (by norm_num) (by linarith [Real.pi_gt_three]) (by linarith [Real.pi_gt_three])
  obtain ⟨p, hp⟩ : ∃ p, p = (1 * 1 / D + 1) * Real.cos (1 / 2) := ⟨_, rfl⟩
  obtain ⟨z, hz⟩ : ∃ z, z = (1 / 7 * (1 / 7) / (1 * 1) * (1 * 1 / D) + 1) * Real.sin (1 / 2) :=
    ⟨_, rfl⟩
  have hf : Ellipsoid.geodToECEFInPlace (![0, 1 / 2, 1] : Coord ℝ) ⟨1, 1 / 7⟩
      = ![p * 1, p * 0, z] := by
    rw [ellipsoid_geodToECEFInPlace_eq hD, Real.cos_zero, Real.sin_zero, hp, hz]
  have hppos : 0 < p := by
    rw [hp]
    positivity
  have hpp : √(p * 1 * (p * 1) + p * 0 * (p * 0)) = p := by
    rw [mul_zero, mul_zero, add_zero, mul_one, Real.sqrt_mul_self hppos.le]
  have he2 : √((1 * 1 - 1 / 7 * (1 / 7)) / (1 * 1)) * √((1 * 1 - 1 / 7 * (1 / 7)) / (1 * 1))
      = (48 / 49 : ℝ) := by
    rw [Real.mul_self_sqrt (by norm_num)]; norm_num
  have hep2 : √((1 * 1 - 1 / 7 * (1 / 7)) / (1 / 7 * (1 / 7)))
      * √((1 * 1 - 1 / 7 * (1 / 7)) / (1 / 7 * (1 / 7))) = (48 : ℝ) := by
    rw [Real.mul_self_sqrt (by norm_num)]; norm_num
  have hRpos : 0 < p * (1 / 7) * (p * (1 / 7)) + z * 1 * (z * 1) := by
    have h1 : 0 < p * (1 / 7) * (p * (1 / 7)) := by positivity
    have h2 := mul_self_nonneg (z * 1)
    linarith
  obtain ⟨R, hR⟩ : ∃ R, √(p * (1 / 7) * (p * (1 / 7)) + z * 1 * (z * 1)) = R := ⟨_, rfl⟩
  have hRR : R * R = p * (1 / 7) * (p * (1 / 7)) + z * 1 * (z * 1) := by
    rw [← hR]
    exact Real.mul_self_sqrt hRpos.le
  have hR0 : 0 < R := by
    rw [← hR]
    exact Real.sqrt_pos.2 hRpos
  have hS : Real.sin (atan2 (z * 1) (p * (1 / 7))) = z * 1 / R := by rw [sin_atan2, hR]
  have hC : Real.cos (atan2 (z * 1) (p * (1 / 7))) = p * (1 / 7) / R := by
    rw [cos_atan2 hRpos, hR]
  obtain ⟨hP0, hZP⟩ := bowring_far_above hs1 hc hsc hDpos hDD hp hz hR0 hRR hS hC rfl rfl
  rw [hf, ellipsoid_ecefToGeodInPlace_eq hpp he2 hep2 rfl rfl]
  show 1 < atan2 _ _
  exact one_lt_atan2 hP0 hZP

/-- The ellipsoid round trip on the ellipsoid of the test table, `a = 6378137`,
`b = 6356752.314245`, up to `5000` above the surface, in exact real arithmetic: each
component of the result is within `1e-5` of the input (the longitude is exact, the latitude
within `6.1e-13` and the altitude within `9.9e-6`). -/
theorem ellipsoid_roundtrip_test_ellipsoid (lon lat h : ℝ) (hh : 0 ≤ h) (hH : h ≤ 5000)
    (hlon1 : -π < lon) (hlon2 : lon ≤ π) (hlat1 : -(π / 2) < lat) (hlat2 : lat < π / 2) :
    ∀ k, |Ellipsoid.ecefToGeodInPlace
        (Ellipsoid.geodToECEFInPlace ![lon, lat, h] ⟨6378137, 6356752.314245⟩)
        ⟨6378137, 6356752.314245⟩ k - ![lon, lat, h] k| ≤ 0.00001 := by
  have hab : (6356752.314245 : ℝ) ≤ 6378137 := by norm_num
  have hb : (0 : ℝ) < 6356752.314245 := by norm_num
  have h0 := ellipsoid_roundtrip_lon 6378137 6356752.314245 lon lat h hab hb hh hlon1 hlon2
    hlat1 hlat2
  obtain ⟨h1, h2⟩ := ellipsoid_roundtrip_bound 6378137 6356752.314245 lon lat h 5000
    (383 / 1000000000000000) hab hb hh hH (by norm_num) hlon1 hlon2 hlat1 hlat2
    (by norm_num) (by norm_num)
  have hpi : π < 4 := Real.pi_lt_four
  intro k
  fin_cases k
  · show |Ellipsoid.ecefToGeodInPlace _ _ 0 - lon| ≤ 0.00001
    rw [h0, sub_self, abs_zero]
    norm_num
  · have h3 : π / 2 * (383 / 1000000000000000) ≤ 4 / 2 * (383 / 1000000000000000) :=
      mul_le_mul_of_nonneg_right (by linarith) (by norm_num)
    have h4 : (4 / 2 * (383 / 1000000000000000) : ℝ) ≤ 0.00001 := by norm_num
    exact le_trans h1 (le_trans h3 h4)
  · have h3 : (383 / 1000000000000000 *
        (4 * (6378137 * 6378137 / 6356752.314245 + 5000) +
          2 * (6378137 * 6378137) * (6378137 * 6378137 - 6356752.314245 * 6356752.314245) /
            (6356752.314245 * 6356752.314245 * 6356752.314245)) : ℝ) ≤ 0.00001 := by
      norm_num
    exact le_trans h2 h3

/-- C2, counterexample.  High above a strongly flattened ellipsoid the single-pass latitude
of the inverse kernel is not within tolerance: for `a = 1`, `b = 1/7` and
`(lon, lat, h) = (0, 1/2, 1)` the round trip returns a latitude above `1`, more than `0.5`
away from the input, and for `(lon, lat, h) = (0, π/4, 1)` a latitude more than `0.2` above
`π/4`. -/
theorem ellipsoid_roundtrip_fails :
    (0.00001 : ℝ) < |Ellipsoid.ecefToGeodInPlace
        (Ellipsoid.geodToECEFInPlace ![0, 1 / 2, 1] ⟨1, 1 / 7⟩) ⟨1, 1 / 7⟩ 1 - 1 / 2|
    ∧ (0.00001 : ℝ) < |Ellipsoid.ecefToGeodInPlace
        (Ellipsoid.geodToECEFInPlace ![0, π / 4, 1] ⟨1, 1 / 7⟩) ⟨1, 1 / 7⟩ 1 - π / 4| := by
  constructor
  · have h := ellipsoid_roundtrip_lat_half_above_one
    rw [abs_of_pos (by linarith)]
    linarith
  · have h := ellipsoid_roundtrip_lat_above_one
    have hpi : π < 3.15 := Real.pi_lt_d2
    norm_num at hpi
    rw [abs_of_pos (by linarith)]
    linarith

/-- C2, amended.  Ellipsoid forward-then-inverse round trip, evaluated in exact real
arithmetic: for every ellipsoid with `a ≥ b > 0`, every longitude in the closed interval
`[-π, π]`, every latitude in the closed interval `[-π/2, π/2]` and every altitude `h ≥ 0`,
the in-place ellipsoid `geodToECEF` followed by the in-place ellipsoid `ecefToGeod` returns
the longitude exactly; on the reference surface (`h = 0`) or for equal axes (`a = b`) it
returns the whole triple `(lon, lat, h)` exactly, hence within `1e-5`; and on the ellipsoid
of the test table, `a = 6378137`, `b = 6356752.314245`, for `h ≤ 5000`, it returns each
component within the double-precision test tolerance `1e-5`.  The longitude and the latitude
are inputs of the program, binary floating-point numbers, and every such number is rational:
the statement quantifies over all rational angles of the closed intervals.  The bound for
other ellipsoids and altitudes is `ellipsoid_roundtrip_bound`. -/
theorem ellipsoid_roundtrip (a b h : ℝ) (lon lat : ℚ) (hab : b ≤ a) (hb : 0 < b) (hh : 0 ≤ h)
    (hlon : -π ≤ (lon : ℝ) ∧ (lon : ℝ) ≤ π) (hlat : -(π / 2) ≤ (lat : ℝ) ∧ (lat : ℝ) ≤ π / 2) :
    Ellipsoid.ecefToGeodInPlace
        (Ellipsoid.geodToECEFInPlace ![(lon : ℝ), (lat : ℝ), h] ⟨a, b⟩) ⟨a, b⟩ 0 = lon
    ∧ ((h = 0 ∨ a = b) →
      Ellipsoid.ecefToGeodInPlace
          (Ellipsoid.geodToECEFInPlace ![(lon : ℝ), (lat : ℝ), h] ⟨a, b⟩) ⟨a, b⟩
          = ![(lon : ℝ), (lat : ℝ), h]
      ∧ ∀ k, |Ellipsoid.ecefToGeodInPlace
          (Ellipsoid.geodToECEFInPlace ![(lon : ℝ), (lat : ℝ), h] ⟨a, b⟩) ⟨a, b⟩ k
          - ![(lon : ℝ), (lat : ℝ), h] k| ≤ 0.00001)
    ∧ (a = 6378137 → b = 6356752.314245 → h ≤ 5000 →
      ∀ k, |Ellipsoid.ecefToGeodInPlace
          (Ellipsoid.geodToECEFInPlace ![(lon : ℝ), (lat : ℝ), h] ⟨a, b⟩) ⟨a, b⟩ k
          - ![(lon : ℝ), (lat : ℝ), h] k| ≤ 0.00001) := by
  obtain ⟨hlon', hlat'⟩ := rat_mem_open_ranges lon lat hlon hlat
  refine ⟨ellipsoid_roundtrip_lon a b lon lat h hab hb hh hlon'.1 hlon'.2 hlat'.1 hlat'.2,
    ?_, ?_⟩
  · intro hcase
    have key : Ellipsoid.ecefToGeodInPlace
        (Ellipsoid.geodToECEFInPlace ![(lon : ℝ), (lat : ℝ), h] ⟨a, b⟩) ⟨a, b⟩
        = ![(lon : ℝ), (lat : ℝ), h] := by
      rcases hcase with h0 | hab'
      · subst h0
        exact ellipsoid_roundtrip_surface a b lon lat hab hb hlon'.1 hlon'.2 hlat'.1 hlat'.2
      · subst hab'
        exact ellipsoid_roundtrip_equal_axes a lon lat h hb hh hlon'.1 hlon'.2 hlat'.1 hlat'.2
    refine ⟨key, fun k => ?_⟩
    rw [key, sub_self, abs_zero]
    norm_num
  · intro h1 h2 hH
    subst h1 h2
    exact ellipsoid_roundtrip_test_ellipsoid lon lat h hh hH hlon'.1 hlon'.2 hlat'.1 hlat'.2

/-- C2, witness on the ellipsoid of the test table at `(lon, lat, h) = (-3, 3/2, 1500)`,
close to the ends of both closed intervals and at the largest altitude of the test table. -/
theorem ellipsoid_roundtrip_witness :
    Ellipsoid.ecefToGeodInPlace
        (Ellipsoid.geodToECEFInPlace ![((-3 : ℚ) : ℝ), ((3 / 2 : ℚ) : ℝ), 1500]
          ⟨6378137, 6356752.314245⟩) ⟨6378137, 6356752.314245⟩ 0 = ((-3 : ℚ) : ℝ)
    ∧ ∀ k, |Ellipsoid.ecefToGeodInPlace
        (Ellipsoid.geodToECEFInPlace ![((-3 : ℚ) : ℝ), ((3 / 2 : ℚ) : ℝ), 1500]
          ⟨6378137, 6356752.314245⟩) ⟨6378137, 6356752.314245⟩ k
        - (![((-3 : ℚ) : ℝ), ((3 / 2 : ℚ) : ℝ), 1500] : Coord ℝ) k| ≤ 0.00001 :=
  have h := ellipsoid_roundtrip 6378137 6356752.314245 1500 (-3) (3 / 2) (by norm_num)
    (by norm_num) (by norm_num)
    ⟨by push_cast; linarith [Real.pi_gt_three], by push_cast; linarith [Real.pi_gt_three]⟩
    ⟨by push_cast; linarith [Real.pi_gt_three], by push_cast; linarith [Real.pi_gt_three]⟩
  ⟨h.1, h.2.2 rfl rfl (by norm_num)⟩

/-- C3, counterexample.  (i) On the polar axis the sphere inverse-then-forward round trip
loses the height: for `r = 1` and the ECEF triple `(0, 0, 1)` the inverse returns latitude
`π/2` and altitude `0 / cos (π/2) - 1 = -1`, and the forward transform of that returns
`z = 0`, while the original `z` is `1`.  (ii) Off the axis the exact equality does not carry
over to a floating-point tolerance: in binary64, for `r = 6378137` and the triple
`(0.001, 0, 6378137)`, the round trip returns a third component above `6378139`, more than
two metres from the original `z = 6378137`. -/
theorem sphere_inverse_forward_polar_axis_fails :
    ((Sphere.geodToECEF ![0, 0, 0]
        (Sphere.ecefToGeod ![0, 0, 0] ![0, 0, 1] ⟨(1 : ℝ)⟩).1 ⟨1⟩).1 2 = 0
      ∧ (![0, 0, 1] : Coord ℝ) 2 = 1)
    ∧ ∃ w, (Sphere.geodToECEF ![Binary64.finite 0, Binary64.finite 0, Binary64.finite 0]
        (Sphere.ecefToGeod ![Binary64.finite 0, Binary64.finite 0, Binary64.finite 0]
          ![(0.001 : Binary64), Binary64.finite 0, Binary64.finite 6378137]
          ⟨Binary64.finite 6378137⟩).1 ⟨Binary64.finite 6378137⟩).1 2 = Binary64.finite w
      ∧ 6378139 < w := by
  refine ⟨⟨?_, ?_⟩, binary64_near_axis_roundtrip _ _⟩
  · simp [Sphere.ecefToGeod, Sphere.geodToECEF, atan2_pos_zero]
  · simp

/-- C3, amended.  Sphere inverse-then-forward round trip in exact real arithmetic: for every
radius `r` and every ECEF triple `(x, y, z)` that is off the polar axis (`x ≠ 0` or `y ≠ 0`)
or is the centre-plane point of the axis (`z = 0`), the out-of-place sphere `ecefToGeod`
followed by the out-of-place sphere `geodToECEF` returns `(x, y, z)` exactly, whatever the
destinations held before.  Nothing is asserted about floating-point evaluation. -/
theorem sphere_inverse_forward (r x y z : ℝ) (d1 d2 : Coord ℝ) (hxyz : x ≠ 0 ∨ y ≠ 0 ∨ z = 0) :
    (Sphere.geodToECEF d2 (Sphere.ecefToGeod d1 ![x, y, z] ⟨r⟩).1 ⟨r⟩).1 = ![x, y, z] := by
  set p := Real.sqrt (x * x + y * y) with hpdef
  have hx : p * Real.cos (atan2 y x) = x := abs_mul_cos_atan2 y x
  have hy : p * Real.sin (atan2 y x) = y := abs_mul_sin_atan2 y x
  by_cases hp0 : p = 0
  · have hsum : x * x + y * y = 0 :=
      (Real.sqrt_eq_zero (add_nonneg (mul_self_nonneg x) (mul_self_nonneg y))).1 hp0
    have hx0 : x = 0 := by nlinarith [mul_self_nonneg x, mul_self_nonneg y]
    have hy0 : y = 0 := by nlinarith [mul_self_nonneg x, mul_self_nonneg y]
    have hz0 : z = 0 := by
      rcases hxyz with h | h | h
      · exact absurd hx0 h
      · exact absurd hy0 h
      · exact h
    subst hx0 hy0 hz0
    funext k
    fin_cases k <;> simp [Sphere.ecefToGeod, Sphere.geodToECEF, atan2_zero_zero]
  · have hppos : 0 < p := lt_of_le_of_ne (Real.sqrt_nonneg _) (Ne.symm hp0)
    obtain ⟨-, hcpos⟩ := sin_cos_atan2_of_slope (y := z) (x := p) (t := z / p) hppos
      (by field_simp)
    have htan : Real.tan (atan2 z p) = z / p := tan_atan2 z p
    have hsl : p / Real.cos (atan2 z p) * Real.sin (atan2 z p) = z := by
      rw [div_mul_eq_mul_div, mul_div_assoc, ← Real.tan_eq_sin_div_cos, htan]
      field_simp
    have hn : r + (p / Real.cos (atan2 z p) - r) = p / Real.cos (atan2 z p) := by ring
    funext k
    fin_cases k
    · simp [Sphere.ecefToGeod, Sphere.geodToECEF, ← hpdef, hn]
      rw [div_mul_cancel₀ _ hcpos.ne', hx]
    · simp [Sphere.ecefToGeod, Sphere.geodToECEF, ← hpdef, hn]
      rw [div_mul_cancel₀ _ hcpos.ne', hy]
    · simp [Sphere.ecefToGeod, Sphere.geodToECEF, ← hpdef, hn]
      exact hsl

/-- C3, witness of the amended claim, in exact real arithmetic, at `r = 1`,
`(x, y, z) = (3, 4, 5)`. -/
theorem sphere_inverse_forward_witness :
    (Sphere.geodToECEF ![0, 0, 0] (Sphere.ecefToGeod ![0, 0, 0] ![3, 4, 5] ⟨(1 : ℝ)⟩).1 ⟨1⟩).1
      = ![3, 4, 5] :=
  sphere_inverse_forward 1 3 4 5 ![0, 0, 0] ![0, 0, 0] (Or.inl (by norm_num))

end RoundTrips

/-! ## Layout equivalence (C4, C5, C6, C7) -/

section Sphere_geodToECEF_layout

variable {T : Type} [Add T] [Mul T] [Scalar T]

/-- C4.  Layout equivalence, sphere forward: for every sphere, every `n` and every
sequence `pts` of `n` geodetic triples, held by the SoA source (fields `x`, `y`, `z` for tuple
indices 0, 1, 2) and by the AoS source, with destinations of at least `n` entries, both
`geodToECEFSoA` and `geodToECEFAoS` complete, leave their sources as they were, and for every
`i < n` element `i` of the SoA output and element `i` of the AoS output equal the result of
the scalar out-of-place sphere `geodToECEF` on `pts i`. -/
theorem sphere_forward_layout_equivalence (sphere : Sphere T) (n : Nat) (pts : Nat → Coord T)
    (srcSoA dstSoA : CoordSoA T) (srcAoS dstAoS : Array (Coord T)) (d : Coord T)
    (hSoA : ∀ i, i < n → srcSoA.x[i]? = some (pts i 0) ∧ srcSoA.y[i]? = some (pts i 1)
      ∧ srcSoA.z[i]? = some (pts i 2))
    (hAoS : ∀ i, i < n → srcAoS[i]? = some (pts i))
    (hx : n ≤ dstSoA.x.size) (hy : n ≤ dstSoA.y.size) (hz : n ≤ dstSoA.z.size)
    (hd : n ≤ dstAoS.size) :
    ∃ outSoA outAoS,
      Sphere.geodToECEFSoA dstSoA srcSoA n sphere = some (outSoA, srcSoA)
      ∧ Sphere.geodToECEFAoS dstAoS srcAoS n sphere = some (outAoS, srcAoS)
      ∧ ∀ i, i < n →
        outSoA.x[i]? = some ((Sphere.geodToECEF d (pts i) sphere).1 0)
        ∧ outSoA.y[i]? = some ((Sphere.geodToECEF d (pts i) sphere).1 1)
        ∧ outSoA.z[i]? = some ((Sphere.geodToECEF d (pts i) sphere).1 2)
        ∧ outAoS[i]? = some (Sphere.geodToECEF d (pts i) sphere).1 := by
  obtain ⟨outS, hS, -, -, -, gx, gy, gz⟩ :=
    sphere_geodToECEFSoA_spec dstSoA srcSoA n sphere pts hSoA hx hy hz
  obtain ⟨outA, hA, -, ga⟩ := sphere_geodToECEFAoS_spec dstAoS srcAoS n sphere pts hAoS hd
  refine ⟨outS, outA, hS, hA, fun i hi => ?_⟩
  rw [gx i, gy i, gz i, ga i, if_pos hi, if_pos hi, if_pos hi, if_pos hi,
    sphere_geodToECEF_fst (pts i) d]
  exact ⟨rfl, rfl, rfl, rfl⟩

end Sphere_geodToECEF_layout

/-- C4, witness: two triples `(0, 0, 0)` and `(1, 2, 3)` over the reals, radius 6378137,
destinations of two entries. -/
theorem sphere_forward_layout_equivalence_witness :
    ∃ outSoA outAoS,
      Sphere.geodToECEFSoA ⟨#[0, 0], #[0, 0], #[0, 0]⟩ ⟨#[0, 1], #[0, 2], #[0, 3]⟩ 2 (⟨6378137⟩ : Sphere ℝ)
        = some (outSoA, ⟨#[0, 1], #[0, 2], #[0, 3]⟩)
      ∧ Sphere.geodToECEFAoS #[![0, 0, 0], ![0, 0, 0]] #[![0, 0, 0], ![1, 2, 3]] 2 (⟨6378137⟩ : Sphere ℝ)
        = some (outAoS, #[![0, 0, 0], ![1, 2, 3]])
      ∧ ∀ i, i < 2 →
        outSoA.x[i]? = some ((Sphere.geodToECEF ![0, 0, 0]
          ((fun j : Nat => ![(j : ℝ), 2 * j, 3 * j]) i) (⟨6378137⟩ : Sphere ℝ)).1 0)
        ∧ outSoA.y[i]? = some ((Sphere.geodToECEF ![0, 0, 0]
          ((fun j : Nat => ![(j : ℝ), 2 * j, 3 * j]) i) (⟨6378137⟩ : Sphere ℝ)).1 1)
        ∧ outSoA.z[i]? = some ((Sphere.geodToECEF ![0, 0, 0]
          ((fun j : Nat => ![(j : ℝ), 2 * j, 3 * j]) i) (⟨6378137⟩ : Sphere ℝ)).1 2)
        ∧ outAoS[i]? = some (Sphere.geodToECEF ![0, 0, 0]
          ((fun j : Nat => ![(j : ℝ), 2 * j, 3 * j]) i) (⟨6378137⟩ : Sphere ℝ)).1 :=
  sphere_forward_layout_equivalence (⟨6378137⟩ : Sphere ℝ) 2 (fun j : Nat => ![(j : ℝ), 2 * j, 3 * j])
    ⟨#[0, 1], #[0, 2], #[0, 3]⟩ ⟨#[0, 0], #[0, 0], #[0, 0]⟩
    #[![0, 0, 0], ![1, 2, 3]] #[![0, 0, 0], ![0, 0, 0]] ![0, 0, 0]
    (by intro i hi; interval_cases i <;> simp)
    (by intro i hi; interval_cases i <;> simp)
    (by simp) (by simp) (by simp) (by simp)

section Sphere_ecefToGeod_layout

variable {T : Type} [Add T] [Sub T] [Mul T] [Div T] [Scalar T]

/-- C5.  Layout equivalence, sphere inverse: for every sphere, every `n` and every
sequence `pts` of `n` ECEF triples, held by the SoA source (fields `x`, `y`, `z` for tuple
indices 0, 1, 2) and by the AoS source, with destinations of at least `n` entries, both
`ecefToGeodSoA` and `ecefToGeodAoS` complete, leave their sources as they were, and for every
`i < n` element `i` of the SoA output and element `i` of the AoS output equal the result of
the scalar out-of-place sphere `ecefToGeod` on `pts i`. -/
theorem sphere_inverse_layout_equivalence (sphere : Sphere T) (n : Nat) (pts : Nat → Coord T)
    (srcSoA dstSoA : CoordSoA T) (srcAoS dstAoS : Array (Coord T)) (d : Coord T)
    (hSoA : ∀ i, i < n → srcSoA.x[i]? = some (pts i 0) ∧ srcSoA.y[i]? = some (pts i 1)
      ∧ srcSoA.z[i]? = some (pts i 2))
    (hAoS : ∀ i, i < n → srcAoS[i]? = some (pts i))
    (hx : n ≤ dstSoA.x.size) (hy : n ≤ dstSoA.y.size) (hz : n ≤ dstSoA.z.size)
    (hd : n ≤ dstAoS.size) :
    ∃ outSoA outAoS,
      Sphere.ecefToGeodSoA dstSoA srcSoA n sphere = some (outSoA, srcSoA)
      ∧ Sphere.ecefToGeodAoS dstAoS srcAoS n sphere = some (outAoS, srcAoS)
      ∧ ∀ i, i < n →
        outSoA.x[i]? = some ((Sphere.ecefToGeod d (pts i) sphere).1 0)
        ∧ outSoA.y[i]? = some ((Sphere.ecefToGeod d (pts i) sphere).1 1)
        ∧ outSoA.z[i]? = some ((Sphere.ecefToGeod d (pts i) sphere).1 2)
        ∧ outAoS[i]? = some (Sphere.ecefToGeod d (pts i) sphere).1 := by
  obtain ⟨outS, hS, -, -, -, gx, gy, gz⟩ :=
    sphere_ecefToGeodSoA_spec dstSoA srcSoA n sphere pts hSoA hx hy hz
  obtain ⟨outA, hA, -, ga⟩ := sphere_ecefToGeodAoS_spec dstAoS srcAoS n sphere pts hAoS hd
  refine ⟨outS, outA, hS, hA, fun i hi => ?_⟩
  rw [gx i, gy i, gz i, ga i, if_pos hi, if_pos hi, if_pos hi, if_pos hi,
    sphere_ecefToGeod_fst (pts i) d]
  exact ⟨rfl, rfl, rfl, rfl⟩

end Sphere_ecefToGeod_layout

/-- C5, witness: two triples `(0, 0, 0)` and `(1, 2, 3)` over the reals, radius 6378137,
destinations of two entries. -/
theorem sphere_inverse_layout_equivalence_witness :
    ∃ outSoA outAoS,
      Sphere.ecefToGeodSoA ⟨#[0, 0], #[0, 0], #[0, 0]⟩ ⟨#[0, 1], #[0, 2], #[0, 3]⟩ 2 (⟨6378137⟩ : Sphere ℝ)
        = some (outSoA, ⟨#[0, 1], #[0, 2], #[0, 3]⟩)
      ∧ Sphere.ecefToGeodAoS #[![0, 0, 0], ![0, 0, 0]] #[![0, 0, 0], ![1, 2, 3]] 2 (⟨6378137⟩ : Sphere ℝ)
        = some (outAoS, #[![0, 0, 0], ![1, 2, 3]])
      ∧ ∀ i, i < 2 →
        outSoA.x[i]? = some ((Sphere.ecefToGeod ![0, 0, 0]
          ((fun j : Nat => ![(j : ℝ), 2 * j, 3 * j]) i) (⟨6378137⟩ : Sphere ℝ)).1 0)
        ∧ outSoA.y[i]? = some ((Sphere.ecefToGeod ![0, 0, 0]
          ((fun j : Nat => ![(j : ℝ), 2 * j, 3 * j]) i) (⟨6378137⟩ : Sphere ℝ)).1 1)
        ∧ outSoA.z[i]? = some ((Sphere.ecefToGeod ![0, 0, 0]
          ((fun j : Nat => ![(j : ℝ), 2 * j, 3 * j]) i) (⟨6378137⟩ : Sphere ℝ)).1 2)
        ∧ outAoS[i]? = some (Sphere.ecefToGeod ![0, 0, 0]
          ((fun j : Nat => ![(j : ℝ), 2 * j, 3 * j]) i) (⟨6378137⟩ : Sphere ℝ)).1 :=
  sphere_inverse_layout_equivalence (⟨6378137⟩ : Sphere ℝ) 2 (fun j : Nat => ![(j : ℝ), 2 * j, 3 * j])
    ⟨#[0, 1], #[0, 2], #[0, 3]⟩ ⟨#[0, 0], #[0, 0], #[0, 0]⟩
    #[![0, 0, 0], ![1, 2, 3]] #[![0, 0, 0], ![0, 0, 0]] ![0, 0, 0]
    (by intro i hi; interval_cases i <;> simp)
    (by intro i hi; interval_cases i <;> simp)
    (by simp) (by simp) (by simp) (by simp)

section Ellipsoid_geodToECEF_layout

variable {T : Type} [Add T] [Mul T] [Div T] [Scalar T]

/-- C6.  Layout equivalence, ellipsoid forward: for every ellipsoid, every `n` and every
sequence `pts` of `n` geodetic triples, held by the SoA source (fields `x`, `y`, `z` for tuple
indices 0, 1, 2) and by the AoS source, with destinations of at least `n` entries, both
`geodToECEFSoA` and `geodToECEFAoS` complete, leave their sources as they were, and for every
`i < n` element `i` of the SoA output and element `i` of the AoS output equal the result of
the scalar out-of-place ellipsoid `geodToECEF` on `pts i`. -/
theorem ellipsoid_forward_layout_equivalence (ellipsoid : Ellipsoid T) (n : Nat) (pts : Nat → Coord T)
    (srcSoA dstSoA : CoordSoA T) (srcAoS dstAoS : Array (Coord T)) (d : Coord T)
    (hSoA : ∀ i, i < n → srcSoA.x[i]? = some (pts i 0) ∧ srcSoA.y[i]? = some (pts i 1)
      ∧ srcSoA.z[i]? = some (pts i 2))
    (hAoS : ∀ i, i < n → srcAoS[i]? = some (pts i))
    (hx : n ≤ dstSoA.x.size) (hy : n ≤ dstSoA.y.size) (hz : n ≤ dstSoA.z.size)
    (hd : n ≤ dstAoS.size) :
    ∃ outSoA outAoS,
      Ellipsoid.geodToECEFSoA dstSoA srcSoA n ellipsoid = some (outSoA, srcSoA)
      ∧ Ellipsoid.geodToECEFAoS dstAoS srcAoS n ellipsoid = some (outAoS, srcAoS)
      ∧ ∀ i, i < n →
        outSoA.x[i]? = some ((Ellipsoid.geodToECEF d (pts i) ellipsoid).1 0)
        ∧ outSoA.y[i]? = some ((Ellipsoid.geodToECEF d (pts i) ellipsoid).1 1)
        ∧ outSoA.z[i]? = some ((Ellipsoid.geodToECEF d (pts i) ellipsoid).1 2)
        ∧ outAoS[i]? = some (Ellipsoid.geodToECEF d (pts i) ellipsoid).1 := by
  obtain ⟨outS, hS, -, -, -, gx, gy, gz⟩ :=
    ellipsoid_geodToECEFSoA_spec dstSoA srcSoA n ellipsoid pts hSoA hx hy hz
  obtain ⟨outA, hA, -, ga⟩ := ellipsoid_geodToECEFAoS_spec dstAoS srcAoS n ellipsoid pts hAoS hd
  refine ⟨outS, outA, hS, hA, fun i hi => ?_⟩
  rw [gx i, gy i, gz i, ga i, if_pos hi, if_pos hi, if_pos hi, if_pos hi,
    ellipsoid_geodToECEF_fst (pts i) d]
  exact ⟨rfl, rfl, rfl, rfl⟩

end Ellipsoid_geodToECEF_layout

/-- C6, witness: two triples `(0, 0, 0)` and `(1, 2, 3)` over the reals, axes 2 and 1,
destinations of two entries. -/
theorem ellipsoid_forward_layout_equivalence_witness :
    ∃ outSoA outAoS,
      Ellipsoid.geodToECEFSoA ⟨#[0, 0], #[0, 0], #[0, 0]⟩ ⟨#[0, 1], #[0, 2], #[0, 3]⟩ 2 (⟨2, 1⟩ : Ellipsoid ℝ)
        = some (outSoA, ⟨#[0, 1], #[0, 2], #[0, 3]⟩)
      ∧ Ellipsoid.geodToECEFAoS #[![0, 0, 0], ![0, 0, 0]] #[![0, 0, 0], ![1, 2, 3]] 2 (⟨2, 1⟩ : Ellipsoid ℝ)
        = some (outAoS, #[![0, 0, 0], ![1, 2, 3]])
      ∧ ∀ i, i < 2 →
        outSoA.x[i]? = some ((Ellipsoid.geodToECEF ![0, 0, 0]
          ((fun j : Nat => ![(j : ℝ), 2 * j, 3 * j]) i) (⟨2, 1⟩ : Ellipsoid ℝ)).1 0)
        ∧ outSoA.y[i]? = some ((Ellipsoid.geodToECEF ![0, 0, 0]
          ((fun j : Nat => ![(j : ℝ), 2 * j, 3 * j]) i) (⟨2, 1⟩ : Ellipsoid ℝ)).1 1)
        ∧ outSoA.z[i]? = some ((Ellipsoid.geodToECEF ![0, 0, 0]
          ((fun j : Nat => ![(j : ℝ), 2 * j, 3 * j]) i) (⟨2, 1⟩ : Ellipsoid ℝ)).1 2)
        ∧ outAoS[i]? = some (Ellipsoid.geodToECEF ![0, 0, 0]
          ((fun j : Nat => ![(j : ℝ), 2 * j, 3 * j]) i) (⟨2, 1⟩ : Ellipsoid ℝ)).1 :=
  ellipsoid_forward_layout_equivalence (⟨2, 1⟩ : Ellipsoid ℝ) 2 (fun j : Nat => ![(j : ℝ), 2 * j, 3 * j])
    ⟨#[0, 1], #[0, 2], #[0, 3]⟩ ⟨#[0, 0], #[0, 0], #[0, 0]⟩
    #[![0, 0, 0], ![1, 2, 3]] #[![0, 0, 0], ![0, 0, 0]] ![0, 0, 0]
    (by intro i hi; interval_cases i <;> simp)
    (by intro i hi; interval_cases i <;> simp)
    (by simp) (by simp) (by simp) (by simp)

section Ellipsoid_ecefToGeod_layout

variable {T : Type} [Add T] [Sub T] [Mul T] [Div T] [OfScientific T] [Scalar T]

/-- C7.  Layout equivalence, ellipsoid inverse: for every ellipsoid, every `n` and every
sequence `pts` of `n` ECEF triples, held by the SoA source (fields `x`, `y`, `z` for tuple
indices 0, 1, 2) and by the AoS source, with destinations of at least `n` entries, both
`ecefToGeodSoA` and `ecefToGeodAoS` complete, leave their sources as they were, and for every
`i < n` element `i` of the SoA output and element `i` of the AoS output equal the result of
the scalar out-of-place ellipsoid `ecefToGeod` on `pts i`. -/
theorem ellipsoid_inverse_layout_equivalence (ellipsoid : Ellipsoid T) (n : Nat) (pts : Nat → Coord T)
    (srcSoA dstSoA : CoordSoA T) (srcAoS dstAoS : Array (Coord T)) (d : Coord T)
    (hSoA : ∀ i, i < n → srcSoA.x[i]? = some (pts i 0) ∧ srcSoA.y[i]? = some (pts i 1)
      ∧ srcSoA.z[i]? = some (pts i 2))
    (hAoS : ∀ i, i < n → srcAoS[i]? = some (pts i))
    (hx : n ≤ dstSoA.x.size) (hy : n ≤ dstSoA.y.size) (hz : n ≤ dstSoA.z.size)
    (hd : n ≤ dstAoS.size) :
    ∃ outSoA outAoS,
      Ellipsoid.ecefToGeodSoA dstSoA srcSoA n ellipsoid = some (outSoA, srcSoA)
      ∧ Ellipsoid.ecefToGeodAoS dstAoS srcAoS n ellipsoid = some (outAoS, srcAoS)
      ∧ ∀ i, i < n →
        outSoA.x[i]? = some ((Ellipsoid.ecefToGeod d (pts i) ellipsoid).1 0)
        ∧ outSoA.y[i]? = some ((Ellipsoid.ecefToGeod d (pts i) ellipsoid).1 1)
        ∧ outSoA.z[i]? = some ((Ellipsoid.ecefToGeod d (pts i) ellipsoid).1 2)
        ∧ outAoS[i]? = some (Ellipsoid.ecefToGeod d (pts i) ellipsoid).1 := by
  obtain ⟨outS, hS, -, -, -, gx, gy, gz⟩ :=
    ellipsoid_ecefToGeodSoA_spec dstSoA srcSoA n ellipsoid pts hSoA hx hy hz
  obtain ⟨outA, hA, -, ga⟩ := ellipsoid_ecefToGeodAoS_spec dstAoS srcAoS n ellipsoid pts hAoS hd
  refine ⟨outS, outA, hS, hA, fun i hi => ?_⟩
  rw [gx i, gy i, gz i, ga i, if_pos hi, if_pos hi, if_pos hi, if_pos hi,
    ellipsoid_ecefToGeod_fst (pts i) d]
  exact ⟨rfl, rfl, rfl, rfl⟩

end Ellipsoid_ecefToGeod_layout

/-- C7, witness: two triples `(0, 0, 0)` and `(1, 2, 3)` over the reals, axes 2 and 1,
destinations of two entries. -/
theorem ellipsoid_inverse_layout_equivalence_witness :
    ∃ outSoA outAoS,
      Ellipsoid.ecefToGeodSoA ⟨#[0, 0], #[0, 0], #[0, 0]⟩ ⟨#[0, 1], #[0, 2], #[0, 3]⟩ 2 (⟨2, 1⟩ : Ellipsoid ℝ)
        = some (outSoA, ⟨#[0, 1], #[0, 2], #[0, 3]⟩)
      ∧ Ellipsoid.ecefToGeodAoS #[![0, 0, 0], ![0, 0, 0]] #[![0, 0, 0], ![1, 2, 3]] 2 (⟨2, 1⟩ : Ellipsoid ℝ)
        = some (outAoS, #[![0, 0, 0], ![1, 2, 3]])
      ∧ ∀ i, i < 2 →
        outSoA.x[i]? = some ((Ellipsoid.ecefToGeod ![0, 0, 0]
          ((fun j : Nat => ![(j : ℝ), 2 * j, 3 * j]) i) (⟨2, 1⟩ : Ellipsoid ℝ)).1 0)
        ∧ outSoA.y[i]? = some ((Ellipsoid.ecefToGeod ![0, 0, 0]
          ((fun j : Nat => ![(j : ℝ), 2 * j, 3 * j]) i) (⟨2, 1⟩ : Ellipsoid ℝ)).1 1)
        ∧ outSoA.z[i]? = some ((Ellipsoid.ecefToGeod ![0, 0, 0]
          ((fun j : Nat => ![(j : ℝ), 2 * j, 3 * j]) i) (⟨2, 1⟩ : Ellipsoid ℝ)).1 2)
        ∧ outAoS[i]? = some (Ellipsoid.ecefToGeod ![0, 0, 0]
          ((fun j : Nat => ![(j : ℝ), 2 * j, 3 * j]) i) (⟨2, 1⟩ : Ellipsoid ℝ)).1 :=
  ellipsoid_inverse_layout_equivalence (⟨2, 1⟩ : Ellipsoid ℝ) 2 (fun j : Nat => ![(j : ℝ), 2 * j, 3 * j])
    ⟨#[0, 1], #[0, 2], #[0, 3]⟩ ⟨#[0, 0], #[0, 0], #[0, 0]⟩
    #[![0, 0, 0], ![1, 2, 3]] #[![0, 0, 0], ![0, 0, 0]] ![0, 0, 0]
    (by intro i hi; interval_cases i <;> simp)
    (by intro i hi; interval_cases i <;> simp)
    (by simp) (by simp) (by simp) (by simp)

/-! ## In-place and out-of-place calls (C8, C9), the sphere forward formula (C10) -/

section CallConventions

variable {T : Type} [Scalar T]

/-- C8.  In-place/out-of-place equivalence of the forward transform: for the sphere with any
radius and the ellipsoid with any axes, and every geodetic triple `t`, the triple left in a
copy of `t` by the in-place `geodToECEF` equals the triple written to the destination by the
out-of-place `geodToECEF` with source `t` (whatever the destination `d` held before), and the
out-of-place call leaves its source unchanged. -/
theorem forward_in_place_eq_out_of_place [Add T] [Mul T] [Div T] (sphere : Sphere T) (ellipsoid : Ellipsoid T)
    (t d : Coord T) :
    (Sphere.geodToECEFInPlace t sphere = (Sphere.geodToECEF d t sphere).1
      ∧ (Sphere.geodToECEF d t sphere).2 = t)
    ∧ (Ellipsoid.geodToECEFInPlace t ellipsoid = (Ellipsoid.geodToECEF d t ellipsoid).1
      ∧ (Ellipsoid.geodToECEF d t ellipsoid).2 = t) := by
  refine ⟨⟨?_, rfl⟩, ⟨?_, rfl⟩⟩
  · funext k
    fin_cases k <;> rfl
  · funext k
    fin_cases k <;> rfl

/-- C9.  In-place/out-of-place equivalence of the inverse transform: for the sphere and the
ellipsoid and every ECEF triple `t`, the in-place `ecefToGeod` computes all three outputs
from the three components it read before its first write, so the triple it leaves in a copy
of `t` equals the triple written by the out-of-place `ecefToGeod` with source `t` (whatever
the destination `d` held before). -/
theorem inverse_in_place_eq_out_of_place [Add T] [Sub T] [Mul T] [Div T] [OfScientific T]
    (sphere : Sphere T) (ellipsoid : Ellipsoid T)
    (t d : Coord T) :
    Sphere.ecefToGeodInPlace t sphere = (Sphere.ecefToGeod d t sphere).1
    ∧ Ellipsoid.ecefToGeodInPlace t ellipsoid = (Ellipsoid.ecefToGeod d t ellipsoid).1 := by
  refine ⟨?_, ?_⟩
  · funext k
    fin_cases k <;> rfl
  · funext k
    fin_cases k <;> rfl

/-- C10.  Sphere forward formula: for every radius `r` and every geodetic triple with index
0 = longitude `lon`, index 1 = latitude `lat`, index 2 = altitude `h`, the out-of-place sphere
`geodToECEF` writes `(n cos lat cos lon, n cos lat sin lon, n sin lat)` with `n = r + h` to
indices 0, 1, 2 of the destination, at every scalar type. -/
theorem sphere_forward_formula [Add T] [Mul T] (r lon lat h : T) (d : Coord T) :
    (Sphere.geodToECEF d ![lon, lat, h] ⟨r⟩).1
      = ![(r + h) * Scalar.cos lat * Scalar.cos lon,
          (r + h) * Scalar.cos lat * Scalar.sin lon,
          (r + h) * Scalar.sin lat] := by
  funext k
  fin_cases k <;> rfl

end CallConventions

/-! ## Closed forms of the kernels (C11, C12, C13) -/

section Formulas

variable {T : Type} [Scalar T]

/-- C11.  Sphere inverse formula: for every radius `r` and every ECEF triple `(x, y, z)`, the
out-of-place sphere `ecefToGeod` writes `(lon, lat, h)` to indices 0, 1, 2 of the destination,
with `p = sqrt (x*x + y*y)`, `lon = atan2 y x`, `lat = atan2 z p` and `h = p / cos lat - r`,
at every scalar type. -/
theorem sphere_inverse_formula [Add T] [Sub T] [Mul T] [Div T] (r x y z : T) (d : Coord T) :
    (Sphere.ecefToGeod d ![x, y, z] ⟨r⟩).1
      = ![Scalar.atan2 y x,
          Scalar.atan2 z (Scalar.sqrt (x * x + y * y)),
          Scalar.sqrt (x * x + y * y)
            / Scalar.cos (Scalar.atan2 z (Scalar.sqrt (x * x + y * y))) - r] := by
  funext k
  fin_cases k <;> rfl

/-- C12.  Ellipsoid forward formula: for every pair of axes `(a, b)` and every geodetic triple
`(lon, lat, h)`, the out-of-place ellipsoid `geodToECEF` writes
`x = (N + h) cos lat cos lon`, `y = (N + h) cos lat sin lon`,
`z = ((b*b / (a*a)) N + h) sin lat` with
`N = a*a / sqrt (a*a cos lat cos lat + b*b sin lat sin lat)`, at every scalar type. -/
theorem ellipsoid_forward_formula [Add T] [Mul T] [Div T] (a b lon lat h N : T) (d : Coord T)
    (hN : N = a * a / Scalar.sqrt
      (a * a * Scalar.cos lat * Scalar.cos lat + b * b * Scalar.sin lat * Scalar.sin lat)) :
    (Ellipsoid.geodToECEF d ![lon, lat, h] ⟨a, b⟩).1
      = ![(N + h) * Scalar.cos lat * Scalar.cos lon,
          (N + h) * Scalar.cos lat * Scalar.sin lon,
          (b * b / (a * a) * N + h) * Scalar.sin lat] := by
  subst hN
  funext k
  fin_cases k <;> rfl

end Formulas

/-- C12, witness at `a = 2`, `b = 1`, `(lon, lat, h) = (1, 1/2, 5)` over the reals. -/
theorem ellipsoid_forward_formula_witness :
    (Ellipsoid.geodToECEF ![0, 0, 0] ![1, 1 / 2, 5] ⟨(2 : ℝ), 1⟩).1
      = ![(2 * 2 / √(2 * 2 * Real.cos (1 / 2) * Real.cos (1 / 2)
              + 1 * 1 * Real.sin (1 / 2) * Real.sin (1 / 2)) + 5)
            * Real.cos (1 / 2) * Real.cos 1,
          (2 * 2 / √(2 * 2 * Real.cos (1 / 2) * Real.cos (1 / 2)
              + 1 * 1 * Real.sin (1 / 2) * Real.sin (1 / 2)) + 5)
            * Real.cos (1 / 2) * Real.sin 1,
          (1 * 1 / (2 * 2) * (2 * 2 / √(2 * 2 * Real.cos (1 / 2) * Real.cos (1 / 2)
              + 1 * 1 * Real.sin (1 / 2) * Real.sin (1 / 2))) + 5) * Real.sin (1 / 2)] :=
  ellipsoid_forward_formula 2 1 1 (1 / 2) 5 _ ![0, 0, 0] rfl

section RealFormulas

open Real

/-- The ellipsoid inverse formula in exact real arithmetic with the squared eccentricities
as quotients: for `a ≥ b > 0` the out-of-place ellipsoid `ecefToGeod` writes
`lon = atan2 y x`, `lat = atan2 (z + e'2 b sin³θ) (p - e2 a cos³θ)` and
`h = p / cos lat - a / sqrt (1 - e2 sin² lat)`, where `p = sqrt (x² + y²)`,
`θ = atan2 (z a) (p b)`, `e2 = (a² - b²) / a²` and `e'2 = (a² - b²) / b²`. -/
theorem ellipsoid_inverse_formula_real (a b x y z p θ e2 ep2 lat : ℝ) (d : Coord ℝ)
    (hab : b ≤ a) (hb : 0 < b)
    (hp : p = √(x ^ 2 + y ^ 2)) (hθ : θ = atan2 (z * a) (p * b))
    (he2 : e2 = (a ^ 2 - b ^ 2) / a ^ 2) (hep2 : ep2 = (a ^ 2 - b ^ 2) / b ^ 2)
    (hlat : lat = atan2 (z + ep2 * b * Real.sin θ ^ 3) (p - e2 * a * Real.cos θ ^ 3)) :
    (Ellipsoid.ecefToGeod d ![x, y, z] ⟨a, b⟩).1
      = ![atan2 y x, lat, p / Real.cos lat - a / √(1 - e2 * Real.sin lat ^ 2)] := by
  have hp' : √(x * x + y * y) = p := by rw [hp]; congr 1; ring
  have he2' : √((a * a - b * b) / (a * a)) * √((a * a - b * b) / (a * a)) = e2 := by
    rw [e2_eq hab hb, he2]; ring
  have hep2' : √((a * a - b * b) / (b * b)) * √((a * a - b * b) / (b * b)) = ep2 := by
    rw [ep2_eq hab hb, hep2]; ring
  have hlat' : atan2 (z + ep2 * b * (Real.sin θ * Real.sin θ * Real.sin θ))
      (p - e2 * a * (Real.cos θ * Real.cos θ * Real.cos θ)) = lat := by
    rw [hlat]; congr 2 <;> ring
  have hzz : p / Real.cos lat - a / √(1 - e2 * Real.sin lat ^ 2)
      = p / Real.cos lat - a / √(1 - e2 * Real.sin lat * Real.sin lat) := by
    congr 3; ring
  rw [hzz, ← ellipsoid_ecefToGeodInPlace_eq hp' he2' hep2' hθ.symm hlat']
  funext k
  fin_cases k <;> rfl

/-- The closed form that the specification states for the latitude, evaluated in binary64
step by step at `a = 4`, `b = 1`, `(x, y, z) = (3.75, 0, 0)`: the quotients
`e2 = (a*a - b*b) / (a*a) = 0.9375` and `e'2 = (a*a - b*b) / (b*b) = 15` are exact,
`p = 3.75`, `θ = 0`, and the latitude is `atan2 0 0 = 0`. -/
theorem binary64_boundary_closed_form :
    (Binary64.finite 4 * Binary64.finite 4 - Binary64.finite 1 * Binary64.finite 1)
        / (Binary64.finite 4 * Binary64.finite 4) = Binary64.finite 0.9375
    ∧ (Binary64.finite 4 * Binary64.finite 4 - Binary64.finite 1 * Binary64.finite 1)
        / (Binary64.finite 1 * Binary64.finite 1) = Binary64.finite 15
    ∧ Scalar.sqrt (Binary64.finite 3.75 * Binary64.finite 3.75
        + Binary64.finite 0 * Binary64.finite 0) = Binary64.finite 3.75
    ∧ Scalar.atan2 (Binary64.finite 0 * Binary64.finite 4)
        (Binary64.finite 3.75 * Binary64.finite 1) = Binary64.finite 0
    ∧ Scalar.atan2
        (Binary64.finite 0 + Binary64.finite 15 * Binary64.finite 1
          * (Scalar.sin (Binary64.finite 0) * Scalar.sin (Binary64.finite 0)
            * Scalar.sin (Binary64.finite 0)))
        (Binary64.finite 3.75 - Binary64.finite 0.9375 * Binary64.finite 4
          * (Scalar.cos (Binary64.finite 0) * Scalar.cos (Binary64.finite 0)
            * Scalar.cos (Binary64.finite 0))) = Binary64.finite 0 := by
  have c1 : Binary64.finite 4 * Binary64.finite 4 = Binary64.finite 16 :=
    finite_mul (round64_val 1 4 (by norm_num) (by norm_num) (by norm_num)
      (by norm_num) (by norm_num))
  have c2 : Binary64.finite 1 * Binary64.finite 1 = Binary64.finite 1 :=
    finite_mul (round64_val 1 0 (by norm_num) (by norm_num) (by norm_num)
      (by norm_num) (by norm_num))
  have c3 : Binary64.finite 16 - Binary64.finite 1 = Binary64.finite 15 :=
    finite_sub (round64_val 15 0 (by norm_num) (by norm_num) (by norm_num)
      (by norm_num) (by norm_num))
  have c4 : Binary64.finite 15 / Binary64.finite 1 = Binary64.finite 15 :=
    finite_div (by norm_num) (round64_val 15 0 (by norm_num) (by norm_num) (by norm_num)
      (by norm_num) (by norm_num))
  have c5 : Binary64.finite 15 * Binary64.finite 1 = Binary64.finite 15 :=
    finite_mul (round64_val 15 0 (by norm_num) (by norm_num) (by norm_num)
      (by norm_num) (by norm_num))
  have c6 : Binary64.finite 0 * Binary64.finite 4 = Binary64.finite 0 :=
    finite_mul (round64_val 0 0 (by norm_num) (by norm_num) (by norm_num)
      (by norm_num) (by norm_num))
  have c7 : Binary64.finite 3.75 * Binary64.finite 3.75 = Binary64.finite 14.0625 :=
    finite_mul (round64_val 225 (-4) (by norm_num) (by norm_num) (by norm_num)
      (by norm_num) (by norm_num))
  have c8 : Binary64.finite 0 * Binary64.finite 0 = Binary64.finite 0 :=
    finite_mul (round64_val 0 0 (by norm_num) (by norm_num) (by norm_num)
      (by norm_num) (by norm_num))
  have c9 : Binary64.finite 14.0625 + Binary64.finite 0 = Binary64.finite 14.0625 :=
    finite_add (round64_val 225 (-4) (by norm_num) (by norm_num) (by norm_num)
      (by norm_num) (by norm_num))
  have c10 : Scalar.sqrt (Binary64.finite 14.0625) = Binary64.finite 3.75 := by
    apply finite_sqrt (by norm_num)
    have hs : Real.sqrt (14.0625 : ℝ) = 3.75 := by
      rw [Real.sqrt_eq_iff_mul_self_eq (by norm_num) (by norm_num)]
      norm_num
    rw [hs]
    exact round64_val 15 (-2) (by norm_num) (by norm_num) (by norm_num)
      (by norm_num) (by norm_num)
  have c11 : Binary64.finite 3.75 * Binary64.finite 1 = Binary64.finite 3.75 :=
    finite_mul (round64_val 15 (-2) (by norm_num) (by norm_num) (by norm_num)
      (by norm_num) (by norm_num))
  have c12 : Scalar.atan2 (Binary64.finite 0) (Binary64.finite 3.75) = Binary64.finite 0 :=
    finite_atan2 (by rw [atan2_zero_nonneg (by norm_num)]; exact round64_zero)
  have c13 : Scalar.sin (Binary64.finite 0) = Binary64.finite 0 :=
    finite_sin (by rw [Real.sin_zero]; exact round64_zero)
  have c14 : Binary64.finite 15 * Binary64.finite 0 = Binary64.finite 0 :=
    finite_mul (round64_val 0 0 (by norm_num) (by norm_num) (by norm_num)
      (by norm_num) (by norm_num))
  have c15 : Binary64.finite 0 + Binary64.finite 0 = Binary64.finite 0 :=
    finite_add (round64_val 0 0 (by norm_num) (by norm_num) (by norm_num)
      (by norm_num) (by norm_num))
  have c16 : Binary64.finite 15 / Binary64.finite 16 = Binary64.finite 0.9375 :=
    finite_div (by norm_num) (round64_val 15 (-4) (by norm_num) (by norm_num) (by norm_num)
      (by norm_num) (by norm_num))
  have c17 : Binary64.finite 0.9375 * Binary64.finite 4 = Binary64.finite 3.75 :=
    finite_mul (round64_val 15 (-2) (by norm_num) (by norm_num) (by norm_num)
      (by norm_num) (by norm_num))
  have c18 : Scalar.cos (Binary64.finite 0) = Binary64.finite 1 :=
    finite_cos (by rw [Real.cos_zero]; exact round64_one)
  have c19 : Binary64.finite 3.75 - Binary64.finite 3.75 = Binary64.finite 0 :=
    finite_sub (round64_val 0 0 (by norm_num) (by norm_num) (by norm_num)
      (by norm_num) (by norm_num))
  have c20 : Scalar.atan2 (Binary64.finite 0) (Binary64.finite 0) = Binary64.finite 0 :=
    finite_atan2 (by rw [atan2_zero_nonneg (by norm_num)]; exact round64_zero)
  have c22 : Binary64.finite 1 * Binary64.finite 1 * Binary64.finite 1 = Binary64.finite 1 := by
    simp only [c2]
  have c23 : Binary64.finite 0 * Binary64.finite 0 * Binary64.finite 0 = Binary64.finite 0 := by
    simp only [c8]
  refine ⟨?_, ?_, ?_, ?_, ?_⟩
  · simp only [c1, c2, c3, c16]
  · simp only [c1, c2, c3, c4]
  · simp only [c7, c8, c9, c10]
  · simp only [c6, c11, c12]
  · simp only [c13, c18, c22, c23, c5, c14, c15, c17, c11, c19, c20]

/-- C13, counterexample.  In binary64, for the ellipsoid `a = 4`, `b = 1` and the ECEF
triple `(3.75, 0, 0)`, the ellipsoid `ecefToGeod` writes the latitude
`M_PI = 7074237752028440 * 2 ^ (-51)`, above `3`, while the stated closed form with
`e2 = (a² - b²) / a² = 0.9375` and `e'2 = (a² - b²) / b² = 15`, evaluated in binary64 with
`p = 3.75` and `θ = 0`, gives the latitude `atan2 0 0 = 0`.  The kernel does not use the
quotient `(a² - b²) / a²` but `e * e`, the square of the rounded square root of the
quotient, which here is one unit in the last place above `0.9375`. -/
theorem ellipsoid_inverse_formula_binary64_fails :
    (Ellipsoid.ecefToGeod ![Binary64.finite 0, Binary64.finite 0, Binary64.finite 0]
        ![Binary64.finite 3.75, Binary64.finite 0, Binary64.finite 0]
        ⟨Binary64.finite 4, Binary64.finite 1⟩).1 1
      = Binary64.finite (7074237752028440 * 2 ^ (-51 : ℤ))
    ∧ (3 : ℝ) < 7074237752028440 * 2 ^ (-51 : ℤ)
    ∧ (Binary64.finite 4 * Binary64.finite 4 - Binary64.finite 1 * Binary64.finite 1)
        / (Binary64.finite 4 * Binary64.finite 4) = Binary64.finite 0.9375
    ∧ (Binary64.finite 4 * Binary64.finite 4 - Binary64.finite 1 * Binary64.finite 1)
        / (Binary64.finite 1 * Binary64.finite 1) = Binary64.finite 15
    ∧ Scalar.sqrt (Binary64.finite 3.75 * Binary64.finite 3.75
        + Binary64.finite 0 * Binary64.finite 0) = Binary64.finite 3.75
    ∧ Scalar.atan2 (Binary64.finite 0 * Binary64.finite 4)
        (Binary64.finite 3.75 * Binary64.finite 1) = Binary64.finite 0
    ∧ Scalar.atan2
        (Binary64.finite 0 + Binary64.finite 15 * Binary64.finite 1
          * (Scalar.sin (Binary64.finite 0) * Scalar.sin (Binary64.finite 0)
            * Scalar.sin (Binary64.finite 0)))
        (Binary64.finite 3.75 - Binary64.finite 0.9375 * Binary64.finite 4
          * (Scalar.cos (Binary64.finite 0) * Scalar.cos (Binary64.finite 0)
            * Scalar.cos (Binary64.finite 0))) = Binary64.finite 0 :=
  ⟨binary64_boundary_latitude _, by norm_num, binary64_boundary_closed_form⟩

/-- C13, amended.  Ellipsoid inverse formula: at every scalar type, for every pair of axes
and every ECEF triple `(x, y, z)`, the out-of-place ellipsoid `ecefToGeod` writes
`lon = atan2 y x`, `lat = atan2 (z + e'2 b sin³θ) (p - e2 a cos³θ)` and
`h = p / cos lat - a / sqrt (1.0 - e2 sin² lat)`, where `p = sqrt (x² + y²)`,
`θ = atan2 (z a) (p b)`, and the squared eccentricities are the squares of the computed
square roots, `e2 = e e` with `e = sqrt ((a² - b²) / a²)` and `e'2 = e' e'` with
`e' = sqrt ((a² - b²) / b²)`.  In exact real arithmetic and for `a ≥ b > 0` these are
`e2 = (a² - b²) / a²` and `e'2 = (a² - b²) / b²`, and the output is the closed form in these
quotients. -/
theorem ellipsoid_inverse_formula {T : Type} [Add T] [Sub T] [Mul T] [Div T] [OfScientific T]
    [Scalar T] (a b x y z p θ e2 ep2 lat : T) (d : Coord T)
    (hp : p = Scalar.sqrt (x * x + y * y)) (hθ : θ = Scalar.atan2 (z * a) (p * b))
    (he2 : e2 = Scalar.sqrt ((a * a - b * b) / (a * a))
      * Scalar.sqrt ((a * a - b * b) / (a * a)))
    (hep2 : ep2 = Scalar.sqrt ((a * a - b * b) / (b * b))
      * Scalar.sqrt ((a * a - b * b) / (b * b)))
    (hlat : lat = Scalar.atan2 (z + ep2 * b * (Scalar.sin θ * Scalar.sin θ * Scalar.sin θ))
      (p - e2 * a * (Scalar.cos θ * Scalar.cos θ * Scalar.cos θ))) :
    (Ellipsoid.ecefToGeod d ![x, y, z] ⟨a, b⟩).1
        = ![Scalar.atan2 y x, lat,
            p / Scalar.cos lat - a / Scalar.sqrt (1.0 - e2 * Scalar.sin lat * Scalar.sin lat)]
    ∧ ∀ (ar br xr yr zr pr θr e2r ep2r latr : ℝ) (dr : Coord ℝ), br ≤ ar → 0 < br →
        pr = √(xr ^ 2 + yr ^ 2) → θr = atan2 (zr * ar) (pr * br) →
        e2r = (ar ^ 2 - br ^ 2) / ar ^ 2 → ep2r = (ar ^ 2 - br ^ 2) / br ^ 2 →
        latr = atan2 (zr + ep2r * br * Real.sin θr ^ 3) (pr - e2r * ar * Real.cos θr ^ 3) →
        (Ellipsoid.ecefToGeod dr ![xr, yr, zr] ⟨ar, br⟩).1
          = ![atan2 yr xr, latr,
              pr / Real.cos latr - ar / √(1 - e2r * Real.sin latr ^ 2)] := by
  constructor
  · subst hp hθ he2 hep2 hlat
    funext k
    fin_cases k <;> rfl
  · intro ar br xr yr zr pr θr e2r ep2r latr dr hab hb h1 h2 h3 h4 h5
    exact ellipsoid_inverse_formula_real ar br xr yr zr pr θr e2r ep2r latr dr hab hb
      h1 h2 h3 h4 h5

/-- C13, witness in exact real arithmetic at `a = 2`, `b = 1`, `(x, y, z) = (3, 4, 5)`. -/
theorem ellipsoid_inverse_formula_witness :
    (Ellipsoid.ecefToGeod ![0, 0, 0] ![3, 4, 5] ⟨(2 : ℝ), 1⟩).1
      = ![atan2 4 3,
          atan2
            (5 + √((2 * 2 - 1 * 1) / (1 * 1)) * √((2 * 2 - 1 * 1) / (1 * 1)) * 1
              * (Real.sin (atan2 (5 * 2) (√(3 * 3 + 4 * 4) * 1)) * Real.sin (atan2 (5 * 2) (√(3 * 3 + 4 * 4) * 1))
                * Real.sin (atan2 (5 * 2) (√(3 * 3 + 4 * 4) * 1))))
            (√(3 * 3 + 4 * 4) - √((2 * 2 - 1 * 1) / (2 * 2)) * √((2 * 2 - 1 * 1) / (2 * 2)) * 2
              * (Real.cos (atan2 (5 * 2) (√(3 * 3 + 4 * 4) * 1)) * Real.cos (atan2 (5 * 2) (√(3 * 3 + 4 * 4) * 1))
                * Real.cos (atan2 (5 * 2) (√(3 * 3 + 4 * 4) * 1)))),
          √(3 * 3 + 4 * 4) / Real.cos (atan2
              (5 + √((2 * 2 - 1 * 1) / (1 * 1)) * √((2 * 2 - 1 * 1) / (1 * 1)) * 1
                * (Real.sin (atan2 (5 * 2) (√(3 * 3 + 4 * 4) * 1)) * Real.sin (atan2 (5 * 2) (√(3 * 3 + 4 * 4) * 1))
                  * Real.sin (atan2 (5 * 2) (√(3 * 3 + 4 * 4) * 1))))
              (√(3 * 3 + 4 * 4) - √((2 * 2 - 1 * 1) / (2 * 2)) * √((2 * 2 - 1 * 1) / (2 * 2)) * 2
                * (Real.cos (atan2 (5 * 2) (√(3 * 3 + 4 * 4) * 1)) * Real.cos (atan2 (5 * 2) (√(3 * 3 + 4 * 4) * 1))
                  * Real.cos (atan2 (5 * 2) (√(3 * 3 + 4 * 4) * 1)))))
            - 2 / √(1.0 - √((2 * 2 - 1 * 1) / (2 * 2)) * √((2 * 2 - 1 * 1) / (2 * 2))
              * Real.sin (atan2
                  (5 + √((2 * 2 - 1 * 1) / (1 * 1)) * √((2 * 2 - 1 * 1) / (1 * 1)) * 1
                    * (Real.sin (atan2 (5 * 2) (√(3 * 3 + 4 * 4) * 1)) * Real.sin (atan2 (5 * 2) (√(3 * 3 + 4 * 4) * 1))
                      * Real.sin (atan2 (5 * 2) (√(3 * 3 + 4 * 4) * 1))))
                  (√(3 * 3 + 4 * 4) - √((2 * 2 - 1 * 1) / (2 * 2)) * √((2 * 2 - 1 * 1) / (2 * 2)) * 2
                    * (Real.cos (atan2 (5 * 2) (√(3 * 3 + 4 * 4) * 1)) * Real.cos (atan2 (5 * 2) (√(3 * 3 + 4 * 4) * 1))
                      * Real.cos (atan2 (5 * 2) (√(3 * 3 + 4 * 4) * 1)))))
              * Real.sin (atan2
                  (5 + √((2 * 2 - 1 * 1) / (1 * 1)) * √((2 * 2 - 1 * 1) / (1 * 1)) * 1
                    * (Real.sin (atan2 (5 * 2) (√(3 * 3 + 4 * 4) * 1)) * Real.sin (atan2 (5 * 2) (√(3 * 3 + 4 * 4) * 1))
                      * Real.sin (atan2 (5 * 2) (√(3 * 3 + 4 * 4) * 1))))
                  (√(3 * 3 + 4 * 4) - √((2 * 2 - 1 * 1) / (2 * 2)) * √((2 * 2 - 1 * 1) / (2 * 2)) * 2
                    * (Real.cos (atan2 (5 * 2) (√(3 * 3 + 4 * 4) * 1)) * Real.cos (atan2 (5 * 2) (√(3 * 3 + 4 * 4) * 1))
                      * Real.cos (atan2 (5 * 2) (√(3 * 3 + 4 * 4) * 1))))))] :=
  (ellipsoid_inverse_formula (2 : ℝ) 1 3 4 5 _ _ _ _ _ ![0, 0, 0] rfl rfl rfl rfl rfl).1

end RealFormulas

/-! ## Special points (C14, C15, C18) and the two models compared (C19) -/

section SpecialPoints

open Real

/-- C14.  Sphere degenerate case: for every radius `R`, the in-place sphere `geodToECEF` maps
the geodetic triple (longitude 0, latitude 0, altitude 0) to the ECEF triple `(R, 0, 0)`
exactly. -/
theorem sphere_forward_origin (R : ℝ) :
    Sphere.geodToECEFInPlace ![0, 0, 0] ⟨R⟩ = ![R, 0, 0] := by
  funext k
  fin_cases k <;> simp [Sphere.geodToECEFInPlace]

/-- The ellipsoid equatorial origin in exact real arithmetic: for every major axis `a > 0`
and every minor axis `b`, the out-of-place ellipsoid `geodToECEF` maps the geodetic triple
`(0, 0, 0)` to `(a, 0, 0)`, and for `a ≥ b > 0` the out-of-place ellipsoid `ecefToGeod` maps
`(a, 0, 0)` back to `(0, 0, 0)`. -/
theorem ellipsoid_equatorial_origin_real (a b : ℝ) (d : Coord ℝ) (ha : 0 < a) :
    (Ellipsoid.geodToECEF d ![0, 0, 0] ⟨a, b⟩).1 = ![a, 0, 0]
    ∧ (b ≤ a → 0 < b → (Ellipsoid.ecefToGeod d ![a, 0, 0] ⟨a, b⟩).1 = ![0, 0, 0]) := by
  have hsq : √(a * a) = a := Real.sqrt_mul_self ha.le
  constructor
  · funext k
    fin_cases k
    · simp [Ellipsoid.geodToECEF, hsq]
    · simp [Ellipsoid.geodToECEF]
    · simp [Ellipsoid.geodToECEF]
  · intro hab hb
    have hp : √(a * a + 0 * 0) = a := by rw [mul_zero, add_zero, hsq]
    have hθ : atan2 (0 * a) (a * b) = 0 := by
      rw [zero_mul]; exact atan2_zero_nonneg (by positivity)
    have hpos : 0 < a - (a * a - b * b) / (a * a) * a * (1 * 1 * 1) := by
      have : a - (a * a - b * b) / (a * a) * a * (1 * 1 * 1) = b * b / a := by
        field_simp; ring
      rw [this]; positivity
    have hlat : atan2 (0 + (a * a - b * b) / (b * b) * b
        * (Real.sin 0 * Real.sin 0 * Real.sin 0))
        (a - (a * a - b * b) / (a * a) * a * (Real.cos 0 * Real.cos 0 * Real.cos 0)) = 0 := by
      rw [Real.sin_zero, Real.cos_zero, mul_zero, mul_zero, add_zero]
      exact atan2_zero_nonneg hpos.le
    have key := ellipsoid_ecefToGeodInPlace_eq hp (e2_eq hab hb) (ep2_eq hab hb) hθ hlat
    have hin : (Ellipsoid.ecefToGeod d ![a, 0, 0] ⟨a, b⟩).1
        = Ellipsoid.ecefToGeodInPlace ![a, 0, 0] ⟨a, b⟩ := by
      funext k
      fin_cases k <;> rfl
    rw [hin, key, atan2_zero_nonneg ha.le, Real.cos_zero, Real.sin_zero, mul_zero, sub_zero,
      Real.sqrt_one, div_one, sub_self]

/-- C15, counterexample.  In binary64, for the major axis `a = 1846604.2538884224` (the
binary64 number `7931104879105255 * 2 ^ (-32)`) and the minor axis `b = 1`, the ellipsoid
`geodToECEF` maps the geodetic triple `(0, 0, 0)` to `x = 7931104879105256 * 2 ^ (-32)`,
one unit in the last place above `a`: the forward kernel computes `x` as
`a * a / sqrt (a * a)`, rounded three times. -/
theorem ellipsoid_equatorial_origin_binary64_fails :
    (1846604.2538884224 : Binary64) = Binary64.finite (7931104879105255 * 2 ^ (-32 : ℤ))
    ∧ (Ellipsoid.geodToECEF ![Binary64.finite 0, Binary64.finite 0, Binary64.finite 0]
        ![Binary64.finite 0, Binary64.finite 0, Binary64.finite 0]
        ⟨(1846604.2538884224 : Binary64), Binary64.finite 1⟩).1 0
      = Binary64.finite (7931104879105256 * 2 ^ (-32 : ℤ))
    ∧ (7931104879105255 * 2 ^ (-32 : ℤ) : ℝ) < 7931104879105256 * 2 ^ (-32 : ℤ) := by
  have hv : (991388109888157 * 2 ^ (-29 : ℤ) : ℝ) = 7931104879105256 * 2 ^ (-32 : ℤ) := by
    norm_num
  refine ⟨lit_1846604, ?_, by norm_num⟩
  rw [lit_1846604, binary64_equatorial_x, hv]

/-- C15, amended.  Ellipsoid equatorial origin: in exact real arithmetic, for every major
axis `a > 0` and every minor axis `b`, the out-of-place ellipsoid `geodToECEF` maps the
geodetic triple `(0, 0, 0)` to `(a, 0, 0)` exactly, and for `a ≥ b > 0` the out-of-place
ellipsoid `ecefToGeod` maps `(a, 0, 0)` back to `(0, 0, 0)`; in binary64, for the axes of the
test table, `a = 6378137` and `b = 6356752.314245`, `geodToECEF` maps `(0, 0, 0)` to
`(6378137, 0, 0)` and `ecefToGeod` maps `(6378137, 0, 0)` to `(0, 0, 0)`, both exactly (the
first row of the test table). -/
theorem ellipsoid_equatorial_origin (a b : ℝ) (d : Coord ℝ) (d64 : Coord Binary64)
    (ha : 0 < a) :
    ((Ellipsoid.geodToECEF d ![0, 0, 0] ⟨a, b⟩).1 = ![a, 0, 0]
      ∧ (b ≤ a → 0 < b → (Ellipsoid.ecefToGeod d ![a, 0, 0] ⟨a, b⟩).1 = ![0, 0, 0]))
    ∧ (Ellipsoid.geodToECEF d64 ![Binary64.finite 0, Binary64.finite 0, Binary64.finite 0]
        ⟨Binary64.finite 6378137, (6356752.314245 : Binary64)⟩).1
      = ![Binary64.finite 6378137, Binary64.finite 0, Binary64.finite 0]
    ∧ (Ellipsoid.ecefToGeod d64
        ![Binary64.finite 6378137, Binary64.finite 0, Binary64.finite 0]
        ⟨Binary64.finite 6378137, (6356752.314245 : Binary64)⟩).1
      = ![Binary64.finite 0, Binary64.finite 0, Binary64.finite 0] := by
  refine ⟨ellipsoid_equatorial_origin_real a b d ha, ?_, ?_⟩
  · rw [lit_6356752]
    exact binary64_test_row_forward d64
  · rw [lit_6356752]
    exact binary64_test_row_inverse d64

/-- C15, witness in exact real arithmetic at the axes of the test table, `a = 6378137`,
`b = 6356752.314245`. -/
theorem ellipsoid_equatorial_origin_witness :
    (Ellipsoid.geodToECEF ![0, 0, 0] ![0, 0, 0] ⟨(6378137 : ℝ), 6356752.314245⟩).1
      = ![6378137, 0, 0]
    ∧ (Ellipsoid.ecefToGeod ![0, 0, 0] ![6378137, 0, 0] ⟨(6378137 : ℝ), 6356752.314245⟩).1
      = ![0, 0, 0] :=
  have h := (ellipsoid_equatorial_origin 6378137 6356752.314245 ![0, 0, 0]
    ![Binary64.finite 0, Binary64.finite 0, Binary64.finite 0] (by norm_num)).1
  ⟨h.1, h.2 (by norm_num) (by norm_num)⟩

/-- C18.  Sphere inverse at the poles: for every radius `r` and every ECEF point on the polar
axis (`x = 0`, `y = 0`, so `p = 0`), the out-of-place sphere `ecefToGeod` returns latitude
exactly `π/2` when `z > 0` and exactly `-π/2` when `z < 0`. -/
theorem sphere_inverse_polar_latitude (r z : ℝ) (d : Coord ℝ) :
    (0 < z → (Sphere.ecefToGeod d ![0, 0, z] ⟨r⟩).1 1 = π / 2)
    ∧ (z < 0 → (Sphere.ecefToGeod d ![0, 0, z] ⟨r⟩).1 1 = -(π / 2)) := by
  have h : (Sphere.ecefToGeod d ![0, 0, z] ⟨r⟩).1 1 = atan2 z 0 := by
    simp [Sphere.ecefToGeod]
  rw [h]
  exact ⟨fun hz => atan2_pos_zero hz, fun hz => atan2_neg_zero hz⟩

/-- C18, witness at `r = 6378137`, `z = 1` and `z = -1`. -/
theorem sphere_inverse_polar_latitude_witness :
    (Sphere.ecefToGeod ![0, 0, 0] ![0, 0, 1] ⟨(6378137 : ℝ)⟩).1 1 = π / 2
    ∧ (Sphere.ecefToGeod ![0, 0, 0] ![0, 0, -1] ⟨(6378137 : ℝ)⟩).1 1 = -(π / 2) :=
  ⟨(sphere_inverse_polar_latitude 6378137 1 ![0, 0, 0]).1 (by norm_num),
    (sphere_inverse_polar_latitude 6378137 (-1) ![0, 0, 0]).2 (by norm_num)⟩

/-- C19.  Ellipsoid and sphere models diverge: for every `a > b > 0`, every longitude, every
altitude `h` and every latitude with `sin lat ≠ 0`, the `z` component written by the
out-of-place ellipsoid `geodToECEF` with axes `(a, b)` differs from the `z` component written
by the out-of-place sphere `geodToECEF` with radius `a` for the same geodetic input. -/
theorem ellipsoid_sphere_z_differ (a b lon lat h : ℝ) (d1 d2 : Coord ℝ) (hab : b < a)
    (hb : 0 < b) (hs : Real.sin lat ≠ 0) :
    (Ellipsoid.geodToECEF d1 ![lon, lat, h] ⟨a, b⟩).1 2
      ≠ (Sphere.geodToECEF d2 ![lon, lat, h] ⟨a⟩).1 2 := by
  have ha : 0 < a := lt_trans hb hab
  have hsc := sin_mul_self_add_cos_mul_self lat
  have hrad : b * b ≤ a * a * Real.cos lat * Real.cos lat
      + b * b * Real.sin lat * Real.sin lat := by
    have h1 : 0 ≤ (a * a - b * b) * (Real.cos lat * Real.cos lat) :=
      mul_nonneg (by nlinarith) (mul_self_nonneg _)
    nlinarith
  have hD : b ≤ √(a * a * Real.cos lat * Real.cos lat
      + b * b * Real.sin lat * Real.sin lat) := by
    have h1 := Real.sqrt_le_sqrt hrad
    rwa [Real.sqrt_mul_self hb.le] at h1
  have hze : (Ellipsoid.geodToECEF d1 ![lon, lat, h] ⟨a, b⟩).1 2
      = (b * b / (a * a) * (a * a / √(a * a * Real.cos lat * Real.cos lat
          + b * b * Real.sin lat * Real.sin lat)) + h) * Real.sin lat := rfl
  have hzs : (Sphere.geodToECEF d2 ![lon, lat, h] ⟨a⟩).1 2 = (a + h) * Real.sin lat := rfl
  rw [hze, hzs]
  generalize √(a * a * Real.cos lat * Real.cos lat
      + b * b * Real.sin lat * Real.sin lat) = D at hD
  have hDpos : 0 < D := lt_of_lt_of_le hb hD
  have hN : b * b / (a * a) * (a * a / D) < a := by
    have e : b * b / (a * a) * (a * a / D) = b * b / D := by field_simp
    rw [e, div_lt_iff₀ hDpos]
    nlinarith
  intro heq
  have h2 := mul_right_cancel₀ hs heq
  linarith

/-- C19, witness at `a = 2`, `b = 1`, `(lon, lat, h) = (0, π/2, 0)`. -/
theorem ellipsoid_sphere_z_differ_witness :
    (Ellipsoid.geodToECEF ![0, 0, 0] ![0, π / 2, 0] ⟨(2 : ℝ), 1⟩).1 2
      ≠ (Sphere.geodToECEF ![0, 0, 0] ![0, π / 2, 0] ⟨(2 : ℝ)⟩).1 2 :=
  ellipsoid_sphere_z_differ 2 1 0 (π / 2) 0 ![0, 0, 0] ![0, 0, 0] (by norm_num) (by norm_num)
    (by rw [Real.sin_pi_div_two]; norm_num)

end SpecialPoints

/-! ## Concrete scenarios of the test table (C16, C17) -/

section Taylor

open Finset

/-- The partial sums of the exponential series at `t * I` split into the partial sums of
the cosine and sine series. -/
theorem exp_series_mul_I (t : ℝ) (k : ℕ) :
    (∑ m ∈ range (2 * k), ((t : ℂ) * Complex.I) ^ m / (m.factorial : ℂ))
      = ((∑ j ∈ range k, (-1) ^ j * t ^ (2 * j) / ((2 * j).factorial : ℝ) : ℝ) : ℂ)
        + ((∑ j ∈ range k, (-1) ^ j * t ^ (2 * j + 1) / ((2 * j + 1).factorial : ℝ) : ℝ) : ℂ)
          * Complex.I := by
  induction k with
  | zero => simp
  | succ k ih =>
    have h2 : 2 * (k + 1) = 2 * k + 1 + 1 := by ring
    rw [h2, sum_range_succ, sum_range_succ, ih, sum_range_succ, sum_range_succ]
    have hI : ((t : ℂ) * Complex.I) ^ (2 * k) = (((-1) ^ k * t ^ (2 * k) : ℝ) : ℂ) := by
      rw [mul_pow, pow_mul Complex.I, Complex.I_sq]
      push_cast
      ring
    rw [pow_succ ((t : ℂ) * Complex.I) (2 * k), hI]
    push_cast
    ring

/-- Taylor bounds for cosine and sine of any even order `2k` with `|t| ≤ k + 1/2`. -/
theorem cos_sin_taylor_bound (t : ℝ) (k : ℕ) (ht : |t| / ((2 * k : ℕ) + 1 : ℝ) ≤ 1 / 2) :
    |Real.cos t - ∑ j ∈ range k, (-1) ^ j * t ^ (2 * j) / ((2 * j).factorial : ℝ)|
        ≤ t ^ (2 * k) / ((2 * k).factorial : ℝ) * 2
    ∧ |Real.sin t - ∑ j ∈ range k, (-1) ^ j * t ^ (2 * j + 1) / ((2 * j + 1).factorial : ℝ)|
        ≤ t ^ (2 * k) / ((2 * k).factorial : ℝ) * 2 := by
  have habs : Complex.abs ((t : ℂ) * Complex.I) = |t| := by simp
  have hb := Complex.exp_bound' (x := (t : ℂ) * Complex.I) (n := 2 * k)
    (by rw [habs]; simpa using ht)
  rw [habs, exp_series_mul_I, Complex.exp_mul_I, ← Complex.ofReal_cos, ← Complex.ofReal_sin] at hb
  have hpow : |t| ^ (2 * k) = t ^ (2 * k) := by
    rw [pow_mul, pow_mul, sq_abs]
  rw [hpow] at hb
  set cP := ∑ j ∈ range k, (-1) ^ j * t ^ (2 * j) / ((2 * j).factorial : ℝ) with hcP
  set sP := ∑ j ∈ range k, (-1) ^ j * t ^ (2 * j + 1) / ((2 * j + 1).factorial : ℝ) with hsP
  have hz : ((Real.cos t : ℂ) + (Real.sin t : ℂ) * Complex.I) - ((cP : ℂ) + (sP : ℂ) * Complex.I)
      = ((Real.cos t - cP : ℝ) : ℂ) + ((Real.sin t - sP : ℝ) : ℂ) * Complex.I := by
    push_cast; ring
  rw [hz] at hb
  constructor
  · refine le_trans ?_ hb
    have := Complex.abs_re_le_abs (((Real.cos t - cP : ℝ) : ℂ)
      + ((Real.sin t - sP : ℝ) : ℂ) * Complex.I)
    simpa using this
  · refine le_trans ?_ hb
    have := Complex.abs_im_le_abs (((Real.cos t - cP : ℝ) : ℂ)
      + ((Real.sin t - sP : ℝ) : ℂ) * Complex.I)
    simpa using this

end Taylor

section Numbers

/-- Cosine and sine of the latitude of the second row of the test table. -/
theorem trig_table_lat :
    (0.757910706790928489 ≤ Real.cos (40.719645 * (3.141592653 / 180))
      ∧ Real.cos (40.719645 * (3.141592653 / 180)) ≤ 0.757910706790928490)
    ∧ (0.652358306861861936 ≤ Real.sin (40.719645 * (3.141592653 / 180))
      ∧ Real.sin (40.719645 * (3.141592653 / 180)) ≤ 0.652358306861861937) := by
  obtain ⟨hc, hs⟩ := cos_sin_taylor_bound (40.719645 * (3.141592653 / 180)) 10
    (by rw [abs_of_nonneg (by norm_num)]; norm_num)
  rw [abs_le] at hc hs
  simp only [Finset.sum_range_succ, Finset.sum_range_zero, Nat.factorial] at hc hs
  norm_num at hc hs
  refine ⟨⟨?_, ?_⟩, ⟨?_, ?_⟩⟩ <;> linarith

/-- Cosine and sine of the longitude of the second row of the test table, sign removed. -/
theorem trig_table_lon :
    (0.275630628393519139 ≤ Real.cos (74.000401 * (3.141592653 / 180))
      ∧ Real.cos (74.000401 * (3.141592653 / 180)) ≤ 0.275630628393519415)
    ∧ (0.961263624970482993 ≤ Real.sin (74.000401 * (3.141592653 / 180))
      ∧ Real.sin (74.000401 * (3.141592653 / 180)) ≤ 0.961263624970483268) := by
  obtain ⟨hc, hs⟩ := cos_sin_taylor_bound (74.000401 * (3.141592653 / 180)) 10
    (by rw [abs_of_nonneg (by norm_num)]; norm_num)
  rw [abs_le] at hc hs
  simp only [Finset.sum_range_succ, Finset.sum_range_zero, Nat.factorial] at hc hs
  norm_num at hc hs
  refine ⟨⟨?_, ?_⟩, ⟨?_, ?_⟩⟩ <;> linarith

/-- Sine of the latitude figure `0.71077`. -/
theorem sin_claimed_lat : 0.6524174 ≤ Real.sin 0.71077 := by
  obtain ⟨-, hs⟩ := cos_sin_taylor_bound 0.71077 5
    (by rw [abs_of_nonneg (by norm_num)]; norm_num)
  rw [abs_le] at hs
  simp only [Finset.sum_range_succ, Finset.sum_range_zero, Nat.factorial] at hs
  norm_num at hs
  linarith

/-- Bounds of a product of two quantities with nonnegative lower bounds. -/
theorem mul_bounds {u v a1 a2 b1 b2 : ℝ} (ha : 0 ≤ a1) (hb : 0 ≤ b1) (hu : a1 ≤ u ∧ u ≤ a2)
    (hv : b1 ≤ v ∧ v ≤ b2) : a1 * b1 ≤ u * v ∧ u * v ≤ a2 * b2 :=
  ⟨mul_le_mul hu.1 hv.1 hb (ha.trans hu.1),
    mul_le_mul hu.2 hv.2 (hb.trans hv.1) (ha.trans (hu.1.trans hu.2))⟩

/-- The sphere scenario from bounds on the four trigonometric values. -/
theorem sphere_scenario_of_bounds {cl sl cn sn : ℝ}
    (hcl : 0.757910706790928489 ≤ cl ∧ cl ≤ 0.757910706790928490)
    (hsl : 0.652358306861861936 ≤ sl ∧ sl ≤ 0.652358306861861937)
    (hcn : 0.275630628393519139 ≤ cn ∧ cn ≤ 0.275630628393519415)
    (hsn : 0.961263624970482993 ≤ sn ∧ sn ≤ 0.961263624970483268) :
    |(6378137 + 5) * cl * cn - 1332415.577412| ≤ 0.00001
    ∧ |(6378137 + 5) * cl * (-sn) - (-4646808.068376)| ≤ 0.00001
    ∧ |(6378137 + 5) * sl - 4160833.916045| ≤ 0.00001 := by
  have hn : (6378142 : ℝ) ≤ 6378137 + 5 ∧ (6378137 + 5 : ℝ) ≤ 6378142 := by norm_num
  have h1 := mul_bounds (by norm_num) (by norm_num) hn hcl
  have hx := mul_bounds (by norm_num) (by norm_num) h1 hcn
  have hy := mul_bounds (by norm_num) (by norm_num) h1 hsn
  have hz := mul_bounds (by norm_num) (by norm_num) hn hsl
  norm_num at hx hy hz
  refine ⟨?_, ?_, ?_⟩
  · rw [abs_le]; constructor <;> linarith [hx.1, hx.2]
  · rw [abs_le]; constructor <;> linarith [hy.1, hy.2]
  · rw [abs_le]; constructor <;> linarith [hz.1, hz.2]

/-- The ellipsoid scenario from bounds on the four trigonometric values. -/
theorem ellipsoid_scenario_of_bounds {cl sl cn sn : ℝ}
    (hcl : 0.757910706790928489 ≤ cl ∧ cl ≤ 0.757910706790928490)
    (hsl : 0.652358306861861936 ≤ sl ∧ sl ≤ 0.652358306861861937)
    (hcn : 0.275630628393519139 ≤ cn ∧ cn ≤ 0.275630628393519415)
    (hsn : 0.961263624970482993 ≤ sn ∧ sn ≤ 0.961263624970483268) :
    |(6378137 * 6378137 / √(6378137 * 6378137 * cl * cl
          + 6356752.314245 * 6356752.314245 * sl * sl) + 5) * cl * cn
        - 1334317.624619| ≤ 0.00001
    ∧ |(6378137 * 6378137 / √(6378137 * 6378137 * cl * cl
          + 6356752.314245 * 6356752.314245 * sl * sl) + 5) * cl * (-sn)
        - (-4653441.470488)| ≤ 0.00001
    ∧ |(6356752.314245 * 6356752.314245 / (6378137 * 6378137)
          * (6378137 * 6378137 / √(6378137 * 6378137 * cl * cl
            + 6356752.314245 * 6356752.314245 * sl * sl)) + 5) * sl
        - 4138879.637461| ≤ 0.00001 := by
  have hcc := mul_bounds (by norm_num) (by norm_num) hcl hcl
  have hss := mul_bounds (by norm_num) (by norm_num) hsl hsl
  have hr : 6378137 * 6378137 * cl * cl + 6356752.314245 * 6356752.314245 * sl * sl
      = 6378137 * 6378137 * (cl * cl) + 6356752.314245 * 6356752.314245 * (sl * sl) := by ring
  have hDlo : (6369045.0664633438 : ℝ) ≤ √(6378137 * 6378137 * cl * cl
      + 6356752.314245 * 6356752.314245 * sl * sl) := by
    rw [Real.le_sqrt' (by norm_num), hr]
    norm_num at hcc hss ⊢
    linarith [hcc.1, hss.1]
  have hDhi : √(6378137 * 6378137 * cl * cl
      + 6356752.314245 * 6356752.314245 * sl * sl) ≤ (6369045.0664633439 : ℝ) := by
    rw [Real.sqrt_le_left (by norm_num), hr]
    norm_num at hcc hss ⊢
    linarith [hcc.2, hss.2]
  generalize √(6378137 * 6378137 * cl * cl
      + 6356752.314245 * 6356752.314245 * sl * sl) = D at hDlo hDhi
  have hDpos : 0 < D := lt_of_lt_of_le (by norm_num) hDlo
  have hN : (6387241.912445514 : ℝ) ≤ 6378137 * 6378137 / D
      ∧ 6378137 * 6378137 / D ≤ (6387241.912445515 : ℝ) := by
    constructor
    · rw [le_div_iff₀ hDpos]
      have : (6387241.912445514 : ℝ) * D ≤ 6387241.912445514 * 6369045.0664633439 :=
        mul_le_mul_of_nonneg_left hDhi (by norm_num)
      norm_num at this ⊢
      linarith
    · rw [div_le_iff₀ hDpos]
      have : (6387241.912445515 : ℝ) * 6369045.0664633438 ≤ 6387241.912445515 * D :=
        mul_le_mul_of_nonneg_left hDlo (by norm_num)
      norm_num at this ⊢
      linarith
  generalize 6378137 * 6378137 / D = N at hN
  have hNh : (6387246.912445514 : ℝ) ≤ N + 5 ∧ N + 5 ≤ (6387246.912445515 : ℝ) := by
    constructor <;> norm_num <;> linarith [hN.1, hN.2]
  have hqN : (6356752.314245 * 6356752.314245 / (6378137 * 6378137) * 6387241.912445514 + 5 : ℝ)
        ≤ 6356752.314245 * 6356752.314245 / (6378137 * 6378137) * N + 5
      ∧ 6356752.314245 * 6356752.314245 / (6378137 * 6378137) * N + 5
        ≤ (6356752.314245 * 6356752.314245 / (6378137 * 6378137) * 6387241.912445515 + 5 : ℝ) := by
    constructor
    · have := mul_le_mul_of_nonneg_left hN.1
        (by norm_num : (0 : ℝ) ≤ 6356752.314245 * 6356752.314245 / (6378137 * 6378137))
      linarith
    · have := mul_le_mul_of_nonneg_left hN.2
        (by norm_num : (0 : ℝ) ≤ 6356752.314245 * 6356752.314245 / (6378137 * 6378137))
      linarith
  have h1 := mul_bounds (by norm_num) (by norm_num) hNh hcl
  have hx := mul_bounds (by norm_num) (by norm_num) h1 hcn
  have hy := mul_bounds (by norm_num) (by norm_num) h1 hsn
  have hz := mul_bounds (by norm_num) (by norm_num) hqN hsl
  generalize 6356752.314245 * 6356752.314245 / (6378137 * 6378137) * N + 5 = M at hz
  norm_num at hx hy hz
  refine ⟨?_, ?_, ?_⟩
  · rw [abs_le]; constructor <;> linarith only [hx.1, hx.2]
  · rw [abs_le]; constructor <;> linarith only [hy.1, hy.2]
  · rw [abs_le]; constructor <;> linarith only [hz.1, hz.2]

/-- C16, counterexample.  With the figures of the claim, radius `6378137`, longitude
`-1.29155`, latitude `0.71077` and altitude `5`, the `z` written by the out-of-place sphere
`geodToECEF` is `6378142 sin 0.71077 ≥ 4161210`, more than `370` above the stated
`4160833.92`: the figure `0.71077` is not the latitude `40.719645°` of the test table. -/
theorem sphere_scenario_rounded_figures_fail :
    (0.00001 : ℝ) < |(Sphere.geodToECEF ![0, 0, 0] ![-1.29155, 0.71077, 5] ⟨6378137⟩).1 2
      - 4160833.92| := by
  have hz : (Sphere.geodToECEF ![0, 0, 0] ![-1.29155, 0.71077, 5] ⟨(6378137 : ℝ)⟩).1 2
      = (6378137 + 5) * Real.sin 0.71077 := rfl
  rw [hz]
  have hs := sin_claimed_lat
  have h1 : (4161210 : ℝ) ≤ (6378137 + 5) * Real.sin 0.71077 := by
    have := mul_le_mul_of_nonneg_left hs (by norm_num : (0 : ℝ) ≤ 6378137 + 5)
    norm_num at this ⊢
    linarith only [this]
  rw [abs_of_pos (by linarith only [h1])]
  linarith only [h1]

/-- C16, amended.  Sphere concrete scenario: with radius `6378137.0`, the out-of-place sphere
`geodToECEF` maps the second row of the test table, longitude `-74.000401°` and latitude
`40.719645°` converted with the factor `3.141592653 / 180` (about `-1.2915506` and
`0.7106919` rad) and altitude `5.0`, to an ECEF triple whose components are each within
`1e-5` of the row `(1332415.577412, -4646808.068376, 4160833.916045)`. -/
theorem sphere_scenario (d : Coord ℝ) :
    |(Sphere.geodToECEF d ![-74.000401 * (3.141592653 / 180), 40.719645 * (3.141592653 / 180),
        5] ⟨6378137⟩).1 0 - 1332415.577412| ≤ 0.00001
    ∧ |(Sphere.geodToECEF d ![-74.000401 * (3.141592653 / 180),
        40.719645 * (3.141592653 / 180), 5] ⟨6378137⟩).1 1 - (-4646808.068376)| ≤ 0.00001
    ∧ |(Sphere.geodToECEF d ![-74.000401 * (3.141592653 / 180),
        40.719645 * (3.141592653 / 180), 5] ⟨6378137⟩).1 2 - 4160833.916045| ≤ 0.00001 := by
  have hx : (Sphere.geodToECEF d ![-74.000401 * (3.141592653 / 180),
      40.719645 * (3.141592653 / 180), 5] ⟨(6378137 : ℝ)⟩).1 0
      = (6378137 + 5) * Real.cos (40.719645 * (3.141592653 / 180))
        * Real.cos (-74.000401 * (3.141592653 / 180)) := rfl
  have hy : (Sphere.geodToECEF d ![-74.000401 * (3.141592653 / 180),
      40.719645 * (3.141592653 / 180), 5] ⟨(6378137 : ℝ)⟩).1 1
      = (6378137 + 5) * Real.cos (40.719645 * (3.141592653 / 180))
        * Real.sin (-74.000401 * (3.141592653 / 180)) := rfl
  have hz : (Sphere.geodToECEF d ![-74.000401 * (3.141592653 / 180),
      40.719645 * (3.141592653 / 180), 5] ⟨(6378137 : ℝ)⟩).1 2
      = (6378137 + 5) * Real.sin (40.719645 * (3.141592653 / 180)) := rfl
  rw [hx, hy, hz, neg_mul, Real.cos_neg, Real.sin_neg]
  exact sphere_scenario_of_bounds trig_table_lat.1 trig_table_lat.2 trig_table_lon.1
    trig_table_lon.2

/-- The `z` written by the ellipsoid forward kernel from a lower bound on the sine of the
latitude figure of the claim. -/
theorem ellipsoid_z_of_sin_bound {s c : ℝ} (hs : 0.6524174 ≤ s) (hsc : s * s + c * c = 1) :
    (4139000 : ℝ) ≤ (6356752.314245 * 6356752.314245 / (6378137 * 6378137)
      * (6378137 * 6378137 / √(6378137 * 6378137 * c * c
        + 6356752.314245 * 6356752.314245 * s * s)) + 5) * s := by
  have hss : (0.6524174 : ℝ) * 0.6524174 ≤ s * s :=
    mul_le_mul hs hs (by norm_num) (le_trans (by norm_num) hs)
  have hr : 6378137 * 6378137 * c * c + 6356752.314245 * 6356752.314245 * s * s
      = 6378137 * 6378137
        - (6378137 * 6378137 - 6356752.314245 * 6356752.314245) * (s * s) := by
    linear_combination (6378137 * 6378137 : ℝ) * hsc
  have hpos : (0 : ℝ) ≤ 6378137 * 6378137
      - (6378137 * 6378137 - 6356752.314245 * 6356752.314245) * (s * s) := by
    have : s * s ≤ 1 := by nlinarith [mul_self_nonneg c]
    nlinarith
  have hDhi : √(6378137 * 6378137 * c * c + 6356752.314245 * 6356752.314245 * s * s)
      ≤ (6369044 : ℝ) := by
    rw [Real.sqrt_le_left (by norm_num), hr]
    norm_num at hss ⊢
    linarith only [hss]
  have hDpos : 0 < √(6378137 * 6378137 * c * c
      + 6356752.314245 * 6356752.314245 * s * s) := by
    rw [hr]
    apply Real.sqrt_pos.2
    have : s * s ≤ 1 := by nlinarith [mul_self_nonneg c]
    nlinarith
  generalize √(6378137 * 6378137 * c * c + 6356752.314245 * 6356752.314245 * s * s) = D
    at hDhi hDpos
  have hN : (6387242 : ℝ) ≤ 6378137 * 6378137 / D := by
    rw [le_div_iff₀ hDpos]
    have : (6387242 : ℝ) * D ≤ 6387242 * 6369044 :=
      mul_le_mul_of_nonneg_left hDhi (by norm_num)
    norm_num at this ⊢
    linarith only [this]
  generalize 6378137 * 6378137 / D = N at hN
  have hq : (6344480 : ℝ)
      ≤ 6356752.314245 * 6356752.314245 / (6378137 * 6378137) * N + 5 := by
    have := mul_le_mul_of_nonneg_left hN
      (by norm_num : (0 : ℝ) ≤ 6356752.314245 * 6356752.314245 / (6378137 * 6378137))
    norm_num at this ⊢
    linarith only [this]
  generalize 6356752.314245 * 6356752.314245 / (6378137 * 6378137) * N + 5 = M at hq
  have := mul_le_mul hq hs (by norm_num) (le_trans (by norm_num) hq)
  norm_num at this
  linarith only [this]

/-- C17, counterexample.  With the figures of the claim, axes `6378137` and
`6356752.314245`, longitude `-1.29155`, latitude `0.71077` and altitude `5`, the `z` written
by the out-of-place ellipsoid `geodToECEF` is at least `4139000`, more than `120` above the
stated `4138879.64`. -/
theorem ellipsoid_scenario_rounded_figures_fail :
    (0.00001 : ℝ) < |(Ellipsoid.geodToECEF ![0, 0, 0] ![-1.29155, 0.71077, 5]
      ⟨6378137, 6356752.314245⟩).1 2 - 4138879.64| := by
  have hz : (Ellipsoid.geodToECEF ![0, 0, 0] ![-1.29155, 0.71077, 5]
      ⟨(6378137 : ℝ), 6356752.314245⟩).1 2
      = (6356752.314245 * 6356752.314245 / (6378137 * 6378137)
        * (6378137 * 6378137 / √(6378137 * 6378137 * Real.cos 0.71077 * Real.cos 0.71077
          + 6356752.314245 * 6356752.314245 * Real.sin 0.71077 * Real.sin 0.71077)) + 5)
        * Real.sin 0.71077 := rfl
  rw [hz]
  have h1 := ellipsoid_z_of_sin_bound sin_claimed_lat (sin_mul_self_add_cos_mul_self 0.71077)
  rw [abs_of_pos (by linarith only [h1])]
  linarith only [h1]

/-- C17, amended.  Ellipsoid concrete scenario: with major axis `6378137.0` and minor axis
`6356752.314245`, the out-of-place ellipsoid `geodToECEF` maps the second row of the test
table, longitude `-74.000401°` and latitude `40.719645°` converted with the factor
`3.141592653 / 180` (about `-1.2915506` and `0.7106919` rad) and altitude `5.0`, to an ECEF
triple whose components are each within `1e-5` of the row
`(1334317.624619, -4653441.470488, 4138879.637461)`. -/
theorem ellipsoid_scenario (d : Coord ℝ) :
    |(Ellipsoid.geodToECEF d ![-74.000401 * (3.141592653 / 180),
        40.719645 * (3.141592653 / 180), 5] ⟨6378137, 6356752.314245⟩).1 0
      - 1334317.624619| ≤ 0.00001
    ∧ |(Ellipsoid.geodToECEF d ![-74.000401 * (3.141592653 / 180),
        40.719645 * (3.141592653 / 180), 5] ⟨6378137, 6356752.314245⟩).1 1
      - (-4653441.470488)| ≤ 0.00001
    ∧ |(Ellipsoid.geodToECEF d ![-74.000401 * (3.141592653 / 180),
        40.719645 * (3.141592653 / 180), 5] ⟨6378137, 6356752.314245⟩).1 2
      - 4138879.637461| ≤ 0.00001 := by
  have hx : (Ellipsoid.geodToECEF d ![-74.000401 * (3.141592653 / 180),
      40.719645 * (3.141592653 / 180), 5] ⟨(6378137 : ℝ), 6356752.314245⟩).1 0
      = (6378137 * 6378137 / √(6378137 * 6378137
            * Real.cos (40.719645 * (3.141592653 / 180))
            * Real.cos (40.719645 * (3.141592653 / 180))
          + 6356752.314245 * 6356752.314245 * Real.sin (40.719645 * (3.141592653 / 180))
            * Real.sin (40.719645 * (3.141592653 / 180))) + 5)
        * Real.cos (40.719645 * (3.141592653 / 180))
        * Real.cos (-74.000401 * (3.141592653 / 180)) := rfl
  have hy : (Ellipsoid.geodToECEF d ![-74.000401 * (3.141592653 / 180),
      40.719645 * (3.141592653 / 180), 5] ⟨(6378137 : ℝ), 6356752.314245⟩).1 1
      = (6378137 * 6378137 / √(6378137 * 6378137
            * Real.cos (40.719645 * (3.141592653 / 180))
            * Real.cos (40.719645 * (3.141592653 / 180))
          + 6356752.314245 * 6356752.314245 * Real.sin (40.719645 * (3.141592653 / 180))
            * Real.sin (40.719645 * (3.141592653 / 180))) + 5)
        * Real.cos (40.719645 * (3.141592653 / 180))
        * Real.sin (-74.000401 * (3.141592653 / 180)) := rfl
  have hz : (Ellipsoid.geodToECEF d ![-74.000401 * (3.141592653 / 180),
      40.719645 * (3.141592653 / 180), 5] ⟨(6378137 : ℝ), 6356752.314245⟩).1 2
      = (6356752.314245 * 6356752.314245 / (6378137 * 6378137)
        * (6378137 * 6378137 / √(6378137 * 6378137
            * Real.cos (40.719645 * (3.141592653 / 180))
            * Real.cos (40.719645 * (3.141592653 / 180))
          + 6356752.314245 * 6356752.314245 * Real.sin (40.719645 * (3.141592653 / 180))
            * Real.sin (40.719645 * (3.141592653 / 180)))) + 5)
        * Real.sin (40.719645 * (3.141592653 / 180)) := rfl
  rw [hx, hy, hz, neg_mul, Real.cos_neg, Real.sin_neg]
  exact ellipsoid_scenario_of_bounds trig_table_lat.1 trig_table_lat.2 trig_table_lon.1
    trig_table_lon.2

end Numbers

/-! ## Batch completeness and frame (C20) -/

section Frame

variable {T : Type}

/-- A loop over zero coordinates returns the state it was entered with. -/
theorem forLoop_zero {S : Type} (body : Nat → S → Option S) (s : S) :
    forLoop 0 body 0 s = some s := by
  rw [forLoop]
  simp

/-- Source points of an SoA buffer, for indices inside all three arrays. -/
theorem soa_points (src : CoordSoA T) (n : Nat) (t : T) (hx : n ≤ src.x.size)
    (hy : n ≤ src.y.size) (hz : n ≤ src.z.size) :
    ∃ pts : Nat → Coord T, ∀ i, i < n → src.x[i]? = some (pts i 0)
      ∧ src.y[i]? = some (pts i 1) ∧ src.z[i]? = some (pts i 2) := by
  refine ⟨fun i => ![(src.x[i]?).getD t, (src.y[i]?).getD t, (src.z[i]?).getD t], ?_⟩
  intro i hi
  have h0 : i < src.x.size := by omega
  have h1 : i < src.y.size := by omega
  have h2 : i < src.z.size := by omega
  simp [Array.getElem?_eq_getElem, h0, h1, h2]

/-- Source points of an AoS buffer, for indices inside the array. -/
theorem aos_points (src : Array (Coord T)) (n : Nat) (t : T) (hn : n ≤ src.size) :
    ∃ pts : Nat → Coord T, ∀ i, i < n → src[i]? = some (pts i) := by
  refine ⟨fun i => (src[i]?).getD (fun _ => t), ?_⟩
  intro i hi
  have h0 : i < src.size := by omega
  simp [Array.getElem?_eq_getElem, h0]

/-- A triple is determined by its three components. -/
theorem coord_ext {p q : Coord T} (h0 : p 0 = q 0) (h1 : p 1 = q 1) (h2 : p 2 = q 2) :
    p = q := by
  funext k
  fin_cases k
  · exact h0
  · exact h1
  · exact h2

/-- Frame of an SoA batch call, from the output characterisation of the driver. -/
theorem soa_frame (kernel : Coord T → Coord T) (n : Nat) (dst src out : CoordSoA T)
    (res : Option (CoordSoA T × CoordSoA T)) (pts : Nat → Coord T)
    (hpts : ∀ i, i < n → src.x[i]? = some (pts i 0) ∧ src.y[i]? = some (pts i 1)
      ∧ src.z[i]? = some (pts i 2))
    (hres : res = some (out, src))
    (hzero : n = 0 → res = some (dst, src))
    (hsize : out.x.size = dst.x.size ∧ out.y.size = dst.y.size ∧ out.z.size = dst.z.size)
    (gx : ∀ j, out.x[j]? = if j < n then some (kernel (pts j) 0) else dst.x[j]?)
    (gy : ∀ j, out.y[j]? = if j < n then some (kernel (pts j) 1) else dst.y[j]?)
    (gz : ∀ j, out.z[j]? = if j < n then some (kernel (pts j) 2) else dst.z[j]?) :
    ∃ out, res = some (out, src)
      ∧ (out.x.size = dst.x.size ∧ out.y.size = dst.y.size ∧ out.z.size = dst.z.size)
      ∧ (∀ j p, j < n → src.x[j]? = some (p 0) → src.y[j]? = some (p 1)
          → src.z[j]? = some (p 2)
          → out.x[j]? = some (kernel p 0) ∧ out.y[j]? = some (kernel p 1)
            ∧ out.z[j]? = some (kernel p 2))
      ∧ (∀ j, n ≤ j → out.x[j]? = dst.x[j]? ∧ out.y[j]? = dst.y[j]? ∧ out.z[j]? = dst.z[j]?)
      ∧ (n = 0 → out = dst) := by
  refine ⟨out, hres, hsize, ?_, ?_, ?_⟩
  · intro j p hj h0 h1 h2
    obtain ⟨e0, e1, e2⟩ := hpts j hj
    have hp : pts j = p := by
      apply coord_ext
      · exact Option.some.inj (e0.symm.trans h0)
      · exact Option.some.inj (e1.symm.trans h1)
      · exact Option.some.inj (e2.symm.trans h2)
    rw [gx j, gy j, gz j, if_pos hj, if_pos hj, if_pos hj, hp]
    exact ⟨rfl, rfl, rfl⟩
  · intro j hj
    have hnj : ¬ j < n := by omega
    rw [gx j, gy j, gz j, if_neg hnj, if_neg hnj, if_neg hnj]
    exact ⟨rfl, rfl, rfl⟩
  · intro h0
    have h := (hzero h0).symm.trans hres
    exact (Prod.mk.inj (Option.some.inj h)).1.symm

/-- Frame of an AoS batch call, from the output characterisation of the driver. -/
theorem aos_frame (kernel : Coord T → Coord T) (n : Nat) (dst src out : Array (Coord T))
    (res : Option (Array (Coord T) × Array (Coord T))) (pts : Nat → Coord T)
    (hpts : ∀ i, i < n → src[i]? = some (pts i))
    (hres : res = some (out, src))
    (hzero : n = 0 → res = some (dst, src))
    (hsize : out.size = dst.size)
    (g : ∀ j, out[j]? = if j < n then some (kernel (pts j)) else dst[j]?) :
    ∃ out, res = some (out, src) ∧ out.size = dst.size
      ∧ (∀ j p, j < n → src[j]? = some p → out[j]? = some (kernel p))
      ∧ (∀ j, n ≤ j → out[j]? = dst[j]?)
      ∧ (n = 0 → out = dst) := by
  refine ⟨out, hres, hsize, ?_, ?_, ?_⟩
  · intro j p hj h0
    have hp : pts j = p := Option.some.inj ((hpts j hj).symm.trans h0)
    rw [g j, if_pos hj, hp]
  · intro j hj
    have hnj : ¬ j < n := by omega
    rw [g j, if_neg hnj]
  · intro h0
    have h := (hzero h0).symm.trans hres
    exact (Prod.mk.inj (Option.some.inj h)).1.symm

end Frame

/-- The sphere `geodToECEFSoA` called with `numCoords = 0` returns the destination as it was. -/
theorem sphere_geodToECEFSoA_zero [Add T] [Mul T] [Scalar T] (dst src : CoordSoA T)
    (sphere : Sphere T) : Sphere.geodToECEFSoA dst src 0 sphere = some (dst, src) := by
  unfold Sphere.geodToECEFSoA
  dsimp only
  rw [forLoop_zero]
  rfl

/-- The sphere `geodToECEFAoS` called with `numCoords = 0` returns the destination as it was. -/
theorem sphere_geodToECEFAoS_zero [Add T] [Mul T] [Scalar T] (dst src : Array (Coord T))
    (sphere : Sphere T) : Sphere.geodToECEFAoS dst src 0 sphere = some (dst, src) := by
  unfold Sphere.geodToECEFAoS
  dsimp only
  rw [forLoop_zero]
  rfl

/-- The sphere `ecefToGeodSoA` called with `numCoords = 0` returns the destination as it was. -/
theorem sphere_ecefToGeodSoA_zero [Add T] [Sub T] [Mul T] [Div T] [Scalar T] (dst src : CoordSoA T)
    (sphere : Sphere T) : Sphere.ecefToGeodSoA dst src 0 sphere = some (dst, src) := by
  unfold Sphere.ecefToGeodSoA
  dsimp only
  rw [forLoop_zero]
  rfl

/-- The sphere `ecefToGeodAoS` called with `numCoords = 0` returns the destination as it was. -/
theorem sphere_ecefToGeodAoS_zero [Add T] [Sub T] [Mul T] [Div T] [Scalar T] (dst src : Array (Coord T))
    (sphere : Sphere T) : Sphere.ecefToGeodAoS dst src 0 sphere = some (dst, src) := by
  unfold Sphere.ecefToGeodAoS
  dsimp only
  rw [forLoop_zero]
  rfl

/-- The ellipsoid `geodToECEFSoA` called with `numCoords = 0` returns the destination as it was. -/
theorem ellipsoid_geodToECEFSoA_zero [Add T] [Mul T] [Div T] [Scalar T] (dst src : CoordSoA T)
    (ellipsoid : Ellipsoid T) : Ellipsoid.geodToECEFSoA dst src 0 ellipsoid = some (dst, src) := by
  unfold Ellipsoid.geodToECEFSoA
  dsimp only
  rw [forLoop_zero]
  rfl

/-- The ellipsoid `geodToECEFAoS` called with `numCoords = 0` returns the destination as it was. -/
theorem ellipsoid_geodToECEFAoS_zero [Add T] [Mul T] [Div T] [Scalar T] (dst src : Array (Coord T))
    (ellipsoid : Ellipsoid T) : Ellipsoid.geodToECEFAoS dst src 0 ellipsoid = some (dst, src) := by
  unfold Ellipsoid.geodToECEFAoS
  dsimp only
  rw [forLoop_zero]
  rfl

/-- The ellipsoid `ecefToGeodSoA` called with `numCoords = 0` returns the destination as it was. -/
theorem ellipsoid_ecefToGeodSoA_zero [Add T] [Sub T] [Mul T] [Div T] [OfScientific T] [Scalar T] (dst src : CoordSoA T)
    (ellipsoid : Ellipsoid T) : Ellipsoid.ecefToGeodSoA dst src 0 ellipsoid = some (dst, src) := by
  unfold Ellipsoid.ecefToGeodSoA
  dsimp only
  rw [forLoop_zero]
  rfl

/-- The ellipsoid `ecefToGeodAoS` called with `numCoords = 0` returns the destination as it was. -/
theorem ellipsoid_ecefToGeodAoS_zero [Add T] [Sub T] [Mul T] [Div T] [OfScientific T] [Scalar T] (dst src : Array (Coord T))
    (ellipsoid : Ellipsoid T) : Ellipsoid.ecefToGeodAoS dst src 0 ellipsoid = some (dst, src) := by
  unfold Ellipsoid.ecefToGeodAoS
  dsimp only
  rw [forLoop_zero]
  rfl

section FrameClaim

variable {T : Type} [Add T] [Sub T] [Mul T] [Div T] [OfScientific T] [Scalar T]

/-- C20.  Batch completeness and frame: each of the eight batch drivers (sphere/ellipsoid x
forward/inverse x SoA/AoS), called with `numCoords = n` not exceeding the length of the
source and destination sequences, completes; it writes the `n` outputs at indices
`0 .. n-1` (entry `j` is the scalar kernel on source element `j`), leaves every destination
entry at an index `≥ n` unchanged, keeps the destination length(s) unchanged and returns the
source as it was; with `n = 0` the destination is returned unchanged.  Each driver is paired
with its scalar kernel in the two lists. -/
theorem batch_frame (sphere : Sphere T) (ellipsoid : Ellipsoid T) (n : Nat)
    (dstSoA srcSoA : CoordSoA T) (dstAoS srcAoS : Array (Coord T)) (d : Coord T)
    (hsx : n ≤ srcSoA.x.size) (hsy : n ≤ srcSoA.y.size) (hsz : n ≤ srcSoA.z.size)
    (hdx : n ≤ dstSoA.x.size) (hdy : n ≤ dstSoA.y.size) (hdz : n ≤ dstSoA.z.size)
    (hs : n ≤ srcAoS.size) (hd : n ≤ dstAoS.size) :
    (∀ (res : Option (CoordSoA T × CoordSoA T)) (kernel : Coord T → Coord T),
        (res, kernel) ∈
          [(Sphere.geodToECEFSoA dstSoA srcSoA n sphere,
              fun p => (Sphere.geodToECEF d p sphere).1),
           (Sphere.ecefToGeodSoA dstSoA srcSoA n sphere,
              fun p => (Sphere.ecefToGeod d p sphere).1),
           (Ellipsoid.geodToECEFSoA dstSoA srcSoA n ellipsoid,
              fun p => (Ellipsoid.geodToECEF d p ellipsoid).1),
           (Ellipsoid.ecefToGeodSoA dstSoA srcSoA n ellipsoid,
              fun p => (Ellipsoid.ecefToGeod d p ellipsoid).1)] →
        ∃ out, res = some (out, srcSoA)
          ∧ (out.x.size = dstSoA.x.size ∧ out.y.size = dstSoA.y.size
            ∧ out.z.size = dstSoA.z.size)
          ∧ (∀ j p, j < n → srcSoA.x[j]? = some (p 0) → srcSoA.y[j]? = some (p 1)
              → srcSoA.z[j]? = some (p 2)
              → out.x[j]? = some (kernel p 0) ∧ out.y[j]? = some (kernel p 1)
                ∧ out.z[j]? = some (kernel p 2))
          ∧ (∀ j, n ≤ j → out.x[j]? = dstSoA.x[j]? ∧ out.y[j]? = dstSoA.y[j]?
              ∧ out.z[j]? = dstSoA.z[j]?)
          ∧ (n = 0 → out = dstSoA))
    ∧ (∀ (res : Option (Array (Coord T) × Array (Coord T))) (kernel : Coord T → Coord T),
        (res, kernel) ∈
          [(Sphere.geodToECEFAoS dstAoS srcAoS n sphere,
              fun p => (Sphere.geodToECEF d p sphere).1),
           (Sphere.ecefToGeodAoS dstAoS srcAoS n sphere,
              fun p => (Sphere.ecefToGeod d p sphere).1),
           (Ellipsoid.geodToECEFAoS dstAoS srcAoS n ellipsoid,
              fun p => (Ellipsoid.geodToECEF d p ellipsoid).1),
           (Ellipsoid.ecefToGeodAoS dstAoS srcAoS n ellipsoid,
              fun p => (Ellipsoid.ecefToGeod d p ellipsoid).1)] →
        ∃ out, res = some (out, srcAoS) ∧ out.size = dstAoS.size
          ∧ (∀ j p, j < n → srcAoS[j]? = some p → out[j]? = some (kernel p))
          ∧ (∀ j, n ≤ j → out[j]? = dstAoS[j]?)
          ∧ (n = 0 → out = dstAoS)) := by
  constructor
  · intro res kernel hmem
    simp only [List.mem_cons, List.mem_singleton, Prod.mk.injEq, List.mem_nil_iff,
      or_false] at hmem
    rcases hmem with ⟨rfl, rfl⟩ | ⟨rfl, rfl⟩ | ⟨rfl, rfl⟩ | ⟨rfl, rfl⟩
    · obtain ⟨pts, hpts⟩ := soa_points srcSoA n sphere.radius hsx hsy hsz
      obtain ⟨out, hS, sx, sy, sz, gx, gy, gz⟩ :=
        sphere_geodToECEFSoA_spec dstSoA srcSoA n sphere pts hpts hdx hdy hdz
      exact soa_frame _ n dstSoA srcSoA out _ pts hpts hS
        (fun h0 => by subst h0; exact sphere_geodToECEFSoA_zero dstSoA srcSoA sphere)
        ⟨sx, sy, sz⟩
        (fun j => by rw [gx j, sphere_geodToECEF_fst (pts j) d])
        (fun j => by rw [gy j, sphere_geodToECEF_fst (pts j) d])
        (fun j => by rw [gz j, sphere_geodToECEF_fst (pts j) d])
    · obtain ⟨pts, hpts⟩ := soa_points srcSoA n sphere.radius hsx hsy hsz
      obtain ⟨out, hS, sx, sy, sz, gx, gy, gz⟩ :=
        sphere_ecefToGeodSoA_spec dstSoA srcSoA n sphere pts hpts hdx hdy hdz
      exact soa_frame _ n dstSoA srcSoA out _ pts hpts hS
        (fun h0 => by subst h0; exact sphere_ecefToGeodSoA_zero dstSoA srcSoA sphere)
        ⟨sx, sy, sz⟩
        (fun j => by rw [gx j, sphere_ecefToGeod_fst (pts j) d])
        (fun j => by rw [gy j, sphere_ecefToGeod_fst (pts j) d])
        (fun j => by rw [gz j, sphere_ecefToGeod_fst (pts j) d])
    · obtain ⟨pts, hpts⟩ := soa_points srcSoA n sphere.radius hsx hsy hsz
      obtain ⟨out, hS, sx, sy, sz, gx, gy, gz⟩ :=
        ellipsoid_geodToECEFSoA_spec dstSoA srcSoA n ellipsoid pts hpts hdx hdy hdz
      exact soa_frame _ n dstSoA srcSoA out _ pts hpts hS
        (fun h0 => by subst h0; exact ellipsoid_geodToECEFSoA_zero dstSoA srcSoA ellipsoid)
        ⟨sx, sy, sz⟩
        (fun j => by rw [gx j, ellipsoid_geodToECEF_fst (pts j) d])
        (fun j => by rw [gy j, ellipsoid_geodToECEF_fst (pts j) d])
        (fun j => by rw [gz j, ellipsoid_geodToECEF_fst (pts j) d])
    · obtain ⟨pts, hpts⟩ := soa_points srcSoA n sphere.radius hsx hsy hsz
      obtain ⟨out, hS, sx, sy, sz, gx, gy, gz⟩ :=
        ellipsoid_ecefToGeodSoA_spec dstSoA srcSoA n ellipsoid pts hpts hdx hdy hdz
      exact soa_frame _ n dstSoA srcSoA out _ pts hpts hS
        (fun h0 => by subst h0; exact ellipsoid_ecefToGeodSoA_zero dstSoA srcSoA ellipsoid)
        ⟨sx, sy, sz⟩
        (fun j => by rw [gx j, ellipsoid_ecefToGeod_fst (pts j) d])
        (fun j => by rw [gy j, ellipsoid_ecefToGeod_fst (pts j) d])
        (fun j => by rw [gz j, ellipsoid_ecefToGeod_fst (pts j) d])
  · intro res kernel hmem
    simp only [List.mem_cons, List.mem_singleton, Prod.mk.injEq, List.mem_nil_iff,
      or_false] at hmem
    rcases hmem with ⟨rfl, rfl⟩ | ⟨rfl, rfl⟩ | ⟨rfl, rfl⟩ | ⟨rfl, rfl⟩
    · obtain ⟨pts, hpts⟩ := aos_points srcAoS n sphere.radius hs
      obtain ⟨out, hA, hsize, g⟩ := sphere_geodToECEFAoS_spec dstAoS srcAoS n sphere pts hpts hd
      exact aos_frame _ n dstAoS srcAoS out _ pts hpts hA
        (fun h0 => by subst h0; exact sphere_geodToECEFAoS_zero dstAoS srcAoS sphere)
        hsize (fun j => by rw [g j, sphere_geodToECEF_fst (pts j) d])
    · obtain ⟨pts, hpts⟩ := aos_points srcAoS n sphere.radius hs
      obtain ⟨out, hA, hsize, g⟩ := sphere_ecefToGeodAoS_spec dstAoS srcAoS n sphere pts hpts hd
      exact aos_frame _ n dstAoS srcAoS out _ pts hpts hA
        (fun h0 => by subst h0; exact sphere_ecefToGeodAoS_zero dstAoS srcAoS sphere)
        hsize (fun j => by rw [g j, sphere_ecefToGeod_fst (pts j) d])
    · obtain ⟨pts, hpts⟩ := aos_points srcAoS n sphere.radius hs
      obtain ⟨out, hA, hsize, g⟩ := ellipsoid_geodToECEFAoS_spec dstAoS srcAoS n ellipsoid pts hpts hd
      exact aos_frame _ n dstAoS srcAoS out _ pts hpts hA
        (fun h0 => by subst h0; exact ellipsoid_geodToECEFAoS_zero dstAoS srcAoS ellipsoid)
        hsize (fun j => by rw [g j, ellipsoid_geodToECEF_fst (pts j) d])
    · obtain ⟨pts, hpts⟩ := aos_points srcAoS n sphere.radius hs
      obtain ⟨out, hA, hsize, g⟩ := ellipsoid_ecefToGeodAoS_spec dstAoS srcAoS n ellipsoid pts hpts hd
      exact aos_frame _ n dstAoS srcAoS out _ pts hpts hA
        (fun h0 => by subst h0; exact ellipsoid_ecefToGeodAoS_zero dstAoS srcAoS ellipsoid)
        hsize (fun j => by rw [g j, ellipsoid_ecefToGeod_fst (pts j) d])

end FrameClaim

/-- C20, witness over the reals: one source triple `(1, 2, 3)`, destinations of two entries,
`numCoords = 1`, sphere of radius `6378137`, ellipsoid with axes `2` and `1`. -/
theorem batch_frame_witness :
    (∀ (res : Option (CoordSoA ℝ × CoordSoA ℝ)) (kernel : Coord ℝ → Coord ℝ),
        (res, kernel) ∈
          [(Sphere.geodToECEFSoA (⟨#[0, 7], #[0, 8], #[0, 9]⟩ : CoordSoA ℝ) (⟨#[1], #[2], #[3]⟩ : CoordSoA ℝ) 1 (⟨6378137⟩ : Sphere ℝ),
              fun p => (Sphere.geodToECEF ![0, 0, 0] p (⟨6378137⟩ : Sphere ℝ)).1),
           (Sphere.ecefToGeodSoA (⟨#[0, 7], #[0, 8], #[0, 9]⟩ : CoordSoA ℝ) (⟨#[1], #[2], #[3]⟩ : CoordSoA ℝ) 1 (⟨6378137⟩ : Sphere ℝ),
              fun p => (Sphere.ecefToGeod ![0, 0, 0] p (⟨6378137⟩ : Sphere ℝ)).1),
           (Ellipsoid.geodToECEFSoA (⟨#[0, 7], #[0, 8], #[0, 9]⟩ : CoordSoA ℝ) (⟨#[1], #[2], #[3]⟩ : CoordSoA ℝ) 1 (⟨2, 1⟩ : Ellipsoid ℝ),
              fun p => (Ellipsoid.geodToECEF ![0, 0, 0] p (⟨2, 1⟩ : Ellipsoid ℝ)).1),
           (Ellipsoid.ecefToGeodSoA (⟨#[0, 7], #[0, 8], #[0, 9]⟩ : CoordSoA ℝ) (⟨#[1], #[2], #[3]⟩ : CoordSoA ℝ) 1 (⟨2, 1⟩ : Ellipsoid ℝ),
              fun p => (Ellipsoid.ecefToGeod ![0, 0, 0] p (⟨2, 1⟩ : Ellipsoid ℝ)).1)] →
        ∃ out, res = some (out, (⟨#[1], #[2], #[3]⟩ : CoordSoA ℝ))
          ∧ (out.x.size = (⟨#[0, 7], #[0, 8], #[0, 9]⟩ : CoordSoA ℝ).x.size ∧ out.y.size = (⟨#[0, 7], #[0, 8], #[0, 9]⟩ : CoordSoA ℝ).y.size
            ∧ out.z.size = (⟨#[0, 7], #[0, 8], #[0, 9]⟩ : CoordSoA ℝ).z.size)
          ∧ (∀ j p, j < 1 → (⟨#[1], #[2], #[3]⟩ : CoordSoA ℝ).x[j]? = some (p 0) → (⟨#[1], #[2], #[3]⟩ : CoordSoA ℝ).y[j]? = some (p 1)
              → (⟨#[1], #[2], #[3]⟩ : CoordSoA ℝ).z[j]? = some (p 2)
              → out.x[j]? = some (kernel p 0) ∧ out.y[j]? = some (kernel p 1)
                ∧ out.z[j]? = some (kernel p 2))
          ∧ (∀ j, 1 ≤ j → out.x[j]? = (⟨#[0, 7], #[0, 8], #[0, 9]⟩ : CoordSoA ℝ).x[j]? ∧ out.y[j]? = (⟨#[0, 7], #[0, 8], #[0, 9]⟩ : CoordSoA ℝ).y[j]?
              ∧ out.z[j]? = (⟨#[0, 7], #[0, 8], #[0, 9]⟩ : CoordSoA ℝ).z[j]?)
          ∧ (1 = 0 → out = (⟨#[0, 7], #[0, 8], #[0, 9]⟩ : CoordSoA ℝ)))
    ∧ (∀ (res : Option (Array (Coord ℝ) × Array (Coord ℝ))) (kernel : Coord ℝ → Coord ℝ),
        (res, kernel) ∈
          [(Sphere.geodToECEFAoS (#[![0, 0, 0], ![7, 8, 9]] : Array (Coord ℝ)) (#[![1, 2, 3]] : Array (Coord ℝ)) 1 (⟨6378137⟩ : Sphere ℝ),
              fun p => (Sphere.geodToECEF ![0, 0, 0] p (⟨6378137⟩ : Sphere ℝ)).1),
           (Sphere.ecefToGeodAoS (#[![0, 0, 0], ![7, 8, 9]] : Array (Coord ℝ)) (#[![1, 2, 3]] : Array (Coord ℝ)) 1 (⟨6378137⟩ : Sphere ℝ),
              fun p => (Sphere.ecefToGeod ![0, 0, 0] p (⟨6378137⟩ : Sphere ℝ)).1),
           (Ellipsoid.geodToECEFAoS (#[![0, 0, 0], ![7, 8, 9]] : Array (Coord ℝ)) (#[![1, 2, 3]] : Array (Coord ℝ)) 1 (⟨2, 1⟩ : Ellipsoid ℝ),
              fun p => (Ellipsoid.geodToECEF ![0, 0, 0] p (⟨2, 1⟩ : Ellipsoid ℝ)).1),
           (Ellipsoid.ecefToGeodAoS (#[![0, 0, 0], ![7, 8, 9]] : Array (Coord ℝ)) (#[![1, 2, 3]] : Array (Coord ℝ)) 1 (⟨2, 1⟩ : Ellipsoid ℝ),
              fun p => (Ellipsoid.ecefToGeod ![0, 0, 0] p (⟨2, 1⟩ : Ellipsoid ℝ)).1)] →
        ∃ out, res = some (out, (#[![1, 2, 3]] : Array (Coord ℝ))) ∧ out.size = (#[![0, 0, 0], ![7, 8, 9]] : Array (Coord ℝ)).size
          ∧ (∀ j p, j < 1 → (#[![1, 2, 3]] : Array (Coord ℝ))[j]? = some p → out[j]? = some (kernel p))
          ∧ (∀ j, 1 ≤ j → out[j]? = (#[![0, 0, 0], ![7, 8, 9]] : Array (Coord ℝ))[j]?)
          ∧ (1 = 0 → out = (#[![0, 0, 0], ![7, 8, 9]] : Array (Coord ℝ)))) :=
  batch_frame ⟨6378137⟩ ⟨2, 1⟩ 1 ⟨#[0, 7], #[0, 8], #[0, 9]⟩ ⟨#[1], #[2], #[3]⟩
    #[![0, 0, 0], ![7, 8, 9]] #[![1, 2, 3]] ![0, 0, 0]
    (by simp) (by simp) (by simp) (by simp) (by simp) (by simp) (by simp) (by simp)

/-! ## Element independence of the batch drivers (C21) -/

section Independence

variable {T : Type}

/-- Two SoA batch outputs agree at an index where the two sources agree, from the output
characterisations of the two calls. -/
theorem soa_independence (kernel : Coord T → Coord T) (n i : Nat) (hi : i < n)
    (dstA dstB srcA srcB outA outB : CoordSoA T) (ptsA ptsB : Nat → Coord T)
    (hA : ∀ i, i < n → srcA.x[i]? = some (ptsA i 0) ∧ srcA.y[i]? = some (ptsA i 1)
      ∧ srcA.z[i]? = some (ptsA i 2))
    (hB : ∀ i, i < n → srcB.x[i]? = some (ptsB i 0) ∧ srcB.y[i]? = some (ptsB i 1)
      ∧ srcB.z[i]? = some (ptsB i 2))
    (hagree : srcA.x[i]? = srcB.x[i]? ∧ srcA.y[i]? = srcB.y[i]? ∧ srcA.z[i]? = srcB.z[i]?)
    (gxA : ∀ j, outA.x[j]? = if j < n then some (kernel (ptsA j) 0) else dstA.x[j]?)
    (gyA : ∀ j, outA.y[j]? = if j < n then some (kernel (ptsA j) 1) else dstA.y[j]?)
    (gzA : ∀ j, outA.z[j]? = if j < n then some (kernel (ptsA j) 2) else dstA.z[j]?)
    (gxB : ∀ j, outB.x[j]? = if j < n then some (kernel (ptsB j) 0) else dstB.x[j]?)
    (gyB : ∀ j, outB.y[j]? = if j < n then some (kernel (ptsB j) 1) else dstB.y[j]?)
    (gzB : ∀ j, outB.z[j]? = if j < n then some (kernel (ptsB j) 2) else dstB.z[j]?) :
    ∃ q : Coord T,
      (outA.x[i]? = some (q 0) ∧ outA.y[i]? = some (q 1) ∧ outA.z[i]? = some (q 2))
      ∧ (outB.x[i]? = some (q 0) ∧ outB.y[i]? = some (q 1) ∧ outB.z[i]? = some (q 2)) := by
  obtain ⟨a0, a1, a2⟩ := hA i hi
  obtain ⟨b0, b1, b2⟩ := hB i hi
  have hp : ptsB i = ptsA i := by
    apply coord_ext
    · exact Option.some.inj (b0.symm.trans (hagree.1.symm.trans a0))
    · exact Option.some.inj (b1.symm.trans (hagree.2.1.symm.trans a1))
    · exact Option.some.inj (b2.symm.trans (hagree.2.2.symm.trans a2))
  refine ⟨kernel (ptsA i), ⟨?_, ?_, ?_⟩, ⟨?_, ?_, ?_⟩⟩
  · rw [gxA i, if_pos hi]
  · rw [gyA i, if_pos hi]
  · rw [gzA i, if_pos hi]
  · rw [gxB i, if_pos hi, hp]
  · rw [gyB i, if_pos hi, hp]
  · rw [gzB i, if_pos hi, hp]

/-- Two AoS batch outputs agree at an index where the two sources agree, from the output
characterisations of the two calls. -/
theorem aos_independence (kernel : Coord T → Coord T) (n i : Nat) (hi : i < n)
    (dstA dstB srcA srcB outA outB : Array (Coord T)) (ptsA ptsB : Nat → Coord T)
    (hA : ∀ i, i < n → srcA[i]? = some (ptsA i))
    (hB : ∀ i, i < n → srcB[i]? = some (ptsB i))
    (hagree : srcA[i]? = srcB[i]?)
    (gA : ∀ j, outA[j]? = if j < n then some (kernel (ptsA j)) else dstA[j]?)
    (gB : ∀ j, outB[j]? = if j < n then some (kernel (ptsB j)) else dstB[j]?) :
    ∃ q : Coord T, outA[i]? = some q ∧ outB[i]? = some q := by
  have hp : ptsB i = ptsA i :=
    Option.some.inj ((hB i hi).symm.trans (hagree.symm.trans (hA i hi)))
  refine ⟨kernel (ptsA i), ?_, ?_⟩
  · rw [gA i, if_pos hi]
  · rw [gB i, if_pos hi, hp]

end Independence

section IndependenceClaim

variable {T : Type} [Add T] [Sub T] [Mul T] [Div T] [OfScientific T] [Scalar T]

/-- C21.  Batch element independence: for each of the eight batch drivers, each body value
and every index `i < numCoords`, output element `i` depends only on source element `i` and
the body parameters.  Two calls with the same `numCoords = n` (not exceeding the lengths of
the sequences) on two sources that agree at index `i`, whatever their other elements and
whatever the two destinations held, both complete and leave the same value at index `i` of
their outputs. -/
theorem batch_element_independence (sphere : Sphere T) (ellipsoid : Ellipsoid T) (n i : Nat)
    (dstA dstB srcA srcB : CoordSoA T) (dA dB sA sB : Array (Coord T)) (hi : i < n)
    (hsA : n ≤ srcA.x.size ∧ n ≤ srcA.y.size ∧ n ≤ srcA.z.size)
    (hsB : n ≤ srcB.x.size ∧ n ≤ srcB.y.size ∧ n ≤ srcB.z.size)
    (hdA : n ≤ dstA.x.size ∧ n ≤ dstA.y.size ∧ n ≤ dstA.z.size)
    (hdB : n ≤ dstB.x.size ∧ n ≤ dstB.y.size ∧ n ≤ dstB.z.size)
    (hagree : srcA.x[i]? = srcB.x[i]? ∧ srcA.y[i]? = srcB.y[i]? ∧ srcA.z[i]? = srcB.z[i]?)
    (hs : n ≤ sA.size ∧ n ≤ sB.size) (hd : n ≤ dA.size ∧ n ≤ dB.size)
    (hagreeAoS : sA[i]? = sB[i]?) :
    (∀ f : CoordSoA T → CoordSoA T → Option (CoordSoA T × CoordSoA T),
        f ∈
          [fun dst src => Sphere.geodToECEFSoA dst src n sphere,
           fun dst src => Sphere.ecefToGeodSoA dst src n sphere,
           fun dst src => Ellipsoid.geodToECEFSoA dst src n ellipsoid,
           fun dst src => Ellipsoid.ecefToGeodSoA dst src n ellipsoid] →
        ∃ (outA outB : CoordSoA T) (q : Coord T),
          f dstA srcA = some (outA, srcA) ∧ f dstB srcB = some (outB, srcB)
          ∧ (outA.x[i]? = some (q 0) ∧ outA.y[i]? = some (q 1) ∧ outA.z[i]? = some (q 2))
          ∧ (outB.x[i]? = some (q 0) ∧ outB.y[i]? = some (q 1) ∧ outB.z[i]? = some (q 2)))
    ∧ (∀ f : Array (Coord T) → Array (Coord T)
          → Option (Array (Coord T) × Array (Coord T)),
        f ∈
          [fun dst src => Sphere.geodToECEFAoS dst src n sphere,
           fun dst src => Sphere.ecefToGeodAoS dst src n sphere,
           fun dst src => Ellipsoid.geodToECEFAoS dst src n ellipsoid,
           fun dst src => Ellipsoid.ecefToGeodAoS dst src n ellipsoid] →
        ∃ (outA outB : Array (Coord T)) (q : Coord T),
          f dA sA = some (outA, sA) ∧ f dB sB = some (outB, sB)
          ∧ outA[i]? = some q ∧ outB[i]? = some q) := by
  constructor
  · intro f hmem
    obtain ⟨ptsA, hA⟩ := soa_points srcA n sphere.radius hsA.1 hsA.2.1 hsA.2.2
    obtain ⟨ptsB, hB⟩ := soa_points srcB n sphere.radius hsB.1 hsB.2.1 hsB.2.2
    simp only [List.mem_cons, List.mem_singleton, List.mem_nil_iff, or_false] at hmem
    rcases hmem with rfl | rfl | rfl | rfl
    · obtain ⟨outA, hrA, -, -, -, gxA, gyA, gzA⟩ :=
        sphere_geodToECEFSoA_spec dstA srcA n sphere ptsA hA hdA.1 hdA.2.1 hdA.2.2
      obtain ⟨outB, hrB, -, -, -, gxB, gyB, gzB⟩ :=
        sphere_geodToECEFSoA_spec dstB srcB n sphere ptsB hB hdB.1 hdB.2.1 hdB.2.2
      obtain ⟨q, hqA, hqB⟩ := soa_independence (fun p => (Sphere.geodToECEF p p sphere).1) n i hi
        dstA dstB srcA srcB outA outB ptsA ptsB hA hB hagree gxA gyA gzA gxB gyB gzB
      exact ⟨outA, outB, q, hrA, hrB, hqA, hqB⟩
    · obtain ⟨outA, hrA, -, -, -, gxA, gyA, gzA⟩ :=
        sphere_ecefToGeodSoA_spec dstA srcA n sphere ptsA hA hdA.1 hdA.2.1 hdA.2.2
      obtain ⟨outB, hrB, -, -, -, gxB, gyB, gzB⟩ :=
        sphere_ecefToGeodSoA_spec dstB srcB n sphere ptsB hB hdB.1 hdB.2.1 hdB.2.2
      obtain ⟨q, hqA, hqB⟩ := soa_independence (fun p => (Sphere.ecefToGeod p p sphere).1) n i hi
        dstA dstB srcA srcB outA outB ptsA ptsB hA hB hagree gxA gyA gzA gxB gyB gzB
      exact ⟨outA, outB, q, hrA, hrB, hqA, hqB⟩
    · obtain ⟨outA, hrA, -, -, -, gxA, gyA, gzA⟩ :=
        ellipsoid_geodToECEFSoA_spec dstA srcA n ellipsoid ptsA hA hdA.1 hdA.2.1 hdA.2.2
      obtain ⟨outB, hrB, -, -, -, gxB, gyB, gzB⟩ :=
        ellipsoid_geodToECEFSoA_spec dstB srcB n ellipsoid ptsB hB hdB.1 hdB.2.1 hdB.2.2
      obtain ⟨q, hqA, hqB⟩ := soa_independence (fun p => (Ellipsoid.geodToECEF p p ellipsoid).1) n i hi
        dstA dstB srcA srcB outA outB ptsA ptsB hA hB hagree gxA gyA gzA gxB gyB gzB
      exact ⟨outA, outB, q, hrA, hrB, hqA, hqB⟩
    · obtain ⟨outA, hrA, -, -, -, gxA, gyA, gzA⟩ :=
        ellipsoid_ecefToGeodSoA_spec dstA srcA n ellipsoid ptsA hA hdA.1 hdA.2.1 hdA.2.2
      obtain ⟨outB, hrB, -, -, -, gxB, gyB, gzB⟩ :=
        ellipsoid_ecefToGeodSoA_spec dstB srcB n ellipsoid ptsB hB hdB.1 hdB.2.1 hdB.2.2
      obtain ⟨q, hqA, hqB⟩ := soa_independence (fun p => (Ellipsoid.ecefToGeod p p ellipsoid).1) n i hi
        dstA dstB srcA srcB outA outB ptsA ptsB hA hB hagree gxA gyA gzA gxB gyB gzB
      exact ⟨outA, outB, q, hrA, hrB, hqA, hqB⟩
  · intro f hmem
    obtain ⟨ptsA, hA⟩ := aos_points sA n sphere.radius hs.1
    obtain ⟨ptsB, hB⟩ := aos_points sB n sphere.radius hs.2
    simp only [List.mem_cons, List.mem_singleton, List.mem_nil_iff, or_false] at hmem
    rcases hmem with rfl | rfl | rfl | rfl
    · obtain ⟨outA, hrA, -, gA⟩ := sphere_geodToECEFAoS_spec dA sA n sphere ptsA hA hd.1
      obtain ⟨outB, hrB, -, gB⟩ := sphere_geodToECEFAoS_spec dB sB n sphere ptsB hB hd.2
      obtain ⟨q, hqA, hqB⟩ := aos_independence (fun p => (Sphere.geodToECEF p p sphere).1) n i hi
        dA dB sA sB outA outB ptsA ptsB hA hB hagreeAoS gA gB
      exact ⟨outA, outB, q, hrA, hrB, hqA, hqB⟩
    · obtain ⟨outA, hrA, -, gA⟩ := sphere_ecefToGeodAoS_spec dA sA n sphere ptsA hA hd.1
      obtain ⟨outB, hrB, -, gB⟩ := sphere_ecefToGeodAoS_spec dB sB n sphere ptsB hB hd.2
      obtain ⟨q, hqA, hqB⟩ := aos_independence (fun p => (Sphere.ecefToGeod p p sphere).1) n i hi
        dA dB sA sB outA outB ptsA ptsB hA hB hagreeAoS gA gB
      exact ⟨outA, outB, q, hrA, hrB, hqA, hqB⟩
    · obtain ⟨outA, hrA, -, gA⟩ := ellipsoid_geodToECEFAoS_spec dA sA n ellipsoid ptsA hA hd.1
      obtain ⟨outB, hrB, -, gB⟩ := ellipsoid_geodToECEFAoS_spec dB sB n ellipsoid ptsB hB hd.2
      obtain ⟨q, hqA, hqB⟩ := aos_independence (fun p => (Ellipsoid.geodToECEF p p ellipsoid).1) n i hi
        dA dB sA sB outA outB ptsA ptsB hA hB hagreeAoS gA gB
      exact ⟨outA, outB, q, hrA, hrB, hqA, hqB⟩
    · obtain ⟨outA, hrA, -, gA⟩ := ellipsoid_ecefToGeodAoS_spec dA sA n ellipsoid ptsA hA hd.1
      obtain ⟨outB, hrB, -, gB⟩ := ellipsoid_ecefToGeodAoS_spec dB sB n ellipsoid ptsB hB hd.2
      obtain ⟨q, hqA, hqB⟩ := aos_independence (fun p => (Ellipsoid.ecefToGeod p p ellipsoid).1) n i hi
        dA dB sA sB outA outB ptsA ptsB hA hB hagreeAoS gA gB
      exact ⟨outA, outB, q, hrA, hrB, hqA, hqB⟩

end IndependenceClaim

/-- C21, witness over the reals: two sources of two triples that agree at index `0` only,
two different destinations, `numCoords = 2`, sphere of radius `6378137`, ellipsoid with axes
`2` and `1`. -/
theorem batch_element_independence_witness :
    (∀ f : CoordSoA ℝ → CoordSoA ℝ → Option (CoordSoA ℝ × CoordSoA ℝ),
        f ∈
          [fun dst src => Sphere.geodToECEFSoA dst src 2 (⟨6378137⟩ : Sphere ℝ),
           fun dst src => Sphere.ecefToGeodSoA dst src 2 (⟨6378137⟩ : Sphere ℝ),
           fun dst src => Ellipsoid.geodToECEFSoA dst src 2 (⟨2, 1⟩ : Ellipsoid ℝ),
           fun dst src => Ellipsoid.ecefToGeodSoA dst src 2 (⟨2, 1⟩ : Ellipsoid ℝ)] →
        ∃ (outA outB : CoordSoA ℝ) (q : Coord ℝ),
          f (⟨#[0, 0], #[0, 0], #[0, 0]⟩ : CoordSoA ℝ) (⟨#[1, 5], #[2, 6], #[3, 7]⟩ : CoordSoA ℝ) = some (outA, (⟨#[1, 5], #[2, 6], #[3, 7]⟩ : CoordSoA ℝ)) ∧ f (⟨#[7, 7, 7], #[8, 8, 8], #[9, 9, 9]⟩ : CoordSoA ℝ) (⟨#[1, 8], #[2, 9], #[3, 4]⟩ : CoordSoA ℝ) = some (outB, (⟨#[1, 8], #[2, 9], #[3, 4]⟩ : CoordSoA ℝ))
          ∧ (outA.x[0]? = some (q 0) ∧ outA.y[0]? = some (q 1) ∧ outA.z[0]? = some (q 2))
          ∧ (outB.x[0]? = some (q 0) ∧ outB.y[0]? = some (q 1) ∧ outB.z[0]? = some (q 2)))
    ∧ (∀ f : Array (Coord ℝ) → Array (Coord ℝ)
          → Option (Array (Coord ℝ) × Array (Coord ℝ)),
        f ∈
          [fun dst src => Sphere.geodToECEFAoS dst src 2 (⟨6378137⟩ : Sphere ℝ),
           fun dst src => Sphere.ecefToGeodAoS dst src 2 (⟨6378137⟩ : Sphere ℝ),
           fun dst src => Ellipsoid.geodToECEFAoS dst src 2 (⟨2, 1⟩ : Ellipsoid ℝ),
           fun dst src => Ellipsoid.ecefToGeodAoS dst src 2 (⟨2, 1⟩ : Ellipsoid ℝ)] →
        ∃ (outA outB : Array (Coord ℝ)) (q : Coord ℝ),
          f (#[![0, 0, 0], ![0, 0, 0]] : Array (Coord ℝ)) (#[![1, 2, 3], ![5, 6, 7]] : Array (Coord ℝ)) = some (outA, (#[![1, 2, 3], ![5, 6, 7]] : Array (Coord ℝ))) ∧ f (#[![7, 8, 9], ![7, 8, 9], ![7, 8, 9]] : Array (Coord ℝ)) (#[![1, 2, 3], ![8, 9, 4]] : Array (Coord ℝ)) = some (outB, (#[![1, 2, 3], ![8, 9, 4]] : Array (Coord ℝ)))
          ∧ outA[0]? = some q ∧ outB[0]? = some q) :=
  batch_element_independence ⟨6378137⟩ ⟨2, 1⟩ 2 0
    ⟨#[0, 0], #[0, 0], #[0, 0]⟩ ⟨#[7, 7, 7], #[8, 8, 8], #[9, 9, 9]⟩
    ⟨#[1, 5], #[2, 6], #[3, 7]⟩ ⟨#[1, 8], #[2, 9], #[3, 4]⟩
    #[![0, 0, 0], ![0, 0, 0]] #[![7, 8, 9], ![7, 8, 9], ![7, 8, 9]]
    #[![1, 2, 3], ![5, 6, 7]] #[![1, 2, 3], ![8, 9, 4]]
    (by decide) (by simp) (by simp) (by simp) (by simp) (by simp) (by simp) (by simp) (by simp)

/-! ## Eccentricities (C22) -/

section Eccentricities

open Real

/-- The in-place ellipsoid inverse kernel in terms of the pair computed by its first
statements, at every scalar type. -/
theorem ellipsoid_inverse_of_eccentricities {T : Type} [Add T] [Sub T] [Mul T] [Div T]
    [OfScientific T] [Scalar T] (a b x y z p θ lat : T)
    (hp : p = Scalar.sqrt (x * x + y * y)) (hθ : θ = Scalar.atan2 (z * a) (p * b))
    (hlat : lat = Scalar.atan2
      (z + (Ellipsoid.eccentricities ⟨a, b⟩).2 * b
        * (Scalar.sin θ * Scalar.sin θ * Scalar.sin θ))
      (p - (Ellipsoid.eccentricities ⟨a, b⟩).1 * a
        * (Scalar.cos θ * Scalar.cos θ * Scalar.cos θ))) :
    Ellipsoid.ecefToGeodInPlace ![x, y, z] ⟨a, b⟩
      = ![Scalar.atan2 y x, lat,
          p / Scalar.cos lat - a / Scalar.sqrt
            (1.0 - (Ellipsoid.eccentricities ⟨a, b⟩).1 * Scalar.sin lat * Scalar.sin lat)] := by
  subst hp hθ hlat
  funext k
  fin_cases k <;> rfl

/-- The squared eccentricities in exact real arithmetic: for `a ≥ b > 0` the pair computed
by the first statements of the ellipsoid inverse kernel is
`((a² - b²) / a², (a² - b²) / b²)`. -/
theorem eccentricities_real (a b : ℝ) (hab : b ≤ a) (hb : 0 < b) :
    Ellipsoid.eccentricities ⟨a, b⟩ = ((a ^ 2 - b ^ 2) / a ^ 2, (a ^ 2 - b ^ 2) / b ^ 2) := by
  have h1 : (Ellipsoid.eccentricities ⟨a, b⟩).1 = (a ^ 2 - b ^ 2) / a ^ 2 := by
    show √((a * a - b * b) / (a * a)) * √((a * a - b * b) / (a * a)) = _
    rw [e2_eq hab hb]; ring
  have h2 : (Ellipsoid.eccentricities ⟨a, b⟩).2 = (a ^ 2 - b ^ 2) / b ^ 2 := by
    show √((a * a - b * b) / (b * b)) * √((a * a - b * b) / (b * b)) = _
    rw [ep2_eq hab hb]; ring
  exact Prod.ext h1 h2

/-- C22, counterexample.  In binary64, (i) for the positive axes `a = 2`, `b = 1` the squared
eccentricities the kernel computes are `e2 = 6755399441055743 * 2 ^ (-53)` and
`e'2 = 6755399441055743 * 2 ^ (-51)`, one unit in the last place below the quotients
`(a*a - b*b) / (a*a) = 0.75 = 6755399441055744 * 2 ^ (-53)` and `(a*a - b*b) / (b*b) = 3`;
(ii) for the positive axes `a = 1 < b = 2` both are NaN, the square of the square root of a
negative number, while the quotients are `-3` and `-0.75`. -/
theorem eccentricities_binary64_fail :
    (Ellipsoid.eccentricities (⟨Binary64.finite 2, Binary64.finite 1⟩ : Ellipsoid Binary64)
        = (Binary64.finite (6755399441055743 * 2 ^ (-53 : ℤ)),
          Binary64.finite (6755399441055743 * 2 ^ (-51 : ℤ)))
      ∧ (Binary64.finite 2 * Binary64.finite 2 - Binary64.finite 1 * Binary64.finite 1)
          / (Binary64.finite 2 * Binary64.finite 2) = Binary64.finite 0.75
      ∧ (Binary64.finite 2 * Binary64.finite 2 - Binary64.finite 1 * Binary64.finite 1)
          / (Binary64.finite 1 * Binary64.finite 1) = Binary64.finite 3
      ∧ (6755399441055743 * 2 ^ (-53 : ℤ) : ℝ) < 0.75
      ∧ (6755399441055743 * 2 ^ (-51 : ℤ) : ℝ) < 3)
    ∧ Ellipsoid.eccentricities (⟨Binary64.finite 1, Binary64.finite 2⟩ : Ellipsoid Binary64)
        = (Binary64.nonfinite, Binary64.nonfinite) := by
  obtain ⟨h1, h2, h3⟩ := binary64_eccentricities_2_1
  exact ⟨⟨h1, h2, h3, by norm_num, by norm_num⟩, binary64_eccentricities_1_2⟩

/-- C22, amended.  Eccentricities: at every scalar type and for every pair of axes, the
squared eccentricities that the ellipsoid `ecefToGeod` uses in its latitude and altitude
formulas are the squares of the computed square roots, `e2 = e e` with
`e = sqrt ((a² - b²) / a²)` and `e'2 = e' e'` with `e' = sqrt ((a² - b²) / b²)`: the pair
computed by the first statements of the kernel has these values, and the kernel output is
the closed form in that pair.  In exact real arithmetic and for `a ≥ b > 0` the pair is
`e2 = (a² - b²) / a²` and `e'2 = (a² - b²) / b²`. -/
theorem eccentricities_eq {T : Type} [Add T] [Sub T] [Mul T] [Div T] [OfScientific T]
    [Scalar T] (a b : T) (ar br : ℝ) (hab : br ≤ ar) (hb : 0 < br) :
    (Ellipsoid.eccentricities ⟨a, b⟩
        = (Scalar.sqrt ((a * a - b * b) / (a * a)) * Scalar.sqrt ((a * a - b * b) / (a * a)),
          Scalar.sqrt ((a * a - b * b) / (b * b)) * Scalar.sqrt ((a * a - b * b) / (b * b)))
      ∧ ∀ x y z p θ lat : T, p = Scalar.sqrt (x * x + y * y) →
        θ = Scalar.atan2 (z * a) (p * b) →
        lat = Scalar.atan2
          (z + (Ellipsoid.eccentricities ⟨a, b⟩).2 * b
            * (Scalar.sin θ * Scalar.sin θ * Scalar.sin θ))
          (p - (Ellipsoid.eccentricities ⟨a, b⟩).1 * a
            * (Scalar.cos θ * Scalar.cos θ * Scalar.cos θ)) →
        Ellipsoid.ecefToGeodInPlace ![x, y, z] ⟨a, b⟩
          = ![Scalar.atan2 y x, lat,
              p / Scalar.cos lat - a / Scalar.sqrt
                (1.0 - (Ellipsoid.eccentricities ⟨a, b⟩).1 * Scalar.sin lat * Scalar.sin lat)])
    ∧ Ellipsoid.eccentricities ⟨ar, br⟩
        = ((ar ^ 2 - br ^ 2) / ar ^ 2, (ar ^ 2 - br ^ 2) / br ^ 2) := by
  refine ⟨⟨rfl, ?_⟩, eccentricities_real ar br hab hb⟩
  intro x y z p θ lat hp hθ hlat
  exact ellipsoid_inverse_of_eccentricities a b x y z p θ lat hp hθ hlat

/-- C22, witness at `a = 2`, `b = 1` in exact real arithmetic. -/
theorem eccentricities_eq_witness :
    Ellipsoid.eccentricities ⟨(2 : ℝ), 1⟩ = ((2 ^ 2 - 1 ^ 2) / 2 ^ 2, (2 ^ 2 - 1 ^ 2) / 1 ^ 2) :=
  (eccentricities_eq (2 : ℝ) 1 2 1 (by norm_num) (by norm_num)).2

end Eccentricities

/-! ## Exact round trips and the two models compared (C23 to C30) -/

section ExactRoundTrips

open Real

/-- The out-of-place and in-place sphere forward calls write the same triple. -/
theorem sphere_geodToECEF_eq_inPlace (d t : Coord ℝ) (sphere : Sphere ℝ) :
    (Sphere.geodToECEF d t sphere).1 = Sphere.geodToECEFInPlace t sphere := by
  funext k
  fin_cases k <;> rfl

/-- The out-of-place and in-place sphere inverse calls write the same triple. -/
theorem sphere_ecefToGeod_eq_inPlace (d t : Coord ℝ) (sphere : Sphere ℝ) :
    (Sphere.ecefToGeod d t sphere).1 = Sphere.ecefToGeodInPlace t sphere := by
  funext k
  fin_cases k <;> rfl

/-- The out-of-place and in-place ellipsoid forward calls write the same triple. -/
theorem ellipsoid_geodToECEF_eq_inPlace (d t : Coord ℝ) (ellipsoid : Ellipsoid ℝ) :
    (Ellipsoid.geodToECEF d t ellipsoid).1 = Ellipsoid.geodToECEFInPlace t ellipsoid := by
  funext k
  fin_cases k <;> rfl

/-- The out-of-place and in-place ellipsoid inverse calls write the same triple. -/
theorem ellipsoid_ecefToGeod_eq_inPlace (d t : Coord ℝ) (ellipsoid : Ellipsoid ℝ) :
    (Ellipsoid.ecefToGeod d t ellipsoid).1 = Ellipsoid.ecefToGeodInPlace t ellipsoid := by
  funext k
  fin_cases k <;> rfl

/-- Closed form of the in-place sphere forward kernel over the reals. -/
theorem sphere_geodToECEFInPlace_eq (r lon lat h : ℝ) :
    Sphere.geodToECEFInPlace ![lon, lat, h] ⟨r⟩
      = ![(r + h) * Real.cos lat * Real.cos lon, (r + h) * Real.cos lat * Real.sin lon,
          (r + h) * Real.sin lat] := by
  funext k
  fin_cases k <;> rfl

/-- Closed form of the in-place sphere inverse kernel over the reals, with the intermediate
values named. -/
theorem sphere_ecefToGeodInPlace_eq {r x y z p lat : ℝ} (hp : √(x * x + y * y) = p)
    (hlat : atan2 z p = lat) :
    Sphere.ecefToGeodInPlace ![x, y, z] ⟨r⟩ = ![atan2 y x, lat, p / Real.cos lat - r] := by
  subst hp hlat
  funext k
  fin_cases k <;> rfl

/-- C23.  Sphere round trip, exact domain: for every radius `r` (in particular every
`r > 0`), every longitude in the half-open interval `(-π, π]`, every latitude in the open
interval `(-π/2, π/2)` and every altitude `h` with `r + h > 0`, the out-of-place sphere
`ecefToGeod` applied to the out-of-place sphere `geodToECEF` of `(lon, lat, h)` returns
exactly `(lon, lat, h)` in real arithmetic, whatever the destinations held before.  Only
`r + h > 0` is used of the radius. -/
theorem sphere_roundtrip_exact (r lon lat h : ℝ) (d1 d2 : Coord ℝ)
    (hn : 0 < r + h) (hlon : -π < lon ∧ lon ≤ π) (hlat : -(π / 2) < lat ∧ lat < π / 2) :
    (Sphere.ecefToGeod d2 (Sphere.geodToECEF d1 ![lon, lat, h] ⟨r⟩).1 ⟨r⟩).1
      = ![lon, lat, h] := by
  have hc : 0 < Real.cos lat := Real.cos_pos_of_mem_Ioo hlat
  have hk : 0 < (r + h) * Real.cos lat := mul_pos hn hc
  have hl : atan2 ((r + h) * Real.sin lat) ((r + h) * Real.cos lat) = lat :=
    atan2_mul_sin_cos hn (by linarith [Real.pi_pos, hlat.1]) (by linarith [Real.pi_pos, hlat.2])
  have halt : (r + h) * Real.cos lat / Real.cos lat - r = h := by
    field_simp
  rw [sphere_ecefToGeod_eq_inPlace, sphere_geodToECEF_eq_inPlace, sphere_geodToECEFInPlace_eq,
    sphere_ecefToGeodInPlace_eq (sqrt_sq_add_sq_mul _ lon hk.le) hl,
    atan2_mul_sin_cos hk hlon.1 hlon.2, halt]

/-- C23, witness at `r = 6378137`, `(lon, lat, h) = (1, 1/2, -5)`. -/
theorem sphere_roundtrip_exact_witness :
    (Sphere.ecefToGeod ![0, 0, 0]
        (Sphere.geodToECEF ![0, 0, 0] ![1, 1 / 2, -5] ⟨(6378137 : ℝ)⟩).1 ⟨6378137⟩).1
      = ![1, 1 / 2, -5] :=
  sphere_roundtrip_exact 6378137 1 (1 / 2) (-5) ![0, 0, 0] ![0, 0, 0]
    (by norm_num) ⟨by linarith [Real.pi_gt_three], by linarith [Real.pi_gt_three]⟩
    ⟨by linarith [Real.pi_gt_three], by linarith [Real.pi_gt_three]⟩

/-- C24.  Ellipsoid round trip is exact on the surface: for every ellipsoid with
`a ≥ b > 0`, every longitude in `(-π, π]` and every latitude in the open interval
`(-π/2, π/2)`, the out-of-place ellipsoid `ecefToGeod` applied to the out-of-place ellipsoid
`geodToECEF` of `(lon, lat, 0)` returns exactly `(lon, lat, 0)` in real arithmetic: the
single-pass Bowring formula has no approximation error at altitude 0. -/
theorem ellipsoid_roundtrip_surface_exact (a b lon lat : ℝ) (d1 d2 : Coord ℝ) (hab : b ≤ a)
    (hb : 0 < b) (hlon : -π < lon ∧ lon ≤ π) (hlat : -(π / 2) < lat ∧ lat < π / 2) :
    (Ellipsoid.ecefToGeod d2 (Ellipsoid.geodToECEF d1 ![lon, lat, 0] ⟨a, b⟩).1 ⟨a, b⟩).1
      = ![lon, lat, 0] := by
  rw [ellipsoid_ecefToGeod_eq_inPlace, ellipsoid_geodToECEF_eq_inPlace]
  exact ellipsoid_roundtrip_surface a b lon lat hab hb hlon.1 hlon.2 hlat.1 hlat.2

/-- C24, witness at the axes of the test table, `(lon, lat) = (1, 1/2)`. -/
theorem ellipsoid_roundtrip_surface_exact_witness :
    (Ellipsoid.ecefToGeod ![0, 0, 0]
        (Ellipsoid.geodToECEF ![0, 0, 0] ![1, 1 / 2, 0] ⟨(6378137 : ℝ), 6356752.314245⟩).1
        ⟨6378137, 6356752.314245⟩).1
      = ![1, 1 / 2, 0] :=
  ellipsoid_roundtrip_surface_exact 6378137 6356752.314245 1 (1 / 2) ![0, 0, 0] ![0, 0, 0]
    (by norm_num) (by norm_num)
    ⟨by linarith [Real.pi_gt_three], by linarith [Real.pi_gt_three]⟩
    ⟨by linarith [Real.pi_gt_three], by linarith [Real.pi_gt_three]⟩

/-- Positivity of the radicand of the prime-vertical radius for positive axes. -/
theorem radicand_pos_of_axes {a b s c : ℝ} (ha : 0 < a) (hb : 0 < b)
    (hsc : s * s + c * c = 1) : 0 < a * a * c * c + b * b * s * s := by
  have h1 : 0 ≤ a * a * c * c := by
    have : a * a * c * c = (a * c) * (a * c) := by ring
    rw [this]; exact mul_self_nonneg _
  have h2 : 0 ≤ b * b * s * s := by
    have : b * b * s * s = (b * s) * (b * s) := by ring
    rw [this]; exact mul_self_nonneg _
  rcases eq_or_ne c 0 with hc | hc
  · have hs : s * s = 1 := by rw [hc] at hsc; linarith
    have : b * b * s * s = b * b := by rw [mul_assoc, hs, mul_one]
    have hbb : 0 < b * b := mul_pos hb hb
    linarith
  · have hcc : 0 < c * c := mul_self_pos.2 hc
    have : 0 < a * a * c * c := by
      rw [mul_assoc]; exact mul_pos (mul_pos ha ha) hcc
    linarith

/-- C25.  Ellipsoid forward lands on the reference surface: for every `a > 0`, `b > 0`, every
longitude and latitude, the ECEF point `(x, y, z)` written by the out-of-place ellipsoid
`geodToECEF` at altitude 0 satisfies `x² / a² + y² / a² + z² / b² = 1`. -/
theorem ellipsoid_forward_on_surface (a b lon lat : ℝ) (d : Coord ℝ) (ha : 0 < a)
    (hb : 0 < b) :
    (Ellipsoid.geodToECEF d ![lon, lat, 0] ⟨a, b⟩).1 0 ^ 2 / a ^ 2
      + (Ellipsoid.geodToECEF d ![lon, lat, 0] ⟨a, b⟩).1 1 ^ 2 / a ^ 2
      + (Ellipsoid.geodToECEF d ![lon, lat, 0] ⟨a, b⟩).1 2 ^ 2 / b ^ 2 = 1 := by
  have hsc := sin_mul_self_add_cos_mul_self lat
  have hsl := sin_mul_self_add_cos_mul_self lon
  have hrad := radicand_pos_of_axes ha hb hsc
  obtain ⟨D, hD⟩ : ∃ D, √(a * a * Real.cos lat * Real.cos lat
      + b * b * Real.sin lat * Real.sin lat) = D := ⟨_, rfl⟩
  have hDpos : 0 < D := by rw [← hD]; exact Real.sqrt_pos.2 hrad
  have hDD : D * D = a * a * Real.cos lat * Real.cos lat
      + b * b * Real.sin lat * Real.sin lat := by
    rw [← hD]; exact Real.mul_self_sqrt hrad.le
  rw [ellipsoid_geodToECEF_eq_inPlace, ellipsoid_geodToECEFInPlace_eq hD]
  show ((a * a / D + 0) * Real.cos lat * Real.cos lon) ^ 2 / a ^ 2
      + ((a * a / D + 0) * Real.cos lat * Real.sin lon) ^ 2 / a ^ 2
      + ((b * b / (a * a) * (a * a / D) + 0) * Real.sin lat) ^ 2 / b ^ 2 = 1
  generalize Real.cos lat = c at hsc hDD
  generalize Real.sin lat = s at hsc hDD
  generalize Real.cos lon = cl at hsl
  generalize Real.sin lon = sl at hsl
  have e : ((a * a / D + 0) * c * cl) ^ 2 / a ^ 2 + ((a * a / D + 0) * c * sl) ^ 2 / a ^ 2
      + ((b * b / (a * a) * (a * a / D) + 0) * s) ^ 2 / b ^ 2
      = (a * a * c * c * (sl * sl + cl * cl) + b * b * s * s) / (D * D) := by
    field_simp
    ring
  rw [e, hsl, mul_one, ← hDD, div_self (mul_pos hDpos hDpos).ne']

/-- C25, witness at `a = 2`, `b = 1`, `(lon, lat) = (1, 1/2)`. -/
theorem ellipsoid_forward_on_surface_witness :
    (Ellipsoid.geodToECEF ![0, 0, 0] ![1, 1 / 2, 0] ⟨(2 : ℝ), 1⟩).1 0 ^ 2 / 2 ^ 2
      + (Ellipsoid.geodToECEF ![0, 0, 0] ![1, 1 / 2, 0] ⟨(2 : ℝ), 1⟩).1 1 ^ 2 / 2 ^ 2
      + (Ellipsoid.geodToECEF ![0, 0, 0] ![1, 1 / 2, 0] ⟨(2 : ℝ), 1⟩).1 2 ^ 2 / 1 ^ 2 = 1 :=
  ellipsoid_forward_on_surface 2 1 1 (1 / 2) ![0, 0, 0] (by norm_num) (by norm_num)

/-- C26, counterexample.  In binary64, for `r = 6378137` and the ECEF point
`(0.001, 0, 6378137)`, one millimetre off the polar axis (`x² + y² > 0`), the altitude
written by the sphere `ecefToGeod` lies between `2.4` and `2.5`, while
`sqrt (x*x + y*y + z*z) - r` evaluated in binary64 is `0` (its exact value is below
`1e-13`). -/
theorem sphere_inverse_altitude_binary64_fails :
    (∃ v, (Sphere.ecefToGeod ![Binary64.finite 0, Binary64.finite 0, Binary64.finite 0]
        ![(0.001 : Binary64), Binary64.finite 0, Binary64.finite 6378137]
        ⟨Binary64.finite 6378137⟩).1 2 = Binary64.finite v ∧ 2.4 < v ∧ v < 2.5)
    ∧ Scalar.sqrt ((0.001 : Binary64) * (0.001 : Binary64)
          + Binary64.finite 0 * Binary64.finite 0
          + Binary64.finite 6378137 * Binary64.finite 6378137) - Binary64.finite 6378137
        = Binary64.finite 0
    ∧ (0 : ℝ) < 0.001 ^ 2 + 0 ^ 2
    ∧ √((0.001 : ℝ) ^ 2 + 0 ^ 2 + 6378137 ^ 2) - 6378137 < 0.0000000000001 := by
  refine ⟨binary64_near_axis_altitude _, binary64_near_axis_distance, by norm_num, ?_⟩
  rw [sub_lt_iff_lt_add, Real.sqrt_lt' (by norm_num)]
  norm_num

/-- C26, amended.  Sphere inverse altitude is distance minus radius in exact real
arithmetic: for every radius `r` and every ECEF point `(x, y, z)` off the polar axis
(`x² + y² > 0`), the altitude written by the out-of-place sphere `ecefToGeod` equals
`√(x² + y² + z²) - r`, and the latitude it writes lies in the open interval `(-π/2, π/2)`.
Nothing is asserted about floating-point evaluation, where `p / cos lat` is ill-conditioned
near the axis. -/
theorem sphere_inverse_altitude (r x y z : ℝ) (d : Coord ℝ) (hxy : 0 < x ^ 2 + y ^ 2) :
    (Sphere.ecefToGeod d ![x, y, z] ⟨r⟩).1 2 = √(x ^ 2 + y ^ 2 + z ^ 2) - r
      ∧ -(π / 2) < (Sphere.ecefToGeod d ![x, y, z] ⟨r⟩).1 1
      ∧ (Sphere.ecefToGeod d ![x, y, z] ⟨r⟩).1 1 < π / 2 := by
  have hxy2 : 0 < x * x + y * y := by rw [← sq, ← sq]; exact hxy
  obtain ⟨p, hp⟩ : ∃ p, √(x * x + y * y) = p := ⟨_, rfl⟩
  have hppos : 0 < p := by rw [← hp]; exact Real.sqrt_pos.2 hxy2
  have hpp : p * p = x * x + y * y := by rw [← hp]; exact Real.mul_self_sqrt hxy2.le
  have hq : 0 < p * p + z * z := by
    have := mul_pos hppos hppos
    have := mul_self_nonneg z
    linarith
  have hcos := cos_atan2 (y := z) (x := p) hq
  have hsq : x ^ 2 + y ^ 2 + z ^ 2 = p * p + z * z := by rw [hpp]; ring
  rw [sphere_ecefToGeod_eq_inPlace, sphere_ecefToGeodInPlace_eq hp rfl]
  refine ⟨?_, neg_pi_div_two_lt_atan2 hppos, atan2_lt_pi_div_two hppos⟩
  show p / Real.cos (atan2 z p) - r = _
  rw [hcos, hsq]
  have hs : 0 < √(p * p + z * z) := Real.sqrt_pos.2 hq
  field_simp

/-- C26, witness of the amended claim, in exact real arithmetic, at `r = 1`,
`(x, y, z) = (3, 4, 5)`. -/
theorem sphere_inverse_altitude_witness :
    (Sphere.ecefToGeod ![0, 0, 0] ![3, 4, 5] ⟨(1 : ℝ)⟩).1 2 = √(3 ^ 2 + 4 ^ 2 + 5 ^ 2) - 1
      ∧ -(π / 2) < (Sphere.ecefToGeod ![0, 0, 0] ![3, 4, 5] ⟨(1 : ℝ)⟩).1 1
      ∧ (Sphere.ecefToGeod ![0, 0, 0] ![3, 4, 5] ⟨(1 : ℝ)⟩).1 1 < π / 2 :=
  sphere_inverse_altitude 1 3 4 5 ![0, 0, 0] (by norm_num)

/-- C27.  Sphere inverse-then-forward off the axis: for every radius `r` of any sign and
every ECEF triple `(x, y, z)` with `x² + y² > 0`, the out-of-place sphere `geodToECEF`
applied to the out-of-place sphere `ecefToGeod` of `(x, y, z)` returns exactly `(x, y, z)`
in real arithmetic. -/
theorem sphere_inverse_forward_off_axis (r x y z : ℝ) (d1 d2 : Coord ℝ)
    (hxy : 0 < x ^ 2 + y ^ 2) :
    (Sphere.geodToECEF d2 (Sphere.ecefToGeod d1 ![x, y, z] ⟨r⟩).1 ⟨r⟩).1 = ![x, y, z] := by
  have hxy2 : 0 < x * x + y * y := by rw [← sq, ← sq]; exact hxy
  obtain ⟨p, hp⟩ : ∃ p, √(x * x + y * y) = p := ⟨_, rfl⟩
  have hppos : 0 < p := by rw [← hp]; exact Real.sqrt_pos.2 hxy2
  have hx : p * Real.cos (atan2 y x) = x := by rw [← hp]; exact abs_mul_cos_atan2 y x
  have hy : p * Real.sin (atan2 y x) = y := by rw [← hp]; exact abs_mul_sin_atan2 y x
  have hc : 0 < Real.cos (atan2 z p) :=
    Real.cos_pos_of_mem_Ioo ⟨neg_pi_div_two_lt_atan2 hppos, atan2_lt_pi_div_two hppos⟩
  have hsl : p / Real.cos (atan2 z p) * Real.sin (atan2 z p) = z := by
    rw [div_mul_eq_mul_div, mul_div_assoc, ← Real.tan_eq_sin_div_cos, tan_atan2]
    field_simp
  have hn : r + (p / Real.cos (atan2 z p) - r) = p / Real.cos (atan2 z p) := by ring
  rw [sphere_geodToECEF_eq_inPlace, sphere_ecefToGeod_eq_inPlace,
    sphere_ecefToGeodInPlace_eq hp rfl, sphere_geodToECEFInPlace_eq, hn,
    div_mul_cancel₀ _ hc.ne', hx, hy, hsl]

/-- C27, witness at `r = -1`, `(x, y, z) = (3, 4, 5)`. -/
theorem sphere_inverse_forward_off_axis_witness :
    (Sphere.geodToECEF ![0, 0, 0]
        (Sphere.ecefToGeod ![0, 0, 0] ![3, 4, 5] ⟨(-1 : ℝ)⟩).1 ⟨-1⟩).1 = ![3, 4, 5] :=
  sphere_inverse_forward_off_axis (-1) 3 4 5 ![0, 0, 0] ![0, 0, 0] (by norm_num)

/-- Every coordinate triple is the triple of its three components. -/
theorem coord_eta (t : Coord ℝ) : t = ![t 0, t 1, t 2] := by
  funext k
  fin_cases k <;> rfl

/-- C28, counterexample.  In binary64, for `r = 1846604.2538884224` (the binary64 number
`7931104879105255 * 2 ^ (-32)`) and the geodetic triple `(0, 0, 0)`, the ellipsoid
`geodToECEF` with `major = minor = r` writes `x = 7931104879105256 * 2 ^ (-32)`, one unit in
the last place above `r`, while the sphere `geodToECEF` with radius `r` writes `x = r`. -/
theorem ellipsoid_equal_axes_forward_binary64_fails :
    (1846604.2538884224 : Binary64) = Binary64.finite (7931104879105255 * 2 ^ (-32 : ℤ))
    ∧ (Ellipsoid.geodToECEF ![Binary64.finite 0, Binary64.finite 0, Binary64.finite 0]
        ![Binary64.finite 0, Binary64.finite 0, Binary64.finite 0]
        ⟨(1846604.2538884224 : Binary64), (1846604.2538884224 : Binary64)⟩).1 0
      = Binary64.finite (7931104879105256 * 2 ^ (-32 : ℤ))
    ∧ (Sphere.geodToECEF ![Binary64.finite 0, Binary64.finite 0, Binary64.finite 0]
        ![Binary64.finite 0, Binary64.finite 0, Binary64.finite 0]
        ⟨(1846604.2538884224 : Binary64)⟩).1 0
      = Binary64.finite (7931104879105255 * 2 ^ (-32 : ℤ))
    ∧ (7931104879105255 * 2 ^ (-32 : ℤ) : ℝ) < 7931104879105256 * 2 ^ (-32 : ℤ) := by
  have hv : (991388109888157 * 2 ^ (-29 : ℤ) : ℝ) = 7931104879105256 * 2 ^ (-32 : ℤ) := by
    norm_num
  refine ⟨lit_1846604, ?_, ?_, by norm_num⟩
  · rw [lit_1846604, binary64_equal_axes_x, hv]
  · rw [lit_1846604, binary64_sphere_x]

/-- C28, amended.  Ellipsoid with equal axes is the sphere, forward, in exact real
arithmetic: for every `r > 0` and every geodetic triple, the out-of-place ellipsoid
`geodToECEF` with `major = minor = r` writes exactly the same ECEF triple as the out-of-place
sphere `geodToECEF` with radius `r`.  Nothing is asserted about floating-point evaluation,
where `r * r / sqrt (r * r)` is rounded three times. -/
theorem ellipsoid_equal_axes_forward (r : ℝ) (d t : Coord ℝ) (hr : 0 < r) :
    (Ellipsoid.geodToECEF d t ⟨r, r⟩).1 = (Sphere.geodToECEF d t ⟨r⟩).1 := by
  have hsc := sin_mul_self_add_cos_mul_self (t 1)
  have hD : √(r * r * Real.cos (t 1) * Real.cos (t 1) + r * r * Real.sin (t 1) * Real.sin (t 1))
      = r := by
    have h1 : r * r * Real.cos (t 1) * Real.cos (t 1) + r * r * Real.sin (t 1) * Real.sin (t 1)
        = r * r := by linear_combination (r * r) * hsc
    rw [h1, Real.sqrt_mul_self hr.le]
  have hN : r * r / r = r := by field_simp
  have hz : r * r / (r * r) * r = r := by field_simp
  rw [ellipsoid_geodToECEF_eq_inPlace, sphere_geodToECEF_eq_inPlace, coord_eta t,
    ellipsoid_geodToECEFInPlace_eq hD, sphere_geodToECEFInPlace_eq, hN, hz]

/-- C28, witness of the amended claim, in exact real arithmetic, at `r = 6378137`, geodetic
triple `(1, 1/2, 5)`. -/
theorem ellipsoid_equal_axes_forward_witness :
    (Ellipsoid.geodToECEF ![0, 0, 0] ![1, 1 / 2, 5] ⟨(6378137 : ℝ), 6378137⟩).1
      = (Sphere.geodToECEF ![0, 0, 0] ![1, 1 / 2, 5] ⟨(6378137 : ℝ)⟩).1 :=
  ellipsoid_equal_axes_forward 6378137 ![0, 0, 0] ![1, 1 / 2, 5] (by norm_num)

/-- C29.  Ellipsoid with equal axes is the sphere, inverse: for every `r` (in particular
every `r > 0`) and every ECEF triple, the polar axis and the origin included, the
out-of-place ellipsoid `ecefToGeod` with `major = minor = r` writes exactly the same
geodetic triple as the out-of-place sphere `ecefToGeod` with radius `r`. -/
theorem ellipsoid_equal_axes_inverse (r : ℝ) (d t : Coord ℝ) :
    (Ellipsoid.ecefToGeod d t ⟨r, r⟩).1 = (Sphere.ecefToGeod d t ⟨r⟩).1 := by
  have he : √((r * r - r * r) / (r * r)) * √((r * r - r * r) / (r * r)) = 0 := by
    rw [sub_self, zero_div, Real.sqrt_zero, mul_zero]
  rw [ellipsoid_ecefToGeod_eq_inPlace, sphere_ecefToGeod_eq_inPlace, coord_eta t,
    ellipsoid_ecefToGeodInPlace_eq rfl he he rfl rfl, sphere_ecefToGeodInPlace_eq rfl rfl]
  simp only [zero_mul, add_zero, sub_zero, Real.sqrt_one, div_one]

/-- C30.  Ellipsoid inverse-then-forward recovers the horizontal position exactly: for
every ellipsoid with `a ≥ b > 0` and every ECEF triple `(x, y, z)` with
`√(x² + y²) > (a² - b²) / a`, the out-of-place ellipsoid `geodToECEF` applied to the
out-of-place ellipsoid `ecefToGeod` of `(x, y, z)` writes a triple whose `x` and `y`
components equal the original `x` and `y` exactly in real arithmetic. -/
theorem ellipsoid_inverse_forward_horizontal (a b x y z : ℝ) (d1 d2 : Coord ℝ) (hab : b ≤ a)
    (hb : 0 < b) (hp : (a ^ 2 - b ^ 2) / a < √(x ^ 2 + y ^ 2)) :
    (Ellipsoid.geodToECEF d2 (Ellipsoid.ecefToGeod d1 ![x, y, z] ⟨a, b⟩).1 ⟨a, b⟩).1 0 = x
      ∧ (Ellipsoid.geodToECEF d2 (Ellipsoid.ecefToGeod d1 ![x, y, z] ⟨a, b⟩).1 ⟨a, b⟩).1 1
        = y := by
  have ha : 0 < a := lt_of_lt_of_le hb hab
  obtain ⟨p, hpdef⟩ : ∃ p, √(x * x + y * y) = p := ⟨_, rfl⟩
  have hp2 : (a * a - b * b) / a < p := by
    rw [← hpdef, ← sq, ← sq, ← sq, ← sq]; exact hp
  have hx : p * Real.cos (atan2 y x) = x := by rw [← hpdef]; exact abs_mul_cos_atan2 y x
  have hy : p * Real.sin (atan2 y x) = y := by rw [← hpdef]; exact abs_mul_sin_atan2 y x
  obtain ⟨θ, hθ⟩ : ∃ θ, atan2 (z * a) (p * b) = θ := ⟨_, rfl⟩
  have hcube : Real.cos θ * Real.cos θ * Real.cos θ ≤ 1 := by
    have h1 := Real.cos_le_one θ
    have h2 : 0 ≤ 1 + Real.cos θ + Real.cos θ * Real.cos θ := by
      nlinarith [mul_self_nonneg (Real.cos θ + 1 / 2)]
    nlinarith [mul_nonneg (sub_nonneg.2 h1) h2]
  have hea : (a * a - b * b) / (a * a) * a = (a * a - b * b) / a := by
    field_simp
    ring
  have hea0 : 0 ≤ (a * a - b * b) / a := by
    apply div_nonneg _ ha.le
    nlinarith
  have hP : 0 < p - (a * a - b * b) / (a * a) * a
      * (Real.cos θ * Real.cos θ * Real.cos θ) := by
    rw [hea]
    have := mul_le_mul_of_nonneg_left hcube hea0
    linarith
  obtain ⟨lat, hlat⟩ : ∃ lat, atan2
      (z + (a * a - b * b) / (b * b) * b * (Real.sin θ * Real.sin θ * Real.sin θ))
      (p - (a * a - b * b) / (a * a) * a * (Real.cos θ * Real.cos θ * Real.cos θ)) = lat :=
    ⟨_, rfl⟩
  have hlat1 : -(π / 2) < lat := by rw [← hlat]; exact neg_pi_div_two_lt_atan2 hP
  have hlat2 : lat < π / 2 := by rw [← hlat]; exact atan2_lt_pi_div_two hP
  have hc : 0 < Real.cos lat := Real.cos_pos_of_mem_Ioo ⟨hlat1, hlat2⟩
  obtain ⟨D, hD, hDpos, hDD⟩ := ellipsoid_radicand (b := b) ha hlat1 hlat2
  have hsc := sin_mul_self_add_cos_mul_self lat
  have hn : a * a / D + (p / Real.cos lat - a * a / D) = p / Real.cos lat := by ring
  rw [ellipsoid_geodToECEF_eq_inPlace, ellipsoid_ecefToGeod_eq_inPlace,
    ellipsoid_ecefToGeodInPlace_eq hpdef (e2_eq hab hb) (ep2_eq hab hb) hθ hlat,
    ellipsoid_geodToECEFInPlace_eq hD, bowring_radius ha hDpos hDD hsc, hn,
    div_mul_cancel₀ _ hc.ne', hx, hy]
  exact ⟨rfl, rfl⟩

/-- C30, witness at `a = 2`, `b = 1`, `(x, y, z) = (3, 4, 5)`, where `√(x² + y²) = 5` exceeds
`(a² - b²) / a = 3/2`. -/
theorem ellipsoid_inverse_forward_horizontal_witness :
    (Ellipsoid.geodToECEF ![0, 0, 0]
        (Ellipsoid.ecefToGeod ![0, 0, 0] ![3, 4, 5] ⟨(2 : ℝ), 1⟩).1 ⟨2, 1⟩).1 0 = 3
      ∧ (Ellipsoid.geodToECEF ![0, 0, 0]
        (Ellipsoid.ecefToGeod ![0, 0, 0] ![3, 4, 5] ⟨(2 : ℝ), 1⟩).1 ⟨2, 1⟩).1 1 = 4 :=
  ellipsoid_inverse_forward_horizontal 2 1 3 4 5 ![0, 0, 0] ![0, 0, 0] (by norm_num)
    (by norm_num) (by
      have h : (3 : ℝ) ^ 2 + 4 ^ 2 = 5 * 5 := by norm_num
      rw [h, Real.sqrt_mul_self (by norm_num)]
      norm_num)

end ExactRoundTrips

/-! ## Ranges of the ellipsoid inverse, the sphere forward image (C31, C32) -/

section RangesAndImage

open Real

/-- The longitude `atan2 y x` lies in `(-π, π]`. -/
theorem atan2_mem_Ioc (y x : ℝ) : -π < atan2 y x ∧ atan2 y x ≤ π := by
  unfold atan2
  exact ⟨Complex.neg_pi_lt_arg _, Complex.arg_le_pi _⟩

/-- With a non-negative second argument `atan2` lies in `[-π/2, π/2]`. -/
theorem atan2_mem_Icc_of_nonneg {y x : ℝ} (hx : 0 ≤ x) :
    -(π / 2) ≤ atan2 y x ∧ atan2 y x ≤ π / 2 := by
  unfold atan2
  have h : |Complex.arg ⟨x, y⟩| ≤ π / 2 := Complex.abs_arg_le_pi_div_two_iff.2 hx
  exact abs_le.1 h

/-- The cube of a cosine is at most `1`. -/
theorem cos_cube_le_one (θ : ℝ) : Real.cos θ * Real.cos θ * Real.cos θ ≤ 1 := by
  have h1 := Real.cos_le_one θ
  have h2 : 0 ≤ 1 + Real.cos θ + Real.cos θ * Real.cos θ := by
    nlinarith [mul_self_nonneg (Real.cos θ + 1 / 2)]
  nlinarith [mul_nonneg (sub_nonneg.2 h1) h2]

/-- C31, counterexample.  In binary64, for the ellipsoid `a = 4`, `b = 1` and the ECEF
triple `(3.75, 0, 0)`, which satisfies `√(x² + y²) = 3.75 = (a² - b²) / a`, the latitude
written by the ellipsoid `ecefToGeod` is `M_PI = 7074237752028440 * 2 ^ (-51)`, above
`π/2`: the computed `e * e` is one unit in the last place above `0.9375` and the second
argument of the latitude `atan2` comes out negative. -/
theorem ellipsoid_inverse_ranges_binary64_fails :
    (Ellipsoid.ecefToGeod ![Binary64.finite 0, Binary64.finite 0, Binary64.finite 0]
        ![Binary64.finite 3.75, Binary64.finite 0, Binary64.finite 0]
        ⟨Binary64.finite 4, Binary64.finite 1⟩).1 1
      = Binary64.finite (7074237752028440 * 2 ^ (-51 : ℤ))
    ∧ π / 2 < 7074237752028440 * 2 ^ (-51 : ℤ)
    ∧ ((4 : ℝ) ^ 2 - 1 ^ 2) / 4 ≤ √(3.75 ^ 2 + 0 ^ 2) := by
  refine ⟨binary64_boundary_latitude _, ?_, ?_⟩
  · have h := Real.pi_lt_d2
    norm_num at h ⊢
    linarith
  · have h : (3.75 : ℝ) ^ 2 + 0 ^ 2 = 3.75 * 3.75 := by norm_num
    rw [h, Real.sqrt_mul_self (by norm_num)]
    norm_num

/-- C31, amended.  Ellipsoid inverse latitude range in exact real arithmetic: for every
ellipsoid with `a ≥ b > 0` and every ECEF triple `(x, y, z)` with
`√(x² + y²) ≥ (a² - b²) / a`, the latitude written by the out-of-place ellipsoid
`ecefToGeod` lies in `[-π/2, π/2]` and the longitude lies in `(-π, π]`.  Nothing is asserted
about floating-point evaluation, where the rounded `e * e` can exceed `(a² - b²) / a²`. -/
theorem ellipsoid_inverse_ranges (a b x y z : ℝ) (d : Coord ℝ) (hab : b ≤ a) (hb : 0 < b)
    (hp : (a ^ 2 - b ^ 2) / a ≤ √(x ^ 2 + y ^ 2)) :
    (-(π / 2) ≤ (Ellipsoid.ecefToGeod d ![x, y, z] ⟨a, b⟩).1 1
        ∧ (Ellipsoid.ecefToGeod d ![x, y, z] ⟨a, b⟩).1 1 ≤ π / 2)
      ∧ (-π < (Ellipsoid.ecefToGeod d ![x, y, z] ⟨a, b⟩).1 0
        ∧ (Ellipsoid.ecefToGeod d ![x, y, z] ⟨a, b⟩).1 0 ≤ π) := by
  have ha : 0 < a := lt_of_lt_of_le hb hab
  obtain ⟨p, hpdef⟩ : ∃ p, √(x * x + y * y) = p := ⟨_, rfl⟩
  have hp2 : (a * a - b * b) / a ≤ p := by
    rw [← hpdef, ← sq, ← sq, ← sq, ← sq]; exact hp
  obtain ⟨θ, hθ⟩ : ∃ θ, atan2 (z * a) (p * b) = θ := ⟨_, rfl⟩
  have hea : (a * a - b * b) / (a * a) * a = (a * a - b * b) / a := by
    field_simp
    ring
  have hea0 : 0 ≤ (a * a - b * b) / a := by
    apply div_nonneg _ ha.le
    nlinarith
  have hP : 0 ≤ p - (a * a - b * b) / (a * a) * a
      * (Real.cos θ * Real.cos θ * Real.cos θ) := by
    rw [hea]
    have := mul_le_mul_of_nonneg_left (cos_cube_le_one θ) hea0
    linarith
  rw [ellipsoid_ecefToGeod_eq_inPlace,
    ellipsoid_ecefToGeodInPlace_eq hpdef (e2_eq hab hb) (ep2_eq hab hb) hθ rfl]
  exact ⟨atan2_mem_Icc_of_nonneg hP, atan2_mem_Ioc y x⟩

/-- C31, witness of the amended claim, in exact real arithmetic, at `a = 2`, `b = 1`,
`(x, y, z) = (3, 4, 5)`, where `√(x² + y²) = 5` and
`(a² - b²) / a = 3/2`. -/
theorem ellipsoid_inverse_ranges_witness :
    (-(π / 2) ≤ (Ellipsoid.ecefToGeod ![0, 0, 0] ![3, 4, 5] ⟨(2 : ℝ), 1⟩).1 1
        ∧ (Ellipsoid.ecefToGeod ![0, 0, 0] ![3, 4, 5] ⟨(2 : ℝ), 1⟩).1 1 ≤ π / 2)
      ∧ (-π < (Ellipsoid.ecefToGeod ![0, 0, 0] ![3, 4, 5] ⟨(2 : ℝ), 1⟩).1 0
        ∧ (Ellipsoid.ecefToGeod ![0, 0, 0] ![3, 4, 5] ⟨(2 : ℝ), 1⟩).1 0 ≤ π) :=
  ellipsoid_inverse_ranges 2 1 3 4 5 ![0, 0, 0] (by norm_num) (by norm_num) (by
    have h : (3 : ℝ) ^ 2 + 4 ^ 2 = 5 * 5 := by norm_num
    rw [h, Real.sqrt_mul_self (by norm_num)]
    norm_num)

/-- C32.  Sphere forward output lies on the sphere of radius `|r + h|`: for every radius `r`
and every geodetic triple `(lon, lat, h)`, the ECEF triple `(x, y, z)` written by the
out-of-place sphere `geodToECEF` satisfies `x² + y² + z² = (r + h)²`. -/
theorem sphere_forward_on_sphere (r lon lat h : ℝ) (d : Coord ℝ) :
    (Sphere.geodToECEF d ![lon, lat, h] ⟨r⟩).1 0 ^ 2
      + (Sphere.geodToECEF d ![lon, lat, h] ⟨r⟩).1 1 ^ 2
      + (Sphere.geodToECEF d ![lon, lat, h] ⟨r⟩).1 2 ^ 2 = (r + h) ^ 2 := by
  have h1 := Real.sin_sq_add_cos_sq lon
  have h2 := Real.sin_sq_add_cos_sq lat
  rw [sphere_geodToECEF_eq_inPlace, sphere_geodToECEFInPlace_eq]
  show ((r + h) * Real.cos lat * Real.cos lon) ^ 2 + ((r + h) * Real.cos lat * Real.sin lon) ^ 2
    + ((r + h) * Real.sin lat) ^ 2 = (r + h) ^ 2
  linear_combination (r + h) ^ 2 * Real.cos lat ^ 2 * h1 + (r + h) ^ 2 * h2

end RangesAndImage

/-! ## Index safety and iteration count of the batch loops (C33) -/

section LoopAsFold

variable {T : Type}

/-- The loop entered with counter `i` runs its body at `i, i + 1, ..., numCoords - 1`, once
each and in this order, and stops at the first body that fails. -/
theorem forLoop_eq_foldlM {S : Type} (n : Nat) (body : Nat → S → Option S) :
    ∀ (m i : Nat) (s : S), n - i = m →
      forLoop n body i s = (List.range' i m).foldlM (fun s j => body j s) s := by
  intro m
  induction m with
  | zero =>
    intro i s hm
    have hin : ¬ i < n := by omega
    rw [forLoop]
    simp [hin]
  | succ m ih =>
    intro i s hm
    have hlt : i < n := by omega
    rw [forLoop, List.range'_succ, List.foldlM_cons]
    simp only [hlt, if_true]
    cases body i s with
    | none => rfl
    | some s' => exact ih (i + 1) s' (by omega)

/-- The loop entered at `0` is the fold of its body over `0, 1, ..., numCoords - 1`. -/
theorem forLoop_eq_fold_range {S : Type} (n : Nat) (body : Nat → S → Option S) (s : S) :
    forLoop n body 0 s = (List.range n).foldlM (fun s j => body j s) s := by
  rw [List.range_eq_range', forLoop_eq_foldlM n body n 0 s (by omega)]

/-- An SoA loop whose body writes the kernel of source element `i` at index `i` is the fold of
the checked step over `0, ..., n - 1`. -/
theorem soa_fold (kernel : Coord T → Coord T) (n : Nat) (dst src : CoordSoA T)
    (body : Nat → CoordSoA T → Option (CoordSoA T)) (pts : Nat → Coord T)
    (hsrc : ∀ i, i < n → src.x[i]? = some (pts i 0) ∧ src.y[i]? = some (pts i 1)
      ∧ src.z[i]? = some (pts i 2))
    (hbody : ∀ i d, i < n → body i d = soaWrite (fun j => kernel (pts j)) i d) :
    forLoop n body 0 dst = (List.range n).foldlM (fun d i => soaStep kernel src d i) dst := by
  rw [forLoop_congr n body (fun i d => soaStep kernel src d i) ?_ n 0 dst (by omega),
    forLoop_eq_fold_range]
  intro i d hi
  obtain ⟨h0, h1, h2⟩ := hsrc i hi
  have hp : ![pts i 0, pts i 1, pts i 2] = pts i := coord_ext rfl rfl rfl
  rw [hbody i d hi]
  simp only [soaStep, h0, h1, h2, Option.some_bind, hp]
  rfl

/-- An AoS loop whose body writes the kernel of source row `i` at row `i` is the fold of the
checked step over `0, ..., n - 1`. -/
theorem aos_fold (kernel : Coord T → Coord T) (n : Nat) (dst src : Array (Coord T))
    (body : Nat → Array (Coord T) → Option (Array (Coord T))) (pts : Nat → Coord T)
    (hsrc : ∀ i, i < n → src[i]? = some (pts i))
    (hbody : ∀ i d, i < n → body i d = aosWrite (fun j => kernel (pts j)) i d) :
    forLoop n body 0 dst = (List.range n).foldlM (fun d i => aosStep kernel src d i) dst := by
  rw [forLoop_congr n body (fun i d => aosStep kernel src d i) ?_ n 0 dst (by omega),
    forLoop_eq_fold_range]
  intro i d hi
  rw [hbody i d hi]
  simp only [aosStep, hsrc i hi, Option.some_bind]
  rfl

/-- The sphere `geodToECEFSoA` call as a fold of the checked step over `0, ..., n - 1`. -/
theorem sphere_geodToECEFSoA_fold [Add T] [Mul T] [Scalar T] (dst src : CoordSoA T) (n : Nat)
    (sphere : Sphere T) (d : Coord T) (pts : Nat → Coord T)
    (hsrc : ∀ i, i < n → src.x[i]? = some (pts i 0) ∧ src.y[i]? = some (pts i 1)
      ∧ src.z[i]? = some (pts i 2)) :
    Sphere.geodToECEFSoA dst src n sphere
      = ((List.range n).foldlM
          (fun dst i => soaStep (fun p => (Sphere.geodToECEF d p sphere).1) src dst i) dst).map
        fun out => (out, src) := by
  unfold Sphere.geodToECEFSoA
  dsimp only
  rw [soa_fold (fun p => (Sphere.geodToECEF d p sphere).1) n dst src _ pts hsrc ?_]
  intro i s hi
  obtain ⟨h0, h1, h2⟩ := hsrc i hi
  simp only [h0, h1, h2, soaWrite, Option.bind_eq_bind, Option.some_bind, bind_pure]
  rfl

/-- The sphere `geodToECEFAoS` call as a fold of the checked step over `0, ..., n - 1`. -/
theorem sphere_geodToECEFAoS_fold [Add T] [Mul T] [Scalar T] (dst src : Array (Coord T)) (n : Nat)
    (sphere : Sphere T) (d : Coord T) (pts : Nat → Coord T)
    (hsrc : ∀ i, i < n → src[i]? = some (pts i)) :
    Sphere.geodToECEFAoS dst src n sphere
      = ((List.range n).foldlM
          (fun dst i => aosStep (fun p => (Sphere.geodToECEF d p sphere).1) src dst i) dst).map
        fun out => (out, src) := by
  unfold Sphere.geodToECEFAoS
  dsimp only
  rw [aos_fold (fun p => (Sphere.geodToECEF d p sphere).1) n dst src _ pts hsrc ?_]
  intro i s hi
  simp only [hsrc i hi, aosWrite, Option.bind_eq_bind, Option.some_bind, bind_pure]
  rfl

/-- The sphere `ecefToGeodSoA` call as a fold of the checked step over `0, ..., n - 1`. -/
theorem sphere_ecefToGeodSoA_fold [Add T] [Sub T] [Mul T] [Div T] [Scalar T] (dst src : CoordSoA T) (n : Nat)
    (sphere : Sphere T) (d : Coord T) (pts : Nat → Coord T)
    (hsrc : ∀ i, i < n → src.x[i]? = some (pts i 0) ∧ src.y[i]? = some (pts i 1)
      ∧ src.z[i]? = some (pts i 2)) :
    Sphere.ecefToGeodSoA dst src n sphere
      = ((List.range n).foldlM
          (fun dst i => soaStep (fun p => (Sphere.ecefToGeod d p sphere).1) src dst i) dst).map
        fun out => (out, src) := by
  unfold Sphere.ecefToGeodSoA
  dsimp only
  rw [soa_fold (fun p => (Sphere.ecefToGeod d p sphere).1) n dst src _ pts hsrc ?_]
  intro i s hi
  obtain ⟨h0, h1, h2⟩ := hsrc i hi
  simp only [h0, h1, h2, soaWrite, Option.bind_eq_bind, Option.some_bind, bind_pure]
  rfl

/-- The sphere `ecefToGeodAoS` call as a fold of the checked step over `0, ..., n - 1`. -/
theorem sphere_ecefToGeodAoS_fold [Add T] [Sub T] [Mul T] [Div T] [Scalar T] (dst src : Array (Coord T)) (n : Nat)
    (sphere : Sphere T) (d : Coord T) (pts : Nat → Coord T)
    (hsrc : ∀ i, i < n → src[i]? = some (pts i)) :
    Sphere.ecefToGeodAoS dst src n sphere
      = ((List.range n).foldlM
          (fun dst i => aosStep (fun p => (Sphere.ecefToGeod d p sphere).1) src dst i) dst).map
        fun out => (out, src) := by
  unfold Sphere.ecefToGeodAoS
  dsimp only
  rw [aos_fold (fun p => (Sphere.ecefToGeod d p sphere).1) n dst src _ pts hsrc ?_]
  intro i s hi
  simp only [hsrc i hi, aosWrite, Option.bind_eq_bind, Option.some_bind, bind_pure]
  rfl

/-- The ellipsoid `geodToECEFSoA` call as a fold of the checked step over `0, ..., n - 1`. -/
theorem ellipsoid_geodToECEFSoA_fold [Add T] [Mul T] [Div T] [Scalar T] (dst src : CoordSoA T) (n : Nat)
    (ellipsoid : Ellipsoid T) (d : Coord T) (pts : Nat → Coord T)
    (hsrc : ∀ i, i < n → src.x[i]? = some (pts i 0) ∧ src.y[i]? = some (pts i 1)
      ∧ src.z[i]? = some (pts i 2)) :
    Ellipsoid.geodToECEFSoA dst src n ellipsoid
      = ((List.range n).foldlM
          (fun dst i => soaStep (fun p => (Ellipsoid.geodToECEF d p ellipsoid).1) src dst i) dst).map
        fun out => (out, src) := by
  unfold Ellipsoid.geodToECEFSoA
  dsimp only
  rw [soa_fold (fun p => (Ellipsoid.geodToECEF d p ellipsoid).1) n dst src _ pts hsrc ?_]
  intro i s hi
  obtain ⟨h0, h1, h2⟩ := hsrc i hi
  simp only [h0, h1, h2, soaWrite, Option.bind_eq_bind, Option.some_bind, bind_pure]
  rfl

/-- The ellipsoid `geodToECEFAoS` call as a fold of the checked step over `0, ..., n - 1`. -/
theorem ellipsoid_geodToECEFAoS_fold [Add T] [Mul T] [Div T] [Scalar T] (dst src : Array (Coord T)) (n : Nat)
    (ellipsoid : Ellipsoid T) (d : Coord T) (pts : Nat → Coord T)
    (hsrc : ∀ i, i < n → src[i]? = some (pts i)) :
    Ellipsoid.geodToECEFAoS dst src n ellipsoid
      = ((List.range n).foldlM
          (fun dst i => aosStep (fun p => (Ellipsoid.geodToECEF d p ellipsoid).1) src dst i) dst).map
        fun out => (out, src) := by
  unfold Ellipsoid.geodToECEFAoS
  dsimp only
  rw [aos_fold (fun p => (Ellipsoid.geodToECEF d p ellipsoid).1) n dst src _ pts hsrc ?_]
  intro i s hi
  simp only [hsrc i hi, aosWrite, Option.bind_eq_bind, Option.some_bind, bind_pure]
  rfl

/-- The ellipsoid `ecefToGeodSoA` call as a fold of the checked step over `0, ..., n - 1`. -/
theorem ellipsoid_ecefToGeodSoA_fold [Add T] [Sub T] [Mul T] [Div T] [OfScientific T] [Scalar T] (dst src : CoordSoA T) (n : Nat)
    (ellipsoid : Ellipsoid T) (d : Coord T) (pts : Nat → Coord T)
    (hsrc : ∀ i, i < n → src.x[i]? = some (pts i 0) ∧ src.y[i]? = some (pts i 1)
      ∧ src.z[i]? = some (pts i 2)) :
    Ellipsoid.ecefToGeodSoA dst src n ellipsoid
      = ((List.range n).foldlM
          (fun dst i => soaStep (fun p => (Ellipsoid.ecefToGeod d p ellipsoid).1) src dst i) dst).map
        fun out => (out, src) := by
  unfold Ellipsoid.ecefToGeodSoA
  dsimp only
  rw [soa_fold (fun p => (Ellipsoid.ecefToGeod d p ellipsoid).1) n dst src _ pts hsrc ?_]
  intro i s hi
  obtain ⟨h0, h1, h2⟩ := hsrc i hi
  simp only [h0, h1, h2, soaWrite, Option.bind_eq_bind, Option.some_bind, bind_pure]
  rfl

/-- The ellipsoid `ecefToGeodAoS` call as a fold of the checked step over `0, ..., n - 1`. -/
theorem ellipsoid_ecefToGeodAoS_fold [Add T] [Sub T] [Mul T] [Div T] [OfScientific T] [Scalar T] (dst src : Array (Coord T)) (n : Nat)
    (ellipsoid : Ellipsoid T) (d : Coord T) (pts : Nat → Coord T)
    (hsrc : ∀ i, i < n → src[i]? = some (pts i)) :
    Ellipsoid.ecefToGeodAoS dst src n ellipsoid
      = ((List.range n).foldlM
          (fun dst i => aosStep (fun p => (Ellipsoid.ecefToGeod d p ellipsoid).1) src dst i) dst).map
        fun out => (out, src) := by
  unfold Ellipsoid.ecefToGeodAoS
  dsimp only
  rw [aos_fold (fun p => (Ellipsoid.ecefToGeod d p ellipsoid).1) n dst src _ pts hsrc ?_]
  intro i s hi
  simp only [hsrc i hi, aosWrite, Option.bind_eq_bind, Option.some_bind, bind_pure]
  rfl

end LoopAsFold

section IndexSafetyClaim

variable {T : Type} [Add T] [Sub T] [Mul T] [Div T] [OfScientific T] [Scalar T]

/-- C33.  Batch index safety: for each of the eight batch drivers, called with
`numCoords = n` not exceeding the length of any source or destination sequence (all three
arrays in the SoA layout), the call returns a result, so no read or write of the loop took
the out-of-range branch; the call is the fold, over the indices `0, 1, ..., n - 1`, of the
step that reads source element `i`, applies the scalar kernel and writes destination element
`i`, every access checked; each of these indices is inside every sequence; and the list of
indices has exactly `n` members, one per iteration.  Each driver is paired with its scalar
kernel in the two lists. -/
theorem batch_index_safety (sphere : Sphere T) (ellipsoid : Ellipsoid T) (n : Nat)
    (dstSoA srcSoA : CoordSoA T) (dstAoS srcAoS : Array (Coord T)) (d : Coord T)
    (hsx : n ≤ srcSoA.x.size) (hsy : n ≤ srcSoA.y.size) (hsz : n ≤ srcSoA.z.size)
    (hdx : n ≤ dstSoA.x.size) (hdy : n ≤ dstSoA.y.size) (hdz : n ≤ dstSoA.z.size)
    (hs : n ≤ srcAoS.size) (hd : n ≤ dstAoS.size) :
    (∀ (res : Option (CoordSoA T × CoordSoA T)) (kernel : Coord T → Coord T),
        (res, kernel) ∈
          [(Sphere.geodToECEFSoA dstSoA srcSoA n sphere,
              fun p => (Sphere.geodToECEF d p sphere).1),
           (Sphere.ecefToGeodSoA dstSoA srcSoA n sphere,
              fun p => (Sphere.ecefToGeod d p sphere).1),
           (Ellipsoid.geodToECEFSoA dstSoA srcSoA n ellipsoid,
              fun p => (Ellipsoid.geodToECEF d p ellipsoid).1),
           (Ellipsoid.ecefToGeodSoA dstSoA srcSoA n ellipsoid,
              fun p => (Ellipsoid.ecefToGeod d p ellipsoid).1)] →
        (∃ out, res = some (out, srcSoA))
          ∧ res = ((List.range n).foldlM (fun dst i => soaStep kernel srcSoA dst i)
              dstSoA).map (fun out => (out, srcSoA))
          ∧ (∀ i ∈ List.range n, (i < srcSoA.x.size ∧ i < srcSoA.y.size ∧ i < srcSoA.z.size)
              ∧ (i < dstSoA.x.size ∧ i < dstSoA.y.size ∧ i < dstSoA.z.size)))
    ∧ (∀ (res : Option (Array (Coord T) × Array (Coord T))) (kernel : Coord T → Coord T),
        (res, kernel) ∈
          [(Sphere.geodToECEFAoS dstAoS srcAoS n sphere,
              fun p => (Sphere.geodToECEF d p sphere).1),
           (Sphere.ecefToGeodAoS dstAoS srcAoS n sphere,
              fun p => (Sphere.ecefToGeod d p sphere).1),
           (Ellipsoid.geodToECEFAoS dstAoS srcAoS n ellipsoid,
              fun p => (Ellipsoid.geodToECEF d p ellipsoid).1),
           (Ellipsoid.ecefToGeodAoS dstAoS srcAoS n ellipsoid,
              fun p => (Ellipsoid.ecefToGeod d p ellipsoid).1)] →
        (∃ out, res = some (out, srcAoS))
          ∧ res = ((List.range n).foldlM (fun dst i => aosStep kernel srcAoS dst i)
              dstAoS).map (fun out => (out, srcAoS))
          ∧ (∀ i ∈ List.range n, i < srcAoS.size ∧ i < dstAoS.size))
    ∧ (List.range n).length = n := by
  refine ⟨?_, ?_, List.length_range n⟩
  · intro res kernel hmem
    obtain ⟨pts, hpts⟩ := soa_points srcSoA n sphere.radius hsx hsy hsz
    have hidx : ∀ i ∈ List.range n, (i < srcSoA.x.size ∧ i < srcSoA.y.size
        ∧ i < srcSoA.z.size) ∧ (i < dstSoA.x.size ∧ i < dstSoA.y.size
        ∧ i < dstSoA.z.size) := by
      intro i hi
      have := List.mem_range.1 hi
      omega
    simp only [List.mem_cons, List.mem_singleton, Prod.mk.injEq, List.mem_nil_iff,
      or_false] at hmem
    rcases hmem with ⟨rfl, rfl⟩ | ⟨rfl, rfl⟩ | ⟨rfl, rfl⟩ | ⟨rfl, rfl⟩
    · obtain ⟨out, hS, -⟩ := sphere_geodToECEFSoA_spec dstSoA srcSoA n sphere pts hpts hdx hdy hdz
      exact ⟨⟨out, hS⟩, sphere_geodToECEFSoA_fold dstSoA srcSoA n sphere d pts hpts, hidx⟩
    · obtain ⟨out, hS, -⟩ := sphere_ecefToGeodSoA_spec dstSoA srcSoA n sphere pts hpts hdx hdy hdz
      exact ⟨⟨out, hS⟩, sphere_ecefToGeodSoA_fold dstSoA srcSoA n sphere d pts hpts, hidx⟩
    · obtain ⟨out, hS, -⟩ := ellipsoid_geodToECEFSoA_spec dstSoA srcSoA n ellipsoid pts hpts hdx hdy hdz
      exact ⟨⟨out, hS⟩, ellipsoid_geodToECEFSoA_fold dstSoA srcSoA n ellipsoid d pts hpts, hidx⟩
    · obtain ⟨out, hS, -⟩ := ellipsoid_ecefToGeodSoA_spec dstSoA srcSoA n ellipsoid pts hpts hdx hdy hdz
      exact ⟨⟨out, hS⟩, ellipsoid_ecefToGeodSoA_fold dstSoA srcSoA n ellipsoid d pts hpts, hidx⟩
  · intro res kernel hmem
    obtain ⟨pts, hpts⟩ := aos_points srcAoS n sphere.radius hs
    have hidx : ∀ i ∈ List.range n, i < srcAoS.size ∧ i < dstAoS.size := by
      intro i hi
      have := List.mem_range.1 hi
      omega
    simp only [List.mem_cons, List.mem_singleton, Prod.mk.injEq, List.mem_nil_iff,
      or_false] at hmem
    rcases hmem with ⟨rfl, rfl⟩ | ⟨rfl, rfl⟩ | ⟨rfl, rfl⟩ | ⟨rfl, rfl⟩
    · obtain ⟨out, hA, -⟩ := sphere_geodToECEFAoS_spec dstAoS srcAoS n sphere pts hpts hd
      exact ⟨⟨out, hA⟩, sphere_geodToECEFAoS_fold dstAoS srcAoS n sphere d pts hpts, hidx⟩
    · obtain ⟨out, hA, -⟩ := sphere_ecefToGeodAoS_spec dstAoS srcAoS n sphere pts hpts hd
      exact ⟨⟨out, hA⟩, sphere_ecefToGeodAoS_fold dstAoS srcAoS n sphere d pts hpts, hidx⟩
    · obtain ⟨out, hA, -⟩ := ellipsoid_geodToECEFAoS_spec dstAoS srcAoS n ellipsoid pts hpts hd
      exact ⟨⟨out, hA⟩, ellipsoid_geodToECEFAoS_fold dstAoS srcAoS n ellipsoid d pts hpts, hidx⟩
    · obtain ⟨out, hA, -⟩ := ellipsoid_ecefToGeodAoS_spec dstAoS srcAoS n ellipsoid pts hpts hd
      exact ⟨⟨out, hA⟩, ellipsoid_ecefToGeodAoS_fold dstAoS srcAoS n ellipsoid d pts hpts, hidx⟩

end IndexSafetyClaim

/-- C33, witness over the reals: two source triples, destinations of two entries,
`numCoords = 2`, sphere of radius `6378137`, ellipsoid with axes `2` and `1`. -/
theorem batch_index_safety_witness :
    (∀ (res : Option (CoordSoA ℝ × CoordSoA ℝ)) (kernel : Coord ℝ → Coord ℝ),
        (res, kernel) ∈
          [(Sphere.geodToECEFSoA (⟨#[0, 7], #[0, 8], #[0, 9]⟩ : CoordSoA ℝ) (⟨#[1, 4], #[2, 5], #[3, 6]⟩ : CoordSoA ℝ) 2 (⟨6378137⟩ : Sphere ℝ),
              fun p => (Sphere.geodToECEF ![0, 0, 0] p (⟨6378137⟩ : Sphere ℝ)).1),
           (Sphere.ecefToGeodSoA (⟨#[0, 7], #[0, 8], #[0, 9]⟩ : CoordSoA ℝ) (⟨#[1, 4], #[2, 5], #[3, 6]⟩ : CoordSoA ℝ) 2 (⟨6378137⟩ : Sphere ℝ),
              fun p => (Sphere.ecefToGeod ![0, 0, 0] p (⟨6378137⟩ : Sphere ℝ)).1),
           (Ellipsoid.geodToECEFSoA (⟨#[0, 7], #[0, 8], #[0, 9]⟩ : CoordSoA ℝ) (⟨#[1, 4], #[2, 5], #[3, 6]⟩ : CoordSoA ℝ) 2 (⟨2, 1⟩ : Ellipsoid ℝ),
              fun p => (Ellipsoid.geodToECEF ![0, 0, 0] p (⟨2, 1⟩ : Ellipsoid ℝ)).1),
           (Ellipsoid.ecefToGeodSoA (⟨#[0, 7], #[0, 8], #[0, 9]⟩ : CoordSoA ℝ) (⟨#[1, 4], #[2, 5], #[3, 6]⟩ : CoordSoA ℝ) 2 (⟨2, 1⟩ : Ellipsoid ℝ),
              fun p => (Ellipsoid.ecefToGeod ![0, 0, 0] p (⟨2, 1⟩ : Ellipsoid ℝ)).1)] →
        (∃ out, res = some (out, (⟨#[1, 4], #[2, 5], #[3, 6]⟩ : CoordSoA ℝ)))
          ∧ res = ((List.range 2).foldlM (fun dst i => soaStep kernel (⟨#[1, 4], #[2, 5], #[3, 6]⟩ : CoordSoA ℝ) dst i)
              (⟨#[0, 7], #[0, 8], #[0, 9]⟩ : CoordSoA ℝ)).map (fun out => (out, (⟨#[1, 4], #[2, 5], #[3, 6]⟩ : CoordSoA ℝ)))
          ∧ (∀ i ∈ List.range 2, (i < (⟨#[1, 4], #[2, 5], #[3, 6]⟩ : CoordSoA ℝ).x.size ∧ i < (⟨#[1, 4], #[2, 5], #[3, 6]⟩ : CoordSoA ℝ).y.size ∧ i < (⟨#[1, 4], #[2, 5], #[3, 6]⟩ : CoordSoA ℝ).z.size)
              ∧ (i < (⟨#[0, 7], #[0, 8], #[0, 9]⟩ : CoordSoA ℝ).x.size ∧ i < (⟨#[0, 7], #[0, 8], #[0, 9]⟩ : CoordSoA ℝ).y.size ∧ i < (⟨#[0, 7], #[0, 8], #[0, 9]⟩ : CoordSoA ℝ).z.size)))
    ∧ (∀ (res : Option (Array (Coord ℝ) × Array (Coord ℝ))) (kernel : Coord ℝ → Coord ℝ),
        (res, kernel) ∈
          [(Sphere.geodToECEFAoS (#[![0, 0, 0], ![7, 8, 9]] : Array (Coord ℝ)) (#[![1, 2, 3], ![4, 5, 6]] : Array (Coord ℝ)) 2 (⟨6378137⟩ : Sphere ℝ),
              fun p => (Sphere.geodToECEF ![0, 0, 0] p (⟨6378137⟩ : Sphere ℝ)).1),
           (Sphere.ecefToGeodAoS (#[![0, 0, 0], ![7, 8, 9]] : Array (Coord ℝ)) (#[![1, 2, 3], ![4, 5, 6]] : Array (Coord ℝ)) 2 (⟨6378137⟩ : Sphere ℝ),
              fun p => (Sphere.ecefToGeod ![0, 0, 0] p (⟨6378137⟩ : Sphere ℝ)).1),
           (Ellipsoid.geodToECEFAoS (#[![0, 0, 0], ![7, 8, 9]] : Array (Coord ℝ)) (#[![1, 2, 3], ![4, 5, 6]] : Array (Coord ℝ)) 2 (⟨2, 1⟩ : Ellipsoid ℝ),
              fun p => (Ellipsoid.geodToECEF ![0, 0, 0] p (⟨2, 1⟩ : Ellipsoid ℝ)).1),
           (Ellipsoid.ecefToGeodAoS (#[![0, 0, 0], ![7, 8, 9]] : Array (Coord ℝ)) (#[![1, 2, 3], ![4, 5, 6]] : Array (Coord ℝ)) 2 (⟨2, 1⟩ : Ellipsoid ℝ),
              fun p => (Ellipsoid.ecefToGeod ![0, 0, 0] p (⟨2, 1⟩ : Ellipsoid ℝ)).1)] →
        (∃ out, res = some (out, (#[![1, 2, 3], ![4, 5, 6]] : Array (Coord ℝ))))
          ∧ res = ((List.range 2).foldlM (fun dst i => aosStep kernel (#[![1, 2, 3], ![4, 5, 6]] : Array (Coord ℝ)) dst i)
              (#[![0, 0, 0], ![7, 8, 9]] : Array (Coord ℝ))).map (fun out => (out, (#[![1, 2, 3], ![4, 5, 6]] : Array (Coord ℝ))))
          ∧ (∀ i ∈ List.range 2, i < (#[![1, 2, 3], ![4, 5, 6]] : Array (Coord ℝ)).size ∧ i < (#[![0, 0, 0], ![7, 8, 9]] : Array (Coord ℝ)).size))
    ∧ (List.range 2).length = 2 :=
  batch_index_safety ⟨6378137⟩ ⟨2, 1⟩ 2 ⟨#[0, 7], #[0, 8], #[0, 9]⟩ ⟨#[1, 4], #[2, 5], #[3, 6]⟩
    #[![0, 0, 0], ![7, 8, 9]] #[![1, 2, 3], ![4, 5, 6]] ![0, 0, 0]
    (by simp) (by simp) (by simp) (by simp) (by simp) (by simp) (by simp) (by simp)

/-! ## The type of the intermediate values of the ellipsoid inverse (C34) -/

/-- C34.  The C++ types computed by the kernels when every input is `float`.  The ellipsoid
inverse (in place, out of place, and in the SoA and AoS batch loops) computes the altitude,
and with it `N = a / sqrt(1.0 - e2 * sin_lat * sin_lat)`, in `double`: the literal `1.0` has
type `double` and the usual arithmetic conversions carry that type through the subtraction,
the square root, the division and `p / cos_lat - N`.  Longitude and latitude stay in `float`,
as does every value written by the ellipsoid forward kernel and by both sphere kernels, which
contain no literal.  With every input `double` the ellipsoid inverse is in `double`
throughout. -/
theorem ellipsoid_inverse_width :
    Ellipsoid.ecefToGeodInPlace (fun _ => Width.single) ⟨Width.single, Width.single⟩
        = ![Width.single, Width.single, Width.double]
      ∧ (Ellipsoid.ecefToGeod (fun _ => Width.single) (fun _ => Width.single)
          ⟨Width.single, Width.single⟩).1 = ![Width.single, Width.single, Width.double]
      ∧ (∃ out, Ellipsoid.ecefToGeodSoA
            ⟨#[Width.single], #[Width.single], #[Width.single]⟩
            ⟨#[Width.single], #[Width.single], #[Width.single]⟩ 1
            ⟨Width.single, Width.single⟩
          = some (out, ⟨#[Width.single], #[Width.single], #[Width.single]⟩)
        ∧ out.x[0]? = some Width.single ∧ out.y[0]? = some Width.single
        ∧ out.z[0]? = some Width.double)
      ∧ (∃ out, Ellipsoid.ecefToGeodAoS #[fun _ => Width.single] #[fun _ => Width.single] 1
            ⟨Width.single, Width.single⟩
          = some (out, #[fun _ => Width.single])
        ∧ out[0]? = some ![Width.single, Width.single, Width.double])
      ∧ Ellipsoid.geodToECEFInPlace (fun _ => Width.single) ⟨Width.single, Width.single⟩
        = ![Width.single, Width.single, Width.single]
      ∧ Sphere.ecefToGeodInPlace (fun _ => Width.single) ⟨Width.single⟩
        = ![Width.single, Width.single, Width.single]
      ∧ Sphere.geodToECEFInPlace (fun _ => Width.single) ⟨Width.single⟩
        = ![Width.single, Width.single, Width.single]
      ∧ Ellipsoid.ecefToGeodInPlace (fun _ => Width.double) ⟨Width.double, Width.double⟩
        = ![Width.double, Width.double, Width.double] := by
  have hk : (Ellipsoid.ecefToGeod (fun _ => Width.single) (fun _ => Width.single)
      ⟨Width.single, Width.single⟩).1 = ![Width.single, Width.single, Width.double] := by
    funext k; fin_cases k <;> rfl
  refine ⟨?_, hk, ?_, ?_, ?_, ?_, ?_, ?_⟩
  · funext k; fin_cases k <;> rfl
  · obtain ⟨out, hS, -, -, -, gx, gy, gz⟩ := ellipsoid_ecefToGeodSoA_spec
      ⟨#[Width.single], #[Width.single], #[Width.single]⟩
      ⟨#[Width.single], #[Width.single], #[Width.single]⟩ 1 ⟨Width.single, Width.single⟩
      (fun _ _ => Width.single)
      (fun i hi => by
        have h0 : i = 0 := by omega
        subst h0
        exact ⟨rfl, rfl, rfl⟩)
      (by simp) (by simp) (by simp)
    refine ⟨out, hS, ?_, ?_, ?_⟩
    · rw [gx 0, if_pos Nat.zero_lt_one, hk]; rfl
    · rw [gy 0, if_pos Nat.zero_lt_one, hk]; rfl
    · rw [gz 0, if_pos Nat.zero_lt_one, hk]; rfl
  · obtain ⟨out, hA, -, g⟩ := ellipsoid_ecefToGeodAoS_spec
      #[fun _ => Width.single] #[fun _ => Width.single] 1 ⟨Width.single, Width.single⟩
      (fun _ _ => Width.single)
      (fun i hi => by
        have h0 : i = 0 := by omega
        subst h0
        rfl)
      (by simp)
    refine ⟨out, hA, ?_⟩
    rw [g 0, if_pos Nat.zero_lt_one, hk]
  · funext k; fin_cases k <;> rfl
  · funext k; fin_cases k <;> rfl
  · funext k; fin_cases k <;> rfl
  · funext k; fin_cases k <;> rfl

end terra
